import Mathlib

/-! sendbird: a shallow embedding of the transport core

The Go package `sendbird` is a thin HTTP client.  This development embeds the
parts of it that carry behaviour: response classification (`CheckResponse`),
request execution (`SendbirdClient.Do`), request construction
(`SendbirdClient.NewRequest`), the two authentication decorators of `auth.go`
and the resource operations that chain them.

Conventions of the embedding.

* Go byte strings and Go strings are Lean `String`s.
* A Go pointer that may be nil is an `Option`; a Go `error` is `Option Error`.
* Mutation through a pointer is explicit state passing: a function that writes
  through `p` returns the new value of `*p`.
* A run-time panic is a constructor of the result type, never a missing case.
* A Go `int` or `int64` is a Lean `Int` in the range of int64 (`isInt64`).  A Go
  map with string keys is nil or the list of its entries in increasing order of
  the keys, each key once (`GoMap`, `keysIncrease`): the order in which the
  encoder writes them.  A statement about a value that holds integers or maps
  names these two conditions; they single out the Lean values that stand for
  Go values.
* `encoding/json`, `net/url`, `io` and `net/http` belong to the Go standard
  library, not to the repository.  Their behaviour on the values the package
  hands them is modelled by the executable definitions of the first sections.
-/

set_option linter.dupNamespace false

namespace Sendbird

/-! ## JSON documents (the value grammar read by `encoding/json`) -/

/-- A JSON document.  A number keeps its literal text, as the Go decoder does
until it stores the number into a typed destination. -/
inductive Json where
  | null
  | bool (b : Bool)
  | num (lit : String)
  | str (s : String)
  | arr (xs : List Json)
  | obj (kvs : List (String × Json))
deriving Repr, Inhabited

/-- The four bytes the JSON scanner treats as insignificant space. -/
def isSpace (c : Char) : Bool :=
  c == ' ' || c == '\t' || c == '\r' || c == '\n'

/-- Drop leading insignificant space. -/
def skipSpace : List Char → List Char
  | [] => []
  | c :: cs => if isSpace c then skipSpace cs else c :: cs

/-- Value of a hexadecimal digit. -/
def hexVal (c : Char) : Option Nat :=
  if '0' ≤ c ∧ c ≤ '9' then some (c.toNat - '0'.toNat)
  else if 'a' ≤ c ∧ c ≤ 'f' then some (c.toNat - 'a'.toNat + 10)
  else if 'A' ≤ c ∧ c ≤ 'F' then some (c.toNat - 'A'.toNat + 10)
  else none

/-- The 16-bit code unit written by the four hexadecimal digits of a `\u` escape. -/
def hex4 (a b c d : Char) : Option Nat :=
  match hexVal a, hexVal b, hexVal c, hexVal d with
  | some x, some y, some z, some w => some (((x * 16 + y) * 16 + z) * 16 + w)
  | _, _, _, _ => none

/-- The replacement character U+FFFD the decoder substitutes for an unpaired surrogate. -/
def replacementChar : Char := Char.ofNat 0xFFFD

/-- Is the code unit a UTF-16 surrogate? -/
def isSurrogate (u : Nat) : Bool := 0xD800 ≤ u && u < 0xE000

/-- Pair a high and a low surrogate (`utf16.DecodeRune`); `none` when they do not pair. -/
def decodeSurrogates (hi lo : Nat) : Option Char :=
  if 0xD800 ≤ hi ∧ hi < 0xDC00 ∧ 0xDC00 ≤ lo ∧ lo < 0xE000 then
    some (Char.ofNat ((hi - 0xD800) * 0x400 + (lo - 0xDC00) + 0x10000))
  else none

/-- The code unit of a `\uXXXX` escape at the head of the input, if one is there. -/
def peekU4 : List Char → Option Nat
  | '\\' :: 'u' :: a :: b :: c :: d :: _ => hex4 a b c d
  | _ => none

/-- Read the rest of a string literal, after its opening quote: the decoded
text (accumulated in reverse) and the input after the closing quote.  The fuel
bounds the number of characters and escapes read. -/
def parseStringBody : Nat → List Char → List Char → Option (String × List Char)
  | 0, _, _ => none
  | _ + 1, [], _ => none
  | fuel + 1, c :: rest, acc =>
    if c == '"' then some (String.mk acc.reverse, rest)
    else if c == '\\' then
      match rest with
      | '"' :: r => parseStringBody fuel r ('"' :: acc)
      | '\\' :: r => parseStringBody fuel r ('\\' :: acc)
      | '/' :: r => parseStringBody fuel r ('/' :: acc)
      | 'b' :: r => parseStringBody fuel r (Char.ofNat 8 :: acc)
      | 'f' :: r => parseStringBody fuel r (Char.ofNat 12 :: acc)
      | 'n' :: r => parseStringBody fuel r ('\n' :: acc)
      | 'r' :: r => parseStringBody fuel r ('\r' :: acc)
      | 't' :: r => parseStringBody fuel r ('\t' :: acc)
      | 'u' :: a :: b :: x :: d :: r =>
        match hex4 a b x d with
        | none => none
        | some u =>
          if isSurrogate u then
            match (peekU4 r).bind (decodeSurrogates u) with
            | some ch => parseStringBody fuel (r.drop 6) (ch :: acc)
            | none => parseStringBody fuel r (replacementChar :: acc)
          else parseStringBody fuel r (Char.ofNat u :: acc)
      | _ => none
    else if c.toNat < 0x20 then none
    else parseStringBody fuel rest (c :: acc)

/-- Split a maximal run of decimal digits off the input. -/
def spanDigits : List Char → List Char × List Char
  | [] => ([], [])
  | c :: cs =>
    if c.isDigit then ((spanDigits cs).1.cons c, (spanDigits cs).2) else ([], c :: cs)

/-- Read a number literal: `-? (0 | [1-9][0-9]*) (. [0-9]+)? ([eE] [+-]? [0-9]+)?`. -/
def parseNumber (cs : List Char) : Option (String × List Char) :=
  let (sign, cs1) := match cs with
    | '-' :: r => (['-'], r)
    | _ => ([], cs)
  let intPart : Option (List Char × List Char) := match cs1 with
    | '0' :: r => some (['0'], r)
    | c :: _ => if c.isDigit then some (spanDigits cs1) else none
    | [] => none
  match intPart with
  | none => none
  | some (ds, cs2) =>
    let frac : Option (List Char × List Char) := match cs2 with
      | '.' :: r =>
        match spanDigits r with
        | ([], _) => none
        | (fs, r2) => some ('.' :: fs, r2)
      | _ => some ([], cs2)
    match frac with
    | none => none
    | some (fs, cs3) =>
      let expo : Option (List Char × List Char) := match cs3 with
        | e :: r =>
          if e == 'e' || e == 'E' then
            let (sg, r1) := match r with
              | '+' :: t => (['+'], t)
              | '-' :: t => (['-'], t)
              | _ => ([], r)
            match spanDigits r1 with
            | ([], _) => none
            | (es, r2) => some (e :: (sg ++ es), r2)
          else some ([], cs3)
        | [] => some ([], cs3)
      match expo with
      | none => none
      | some (es, cs4) => some (String.mk (sign ++ ds ++ fs ++ es), cs4)

mutual
/-- Read one JSON value from the head of the input (after optional space);
returns the value and the unread rest. -/
def parseValue : Nat → List Char → Option (Json × List Char)
  | 0, _ => none
  | fuel + 1, cs =>
    match skipSpace cs with
    | 'n' :: 'u' :: 'l' :: 'l' :: rest => some (Json.null, rest)
    | 't' :: 'r' :: 'u' :: 'e' :: rest => some (Json.bool true, rest)
    | 'f' :: 'a' :: 'l' :: 's' :: 'e' :: rest => some (Json.bool false, rest)
    | '"' :: rest =>
      match parseStringBody (rest.length + 1) rest [] with
      | some (s, r) => some (Json.str s, r)
      | none => none
    | '[' :: rest =>
      match skipSpace rest with
      | ']' :: r => some (Json.arr [], r)
      | _ =>
        match parseElems fuel rest with
        | some (xs, r) => some (Json.arr xs, r)
        | none => none
    | '{' :: rest =>
      match skipSpace rest with
      | '}' :: r => some (Json.obj [], r)
      | _ =>
        match parseMembers fuel rest with
        | some (kvs, r) => some (Json.obj kvs, r)
        | none => none
    | c :: rest =>
      if c == '-' || c.isDigit then
        match parseNumber (c :: rest) with
        | some (lit, r) => some (Json.num lit, r)
        | none => none
      else none
    | [] => none
/-- Read the elements of a non-empty array, up to and including `]`. -/
def parseElems : Nat → List Char → Option (List Json × List Char)
  | 0, _ => none
  | fuel + 1, cs =>
    match parseValue fuel cs with
    | none => none
    | some (v, rest) =>
      match skipSpace rest with
      | ',' :: r =>
        match parseElems fuel r with
        | some (xs, r2) => some (v :: xs, r2)
        | none => none
      | ']' :: r => some ([v], r)
      | _ => none
/-- Read the members of a non-empty object, up to and including `}`. -/
def parseMembers : Nat → List Char → Option (List (String × Json) × List Char)
  | 0, _ => none
  | fuel + 1, cs =>
    match skipSpace cs with
    | '"' :: rest =>
      match parseStringBody (rest.length + 1) rest [] with
      | none => none
      | some (k, r1) =>
        match skipSpace r1 with
        | ':' :: r2 =>
          match parseValue fuel r2 with
          | none => none
          | some (v, r3) =>
            match skipSpace r3 with
            | ',' :: r4 =>
              match parseMembers fuel r4 with
              | some (kvs, r5) => some ((k, v) :: kvs, r5)
              | none => none
            | '}' :: r4 => some ([(k, v)], r4)
            | _ => none
        | _ => none
    | _ => none
end

/-- Fuel that suffices for any input: every recursive call of the value
parser is preceded by at most one call that read no character. -/
def parseFuel (cs : List Char) : Nat := 2 * cs.length + 2

/-- The document a byte string denotes for `json.Unmarshal`: exactly one value,
surrounded by optional space.  `none` is a syntax error. -/
def parseJSON (data : String) : Option Json :=
  match parseValue (parseFuel data.data) data.data with
  | some (v, rest) => if (skipSpace rest).isEmpty then some v else none
  | none => none

/-- The first document of a byte stream for `json.Decoder.Decode`: the value
ends where the scanner sees its end, whatever byte follows it (the complaint
about a byte after the value is left to the next call, which starts afresh). -/
def decodeFirst (data : String) : Option Json :=
  match parseValue (parseFuel data.data) data.data with
  | some (v, _) => some v
  | none => none

/-- What the scanner of `encoding/json` is in the middle of. -/
inductive ScanState where
  | beginValue
  | beginValueOrEmpty
  | beginString
  | beginStringOrEmpty
  | endValue
  | inString
  | inStringEsc
  /-- Inside a `\u` escape, with `left` hexadecimal digits to come. -/
  | inStringEscU (left : Nat)
  | neg
  | digits
  | zero
  | dot
  | dot0
  | exp
  | expSign
  | exp0
  /-- Inside `true`, `false` or `null`, with the letters `rest` to come. -/
  | literal (rest : List Char)
deriving DecidableEq, Repr

/-- The composite values the scanner is inside of, innermost first. -/
inductive ParseState where
  | objectKey
  | objectValue
  | arrayValue
deriving DecidableEq, Repr

/-- What one byte does to the scanner: it goes on, it has seen the end of the
top-level value, or it rejects the byte. -/
inductive ScanStep where
  | goOn (s : ScanState) (stack : List ParseState)
  | done
  | error
deriving DecidableEq, Repr

/-- The scanner after a value (`stateEndValue`). -/
def stateEndValue (stack : List ParseState) (c : Char) : ScanStep :=
  match stack with
  | [] => .done
  | ps :: below =>
    if isSpace c then .goOn .endValue stack
    else
      match ps with
      | .objectKey => if c == ':' then .goOn .beginValue (.objectValue :: below) else .error
      | .objectValue =>
        if c == ',' then .goOn .beginString (.objectKey :: below)
        else if c == '}' then (if below.isEmpty then .done else .goOn .endValue below)
        else .error
      | .arrayValue =>
        if c == ',' then .goOn .beginValue stack
        else if c == ']' then (if below.isEmpty then .done else .goOn .endValue below)
        else .error

/-- The scanner at the beginning of a value (`stateBeginValue`). -/
def stateBeginValue (stack : List ParseState) (c : Char) : ScanStep :=
  if isSpace c then .goOn .beginValue stack
  else if c == '\x7b' then .goOn .beginStringOrEmpty (.objectKey :: stack)
  else if c == '[' then .goOn .beginValueOrEmpty (.arrayValue :: stack)
  else if c == '"' then .goOn .inString stack
  else if c == '-' then .goOn .neg stack
  else if c == '0' then .goOn .zero stack
  else if c == 't' then .goOn (.literal ['r', 'u', 'e']) stack
  else if c == 'f' then .goOn (.literal ['a', 'l', 's', 'e']) stack
  else if c == 'n' then .goOn (.literal ['u', 'l', 'l']) stack
  else if c.isDigit then .goOn .digits stack
  else .error

/-- One step of the scanner (`scanner.step`). -/
def scanStep (s : ScanState) (stack : List ParseState) (c : Char) : ScanStep :=
  match s with
  | .beginValue => stateBeginValue stack c
  | .beginValueOrEmpty =>
    if isSpace c then .goOn .beginValueOrEmpty stack
    else if c == ']' then stateEndValue stack c
    else stateBeginValue stack c
  | .beginString =>
    if isSpace c then .goOn .beginString stack
    else if c == '"' then .goOn .inString stack
    else .error
  | .beginStringOrEmpty =>
    if isSpace c then .goOn .beginStringOrEmpty stack
    else if c == '\x7d' then stateEndValue (.objectValue :: stack.tail) c
    else if c == '"' then .goOn .inString stack
    else .error
  | .endValue => stateEndValue stack c
  | .inString =>
    if c == '"' then .goOn .endValue stack
    else if c == '\\' then .goOn .inStringEsc stack
    else if c.toNat < 0x20 then .error
    else .goOn .inString stack
  | .inStringEsc =>
    if c ∈ ['b', 'f', 'n', 'r', 't', '\\', '/', '"'] then .goOn .inString stack
    else if c == 'u' then .goOn (.inStringEscU 4) stack
    else .error
  | .inStringEscU left =>
    if (hexVal c).isSome then
      (if left ≤ 1 then .goOn .inString stack else .goOn (.inStringEscU (left - 1)) stack)
    else .error
  | .neg =>
    if c == '0' then .goOn .zero stack
    else if c.isDigit then .goOn .digits stack
    else .error
  | .digits =>
    if c.isDigit then .goOn .digits stack
    else if c == '.' then .goOn .dot stack
    else if c == 'e' || c == 'E' then .goOn .exp stack
    else stateEndValue stack c
  | .zero =>
    if c == '.' then .goOn .dot stack
    else if c == 'e' || c == 'E' then .goOn .exp stack
    else stateEndValue stack c
  | .dot => if c.isDigit then .goOn .dot0 stack else .error
  | .dot0 =>
    if c.isDigit then .goOn .dot0 stack
    else if c == 'e' || c == 'E' then .goOn .exp stack
    else stateEndValue stack c
  | .exp =>
    if c == '+' || c == '-' then .goOn .expSign stack
    else if c.isDigit then .goOn .exp0 stack
    else .error
  | .expSign => if c.isDigit then .goOn .exp0 stack else .error
  | .exp0 => if c.isDigit then .goOn .exp0 stack else stateEndValue stack c
  | .literal rest =>
    match rest with
    | [] => .error
    | [x] => if c == x then .goOn .endValue stack else .error
    | x :: more => if c == x then .goOn (.literal more) stack else .error

/-- Does the scanner reject a byte of the input before it sees the end of the
first value or the end of the input? -/
def scanRejects : ScanState → List ParseState → List Char → Bool
  | _, _, [] => false
  | s, stack, c :: cs =>
    match scanStep s stack c with
    | .goOn s1 stack1 => scanRejects s1 stack1 cs
    | .done => false
    | .error => true

mutual
/-- Decidable equality of documents. -/
def Json.decEq : (a b : Json) → Decidable (a = b)
  | .null, .null => isTrue rfl
  | .bool x, .bool y =>
    if h : x = y then isTrue (by rw [h]) else isFalse (by intro e; cases e; exact h rfl)
  | .num x, .num y =>
    if h : x = y then isTrue (by rw [h]) else isFalse (by intro e; cases e; exact h rfl)
  | .str x, .str y =>
    if h : x = y then isTrue (by rw [h]) else isFalse (by intro e; cases e; exact h rfl)
  | .arr xs, .arr ys =>
    match Json.decEqList xs ys with
    | isTrue h => isTrue (by rw [h])
    | isFalse h => isFalse (by intro e; cases e; exact h rfl)
  | .obj xs, .obj ys =>
    match Json.decEqMembers xs ys with
    | isTrue h => isTrue (by rw [h])
    | isFalse h => isFalse (by intro e; cases e; exact h rfl)
  | .null, .bool _ | .null, .num _ | .null, .str _ | .null, .arr _ | .null, .obj _
  | .bool _, .null | .bool _, .num _ | .bool _, .str _ | .bool _, .arr _ | .bool _, .obj _
  | .num _, .null | .num _, .bool _ | .num _, .str _ | .num _, .arr _ | .num _, .obj _
  | .str _, .null | .str _, .bool _ | .str _, .num _ | .str _, .arr _ | .str _, .obj _
  | .arr _, .null | .arr _, .bool _ | .arr _, .num _ | .arr _, .str _ | .arr _, .obj _
  | .obj _, .null | .obj _, .bool _ | .obj _, .num _ | .obj _, .str _ | .obj _, .arr _ =>
    isFalse (by intro e; cases e)
/-- Decidable equality of element lists. -/
def Json.decEqList : (a b : List Json) → Decidable (a = b)
  | [], [] => isTrue rfl
  | [], _ :: _ => isFalse (by intro e; cases e)
  | _ :: _, [] => isFalse (by intro e; cases e)
  | x :: xs, y :: ys =>
    match Json.decEq x y, Json.decEqList xs ys with
    | isTrue h1, isTrue h2 => isTrue (by rw [h1, h2])
    | isFalse h1, _ => isFalse (by intro e; cases e; exact h1 rfl)
    | _, isFalse h2 => isFalse (by intro e; cases e; exact h2 rfl)
/-- Decidable equality of member lists. -/
def Json.decEqMembers : (a b : List (String × Json)) → Decidable (a = b)
  | [], [] => isTrue rfl
  | [], _ :: _ => isFalse (by intro e; cases e)
  | _ :: _, [] => isFalse (by intro e; cases e)
  | (k, x) :: xs, (l, y) :: ys =>
    if hk : k = l then
      match Json.decEq x y, Json.decEqMembers xs ys with
      | isTrue h1, isTrue h2 => isTrue (by rw [hk, h1, h2])
      | isFalse h1, _ => isFalse (by intro e; cases e; exact h1 rfl)
      | _, isFalse h2 => isFalse (by intro e; cases e; exact h2 rfl)
    else isFalse (by intro e; cases e; exact hk rfl)
end

instance : DecidableEq Json := Json.decEq

/-- The errors `encoding/json` reports while decoding. -/
inductive JsonError where
  /-- A `*json.SyntaxError`: the input is not a JSON document. -/
  | syntaxError
  /-- A `*json.UnmarshalTypeError`: the JSON value `value` cannot be stored in the Go type `goType`. -/
  | unmarshalType (value : String) (goType : String)
  /-- The stream ended before a document began (`io.EOF`). -/
  | eof
deriving DecidableEq, Repr

/-- The word `encoding/json` uses for the kind of a value in a type error. -/
def Json.kind : Json → String
  | .null => "null"
  | .bool _ => "bool"
  | .num _ => "number"
  | .str _ => "string"
  | .arr _ => "array"
  | .obj _ => "object"

/-- The fold of one rune, as far as it decides equality with an ASCII name:
ASCII letters fold to upper case, and the two non-ASCII runes whose simple fold
is an ASCII letter (U+017F long s, U+212A Kelvin sign) fold to it. -/
def foldRune (c : Char) : Char :=
  if 'a' ≤ c ∧ c ≤ 'z' then Char.ofNat (c.toNat - 32)
  else if c = Char.ofNat 0x17F then 'S'
  else if c = Char.ofNat 0x212A then 'K'
  else c

/-- The folded spelling of a key. -/
def foldName (s : String) : List Char := s.data.map foldRune

/-- Does the object key select the struct field called `name`?  The decoder
prefers an exact match and otherwise accepts a case-insensitive one.  `name`
is an ASCII field name. -/
def matchesField (key name : String) : Bool :=
  key == name || foldName key == foldName name

/-- The value of a run of decimal digits. -/
def digitsVal (ds : List Char) : Nat :=
  ds.foldl (fun n c => 10 * n + (c.toNat - '0'.toNat)) 0

/-- Store of a number literal into a Go `int` (64 bit): `strconv.ParseInt`
accepts an optional sign followed by digits only, within the range of int64. -/
def parseIntLit (lit : String) : Option Int :=
  let (neg, ds) := match lit.data with
    | '-' :: r => (true, r)
    | r => (false, r)
  if ds.isEmpty || !ds.all Char.isDigit then none
  else
    let n := digitsVal ds
    if neg then (if n ≤ 2 ^ 63 then some (-(n : Int)) else none)
    else (if n < 2 ^ 63 then some (n : Int) else none)

/-! ## URLs (`net/url`)

A URL string is read as a byte string: a character below 256 stands for that
byte.  The functions follow `net/url` of the Go standard library. -/

/-- The `user[:password]` part of an authority. -/
structure Userinfo where
  username : String
  password : String := ""
  passwordSet : Bool := false
deriving DecidableEq, Repr

/-- A parsed URL (`url.URL`). -/
structure URL where
  Scheme : String := ""
  Opaque : String := ""
  User : Option Userinfo := none
  Host : String := ""
  Path : String := ""
  RawPath : String := ""
  OmitHost : Bool := false
  ForceQuery : Bool := false
  RawQuery : String := ""
  Fragment : String := ""
  RawFragment : String := ""
deriving DecidableEq, Repr

/-- The part of a URL an escaping rule is applied to. -/
inductive Encoding where
  | encodePath
  | encodePathSegment
  | encodeHost
  | encodeZone
  | encodeUserPassword
  | encodeQueryComponent
  | encodeFragment
deriving DecidableEq, Repr

/-- Split at the first occurrence of `sep` (`strings.Cut`): the text before,
the text after, and whether `sep` occurs. -/
def cut (sep : Char) : List Char → List Char × List Char × Bool
  | [] => ([], [], false)
  | c :: cs =>
    if c == sep then ([], cs, true)
    else ((cut sep cs).1.cons c, (cut sep cs).2.1, (cut sep cs).2.2)

/-- Split at the last occurrence of `sep`: the text before it and the text from
it on (`sep` included); `none` when `sep` does not occur. -/
def cutLast (sep : Char) (cs : List Char) : Option (List Char × List Char) :=
  match cut sep cs.reverse with
  | (afterRev, beforeRev, true) => some (beforeRev.reverse, sep :: afterRev.reverse)
  | _ => none

/-- ASCII control bytes (`stringContainsCTLByte`). -/
def isCTL (c : Char) : Bool := c.toNat < 0x20 || c.toNat == 0x7f

/-- Hexadecimal digit test (`ishex`). -/
def ishex (c : Char) : Bool := (hexVal c).isSome

/-- Value of a hexadecimal digit, 0 for any other byte (`unhex`). -/
def unhex (c : Char) : Nat := (hexVal c).getD 0

/-- Must the byte be percent-escaped in the given part of a URL (`shouldEscape`)? -/
def shouldEscape (c : Char) (mode : Encoding) : Bool :=
  if c.isAlphanum then false
  else if (mode = .encodeHost ∨ mode = .encodeZone) ∧
      c ∈ ['!', '$', '&', '\'', '(', ')', '*', '+', ',', ';', '=', ':', '[', ']', '<', '>', '"'] then
    false
  else if c ∈ ['-', '_', '.', '~'] then false
  else if c ∈ ['$', '&', '+', ',', '/', ':', ';', '=', '?', '@'] ∧
      (mode = .encodePath ∨ mode = .encodePathSegment ∨ mode = .encodeUserPassword ∨
        mode = .encodeQueryComponent ∨ mode = .encodeFragment) then
    match mode with
    | .encodePath => c == '?'
    | .encodePathSegment => c == '/' || c == ';' || c == ',' || c == '?'
    | .encodeUserPassword => c == '@' || c == '/' || c == '?' || c == ':'
    | .encodeQueryComponent => true
    | _ => false
  else if mode = .encodeFragment ∧ c ∈ ['!', '(', ')', '*'] then false
  else true

/-- Upper-case hexadecimal digit of a value below 16. -/
def upperhex (n : Nat) : Char :=
  if n < 10 then Char.ofNat ('0'.toNat + n) else Char.ofNat ('A'.toNat + (n - 10))

/-- The `%XX` escape of one byte. -/
def pctByte (n : Nat) : List Char := ['%', upperhex (n / 16), upperhex (n % 16)]

/-- The bytes a character stands for: itself below 256, its UTF-8 encoding above. -/
def charBytes (c : Char) : List Nat :=
  if c.toNat < 256 then [c.toNat] else (String.utf8EncodeChar c).map UInt8.toNat

/-- Percent-escape a string for the given part of a URL (`escape`). -/
def escapeChars (mode : Encoding) : List Char → List Char
  | [] => []
  | c :: cs =>
    if c.toNat < 0x80 ∧ !shouldEscape c mode then c :: escapeChars mode cs
    else if c == ' ' ∧ mode = .encodeQueryComponent then '+' :: escapeChars mode cs
    else (charBytes c).flatMap pctByte ++ escapeChars mode cs

/-- Percent-escape a string for the given part of a URL (`escape`). -/
def escape (s : String) (mode : Encoding) : String := String.mk (escapeChars mode s.data)

/-- The lower-case hexadecimal digit of a number below 16. -/
def lowerhex (n : Nat) : Char :=
  if n < 10 then Char.ofNat ('0'.toNat + n) else Char.ofNat ('a'.toNat + (n - 10))

/-- One rune inside a quoted string (`strconv.Quote`): the quote and the
backslash are escaped, a printable rune stands for itself, and any other rune
is written by its short escape or by its number.  Which runes are printable is
decided as `strconv.IsPrint` decides it up to U+00FF; the tables for the runes
beyond are not part of this development, and such a rune stands for itself. -/
def quoteRune (c : Char) : List Char :=
  if c = '"' then ['\\', '"']
  else if c = '\\' then ['\\', '\\']
  else if 0x20 ≤ c.toNat ∧ c.toNat ≤ 0x7e then [c]
  else if 0xa1 ≤ c.toNat ∧ c.toNat ≠ 0xad then [c]
  else if c.toNat = 7 then ['\\', 'a']
  else if c.toNat = 8 then ['\\', 'b']
  else if c.toNat = 12 then ['\\', 'f']
  else if c.toNat = 10 then ['\\', 'n']
  else if c.toNat = 13 then ['\\', 'r']
  else if c.toNat = 9 then ['\\', 't']
  else if c.toNat = 11 then ['\\', 'v']
  else if c.toNat < 0x20 ∨ c.toNat = 0x7f then
    ['\\', 'x', lowerhex (c.toNat / 16), lowerhex (c.toNat % 16)]
  else
    ['\\', 'u', lowerhex 0, lowerhex 0, lowerhex (c.toNat / 16), lowerhex (c.toNat % 16)]

/-- A string in double quotes, as `strconv.Quote` and the verb `%q` write it. -/
def quote (s : String) : String :=
  String.mk ('"' :: (s.data.flatMap quoteRune ++ ['"']))

/-- The text of an `EscapeError`. -/
def escapeError (s : List Char) : String := "invalid URL escape " ++ quote (String.mk s)

/-- The text of an `InvalidHostError`. -/
def invalidHostError (s : List Char) : String :=
  "invalid character " ++ quote (String.mk s) ++ " in host name"

/-- The text of a `*url.Error`: `"%s %q: %s"` of the operation, the URL and
the error. -/
def urlError (op : String) (url : String) (err : String) : String :=
  op ++ " " ++ quote url ++ ": " ++ err

/-- Undo percent-escaping (`unescape`); an error for a malformed escape or, in
a host, a byte that a host cannot hold. -/
def unescapeChars (mode : Encoding) : List Char → Except String (List Char)
  | [] => .ok []
  | '%' :: a :: b :: rest =>
    if !(ishex a && ishex b) then .error (escapeError ['%', a, b])
    else if mode = .encodeHost ∧ unhex a < 8 ∧ ¬ (a = '2' ∧ b = '5') then
      .error (escapeError ['%', a, b])
    else if mode = .encodeZone ∧ ¬ (a = '2' ∧ b = '5') ∧ unhex a * 16 + unhex b ≠ 0x20 ∧
        shouldEscape (Char.ofNat (unhex a * 16 + unhex b)) .encodeHost then
      .error (escapeError ['%', a, b])
    else
      match unescapeChars mode rest with
      | .ok t => .ok (Char.ofNat (unhex a * 16 + unhex b) :: t)
      | .error e => .error e
  | '%' :: rest => .error (escapeError ('%' :: rest))
  | '+' :: rest =>
    match unescapeChars mode rest with
    | .ok t => .ok ((if mode = .encodeQueryComponent then ' ' else '+') :: t)
    | .error e => .error e
  | c :: rest =>
    if (mode = .encodeHost ∨ mode = .encodeZone) ∧ c.toNat < 0x80 ∧ shouldEscape c .encodeHost then
      .error (invalidHostError [c])
    else
      match unescapeChars mode rest with
      | .ok t => .ok (c :: t)
      | .error e => .error e

/-- Undo percent-escaping (`unescape`). -/
def unescape (s : String) (mode : Encoding) : Except String String :=
  match unescapeChars mode s.data with
  | .ok t => .ok (String.mk t)
  | .error e => .error e

/-- Does the escaped text decode, without error, to the given text? -/
def unescapesTo (s : String) (mode : Encoding) (target : String) : Bool :=
  match unescape s mode with
  | .ok t => t == target
  | .error _ => false

/-- Is the string a legal encoding for the given part (`validEncoded`)? -/
def validEncoded (s : String) (mode : Encoding) : Bool :=
  s.data.all fun c =>
    if c ∈ ['!', '$', '&', '\'', '(', ')', '*', '+', ',', ';', '=', ':', '@', '[', ']', '%'] then true
    else !(c.toNat ≥ 0x80 || shouldEscape c mode)

/-- Store a path given in escaped form (`URL.setPath`): `RawPath` is kept only
when it differs from the default escaping of the decoded path. -/
def URL.setPath (u : URL) (p : String) : Except String URL :=
  match unescape p .encodePath with
  | .error e => .error e
  | .ok path =>
    .ok { u with Path := path, RawPath := if p = escape path .encodePath then "" else p }

/-- The escaped form of the path (`URL.EscapedPath`). -/
def URL.EscapedPath (u : URL) : String :=
  if u.RawPath ≠ "" ∧ validEncoded u.RawPath .encodePath ∧
      unescapesTo u.RawPath .encodePath u.Path then u.RawPath
  else if u.Path = "*" then "*"
  else escape u.Path .encodePath

/-- Store a fragment given in escaped form (`URL.setFragment`). -/
def URL.setFragment (u : URL) (f : String) : Except String URL :=
  match unescape f .encodeFragment with
  | .error e => .error e
  | .ok frag =>
    .ok { u with Fragment := frag,
                 RawFragment := if f = escape frag .encodeFragment then "" else f }

/-- The escaped form of the fragment (`URL.EscapedFragment`). -/
def URL.EscapedFragment (u : URL) : String :=
  if u.RawFragment ≠ "" ∧ validEncoded u.RawFragment .encodeFragment ∧
      unescapesTo u.RawFragment .encodeFragment u.Fragment then u.RawFragment
  else escape u.Fragment .encodeFragment

/-- Scan a leading `scheme:` (`getScheme`): the scheme (empty when there is
none) and the rest.  `seen` counts the bytes already accepted. -/
def getSchemeAux (raw : List Char) : List Char → List Char → Except String (List Char × List Char)
  | _, [] => .ok ([], raw)
  | seen, c :: rest =>
    if c.isAlpha then getSchemeAux raw (c :: seen) rest
    else if c.isDigit || c == '+' || c == '-' || c == '.' then
      if seen.isEmpty then .ok ([], raw) else getSchemeAux raw (c :: seen) rest
    else if c == ':' then
      if seen.isEmpty then .error "missing protocol scheme" else .ok (seen.reverse, rest)
    else .ok ([], raw)

/-- Scan a leading `scheme:` (`getScheme`). -/
def getScheme (raw : List Char) : Except String (List Char × List Char) :=
  getSchemeAux raw [] raw

/-- An optional `:port` suffix: empty, or a colon followed by digits only. -/
def validOptionalPort : List Char → Bool
  | [] => true
  | c :: ds => c == ':' && ds.all Char.isDigit

/-- Split at the first occurrence of the text `pat`: the text before it and the
text from it on; `none` when it does not occur. -/
def cutSub (pat : List Char) : List Char → Option (List Char × List Char)
  | [] => if pat.isEmpty then some ([], []) else none
  | c :: cs =>
    if pat.isPrefixOf (c :: cs) then some ([], c :: cs)
    else
      match cutSub pat cs with
      | some (before, fromPat) => some (c :: before, fromPat)
      | none => none

/-- Check and unescape the host of an authority (`parseHost`).  A bracketed IP
literal may carry a zone after `%25`, which is unescaped by the zone rule. -/
def parseHost (host : List Char) : Except String String :=
  match host with
  | '[' :: _ =>
    match cutLast ']' host with
    | none => .error "missing ']' in host"
    | some (inBrackets, fromBracket) =>
      if !validOptionalPort (fromBracket.drop 1) then
        .error ("invalid port " ++ quote (String.mk (fromBracket.drop 1)) ++ " after host")
      else
        match cutSub ['%', '2', '5'] inBrackets with
        | some (h1, zone) =>
          match unescapeChars .encodeHost h1, unescapeChars .encodeZone zone,
              unescapeChars .encodeHost fromBracket with
          | .ok a, .ok b, .ok d => .ok (String.mk (a ++ b ++ d))
          | .error e, _, _ => .error e
          | _, .error e, _ => .error e
          | _, _, .error e => .error e
        | none => unescape (String.mk host) .encodeHost
  | _ =>
    match cutLast ':' host with
    | some (_, colonPort) =>
      if validOptionalPort colonPort then unescape (String.mk host) .encodeHost
      else .error ("invalid port " ++ quote (String.mk colonPort) ++ " after host")
    | none => unescape (String.mk host) .encodeHost

/-- The bytes allowed in the userinfo of an authority (`validUserinfo`). -/
def validUserinfo (s : List Char) : Bool :=
  s.all fun c => c.isAlphanum ||
    c ∈ ['-', '.', '_', ':', '~', '!', '$', '&', '\'', '(', ')', '*', '+', ',', ';', '=', '%', '@']

/-- Split an authority into user information and host (`parseAuthority`). -/
def parseAuthority (authority : List Char) : Except String (Option Userinfo × String) :=
  match cutLast '@' authority with
  | none =>
    match parseHost authority with
    | .ok h => .ok (none, h)
    | .error e => .error e
  | some (userinfo, atHost) =>
    match parseHost (atHost.drop 1) with
    | .error e => .error e
    | .ok h =>
      if !validUserinfo userinfo then .error "net/url: invalid userinfo"
      else
        match cut ':' userinfo with
        | (_, _, false) =>
          match unescapeChars .encodeUserPassword userinfo with
          | .ok n => .ok (some { username := String.mk n }, h)
          | .error e => .error e
        | (name, pass, true) =>
          match unescapeChars .encodeUserPassword name, unescapeChars .encodeUserPassword pass with
          | .ok n, .ok p =>
            .ok (some { username := String.mk n, password := String.mk p, passwordSet := true }, h)
          | .error e, _ => .error e
          | _, .error e => .error e

/-- Does the list start with the given characters? -/
def hasPrefixChars (p cs : List Char) : Bool := p.isPrefixOf cs

/-- Parse a URL without fragment (`parse` with `viaRequest = false`). -/
def parseNoFragment (raw : List Char) : Except String URL :=
  if raw.any isCTL then .error "net/url: invalid control character in URL"
  else if raw = ['*'] then .ok { Path := "*" }
  else
    match getScheme raw with
    | .error e => .error e
    | .ok (scheme, rest0) =>
      let scheme := scheme.map Char.toLower
      let (rest, rawQuery, forceQuery) :=
        if rest0.getLast? = some '?' ∧ rest0.count '?' = 1 then (rest0.dropLast, [], true)
        else ((cut '?' rest0).1, (cut '?' rest0).2.1, false)
      let u0 : URL :=
        { Scheme := String.mk scheme, RawQuery := String.mk rawQuery, ForceQuery := forceQuery }
      if rest.head? ≠ some '/' ∧ !scheme.isEmpty then .ok { u0 with Opaque := String.mk rest }
      else if rest.head? ≠ some '/' ∧ (cut '/' rest).1.contains ':' then
        .error "first path segment in URL cannot contain colon"
      else if (!scheme.isEmpty ∨ !hasPrefixChars ['/', '/', '/'] rest) ∧
          hasPrefixChars ['/', '/'] rest then
        let afterSlashes := rest.drop 2
        let authority := (cut '/' afterSlashes).1
        let path := if (cut '/' afterSlashes).2.2 then '/' :: (cut '/' afterSlashes).2.1 else []
        match parseAuthority authority with
        | .error e => .error e
        | .ok (user, host) => URL.setPath { u0 with User := user, Host := host } (String.mk path)
      else if !scheme.isEmpty ∧ rest.head? = some '/' then
        URL.setPath { u0 with OmitHost := true } (String.mk rest)
      else URL.setPath u0 (String.mk rest)

/-- Parse a URL reference (`url.Parse`): the fragment is cut off at the first
`#`, the rest is parsed, and the fragment is unescaped.  An error is a
`*url.Error` and is kept as its text; it names the part before the `#` when
that part does not parse, and the whole text when the fragment does not. -/
def urlParse (rawURL : String) : Except String URL :=
  match cut '#' rawURL.data with
  | (u, frag, _) =>
    match parseNoFragment u with
    | .error e => .error (urlError "parse" (String.mk u) e)
    | .ok url =>
      if frag.isEmpty then .ok url
      else
        match URL.setFragment url (String.mk frag) with
        | .ok url2 => .ok url2
        | .error e => .error (urlError "parse" rawURL e)

/-- The text of user information (`Userinfo.String`). -/
def Userinfo.String (ui : Userinfo) : String :=
  escape ui.username .encodeUserPassword ++
    (if ui.passwordSet then ":" ++ escape ui.password .encodeUserPassword else "")

/-- The text of a URL (`URL.String`). -/
def URL.String (u : URL) : String :=
  let schemePart := if u.Scheme ≠ "" then u.Scheme ++ ":" else ""
  let main :=
    if u.Opaque ≠ "" then schemePart ++ u.Opaque
    else
      let auth :=
        if u.Scheme ≠ "" ∨ u.Host ≠ "" ∨ u.User.isSome then
          if u.OmitHost ∧ u.Host = "" ∧ u.User.isNone then ""
          else
            (if u.Host ≠ "" ∨ u.Path ≠ "" ∨ u.User.isSome then "//" else "") ++
            (match u.User with
              | some ui => ui.String ++ "@"
              | none => "") ++
            (if u.Host ≠ "" then escape u.Host .encodeHost else "")
        else ""
      let path := u.EscapedPath
      let sep := if path ≠ "" ∧ path.data.head? ≠ some '/' ∧ u.Host ≠ "" then "/" else ""
      let written := schemePart ++ auth ++ sep
      let dot := if written = "" ∧ (cut '/' path.data).1.contains ':' then "./" else ""
      written ++ dot ++ path
  main ++
    (if u.ForceQuery ∨ u.RawQuery ≠ "" then "?" ++ u.RawQuery else "") ++
    (if u.Fragment ≠ "" then "#" ++ u.EscapedFragment else "")

/-- Split a path at every `/` (the elements `strings.Cut` yields in turn). -/
def splitSlash : List Char → List (List Char)
  | [] => [[]]
  | c :: cs =>
    if c == '/' then [] :: splitSlash cs
    else
      match splitSlash cs with
      | [] => [[c]]
      | e :: es => (c :: e) :: es

/-- One step of the loop of `resolvePath`: `dst` is the text written after the
leading slash, `first` tells whether an element has still to be written at the
root. -/
def resolveStep (st : List Char × Bool) (elem : List Char) : List Char × Bool :=
  if elem = ['.'] then (st.1, false)
  else if elem = ['.', '.'] then
    match cutLast '/' st.1 with
    | none => ([], true)
    | some (before, _) => (before, st.2)
  else ((if st.2 then st.1 else st.1 ++ ['/']) ++ elem, false)

/-- Merge a reference path into a base path and remove dot segments (`resolvePath`). -/
def resolvePath (base ref : String) : String :=
  let full : List Char :=
    if ref = "" then base.data
    else if ref.data.head? ≠ some '/' then
      (match cutLast '/' base.data with
        | some (before, _) => before ++ ['/']
        | none => []) ++ ref.data
    else ref.data
  if full.isEmpty then ""
  else
    let elems := splitSlash full
    let st := elems.foldl resolveStep ([], true)
    let last := elems.getLast?.getD []
    let r := '/' :: st.1 ++ (if last = ['.'] ∨ last = ['.', '.'] then ['/'] else [])
    String.mk (match r with
      | a :: '/' :: t => if a == '/' then '/' :: t else r
      | _ => r)

/-- Resolve a reference against a base URL (`URL.ResolveReference`, RFC 3986 §5.2). -/
def URL.ResolveReference (u ref : URL) : URL :=
  let url : URL := if ref.Scheme = "" then { ref with Scheme := u.Scheme } else ref
  if ref.Scheme ≠ "" ∨ ref.Host ≠ "" ∨ ref.User.isSome then
    match URL.setPath url (resolvePath ref.EscapedPath "") with
    | .ok v => v
    | .error _ => url
  else if ref.Opaque ≠ "" then { url with User := none, Host := "", Path := "" }
  else
    let url1 : URL :=
      if ref.Path = "" ∧ !ref.ForceQuery ∧ ref.RawQuery = "" then
        if ref.Fragment = "" then
          { url with RawQuery := u.RawQuery, Fragment := u.Fragment, RawFragment := u.RawFragment }
        else { url with RawQuery := u.RawQuery }
      else url
    if ref.Path = "" ∧ u.Opaque ≠ "" then
      { url1 with Opaque := u.Opaque, User := none, Host := "", Path := "" }
    else
      let url2 : URL := { url1 with Host := u.Host, User := u.User }
      match URL.setPath url2 (resolvePath u.EscapedPath ref.EscapedPath) with
      | .ok v => v
      | .error _ => url2

/-! ## HTTP messages (`net/http`, `io`) -/

/-- A message body as a reader sees it: the bytes still unread, the error (other
than end of stream) that ends the stream after them, the error `Close`
returns, and whether `Close` was called. -/
structure Body where
  data : String := ""
  readErr : Option String := none
  closeErr : Option String := none
  closed : Bool := false
deriving DecidableEq, Repr

/-- Reading a body to its end (`ioutil.ReadAll`): the bytes, the error, and the
body with nothing left to read. -/
def ReadAll (b : Body) : String × Option String × Body :=
  (b.data, b.readErr, { b with data := "" })

/-- Closing a body (`Body.Close`). -/
def Body.Close (b : Body) : Body := { b with closed := true }

/-- An outbound request (`http.Request`).  `Body` is the JSON document written
to the request buffer; `none` is an empty buffer. -/
structure HttpRequest where
  Method : String
  URL : URL
  Header : List (String × String) := []
  Body : Option Json := none
deriving DecidableEq, Repr

/-- A response as the HTTP client returns it (`http.Response`): the fields the
package reads.  `NilBody` tells that the field `Body` holds nil.  The HTTP
client never returns such a response (the body of a response it returns is
always non-nil); the decoder of `CheckResponse` can make one of the response
it is given. -/
structure HttpResponse where
  StatusCode : Int := 0
  Request : Option HttpRequest := none
  Body : Body := {}
  NilBody : Bool := false
deriving DecidableEq, Repr

/-- Response is a Sendbird response; it wraps the `http.Response`. -/
structure Response where
  Response : HttpResponse
deriving DecidableEq, Repr

/-- An ErrorResponse reports the error caused by an API request: the HTTP
response that caused it (a pointer, `none` when nil) and the error message. -/
structure ErrorResponse where
  Response : Option HttpResponse
  Message : String := ""
deriving DecidableEq, Repr

/-- The values of Go type `error` that flow through the package. -/
inductive Error where
  /-- An `*ErrorResponse` built by `CheckResponse`. -/
  | errorResponse (e : ErrorResponse)
  /-- An error of `encoding/json`. -/
  | json (e : JsonError)
  /-- An error of `net/url` or of `http.NewRequest`. -/
  | malformed (msg : String)
  /-- An error of the HTTP client: no response was obtained. -/
  | transport (msg : String)
  /-- An error of a reader or a writer. -/
  | io (msg : String)
deriving DecidableEq, Repr

/-- The method `ErrorResponse.Error`: `"%v %v: %d %v"` of the request method,
the request URL, the status code and the message.  `none` is the nil
dereference the method runs into when the response or its request is nil. -/
def ErrorResponse.Error (r : ErrorResponse) : Option String :=
  match r.Response with
  | none => none
  | some resp =>
    match resp.Request with
    | none => none
    | some req =>
      some (req.Method ++ " " ++ req.URL.String ++ ": " ++ toString resp.StatusCode ++ " " ++ r.Message)

/-- The decoder keeps the first type error it meets and goes on (`saveError`). -/
def saveError (saved : Option JsonError) (e : JsonError) : Option JsonError :=
  match saved with
  | some s => some s
  | none => some e

/-- Store a document into a Go `string`: a string is stored, null leaves the
destination as it is, anything else is a type error. -/
def storeString (v : Json) (cur : String) (saved : Option JsonError) : String × Option JsonError :=
  match v with
  | .str s => (s, saved)
  | .null => (cur, saved)
  | other => (cur, saveError saved (.unmarshalType other.kind "string"))

/-- Store a document into a Go `int`: an integer literal in range is stored,
null leaves the destination as it is, anything else is a type error. -/
def storeInt (v : Json) (cur : Int) (saved : Option JsonError) : Int × Option JsonError :=
  match v with
  | .num lit =>
    match parseIntLit lit with
    | some n => (n, saved)
    | none => (cur, saveError saved (.unmarshalType ("number " ++ lit) "int"))
  | .null => (cur, saved)
  | other => (cur, saveError saved (.unmarshalType other.kind "int"))

/-- Store a document into a Go `int64`: as into an `int`, which has the same
range; a type error names the type `int64`. -/
def storeInt64 (v : Json) (cur : Int) (saved : Option JsonError) : Int × Option JsonError :=
  match v with
  | .num lit =>
    match parseIntLit lit with
    | some n => (n, saved)
    | none => (cur, saveError saved (.unmarshalType ("number " ++ lit) "int64"))
  | .null => (cur, saved)
  | other => (cur, saveError saved (.unmarshalType other.kind "int64"))

/-- Store a document into a Go `bool`. -/
def storeBool (v : Json) (cur : Bool) (saved : Option JsonError) : Bool × Option JsonError :=
  match v with
  | .bool b => (b, saved)
  | .null => (cur, saved)
  | other => (cur, saveError saved (.unmarshalType other.kind "bool"))

/-- The type errors of storing a document into a `[]string` whose elements
this development does not keep: an array is stored element by element, null
sets the slice to nil, anything else is a type error. -/
def checkStrings (v : Json) (saved : Option JsonError) : Option JsonError :=
  match v with
  | .arr xs => xs.foldl (fun e x => (storeString x "" e).2) saved
  | .null => saved
  | other => saveError saved (.unmarshalType other.kind "[]string")

/-- The type errors of storing a document into an `http.Header`, a
`map[string][]string` whose entries this development does not keep. -/
def checkHeader (v : Json) (saved : Option JsonError) : Option JsonError :=
  match v with
  | .obj kvs => kvs.foldl (fun e kv => checkStrings kv.2 e) saved
  | .null => saved
  | other => saveError saved (.unmarshalType other.kind "http.Header")

/-- Store one member of an object into an `http.Response`.  The struct has no
field tags, so a key selects a field by its name, ignoring case.  Of the
fields, this development keeps `StatusCode`, `Request` and whether `Body` is
nil.  A member for `Status`, `Proto`, `ProtoMajor`, `ProtoMinor`,
`ContentLength`, `TransferEncoding`, `Close`, `Uncompressed`, `Header` or
`Trailer` is stored in a field that is not kept: what remains of it is its type
error, if it has one.  `Body` is an interface and `Request` a pointer: null
sets either to nil.  Any other value for `Body` is decoded into the reader the
HTTP client put there, any other value for `Request` into the request it
points to, and the member `TLS` into the connection state: those stores go
into types of the standard library that this development does not embed, and
such a member is left aside here. -/
def storeHttpResponseMember (st : HttpResponse × Option JsonError) (kv : String × Json) :
    HttpResponse × Option JsonError :=
  if matchesField kv.1 "Status" then (st.1, (storeString kv.2 "" st.2).2)
  else if matchesField kv.1 "StatusCode" then
    ({ st.1 with StatusCode := (storeInt kv.2 st.1.StatusCode st.2).1 },
      (storeInt kv.2 st.1.StatusCode st.2).2)
  else if matchesField kv.1 "Proto" then (st.1, (storeString kv.2 "" st.2).2)
  else if matchesField kv.1 "ProtoMajor" then (st.1, (storeInt kv.2 0 st.2).2)
  else if matchesField kv.1 "ProtoMinor" then (st.1, (storeInt kv.2 0 st.2).2)
  else if matchesField kv.1 "Header" then (st.1, checkHeader kv.2 st.2)
  else if matchesField kv.1 "Body" then
    match kv.2 with
    | .null => ({ st.1 with NilBody := true }, st.2)
    | _ => st
  else if matchesField kv.1 "ContentLength" then (st.1, (storeInt64 kv.2 0 st.2).2)
  else if matchesField kv.1 "TransferEncoding" then (st.1, checkStrings kv.2 st.2)
  else if matchesField kv.1 "Close" then (st.1, (storeBool kv.2 false st.2).2)
  else if matchesField kv.1 "Uncompressed" then (st.1, (storeBool kv.2 false st.2).2)
  else if matchesField kv.1 "Trailer" then (st.1, checkHeader kv.2 st.2)
  else if matchesField kv.1 "Request" then
    match kv.2 with
    | .null => ({ st.1 with Request := none }, st.2)
    | _ => st
  else st

/-- Where the `Response` pointer of the `ErrorResponse` under decoding points. -/
inductive RespRef where
  /-- It is nil. -/
  | nil
  /-- It still is the pointer `CheckResponse` stored: the response under inspection. -/
  | given
  /-- It points to a response the decoder allocated. -/
  | fresh (v : HttpResponse)
deriving DecidableEq, Repr

/-- The state of decoding a body into `errorResponse`: the response `r` the
caller holds (the decoder writes through the pointer), the `Response` pointer,
the `Message` field and the first type error met. -/
structure ErrDecodeState where
  r : HttpResponse
  ref : RespRef := .given
  message : String := ""
  saved : Option JsonError := none
deriving DecidableEq, Repr

/-- Store one member of the body into the `ErrorResponse`.  The struct has no
field tags, so a key selects `Response` or `Message` by name, ignoring case.
`Response` is a pointer: null sets it to nil, an object is decoded into the
response it points to (a new one if it is nil). -/
def storeErrorResponseMember (st : ErrDecodeState) (kv : String × Json) : ErrDecodeState :=
  if matchesField kv.1 "Response" then
    match kv.2 with
    | .null => { st with ref := .nil }
    | .obj kvs =>
      match st.ref with
      | .given =>
        { st with r := (kvs.foldl storeHttpResponseMember (st.r, st.saved)).1,
                  saved := (kvs.foldl storeHttpResponseMember (st.r, st.saved)).2 }
      | .fresh x =>
        { st with ref := .fresh (kvs.foldl storeHttpResponseMember (x, st.saved)).1,
                  saved := (kvs.foldl storeHttpResponseMember (x, st.saved)).2 }
      | .nil =>
        { st with ref := .fresh (kvs.foldl storeHttpResponseMember ({}, st.saved)).1,
                  saved := (kvs.foldl storeHttpResponseMember ({}, st.saved)).2 }
    | other => { st with saved := saveError st.saved (.unmarshalType other.kind "http.Response") }
  else if matchesField kv.1 "Message" then
    { st with message := (storeString kv.2 st.message st.saved).1,
              saved := (storeString kv.2 st.message st.saved).2 }
  else st

/-- The `ErrorResponse` a decoding state stands for. -/
def ErrDecodeState.toErrorResponse (st : ErrDecodeState) : ErrorResponse :=
  { Response :=
      match st.ref with
      | .nil => none
      | .given => some st.r
      | .fresh x => some x,
    Message := st.message }

/-- The call `json.Unmarshal(data, errorResponse)` where `errorResponse` is
`&ErrorResponse{Response: r}`: the response `r` afterwards, the
`ErrorResponse` afterwards, and the error returned.  A syntax error leaves
everything as it was; a type error is returned after the rest of the document
has been stored. -/
def unmarshalErrorResponse (data : String) (r : HttpResponse) :
    HttpResponse × ErrorResponse × Option JsonError :=
  match parseJSON data with
  | none => (r, { Response := some r }, some .syntaxError)
  | some (.obj kvs) =>
    let st := kvs.foldl storeErrorResponseMember { r := r }
    (st.r, st.toErrorResponse, st.saved)
  | some .null => (r, { Response := some r }, none)
  | some other =>
    (r, { Response := some r }, some (.unmarshalType other.kind "sendbird.ErrorResponse"))

/-! ## The transport core (`sendbirdclient.go`) -/

/-- The base endpoint used when none is configured. -/
def defaultBaseURL : String := "https://api.sendbird.com"

/-- The value of the `Content-Type` header of every request. -/
def contentType : String := "application/json, charset=utf8"

/-- CheckResponse checks the API response for errors, and returns them if
present.  A response is considered an error if it has a status code outside
the 200 range.  The first component is the response afterwards: in the last
branch its body has been read and the decoder may have written through the
pointer the `ErrorResponse` holds. -/
def CheckResponse (r : HttpResponse) : HttpResponse × Option Error :=
  if 200 ≤ r.StatusCode ∧ r.StatusCode ≤ 299 then (r, none)
  else if r.StatusCode = 404 then
    (r, some (.errorResponse
      { Response := some r, Message := "Resouce Not Found - please check the URL" }))
  else
    match ReadAll r.Body with
    | (data, err, body) =>
      let r1 : HttpResponse := { r with Body := body }
      if err.isNone ∧ data.length > 0 then
        match unmarshalErrorResponse data r1 with
        | (r2, _, some jerr) => (r2, some (.json jerr))
        | (r2, errorResponse, none) => (r2, some (.errorResponse errorResponse))
      else (r1, some (.errorResponse { Response := some r1 }))

/-- The HTTP client (`http.Client.Do` for a non-nil request): a transport
error, or the response of the service. -/
abbrev Transport := HttpRequest → Except String HttpResponse

/-- SendbirdClient manages communication with Sendbird.  `onRequestCompleted`
tells whether a completion callback is registered. -/
structure SendbirdClient where
  client : Transport
  BaseURL : URL
  AppId : String
  ApiToken : String
  ContentType : String
  onRequestCompleted : Bool := false

/-- NewClient returns a new Sendbird API client; a nil `httpClient` selects
`http.DefaultClient`. -/
def NewClient (DefaultClient : Transport) (appId apiToken : String)
    (httpClient : Option Transport) : SendbirdClient :=
  { client := httpClient.getD DefaultClient,
    BaseURL :=
      match urlParse defaultBaseURL with
      | .ok u => u
      | .error _ => {},
    AppId := appId,
    ApiToken := apiToken,
    ContentType := contentType }

/-- OnRequestCompleted sets the request completion callback. -/
def SendbirdClient.OnRequestCompleted (c : SendbirdClient) : SendbirdClient :=
  { c with onRequestCompleted := true }

/-- NormalizeId keeps the part of the id after its last slash. -/
def SendbirdClient.NormalizeId (Id : String) : String :=
  match cutLast '/' Id.data with
  | some (_, fromSlash) => String.mk (fromSlash.drop 1)
  | none => Id

/-- The function `newResponse`. -/
def newResponse (r : HttpResponse) : Response := { Response := r }

/-- An `io.Writer`: the bytes it has accepted, and how many more it accepts
before `Write` fails (`none`: it never fails). -/
structure Writer where
  written : String := ""
  room : Option Nat := none
deriving DecidableEq, Repr

/-- Copy of a body into a writer (`io.Copy`): the writer and the body
afterwards and the error, if the writer refused bytes or the stream broke. -/
def ioCopy (w : Writer) (b : Body) : Writer × Body × Option Error :=
  match w.room with
  | none =>
    ({ w with written := w.written ++ b.data }, { b with data := "" }, b.readErr.map Error.io)
  | some n =>
    if b.data.length ≤ n then
      ({ written := w.written ++ b.data, room := some (n - b.data.length) },
        { b with data := "" }, b.readErr.map Error.io)
    else
      ({ written := w.written ++ String.mk (b.data.data.take n), room := some 0 },
        { b with data := String.mk (b.data.data.drop n) }, some (.io "short write"))

/-- The destination `v` handed to `Do`: nil, a value that implements
`io.Writer`, or a value of Go type `α` to decode into. -/
inductive Destination (α : Type) where
  | nil
  | writer (w : Writer)
  | value (x : α)

/-- Is the value an object or an array?  The scanner knows at the closing
bracket that such a value has ended. -/
def Json.endsAtBracket : Json → Bool
  | .obj _ => true
  | .arr _ => true
  | _ => false

/-- The document `json.Decoder.Decode` reads from a stream, or the error it
returns instead (`Decoder.readValue`).  The scanner goes through the bytes
read before it looks at the error of the read: a byte it rejects is a syntax
error, and an object or an array ends at its closing bracket.  Any other value
ends at the byte that follows it, so at the end of the bytes it ends only if
the stream ends there (`io.EOF`); an error of the reader is returned instead.
A stream that ends inside a value gives `io.ErrUnexpectedEOF`, a stream of
nothing but space gives `io.EOF`. -/
def readDocument (b : Body) : Except Error Json :=
  match parseValue (parseFuel b.data.data) b.data.data with
  | some (v, rest) =>
    if v.endsAtBracket || !rest.isEmpty then .ok v
    else
      match b.readErr with
      | some m => .error (.io m)
      | none => .ok v
  | none =>
    if scanRejects .beginValue [] b.data.data then .error (.json .syntaxError)
    else
      match b.readErr with
      | some m => .error (.io m)
      | none =>
        if (skipSpace b.data.data).isEmpty then .error (.json .eof)
        else .error (.io "unexpected EOF")

/-- The call `json.NewDecoder(body).Decode(v)` for a destination of type `α`
whose type-directed store is `store`: the first document of the stream is
stored; without a document the destination stays as it is. -/
def decodeBody {α : Type} (store : Json → α → α × Option JsonError) (b : Body) (x : α) :
    α × Option Error :=
  match readDocument b with
  | .ok j => ((store j x).1, (store j x).2.map Error.json)
  | .error e => (x, some e)

/-- What a call leaves behind: it panicked, or it reached a `return`. -/
inductive Outcome (ρ : Type) where
  | panic
  | returned (r : ρ)

/-- What `Do` returns and the effects it had: the `*Response` and the error,
the destination afterwards, and the calls made to the completion callback.
`closePanicked` tells that the deferred `Close` then met a nil body and
panicked: the caller of `Do` receives that panic and none of the values
(`afterDeferred`). -/
structure DoResult (α : Type) where
  response : Option Response
  err : Option Error
  v : Destination α
  completed : List (HttpRequest × HttpResponse) := []
  closePanicked : Bool := false

/-- What the caller of `Do` receives once the deferred function has run: its
panic, or the values of the `return`. -/
def afterDeferred {α : Type} (d : Outcome (DoResult α)) : Outcome (DoResult α) :=
  match d with
  | .panic => .panic
  | .returned r => if r.closePanicked then .panic else .returned r

/-- Do sends an API request and returns the API response.  The API response is
JSON decoded and stored in the value pointed to by v, or returned as an error
if an API error has occurred.  If v implements the io.Writer interface, the
raw response will be written to v, without attempting to decode it.  A nil
request makes the HTTP client dereference nil.  The body of the returned
response is not advanced past the document the decoder read.  The deferred `Close` runs on
every path after the response was obtained; the error it returns is assigned
to a local variable only.  When `CheckResponse` has decoded `null` into the
`Body` of the response, the deferred `Close` is called on nil and panics. -/
def SendbirdClient.Do {α : Type} (c : SendbirdClient) (store : Json → α → α × Option JsonError)
    (req : Option HttpRequest) (v : Destination α) : Outcome (DoResult α) :=
  match req with
  | none => .panic
  | some rq =>
    match c.client rq with
    | .error e => .returned { response := none, err := some (.transport e), v := v }
    | .ok resp =>
      let completed := if c.onRequestCompleted then [(rq, resp)] else []
      match CheckResponse resp with
      | (resp1, some err) =>
        .returned { response := some (newResponse { resp1 with Body := resp1.Body.Close }),
                    err := some err, v := v, completed := completed,
                    closePanicked := resp1.NilBody }
      | (resp1, none) =>
        match v with
        | .nil =>
          .returned { response := some (newResponse { resp1 with Body := resp1.Body.Close }),
                      err := none, v := v, completed := completed }
        | .writer w =>
          match ioCopy w resp1.Body with
          | (w1, _, some err) =>
            .returned { response := none, err := some err, v := .writer w1, completed := completed }
          | (w1, body1, none) =>
            .returned { response := some (newResponse { resp1 with Body := body1.Close }),
                        err := none, v := .writer w1, completed := completed }
        | .value x =>
          match decodeBody store resp1.Body x with
          | (x1, some err) =>
            .returned { response := none, err := some err, v := .value x1, completed := completed }
          | (x1, none) =>
            .returned { response := some (newResponse { resp1 with Body := resp1.Body.Close }),
                        err := none, v := .value x1, completed := completed }

/-- The bytes allowed in an HTTP method (token characters). -/
def isTokenChar (c : Char) : Bool :=
  c.isAlphanum ||
    c ∈ ['!', '#', '$', '%', '&', '\'', '*', '+', '-', '.', '^', '_', Char.ofNat 96, '|', '~']

/-- A method is a non-empty token (`validMethod`). -/
def validMethod (method : String) : Bool :=
  !method.data.isEmpty && method.data.all isTokenChar

/-- Drop a trailing colon that announces no port (`removeEmptyPort`). -/
def removeEmptyPort (host : String) : String :=
  if host.data.getLast? = some ':' then String.mk host.data.dropLast else host

/-- The call `http.NewRequest(method, url, buf)`: the method is checked, the
URL text is parsed again, and the buffer becomes the body. -/
def httpNewRequest (method url : String) (buf : Option Json) : Except String HttpRequest :=
  let m := if method = "" then "GET" else method
  if !validMethod m then .error ("net/http: invalid method " ++ quote m)
  else
    match urlParse url with
    | .error e => .error e
    | .ok u => .ok { Method := m, URL := { u with Host := removeEmptyPort u.Host }, Body := buf }

/-- NewRequest creates an API request.  A relative URL can be provided in
urlStr, which will be resolved to the BaseURL of the Client.  If specified, the
value pointed to by body is JSON encoded and included in as the request body.
`enc` is the encoding of the Go type of `body`; it fails for a value that has
no JSON encoding. -/
def SendbirdClient.NewRequest {β : Type} (c : SendbirdClient) (enc : β → Except String Json)
    (method urlStr : String) (body : Option β) : Option HttpRequest × Option Error :=
  match urlParse urlStr with
  | .error e => (none, some (.malformed e))
  | .ok rel =>
    let url := c.BaseURL.ResolveReference rel
    let buf : Except String (Option Json) :=
      match body with
      | none => .ok none
      | some b =>
        match enc b with
        | .ok j => .ok (some j)
        | .error e => .error e
    match buf with
    | .error e => (none, some (.malformed e))
    | .ok buf =>
      match httpNewRequest method url.String buf with
      | .error e => (none, some (.malformed e))
      | .ok req =>
        (some { req with Header := req.Header ++ [("Content-Type", c.ContentType)] }, none)

/-! ## Authentication decorators (`auth.go`) -/

/-- The field every first-generation request embeds: `Auth`, tagged `auth,omitempty`. -/
structure RequestDefaults where
  Auth : String := ""
deriving DecidableEq, Repr

/-- PopulateAuthApiToken sets `Auth` to the token of the client. -/
def RequestDefaults.PopulateAuthApiToken (s : RequestDefaults) (client : SendbirdClient) :
    RequestDefaults :=
  { s with Auth := client.ApiToken }

/-- The field every bot request embeds: `ApiToken`, tagged `api_token`. -/
structure RequestDefaultsAPIV2 where
  ApiToken : String := ""
deriving DecidableEq, Repr

/-- PopulateApiV2Token sets `ApiToken` to the token of the client. -/
def RequestDefaultsAPIV2.PopulateApiV2Token (s : RequestDefaultsAPIV2) (client : SendbirdClient) :
    RequestDefaultsAPIV2 :=
  { s with ApiToken := client.ApiToken }

/-- A first-generation request envelope: a struct that embeds `RequestDefaults`
and declares the fields `params` of its own.  No envelope of the package
declares a field whose JSON name is `auth`. -/
structure Envelope (β : Type) extends RequestDefaults where
  params : β

/-- A bot request envelope: a struct that embeds `RequestDefaultsAPIV2` and
declares the fields `params` of its own.  No envelope of the package declares
a field whose JSON name is `api_token`. -/
structure EnvelopeV2 (β : Type) extends RequestDefaultsAPIV2 where
  params : β

/-- The promoted method `PopulateAuthApiToken` of an envelope. -/
def Envelope.PopulateAuthApiToken {β : Type} (e : Envelope β) (client : SendbirdClient) :
    Envelope β :=
  { e with toRequestDefaults := e.toRequestDefaults.PopulateAuthApiToken client }

/-- The promoted method `PopulateApiV2Token` of an envelope. -/
def EnvelopeV2.PopulateApiV2Token {β : Type} (e : EnvelopeV2 β) (client : SendbirdClient) :
    EnvelopeV2 β :=
  { e with toRequestDefaultsAPIV2 := e.toRequestDefaultsAPIV2.PopulateApiV2Token client }

/-- The member a string field tagged `omitempty` encodes to: none when empty. -/
def omitEmptyString (name value : String) : List (String × Json) :=
  if value = "" then [] else [(name, .str value)]

/-- The member a bool field tagged `omitempty` encodes to: none when false. -/
def omitEmptyBool (name : String) (value : Bool) : List (String × Json) :=
  if value then [(name, .bool true)] else []

/-- The members `RequestDefaults` contributes to the encoding of an envelope. -/
def RequestDefaults.members (s : RequestDefaults) : List (String × Json) :=
  omitEmptyString "auth" s.Auth

/-- The members `RequestDefaultsAPIV2` contributes to the encoding of an envelope. -/
def RequestDefaultsAPIV2.members (s : RequestDefaultsAPIV2) : List (String × Json) :=
  [("api_token", .str s.ApiToken)]

/-- The JSON encoding of a first-generation envelope: the promoted field of
the embedded struct first, then the envelope's own fields (`own`). -/
def Envelope.encode {β : Type} (own : β → List (String × Json)) (e : Envelope β) :
    Except String Json :=
  .ok (.obj (e.toRequestDefaults.members ++ own e.params))

/-- The JSON encoding of a bot envelope. -/
def EnvelopeV2.encode {β : Type} (own : β → List (String × Json)) (e : EnvelopeV2 β) :
    Except String Json :=
  .ok (.obj (e.toRequestDefaultsAPIV2.members ++ own e.params))

/-! ## Resource operations (`user.go`, `bot.go`, `admin.go`) -/

/-- The own fields of `UserRequest`. -/
structure UserParams where
  Id : String := ""
  Nickname : String := ""
  ImageUrl : String := ""
  IssueAccessToken : Bool := false
deriving DecidableEq, Repr

/-- The struct `UserRequest`. -/
abbrev UserRequest := Envelope UserParams

/-- The members the own fields of a `UserRequest` encode to (all `omitempty`). -/
def UserParams.members (p : UserParams) : List (String × Json) :=
  omitEmptyString "id" p.Id ++ omitEmptyString "nickname" p.Nickname ++
    omitEmptyString "image_url" p.ImageUrl ++ omitEmptyBool "issue_access_token" p.IssueAccessToken

/-- The struct `User`. -/
structure User where
  Id : String := ""
  UserId : String := ""
  Nickname : String := ""
  Picture : String := ""
  AccessToken : String := ""
  IsActive : Bool := false
deriving DecidableEq, Repr

/-- Store one member of an object into a `User`, by the JSON names of its tags. -/
def storeUserMember (st : User × Option JsonError) (kv : String × Json) : User × Option JsonError :=
  if matchesField kv.1 "id" then
    ({ st.1 with Id := (storeString kv.2 st.1.Id st.2).1 }, (storeString kv.2 st.1.Id st.2).2)
  else if matchesField kv.1 "user_id" then
    ({ st.1 with UserId := (storeString kv.2 st.1.UserId st.2).1 },
      (storeString kv.2 st.1.UserId st.2).2)
  else if matchesField kv.1 "nickname" then
    ({ st.1 with Nickname := (storeString kv.2 st.1.Nickname st.2).1 },
      (storeString kv.2 st.1.Nickname st.2).2)
  else if matchesField kv.1 "picture" then
    ({ st.1 with Picture := (storeString kv.2 st.1.Picture st.2).1 },
      (storeString kv.2 st.1.Picture st.2).2)
  else if matchesField kv.1 "access_token" then
    ({ st.1 with AccessToken := (storeString kv.2 st.1.AccessToken st.2).1 },
      (storeString kv.2 st.1.AccessToken st.2).2)
  else if matchesField kv.1 "is_active" then
    ({ st.1 with IsActive := (storeBool kv.2 st.1.IsActive st.2).1 },
      (storeBool kv.2 st.1.IsActive st.2).2)
  else st

/-- Store a document into a `*User`: an object field by field, null changes
nothing, any other value is a type error. -/
def storeUser (j : Json) (u : User) : User × Option JsonError :=
  match j with
  | .obj kvs => kvs.foldl storeUserMember (u, none)
  | .null => (u, none)
  | other => (u, some (.unmarshalType other.kind "sendbird.User"))

/-- The struct `Bot`. -/
structure Bot where
  BotToken : String := ""
  BotUserId : String := ""
  BotNickname : String := ""
  BotCallbackUrl : String := ""
  IsPrivacyMode : Bool := false
deriving DecidableEq, Repr

/-- Store one member of an object into a `Bot`, by the JSON names of its tags. -/
def storeBotMember (st : Bot × Option JsonError) (kv : String × Json) : Bot × Option JsonError :=
  if matchesField kv.1 "bot_token" then
    ({ st.1 with BotToken := (storeString kv.2 st.1.BotToken st.2).1 },
      (storeString kv.2 st.1.BotToken st.2).2)
  else if matchesField kv.1 "bot_userid" then
    ({ st.1 with BotUserId := (storeString kv.2 st.1.BotUserId st.2).1 },
      (storeString kv.2 st.1.BotUserId st.2).2)
  else if matchesField kv.1 "bot_nickname" then
    ({ st.1 with BotNickname := (storeString kv.2 st.1.BotNickname st.2).1 },
      (storeString kv.2 st.1.BotNickname st.2).2)
  else if matchesField kv.1 "bot_callback_url" then
    ({ st.1 with BotCallbackUrl := (storeString kv.2 st.1.BotCallbackUrl st.2).1 },
      (storeString kv.2 st.1.BotCallbackUrl st.2).2)
  else if matchesField kv.1 "is_privacy_mode" then
    ({ st.1 with IsPrivacyMode := (storeBool kv.2 st.1.IsPrivacyMode st.2).1 },
      (storeBool kv.2 st.1.IsPrivacyMode st.2).2)
  else st

/-- Store a document into a `*Bot`. -/
def storeBot (j : Json) (b : Bot) : Bot × Option JsonError :=
  match j with
  | .obj kvs => kvs.foldl storeBotMember (b, none)
  | .null => (b, none)
  | other => (b, some (.unmarshalType other.kind "sendbird.Bot"))

/-- The struct `ConcurrentUserCount`. -/
structure ConcurrentUserCount where
  Count : Int := 0
deriving DecidableEq, Repr

/-- Store one member of an object into a `ConcurrentUserCount`. -/
def storeConcurrentUserCountMember (st : ConcurrentUserCount × Option JsonError)
    (kv : String × Json) : ConcurrentUserCount × Option JsonError :=
  if matchesField kv.1 "count" then
    ({ Count := (storeInt kv.2 st.1.Count st.2).1 }, (storeInt kv.2 st.1.Count st.2).2)
  else st

/-- Store a document into a `*ConcurrentUserCount`. -/
def storeConcurrentUserCount (j : Json) (x : ConcurrentUserCount) :
    ConcurrentUserCount × Option JsonError :=
  match j with
  | .obj kvs => kvs.foldl storeConcurrentUserCountMember (x, none)
  | .null => (x, none)
  | other => (x, some (.unmarshalType other.kind "sendbird.ConcurrentUserCount"))

/-- What a resource operation returns: the typed result (nil when absent), the
`*Response` and the error; `completed` lists the calls made to the completion
callback. -/
structure OpResult (τ : Type) where
  result : Option τ
  resp : Option Response
  err : Option Error
  completed : List (HttpRequest × HttpResponse) := []

/-- The tail shared by the operations that return a typed pointer: after
`resp, err := s.client.Do(req, dest)`, a non-nil error gives `nil, resp, err`,
and otherwise the destination is returned. -/
def finishTyped {τ : Type} (d : Outcome (DoResult τ)) : Outcome (OpResult τ) :=
  match afterDeferred d with
  | .panic => .panic
  | .returned r =>
    match r.err with
    | some e => .returned { result := none, resp := r.response, err := some e, completed := r.completed }
    | none =>
      .returned { result := (match r.v with
                    | .value x => some x
                    | _ => none),
                  resp := r.response, err := none, completed := r.completed }

/-- Create creates a new user account using id / nickname / profile image
combination.  The error of `NewRequest` is overwritten by the next
assignment to `err`; the request, nil when `NewRequest` failed, is handed
to `Do`.  The first component is `*params` after the call. -/
def UserServiceOp.Create (c : SendbirdClient) (params : UserRequest) :
    UserRequest × Outcome (OpResult User) :=
  let path := "/user/create"
  let params1 := params.PopulateAuthApiToken c
  let req := (c.NewRequest (Envelope.encode UserParams.members) "POST" path (some params1)).1
  (params1, finishTyped (c.Do storeUser req (.value {})))

/-- Retrieve a bot.  The error of `NewRequest` is overwritten by the next
assignment to `err`; the request, nil when `NewRequest` failed, is handed
to `Do`. -/
def BotServiceOp.Get (c : SendbirdClient) (botUserId : String) : Outcome (OpResult Bot) :=
  let path := "v2/bots/" ++ botUserId ++ "?api_token=" ++ c.ApiToken
  let req := (c.NewRequest (fun (_ : Unit) => Except.ok Json.null) "GET" path none).1
  finishTyped (c.Do storeBot req (.value {}))

/-- ConcurrentUserCount posts an envelope that holds nothing but the embedded
`RequestDefaults` to `/admin/ccu_count`. -/
def AdminServiceOp.ConcurrentUserCount (c : SendbirdClient) : Outcome (OpResult ConcurrentUserCount) :=
  let path := "/admin/ccu_count"
  let params : Envelope Unit := { params := () }
  let params1 := params.PopulateAuthApiToken c
  let req := (c.NewRequest (Envelope.encode fun _ => []) "POST" path (some params1)).1
  finishTyped (c.Do storeConcurrentUserCount req (.value {}))

/-! ## Query strings (`url.ParseQuery`) -/

/-- Split at every occurrence of `sep`. -/
def splitSep (sep : Char) : List Char → List (List Char)
  | [] => [[]]
  | c :: cs =>
    if c == sep then [] :: splitSep sep cs
    else
      match splitSep sep cs with
      | [] => [[c]]
      | e :: es => (c :: e) :: es

/-- The settings of a query string (`url.Values`), as a list in the order of
the query. -/
abbrev Values := List (String × String)

/-- One `key=value` setting of a query string, unescaped (`QueryUnescape`); a
setting that is empty, holds a semicolon or has a malformed escape is dropped. -/
def parseSetting (kv : List Char) : Option (String × String) :=
  if kv.contains ';' || kv.isEmpty then none
  else
    match unescapeChars .encodeQueryComponent (cut '=' kv).1,
        unescapeChars .encodeQueryComponent (cut '=' kv).2.1 with
    | .ok k, .ok v => some (String.mk k, String.mk v)
    | _, _ => none

/-- The settings of a query string, in order (`url.ParseQuery`, whose error
`URL.Query` and `Request.ParseForm` leave aside). -/
def parseQuery (query : String) : Values :=
  (splitSep '&' query.data).filterMap parseSetting

/-- The parsed query of a URL (`URL.Query`). -/
def URL.Query (u : URL) : Values := parseQuery u.RawQuery

/-- The first value of a parameter, empty when it is absent (`Values.Get`). -/
def valuesGet (vs : Values) (key : String) : String :=
  match vs.find? (fun kv => kv.1 == key) with
  | some kv => kv.2
  | none => ""

/-! ## Slices and the records of the chat and bot services -/

/-- A Go slice: nil, or a sequence of elements. -/
abbrev Slice (α : Type) := Option (List α)

/-- Store the elements of an array one by one: element `i` is decoded into the
element the slice already holds at `i`, or into the zero value. -/
def storeElems {α : Type} (elem : Json → α → Option JsonError → α × Option JsonError) (zero : α) :
    List Json → List α → Option JsonError → List α × Option JsonError
  | [], _, saved => ([], saved)
  | j :: js, cur, saved =>
    ((elem j (cur.headD zero) saved).1 ::
        (storeElems elem zero js cur.tail (elem j (cur.headD zero) saved).2).1,
      (storeElems elem zero js cur.tail (elem j (cur.headD zero) saved).2).2)

/-- Store a document into a slice: an array replaces the elements (an empty
array gives an empty, non-nil slice), null sets the slice to nil, anything
else is a type error. -/
def storeSlice {α : Type} (elem : Json → α → Option JsonError → α × Option JsonError) (zero : α)
    (goType : String) (j : Json) (cur : Slice α) (saved : Option JsonError) :
    Slice α × Option JsonError :=
  match j with
  | .arr xs => (some (storeElems elem zero xs (cur.getD []) saved).1,
      (storeElems elem zero xs (cur.getD []) saved).2)
  | .null => (none, saved)
  | other => (cur, saveError saved (.unmarshalType other.kind goType))

/-- Store a document into a Go struct whose members are stored by `member`: an
object member by member, null changes nothing, anything else is a type error. -/
def storeStruct {α : Type} (member : α × Option JsonError → String × Json → α × Option JsonError)
    (goType : String) (j : Json) (cur : α) (saved : Option JsonError) : α × Option JsonError :=
  match j with
  | .obj kvs => kvs.foldl member (cur, saved)
  | .null => (cur, saved)
  | other => (cur, saveError saved (.unmarshalType other.kind goType))

/-- Store a document into a `[]string`. -/
def storeStringSlice (j : Json) (cur : Slice String) (saved : Option JsonError) :
    Slice String × Option JsonError :=
  storeSlice storeString "" "[]string" j cur saved

/-- The struct `ChatChannel`. -/
structure ChatChannel where
  Id : Int := 0
  Name : String := ""
  ChannelUrl : String := ""
  MemberCount : Int := 0
  CoverUrl : String := ""
  CoverImageUrl : String := ""
  Data : String := ""
  CreatedAt : Int := 0
deriving DecidableEq, Repr

/-- Store one member of an object into a `ChatChannel`, by the JSON names of its tags. -/
def storeChatChannelMember (st : ChatChannel × Option JsonError) (kv : String × Json) :
    ChatChannel × Option JsonError :=
  if matchesField kv.1 "id" then
    ({ st.1 with Id := (storeInt kv.2 st.1.Id st.2).1 }, (storeInt kv.2 st.1.Id st.2).2)
  else if matchesField kv.1 "name" then
    ({ st.1 with Name := (storeString kv.2 st.1.Name st.2).1 },
      (storeString kv.2 st.1.Name st.2).2)
  else if matchesField kv.1 "channel_url" then
    ({ st.1 with ChannelUrl := (storeString kv.2 st.1.ChannelUrl st.2).1 },
      (storeString kv.2 st.1.ChannelUrl st.2).2)
  else if matchesField kv.1 "member_count" then
    ({ st.1 with MemberCount := (storeInt kv.2 st.1.MemberCount st.2).1 },
      (storeInt kv.2 st.1.MemberCount st.2).2)
  else if matchesField kv.1 "cover_url" then
    ({ st.1 with CoverUrl := (storeString kv.2 st.1.CoverUrl st.2).1 },
      (storeString kv.2 st.1.CoverUrl st.2).2)
  else if matchesField kv.1 "cover_image_url" then
    ({ st.1 with CoverImageUrl := (storeString kv.2 st.1.CoverImageUrl st.2).1 },
      (storeString kv.2 st.1.CoverImageUrl st.2).2)
  else if matchesField kv.1 "data" then
    ({ st.1 with Data := (storeString kv.2 st.1.Data st.2).1 },
      (storeString kv.2 st.1.Data st.2).2)
  else if matchesField kv.1 "created_at" then
    ({ st.1 with CreatedAt := (storeInt64 kv.2 st.1.CreatedAt st.2).1 },
      (storeInt64 kv.2 st.1.CreatedAt st.2).2)
  else st

/-- Store a document into a `ChatChannel` that is an element or a field. -/
def storeChatChannelValue (j : Json) (cur : ChatChannel) (saved : Option JsonError) :
    ChatChannel × Option JsonError :=
  storeStruct storeChatChannelMember "sendbird.ChatChannel" j cur saved

/-- Store a document into a `*ChatChannel`. -/
def storeChatChannel (j : Json) (x : ChatChannel) : ChatChannel × Option JsonError :=
  storeChatChannelValue j x none

/-- Store a document into a `*[]ChatChannel`. -/
def storeChatChannels (j : Json) (cur : Slice ChatChannel) : Slice ChatChannel × Option JsonError :=
  storeSlice storeChatChannelValue {} "[]sendbird.ChatChannel" j cur none

/-- The struct `ChatChannelUpdate`: an embedded `ChatChannel` and the operators. -/
structure ChatChannelUpdate extends ChatChannel where
  Ops : Slice String := none
deriving DecidableEq, Repr

/-- Store one member of an object into a `ChatChannelUpdate`: `ops`, or a
promoted field of the embedded `ChatChannel`. -/
def storeChatChannelUpdateMember (st : ChatChannelUpdate × Option JsonError) (kv : String × Json) :
    ChatChannelUpdate × Option JsonError :=
  if matchesField kv.1 "ops" then
    ({ st.1 with Ops := (storeStringSlice kv.2 st.1.Ops st.2).1 },
      (storeStringSlice kv.2 st.1.Ops st.2).2)
  else
    ({ st.1 with
        toChatChannel := (storeChatChannelMember (st.1.toChatChannel, st.2) kv).1 },
      (storeChatChannelMember (st.1.toChatChannel, st.2) kv).2)

/-- Store a document into a `*ChatChannelUpdate`. -/
def storeChatChannelUpdate (j : Json) (x : ChatChannelUpdate) :
    ChatChannelUpdate × Option JsonError :=
  storeStruct storeChatChannelUpdateMember "sendbird.ChatChannelUpdate" j x none

/-- The own fields of `ChatChannelRequest`. -/
structure ChatChannelParams where
  ChannelUrl : String := ""
  Name : String := ""
  CoverUrl : String := ""
  Data : String := ""
deriving DecidableEq, Repr

/-- The struct `ChatChannelRequest`. -/
abbrev ChatChannelRequest := Envelope ChatChannelParams

/-- The members the own fields of a `ChatChannelRequest` encode to (all `omitempty`). -/
def ChatChannelParams.members (p : ChatChannelParams) : List (String × Json) :=
  omitEmptyString "channel_url" p.ChannelUrl ++ omitEmptyString "name" p.Name ++
    omitEmptyString "cover_url" p.CoverUrl ++ omitEmptyString "data" p.Data

/-- The member a `[]string` field tagged `omitempty` encodes to: none when the
slice is nil or empty. -/
def omitEmptyStrings (name : String) (value : Slice String) : List (String × Json) :=
  match value with
  | none => []
  | some [] => []
  | some xs => [(name, .arr (xs.map Json.str))]

/-- The own fields of `ChatChannelUpdateRequest`. -/
structure ChatChannelUpdateParams where
  ChannelUrl : String := ""
  Name : String := ""
  CoverUrl : String := ""
  Data : String := ""
  TargetChannelUrl : String := ""
  Ops : Slice String := none
deriving DecidableEq, Repr

/-- The struct `ChatChannelUpdateRequest`. -/
abbrev ChatChannelUpdateRequest := Envelope ChatChannelUpdateParams

/-- The members the own fields of a `ChatChannelUpdateRequest` encode to (all `omitempty`). -/
def ChatChannelUpdateParams.members (p : ChatChannelUpdateParams) : List (String × Json) :=
  omitEmptyString "channel_url" p.ChannelUrl ++ omitEmptyString "name" p.Name ++
    omitEmptyString "cover_url" p.CoverUrl ++ omitEmptyString "data" p.Data ++
    omitEmptyString "target_channel_url" p.TargetChannelUrl ++ omitEmptyStrings "ops" p.Ops

/-- The function `mapCoverImageUrlToCoverUrl`: every record of the slice gets
its `CoverImageUrl` as `CoverUrl`. -/
def mapCoverImageUrlToCoverUrl (chatChannels : List ChatChannel) : List ChatChannel :=
  chatChannels.map fun ch => { ch with CoverUrl := ch.CoverImageUrl }

/-- The tail shared by the operations that return a slice: a non-nil error
gives a nil slice, and otherwise the destination slice, after `post` has
worked on it, is returned. -/
def finishSlice {τ : Type} (post : List τ → List τ) (d : Outcome (DoResult (Slice τ))) :
    Outcome (OpResult (List τ)) :=
  match afterDeferred d with
  | .panic => .panic
  | .returned r =>
    match r.err with
    | some e => .returned { result := none, resp := r.response, err := some e, completed := r.completed }
    | none =>
      .returned { result := (match r.v with
                    | .value x => x.map post
                    | _ => none),
                  resp := r.response, err := none, completed := r.completed }

/-- Create a channel using channel URL / name.  The first component is
`*params` after the call. -/
def ChatChannelServiceOp.Create (c : SendbirdClient) (params : ChatChannelRequest) :
    ChatChannelRequest × Outcome (OpResult ChatChannel) :=
  let path := "/channel/create"
  let params1 := params.PopulateAuthApiToken c
  let req := (c.NewRequest (Envelope.encode ChatChannelParams.members) "POST" path (some params1)).1
  (params1, finishTyped (c.Do storeChatChannel req (.value {})))

/-- Retrieve channel list.  `mapCoverImageUrlToCoverUrl` runs on the
destination slice before the error is looked at. -/
def ChatChannelServiceOp.List (c : SendbirdClient) : Outcome (OpResult (List ChatChannel)) :=
  let path := "/channel/list"
  let params : Envelope Unit := { params := () }
  let params1 := params.PopulateAuthApiToken c
  let req := (c.NewRequest (Envelope.encode fun _ => []) "POST" path (some params1)).1
  finishSlice mapCoverImageUrlToCoverUrl (c.Do storeChatChannels req (.value (some [])))

/-- Update a channel's information.  `CoverUrl` is overwritten with
`CoverImageUrl` before the error is looked at.  The first component is
`*params` after the call. -/
def ChatChannelServiceOp.Update (c : SendbirdClient) (params : ChatChannelUpdateRequest) :
    ChatChannelUpdateRequest × Outcome (OpResult ChatChannelUpdate) :=
  let path := "/channel/update"
  let params1 := params.PopulateAuthApiToken c
  let req :=
    (c.NewRequest (Envelope.encode ChatChannelUpdateParams.members) "POST" path (some params1)).1
  (params1,
    match finishTyped (c.Do storeChatChannelUpdate req (.value {})) with
    | .panic => .panic
    | .returned r =>
      .returned { r with result := r.result.map fun ch => { ch with CoverUrl := ch.CoverImageUrl } })

/-! ## The bot service (`bot.go`) -/

/-- The own fields of `BotRequest`. -/
structure BotParams where
  BotUserId : String := ""
  BotNickname : String := ""
  BotCallbackUrl : String := ""
  IsPrivacyMode : Bool := false
deriving DecidableEq, Repr

/-- The struct `BotRequest`. -/
abbrev BotRequest := EnvelopeV2 BotParams

/-- The members the own fields of a `BotRequest` encode to. -/
def BotParams.members (p : BotParams) : List (String × Json) :=
  [("bot_userid", .str p.BotUserId), ("bot_nickname", .str p.BotNickname),
    ("bot_callback_url", .str p.BotCallbackUrl), ("is_privacy_mode", .bool p.IsPrivacyMode)]

/-- The own fields of `BotUpdateRequest`. -/
structure BotUpdateParams where
  BotNickname : String := ""
  BotCallbackUrl : String := ""
  IsPrivacyMode : Bool := false
deriving DecidableEq, Repr

/-- The struct `BotUpdateRequest`. -/
abbrev BotUpdateRequest := EnvelopeV2 BotUpdateParams

/-- The members the own fields of a `BotUpdateRequest` encode to. -/
def BotUpdateParams.members (p : BotUpdateParams) : List (String × Json) :=
  [("bot_nickname", .str p.BotNickname), ("bot_callback_url", .str p.BotCallbackUrl),
    ("is_privacy_mode", .bool p.IsPrivacyMode)]

/-- The own fields of `BotMessageRequest`. -/
structure BotMessageParams where
  Message : String := ""
  Data : String := ""
  ChannelUrl : String := ""
deriving DecidableEq, Repr

/-- The struct `BotMessageRequest`. -/
abbrev BotMessageRequest := EnvelopeV2 BotMessageParams

/-- The members the own fields of a `BotMessageRequest` encode to. -/
def BotMessageParams.members (p : BotMessageParams) : List (String × Json) :=
  [("message", .str p.Message), ("data", .str p.Data), ("channel_url", .str p.ChannelUrl)]

/-- The struct `BotUserId`. -/
structure BotUserId where
  BotUserId : String := ""
deriving DecidableEq, Repr

/-- Store one member of an object into a `BotUserId`. -/
def storeBotUserIdMember (st : BotUserId × Option JsonError) (kv : String × Json) :
    BotUserId × Option JsonError :=
  if matchesField kv.1 "bot_userid" then
    ({ BotUserId := (storeString kv.2 st.1.BotUserId st.2).1 },
      (storeString kv.2 st.1.BotUserId st.2).2)
  else st

/-- Store a document into a `*BotUserId`. -/
def storeBotUserId (j : Json) (x : BotUserId) : BotUserId × Option JsonError :=
  storeStruct storeBotUserIdMember "sendbird.BotUserId" j x none

/-- The struct `BotMessage`. -/
structure BotMessage where
  BotUserId : String := ""
  Message : String := ""
  Data : String := ""
  ChannelUrl : String := ""
deriving DecidableEq, Repr

/-- Store one member of an object into a `BotMessage`, by the JSON names of its tags. -/
def storeBotMessageMember (st : BotMessage × Option JsonError) (kv : String × Json) :
    BotMessage × Option JsonError :=
  if matchesField kv.1 "bot_userid" then
    ({ st.1 with BotUserId := (storeString kv.2 st.1.BotUserId st.2).1 },
      (storeString kv.2 st.1.BotUserId st.2).2)
  else if matchesField kv.1 "message" then
    ({ st.1 with Message := (storeString kv.2 st.1.Message st.2).1 },
      (storeString kv.2 st.1.Message st.2).2)
  else if matchesField kv.1 "data" then
    ({ st.1 with Data := (storeString kv.2 st.1.Data st.2).1 },
      (storeString kv.2 st.1.Data st.2).2)
  else if matchesField kv.1 "channel_url" then
    ({ st.1 with ChannelUrl := (storeString kv.2 st.1.ChannelUrl st.2).1 },
      (storeString kv.2 st.1.ChannelUrl st.2).2)
  else st

/-- Store a document into a `*BotMessage`. -/
def storeBotMessage (j : Json) (x : BotMessage) : BotMessage × Option JsonError :=
  storeStruct storeBotMessageMember "sendbird.BotMessage" j x none

/-- Store a document into a `Bot` that is an element of a slice. -/
def storeBotValue (j : Json) (cur : Bot) (saved : Option JsonError) : Bot × Option JsonError :=
  storeStruct storeBotMember "sendbird.Bot" j cur saved

/-- Store a document into a `*[]Bot`. -/
def storeBots (j : Json) (cur : Slice Bot) : Slice Bot × Option JsonError :=
  storeSlice storeBotValue {} "[]sendbird.Bot" j cur none

/-- Create a bot.  The first component is `*params` after the call. -/
def BotServiceOp.Create (c : SendbirdClient) (params : BotRequest) :
    BotRequest × Outcome (OpResult Bot) :=
  let path := "/v2/bots"
  let params1 := params.PopulateApiV2Token c
  let req := (c.NewRequest (EnvelopeV2.encode BotParams.members) "POST" path (some params1)).1
  (params1, finishTyped (c.Do storeBot req (.value {})))

/-- Send Message.  The first component is `*params` after the call. -/
def BotServiceOp.SendMessage (c : SendbirdClient) (botUserId : String)
    (params : BotMessageRequest) : BotMessageRequest × Outcome (OpResult BotMessage) :=
  let path := "v2/bots/" ++ botUserId ++ "/send"
  let params1 := params.PopulateApiV2Token c
  let req := (c.NewRequest (EnvelopeV2.encode BotMessageParams.members) "POST" path (some params1)).1
  (params1, finishTyped (c.Do storeBotMessage req (.value {})))

/-- Get a list of bots in your application. -/
def BotServiceOp.List (c : SendbirdClient) : Outcome (OpResult (List Bot)) :=
  let path := "v2/bots?api_token=" ++ c.ApiToken
  let req := (c.NewRequest (fun (_ : Unit) => Except.ok Json.null) "GET" path none).1
  finishSlice id (c.Do storeBots req (.value (some [])))

/-- Update a bot.  The first component is `*params` after the call. -/
def BotServiceOp.Update (c : SendbirdClient) (botUserId : String) (params : BotUpdateRequest) :
    BotUpdateRequest × Outcome (OpResult Bot) :=
  let path := "v2/bots/" ++ botUserId
  let params1 := params.PopulateApiV2Token c
  let req := (c.NewRequest (EnvelopeV2.encode BotUpdateParams.members) "POST" path (some params1)).1
  (params1, finishTyped (c.Do storeBot req (.value {})))

/-- Delete a bot. -/
def BotServiceOp.Delete (c : SendbirdClient) (botUserId : String) : Outcome (OpResult BotUserId) :=
  let params : EnvelopeV2 Unit := { params := () }
  let params1 := params.PopulateApiV2Token c
  let path := "v2/bots/" ++ botUserId
  let req := (c.NewRequest (EnvelopeV2.encode fun _ => []) "DELETE" path (some params1)).1
  finishTyped (c.Do storeBotUserId req (.value {}))

/-- The struct `BotCallback`: the payload of an inbound notification. -/
structure BotCallback where
  BotUserId : String := ""
  Category : String := ""
  Timestamp : Int := 0
  BotToken : String := ""
  BotNickname : String := ""
  SenderUsername : String := ""
  SenderNickname : String := ""
  Message : String := ""
  Data : String := ""
  Mentioned : Slice String := none
  ChannelType : String := ""
  ChannelURl : String := ""
deriving DecidableEq, Repr

/-- Store one member of an object into a `BotCallback`, by the JSON names of its tags. -/
def storeBotCallbackMember (st : BotCallback × Option JsonError) (kv : String × Json) :
    BotCallback × Option JsonError :=
  if matchesField kv.1 "bot_userid" then
    ({ st.1 with BotUserId := (storeString kv.2 st.1.BotUserId st.2).1 },
      (storeString kv.2 st.1.BotUserId st.2).2)
  else if matchesField kv.1 "bot_message_notification" then
    ({ st.1 with Category := (storeString kv.2 st.1.Category st.2).1 },
      (storeString kv.2 st.1.Category st.2).2)
  else if matchesField kv.1 "ts" then
    ({ st.1 with Timestamp := (storeInt64 kv.2 st.1.Timestamp st.2).1 },
      (storeInt64 kv.2 st.1.Timestamp st.2).2)
  else if matchesField kv.1 "bot_token" then
    ({ st.1 with BotToken := (storeString kv.2 st.1.BotToken st.2).1 },
      (storeString kv.2 st.1.BotToken st.2).2)
  else if matchesField kv.1 "bot_nickname" then
    ({ st.1 with BotNickname := (storeString kv.2 st.1.BotNickname st.2).1 },
      (storeString kv.2 st.1.BotNickname st.2).2)
  else if matchesField kv.1 "sender_username" then
    ({ st.1 with SenderUsername := (storeString kv.2 st.1.SenderUsername st.2).1 },
      (storeString kv.2 st.1.SenderUsername st.2).2)
  else if matchesField kv.1 "sender_nickname" then
    ({ st.1 with SenderNickname := (storeString kv.2 st.1.SenderNickname st.2).1 },
      (storeString kv.2 st.1.SenderNickname st.2).2)
  else if matchesField kv.1 "message" then
    ({ st.1 with Message := (storeString kv.2 st.1.Message st.2).1 },
      (storeString kv.2 st.1.Message st.2).2)
  else if matchesField kv.1 "data" then
    ({ st.1 with Data := (storeString kv.2 st.1.Data st.2).1 },
      (storeString kv.2 st.1.Data st.2).2)
  else if matchesField kv.1 "mentioned" then
    ({ st.1 with Mentioned := (storeStringSlice kv.2 st.1.Mentioned st.2).1 },
      (storeStringSlice kv.2 st.1.Mentioned st.2).2)
  else if matchesField kv.1 "channel_type" then
    ({ st.1 with ChannelType := (storeString kv.2 st.1.ChannelType st.2).1 },
      (storeString kv.2 st.1.ChannelType st.2).2)
  else if matchesField kv.1 "channel_url" then
    ({ st.1 with ChannelURl := (storeString kv.2 st.1.ChannelURl st.2).1 },
      (storeString kv.2 st.1.ChannelURl st.2).2)
  else st

/-- The call `json.Unmarshal(read, callbackData)` for a new `BotCallback`: the
payload and the error. -/
def unmarshalBotCallback (data : String) : BotCallback × Option JsonError :=
  match parseJSON data with
  | none => ({}, some .syntaxError)
  | some j => storeStruct storeBotCallbackMember "sendbird.BotCallback" j {} none

/-- What `log.Fatal` was given: a text, and the error of `encoding/json` whose
message is appended to the text, if one is. -/
structure Logged where
  text : String
  err : Option JsonError := none
deriving DecidableEq, Repr

/-- What a run of `Handler` leaves behind.  `log.Fatal` prints its message and
calls `os.Exit(1)`: the process ends and nothing is written to the response.
Otherwise the handler returns after `WriteHeader(status)`, having started the
registered callback once for every payload in `dispatched`. -/
inductive HandlerOutcome where
  | exited (code : Nat) (logged : Logged)
  | responded (status : Nat) (dispatched : List BotCallback)
deriving DecidableEq, Repr

/-- The status code `http.StatusBadRequest`. -/
def StatusBadRequest : Nat := 400

/-- The status code `http.StatusOK`. -/
def StatusOK : Nat := 200

/-- Handler serves an inbound notification: `body` is the body of the inbound
request and `MessageReceived` tells whether a callback is registered.  After
each `log.Fatal` the source has `rw.WriteHeader(http.StatusBadRequest)` and
`return`, which are never reached. -/
def BotServiceOp.Handler (MessageReceived : Bool) (body : Body) : HandlerOutcome :=
  match ReadAll body with
  | (_, some err, _) => .exited 1 { text := err }
  | (read, none, _) =>
    match unmarshalBotCallback read with
    | (_, some e) => .exited 1 { text := "Couldn't parse sendbird json:", err := some e }
    | (callbackData, none) =>
      .responded StatusOK (if MessageReceived then [callbackData] else [])

/-! ## Observing a call -/

/-- A client made by `NewClient` for a service that answers every request with
the given status and body and echoes the request in the response, with the
completion callback registered: the arrangement of the package's tests. -/
def stubClient (apiToken : String) (status : Int) (body : String) : SendbirdClient :=
  (NewClient (fun _ => .error "no default client") "APP_ID" apiToken
    (some fun rq => .ok { StatusCode := status, Request := some rq, Body := { data := body } })
  ).OnRequestCompleted

/-- The same client with another base endpoint assigned to `BaseURL`. -/
def stubClientAt (base : URL) (apiToken : String) (status : Int) (body : String) : SendbirdClient :=
  { stubClient apiToken status body with BaseURL := base }

/-- The requests a call handed to the HTTP client, in order, as the completion
callback saw them. -/
def sentRequests {τ : Type} (o : Outcome (OpResult τ)) : List HttpRequest :=
  match o with
  | .panic => []
  | .returned r => r.completed.map Prod.fst

/-- The typed result a call returned; `none` for nil or a panic. -/
def returnedResult {τ : Type} (o : Outcome (OpResult τ)) : Option τ :=
  match o with
  | .panic => none
  | .returned r => r.result

/-- The error a call returned; `none` for nil or a panic. -/
def returnedError {τ : Type} (o : Outcome (OpResult τ)) : Option Error :=
  match o with
  | .panic => none
  | .returned r => r.err

/-- Did the call panic? -/
def panicked {ρ : Type} (o : Outcome ρ) : Bool :=
  match o with
  | .panic => true
  | .returned _ => false

/-- Does `Do`, handed the request, leave a nil `Body` to its deferred `Close`?
The HTTP client answered, the status check reported an error, and the body it
decoded has set the field `Body` of the response to nil. -/
def SendbirdClient.closesNilBody (c : SendbirdClient) (rq : HttpRequest) : Bool :=
  match c.client rq with
  | .error _ => false
  | .ok resp => (CheckResponse resp).2.isSome && (CheckResponse resp).1.NilBody

/-! ## What a response reports -/

/-- The value of the last member of an object whose key selects the field
called `name`: the member the decoder stores last. -/
def lastMember (name : String) (kvs : List (String × Json)) : Option Json :=
  kvs.foldl (fun acc kv => if matchesField kv.1 name then some kv.2 else acc) none

/-- The string a record reports under `name`: the record is an object and the
last member that selects `name` is a string. -/
def reportedString (name : String) (j : Json) : Option String :=
  match j with
  | .obj kvs =>
    match lastMember name kvs with
    | some (.str s) => some s
    | _ => none
  | _ => none

/-! ## Plain URL text -/

/-- The characters of a plain path segment: ASCII letters, digits and the
marks a path carries without escape, `-_.~$&+,:;=@`. -/
def segmentChars : List Char :=
  "abcdefghijklmnopqrstuvwxyzABCDEFGHIJKLMNOPQRSTUVWXYZ0123456789-_.~$&+,:;=@".data

/-- The characters of a plain path: those of a segment, and the slash. -/
def pathChars : List Char := '/' :: segmentChars

/-- The characters of a plain host name: ASCII letters, digits and `-_.~`. -/
def hostChars : List Char :=
  "abcdefghijklmnopqrstuvwxyzABCDEFGHIJKLMNOPQRSTUVWXYZ0123456789-_.~".data

/-- The characters of a port: decimal digits. -/
def portChars : List Char := "0123456789".data

/-- The characters a plain scheme starts with: lower-case ASCII letters. -/
def schemeChars : List Char := "abcdefghijklmnopqrstuvwxyz".data

/-- The characters a plain scheme goes on with: lower-case ASCII letters,
digits and `+-.`. -/
def schemeTailChars : List Char := "abcdefghijklmnopqrstuvwxyz0123456789+-.".data

/-- The text of a host with an optional port, `host` or `host:port`. -/
def hostPort (h : List Char) (port : Option (List Char)) : List Char :=
  match port with
  | none => h
  | some ds => h ++ ':' :: ds

/-- The text of a path with an optional query, `path` or `path?query`. -/
def pathQuery (path : List Char) (query : Option (List Char)) : List Char :=
  match query with
  | none => path
  | some q => path ++ '?' :: q

/-- Does the reference end in a bare question mark (an empty query that is
written all the same)? -/
def queryForced (query : Option (List Char)) : Bool :=
  match query with
  | some q => q.isEmpty
  | none => false

/-! ## Operations without a typed result (`user.go`, `chatchannel.go`, `admin.go`) -/

/-- The store of a destination that is never decoded into. -/
def storeNothing (_ : Json) (x : Unit) : Unit × Option JsonError := (x, none)

/-- The own fields of `BlockRequest`. -/
structure BlockParams where
  Id : String := ""
  TargetId : String := ""
deriving DecidableEq, Repr

/-- The struct `BlockRequest`. -/
abbrev BlockRequest := Envelope BlockParams

/-- The members the own fields of a `BlockRequest` encode to. -/
def BlockParams.members (p : BlockParams) : List (String × Json) :=
  [("id", .str p.Id)] ++ omitEmptyString "target_id" p.TargetId

/-- The own field of `DeactivateRequest`, and of the anonymous structs that
hold the embedded `RequestDefaults` and a field tagged `id`. -/
structure IdParams where
  Id : String := ""
deriving DecidableEq, Repr

/-- The struct `DeactivateRequest`. -/
abbrev DeactivateRequest := Envelope IdParams

/-- The member the own field of a `DeactivateRequest` encodes to. -/
def IdParams.members (p : IdParams) : List (String × Json) :=
  [("id", .str p.Id)]

/-- The own fields of `ChatChannelMessageRequest`. -/
structure ChatChannelMessageParams where
  Id : String := ""
  ChannelUrl : String := ""
  Message : String := ""
  Data : String := ""
deriving DecidableEq, Repr

/-- The struct `ChatChannelMessageRequest`. -/
abbrev ChatChannelMessageRequest := Envelope ChatChannelMessageParams

/-- The members the own fields of a `ChatChannelMessageRequest` encode to. -/
def ChatChannelMessageParams.members (p : ChatChannelMessageParams) : List (String × Json) :=
  [("id", .str p.Id)] ++ omitEmptyString "channel_url" p.ChannelUrl ++
    [("message", .str p.Message), ("data", .str p.Data)]

/-- The own fields of `BroadcastMessageRequest`. -/
structure BroadcastMessageParams where
  ChannelUrls : Slice String := none
  Message : String := ""
  Persistent : Bool := false
  Data : String := ""
deriving DecidableEq, Repr

/-- The struct `BroadcastMessageRequest`. -/
abbrev BroadcastMessageRequest := Envelope BroadcastMessageParams

/-- The members the own fields of a `BroadcastMessageRequest` encode to (all
`omitempty`; the list of channel urls is tagged `channel_url`). -/
def BroadcastMessageParams.members (p : BroadcastMessageParams) : List (String × Json) :=
  omitEmptyStrings "channel_url" p.ChannelUrls ++ omitEmptyString "message" p.Message ++
    omitEmptyBool "persistent" p.Persistent ++ omitEmptyString "data" p.Data

/-- Block blocks a target user.  The destination handed to `Do` is a nil
interface; the operation returns what `Do` returned.  The first component is
`*params` after the call. -/
def UserServiceOp.Block (c : SendbirdClient) (params : BlockRequest) :
    BlockRequest × Outcome (DoResult Unit) :=
  let path := "/user/block"
  let params1 := params.PopulateAuthApiToken c
  let req := (c.NewRequest (Envelope.encode BlockParams.members) "POST" path (some params1)).1
  (params1, afterDeferred (c.Do storeNothing req .nil))

/-- Unblock unblocks a target user. -/
def UserServiceOp.UnBlock (c : SendbirdClient) (params : BlockRequest) :
    BlockRequest × Outcome (DoResult Unit) :=
  let path := "/user/unblock"
  let params1 := params.PopulateAuthApiToken c
  let req := (c.NewRequest (Envelope.encode BlockParams.members) "POST" path (some params1)).1
  (params1, afterDeferred (c.Do storeNothing req .nil))

/-- Deactivate deactivates a user. -/
def UserServiceOp.Deactivate (c : SendbirdClient) (params : DeactivateRequest) :
    DeactivateRequest × Outcome (DoResult Unit) :=
  let path := "/user/deactivate"
  let params1 := params.PopulateAuthApiToken c
  let req := (c.NewRequest (Envelope.encode IdParams.members) "POST" path (some params1)).1
  (params1, afterDeferred (c.Do storeNothing req .nil))

/-- Delete the channel that matches the URL. -/
def ChatChannelServiceOp.Delete (c : SendbirdClient) (channelUrl : String) :
    Outcome (DoResult Unit) :=
  let path := "/channel/delete"
  let params : ChatChannelRequest := { params := { ChannelUrl := channelUrl } }
  let params1 := params.PopulateAuthApiToken c
  let req := (c.NewRequest (Envelope.encode ChatChannelParams.members) "POST" path (some params1)).1
  afterDeferred (c.Do storeNothing req .nil)

/-- Send a message to the given channel. -/
def ChatChannelServiceOp.Send (c : SendbirdClient) (params : ChatChannelMessageRequest) :
    ChatChannelMessageRequest × Outcome (DoResult Unit) :=
  let path := "/channel/send"
  let params1 := params.PopulateAuthApiToken c
  let req :=
    (c.NewRequest (Envelope.encode ChatChannelMessageParams.members) "POST" path (some params1)).1
  (params1, afterDeferred (c.Do storeNothing req .nil))

/-- BroadcastMessages broadcasts an admin message to the channels. -/
def AdminServiceOp.BroadcastMessage (c : SendbirdClient) (params : BroadcastMessageRequest) :
    BroadcastMessageRequest × Outcome (DoResult Unit) :=
  let path := "/admin/broadcast_message"
  let params1 := params.PopulateAuthApiToken c
  let req :=
    (c.NewRequest (Envelope.encode BroadcastMessageParams.members) "POST" path (some params1)).1
  (params1, afterDeferred (c.Do storeNothing req .nil))

/-- MuteAllChannels mutes a user in all channels in your application. -/
def AdminServiceOp.MuteAllChannels (c : SendbirdClient) (userId : String) :
    Outcome (DoResult Unit) :=
  let path := "/admin/mute"
  let params : Envelope IdParams := { params := { Id := userId } }
  let params1 := params.PopulateAuthApiToken c
  let req := (c.NewRequest (Envelope.encode IdParams.members) "POST" path (some params1)).1
  afterDeferred (c.Do storeNothing req .nil)

/-- UnMuteAllChannels unmutes a user to start sending messages in your application. -/
def AdminServiceOp.UnMuteAllChannels (c : SendbirdClient) (userId : String) :
    Outcome (DoResult Unit) :=
  let path := "/admin/unmute"
  let params : Envelope IdParams := { params := { Id := userId } }
  let params1 := params.PopulateAuthApiToken c
  let req := (c.NewRequest (Envelope.encode IdParams.members) "POST" path (some params1)).1
  afterDeferred (c.Do storeNothing req .nil)

/-- Did the HTTP client answer the request with a status of the 200 range?
A nil request, a transport failure and any other status give `false`. -/
def answered2xx (c : SendbirdClient) (req : Option HttpRequest) : Bool :=
  match req with
  | none => false
  | some rq =>
    match c.client rq with
    | .error _ => false
    | .ok resp => decide (200 ≤ resp.StatusCode ∧ resp.StatusCode ≤ 299)

/-! ## The messaging channel service (`messagingchannel.go`) -/

/-- The struct `MessagingChannel`. -/
structure MessagingChannel where
  ChannelUrl : String := ""
  Data : String := ""
  Name : String := ""
  IsGroup : Bool := false
  CoverUrl : String := ""
deriving DecidableEq, Repr

/-- Store one member of an object into a `MessagingChannel`, by the JSON names of its tags. -/
def storeMessagingChannelMember (st : MessagingChannel × Option JsonError) (kv : String × Json) :
    MessagingChannel × Option JsonError :=
  if matchesField kv.1 "channel_url" then
    ({ st.1 with ChannelUrl := (storeString kv.2 st.1.ChannelUrl st.2).1 },
      (storeString kv.2 st.1.ChannelUrl st.2).2)
  else if matchesField kv.1 "data" then
    ({ st.1 with Data := (storeString kv.2 st.1.Data st.2).1 },
      (storeString kv.2 st.1.Data st.2).2)
  else if matchesField kv.1 "name" then
    ({ st.1 with Name := (storeString kv.2 st.1.Name st.2).1 },
      (storeString kv.2 st.1.Name st.2).2)
  else if matchesField kv.1 "is_group" then
    ({ st.1 with IsGroup := (storeBool kv.2 st.1.IsGroup st.2).1 },
      (storeBool kv.2 st.1.IsGroup st.2).2)
  else if matchesField kv.1 "cover_url" then
    ({ st.1 with CoverUrl := (storeString kv.2 st.1.CoverUrl st.2).1 },
      (storeString kv.2 st.1.CoverUrl st.2).2)
  else st

/-- Store a document into a `MessagingChannel` that is a field. -/
def storeMessagingChannelValue (j : Json) (cur : MessagingChannel) (saved : Option JsonError) :
    MessagingChannel × Option JsonError :=
  storeStruct storeMessagingChannelMember "sendbird.MessagingChannel" j cur saved

/-- The struct `MessagingChannelResponse`: the record under the key `channel`. -/
structure MessagingChannelResponse where
  Channel : MessagingChannel := {}
deriving DecidableEq, Repr

/-- Store one member of an object into a `MessagingChannelResponse`. -/
def storeMessagingChannelResponseMember (st : MessagingChannelResponse × Option JsonError)
    (kv : String × Json) : MessagingChannelResponse × Option JsonError :=
  if matchesField kv.1 "channel" then
    ({ Channel := (storeMessagingChannelValue kv.2 st.1.Channel st.2).1 },
      (storeMessagingChannelValue kv.2 st.1.Channel st.2).2)
  else st

/-- Store a document into a `*MessagingChannelResponse`. -/
def storeMessagingChannelResponse (j : Json) (x : MessagingChannelResponse) :
    MessagingChannelResponse × Option JsonError :=
  storeStruct storeMessagingChannelResponseMember "sendbird.MessagingChannelResponse" j x none

/-- The own fields of `MessagingChannelRequest`. -/
structure MessagingChannelParams where
  Name : String := ""
  IsGroup : Bool := false
  CoverUrl : String := ""
  Data : String := ""
deriving DecidableEq, Repr

/-- The struct `MessagingChannelRequest`. -/
abbrev MessagingChannelRequest := Envelope MessagingChannelParams

/-- The members the own fields of a `MessagingChannelRequest` encode to (all `omitempty`). -/
def MessagingChannelParams.members (p : MessagingChannelParams) : List (String × Json) :=
  omitEmptyString "name" p.Name ++ omitEmptyBool "is_group" p.IsGroup ++
    omitEmptyString "cover_url" p.CoverUrl ++ omitEmptyString "data" p.Data

/-- The own fields of `MessagingChannelUpdateRequest`. -/
structure MessagingChannelUpdateParams where
  Name : String := ""
  IsGroup : Bool := false
  CoverUrl : String := ""
  Data : String := ""
  ChannelUrl : String := ""
deriving DecidableEq, Repr

/-- The struct `MessagingChannelUpdateRequest`. -/
abbrev MessagingChannelUpdateRequest := Envelope MessagingChannelUpdateParams

/-- The members the own fields of a `MessagingChannelUpdateRequest` encode to (all `omitempty`). -/
def MessagingChannelUpdateParams.members (p : MessagingChannelUpdateParams) :
    List (String × Json) :=
  omitEmptyString "name" p.Name ++ omitEmptyBool "is_group" p.IsGroup ++
    omitEmptyString "cover_url" p.CoverUrl ++ omitEmptyString "data" p.Data ++
    omitEmptyString "channel_url" p.ChannelUrl

/-- The tail shared by `Messaging.Create` and `Messaging.Update`: a non-nil
error gives `nil, resp, err`, and otherwise the address of the field `Channel`
of the decoded response is returned. -/
def finishChannel (d : Outcome (DoResult MessagingChannelResponse)) :
    Outcome (OpResult MessagingChannel) :=
  match finishTyped d with
  | .panic => .panic
  | .returned r =>
    .returned { result := r.result.map fun m => m.Channel, resp := r.resp, err := r.err,
                completed := r.completed }

/-- Create creates a group messaging channel using given name.  The first
component is `*params` after the call. -/
def MessagingChannelServiceOp.Create (c : SendbirdClient) (params : MessagingChannelRequest) :
    MessagingChannelRequest × Outcome (OpResult MessagingChannel) :=
  let path := "/messaging/create"
  let params1 := params.PopulateAuthApiToken c
  let req :=
    (c.NewRequest (Envelope.encode MessagingChannelParams.members) "POST" path (some params1)).1
  (params1, finishChannel (c.Do storeMessagingChannelResponse req (.value {})))

/-- Update updates a group messaging channel using given channel_url.  The
first component is `*params` after the call. -/
def MessagingChannelServiceOp.Update (c : SendbirdClient)
    (params : MessagingChannelUpdateRequest) :
    MessagingChannelUpdateRequest × Outcome (OpResult MessagingChannel) :=
  let path := "/messaging/update"
  let params1 := params.PopulateAuthApiToken c
  let req :=
    (c.NewRequest (Envelope.encode MessagingChannelUpdateParams.members) "POST" path
      (some params1)).1
  (params1, finishChannel (c.Do storeMessagingChannelResponse req (.value {})))

/-! ## More typed results (`admin.go`, `chatchannel.go`) -/

/-- The struct `DeleteMessage`. -/
structure DeleteMessage where
  AppId : Int := 0
  MsgId : Int := 0
deriving DecidableEq, Repr

/-- Store one member of an object into a `DeleteMessage`, by the JSON names of its tags. -/
def storeDeleteMessageMember (st : DeleteMessage × Option JsonError) (kv : String × Json) :
    DeleteMessage × Option JsonError :=
  if matchesField kv.1 "app_id" then
    ({ st.1 with AppId := (storeInt64 kv.2 st.1.AppId st.2).1 }, (storeInt64 kv.2 st.1.AppId st.2).2)
  else if matchesField kv.1 "msg_id" then
    ({ st.1 with MsgId := (storeInt64 kv.2 st.1.MsgId st.2).1 }, (storeInt64 kv.2 st.1.MsgId st.2).2)
  else st

/-- Store a document into a `*DeleteMessage`. -/
def storeDeleteMessage (j : Json) (x : DeleteMessage) : DeleteMessage × Option JsonError :=
  storeStruct storeDeleteMessageMember "sendbird.DeleteMessage" j x none

/-- The own field of the anonymous struct of `DeleteMessage`: `MsgId`, tagged `msg_id`. -/
structure MsgIdParams where
  MsgId : String := ""
deriving DecidableEq, Repr

/-- The member the own field of that struct encodes to. -/
def MsgIdParams.members (p : MsgIdParams) : List (String × Json) :=
  [("msg_id", .str p.MsgId)]

/-- DeleteMessage deletes a message from your application. -/
def AdminServiceOp.DeleteMessage (c : SendbirdClient) (messageId : String) :
    Outcome (OpResult DeleteMessage) :=
  let path := "/admin/delete_message"
  let params : Envelope MsgIdParams := { params := { MsgId := messageId } }
  let params1 := params.PopulateAuthApiToken c
  let req := (c.NewRequest (Envelope.encode MsgIdParams.members) "POST" path (some params1)).1
  finishTyped (c.Do storeDeleteMessage req (.value {}))

/-- The encoding of a `[]string` field without `omitempty`: null for a nil slice. -/
def encodeStrings (value : Slice String) : Json :=
  match value with
  | none => .null
  | some xs => .arr (xs.map Json.str)

/-- The own fields of `ChatChannelMetadataRequest`. -/
structure ChatChannelMetadataParams where
  ChannelUrl : String := ""
  Keys : Slice String := none
deriving DecidableEq, Repr

/-- The struct `ChatChannelMetadataRequest`. -/
abbrev ChatChannelMetadataRequest := Envelope ChatChannelMetadataParams

/-- The members the own fields of a `ChatChannelMetadataRequest` encode to. -/
def ChatChannelMetadataParams.members (p : ChatChannelMetadataParams) : List (String × Json) :=
  [("channel_url", .str p.ChannelUrl), ("keys", encodeStrings p.Keys)]

/-! ## Integers and maps in a request or a response (`strconv`, `encoding/json`) -/

/-- The decimal digit of a number below ten. -/
def digitChar (d : Nat) : Char := Char.ofNat (48 + d)

/-- The decimal digits of `n` written in front of `acc`, most significant
first; `fuel` bounds the number of digits. -/
def natDigitsAux : Nat → Nat → List Char → List Char
  | 0, _, acc => acc
  | fuel + 1, n, acc =>
    if n < 10 then digitChar n :: acc
    else natDigitsAux fuel (n / 10) (digitChar (n % 10) :: acc)

/-- The decimal digits of a natural number, without leading zeros. -/
def natDigits (n : Nat) : List Char := natDigitsAux (n + 1) n []

/-- The text `strconv.AppendInt(b, n, 10)` writes for an integer. -/
def renderInt (n : Int) : String :=
  match n with
  | .ofNat m => String.mk (natDigits m)
  | .negSucc m => String.mk ('-' :: natDigits (m + 1))

/-- The encoding of an integer field: a number literal. -/
def encodeInt (n : Int) : Json := .num (renderInt n)

/-- A Go map with string keys: nil, or its entries in increasing order of the
keys, each key once.  The encoder writes the entries in that order. -/
abbrev GoMap (β : Type) := Slice (String × β)

/-- The entries of a map. -/
abbrev Entries (β : Type) := List (String × β)

/-- Are the entries in increasing order of the keys, each key once? -/
def keysIncrease {β : Type} : List (String × β) → Bool
  | [] => true
  | e :: es => es.all (fun x => decide (e.1 < x.1)) && keysIncrease es

/-- The assignment `m[k] = v`. -/
def mapSet {β : Type} (m : List (String × β)) (k : String) (v : β) : List (String × β) :=
  match m with
  | [] => [(k, v)]
  | e :: es =>
    if k < e.1 then (k, v) :: e :: es
    else if k = e.1 then (k, v) :: es
    else e :: mapSet es k v

/-- Store one member of an object into a map: the value is decoded into a new
zero element, which is assigned to the key also when the value did not fit. -/
def storeMapMember {β : Type} (elem : Json → β → Option JsonError → β × Option JsonError)
    (zero : β) (st : List (String × β) × Option JsonError) (kv : String × Json) :
    List (String × β) × Option JsonError :=
  (mapSet st.1 kv.1 (elem kv.2 zero st.2).1, (elem kv.2 zero st.2).2)

/-- Store a document into a map: an object is stored entry by entry into the
map (a nil map is allocated first), null sets the map to nil, anything else is
a type error. -/
def storeMap {β : Type} (elem : Json → β → Option JsonError → β × Option JsonError) (zero : β)
    (goType : String) (j : Json) (cur : GoMap β) (saved : Option JsonError) :
    GoMap β × Option JsonError :=
  match j with
  | .obj kvs =>
    (some (kvs.foldl (storeMapMember elem zero) (cur.getD [], saved)).1,
      (kvs.foldl (storeMapMember elem zero) (cur.getD [], saved)).2)
  | .null => (none, saved)
  | other => (cur, saveError saved (.unmarshalType other.kind goType))

/-- Store a document into a `map[string]string` that is a field. -/
def storeStringMapValue (j : Json) (cur : GoMap String) (saved : Option JsonError) :
    GoMap String × Option JsonError :=
  storeMap storeString "" "map[string]string" j cur saved

/-- Store a document into a `*map[string]string`. -/
def storeStringMap (j : Json) (cur : GoMap String) : GoMap String × Option JsonError :=
  storeStringMapValue j cur none

/-- Store a document into a `map[string]int` that is a field. -/
def storeIntMapValue (j : Json) (cur : GoMap Int) (saved : Option JsonError) :
    GoMap Int × Option JsonError :=
  storeMap storeInt 0 "map[string]int" j cur saved

/-- Store a document into a `*map[string]int`. -/
def storeIntMap (j : Json) (cur : GoMap Int) : GoMap Int × Option JsonError :=
  storeIntMapValue j cur none

/-- The encoding of a `map[string]string` field: null for a nil map, and
otherwise an object with the entries in key order. -/
def encodeStringMap (m : GoMap String) : Json :=
  match m with
  | none => .null
  | some es => .obj (es.map fun e => (e.1, .str e.2))

/-- The encoding of a `map[string]int` field. -/
def encodeIntMap (m : GoMap Int) : Json :=
  match m with
  | none => .null
  | some es => .obj (es.map fun e => (e.1, encodeInt e.2))

/-- Is the integer in the range of a Go `int64` (and of `int`, 64 bit)? -/
def isInt64 (n : Int) : Bool := decide (-(2 : Int) ^ 63 ≤ n ∧ n < (2 : Int) ^ 63)

/-! ## The records of the remaining results (`chatchannel.go`, `messagingchannel.go`, `admin.go`) -/

/-- Store a document into a `*[]string`. -/
def storeStrings (j : Json) (cur : Slice String) : Slice String × Option JsonError :=
  storeStringSlice j cur none

/-- The struct `Member`. -/
structure Member where
  Id : String := ""
  Image : String := ""
  Name : String := ""
deriving DecidableEq, Repr

/-- Store one member of an object into a `Member`, by the JSON names of its tags. -/
def storeMemberMember (st : Member × Option JsonError)
    (kv : String × Json) : Member × Option JsonError :=
  if matchesField kv.1 "id" then
    ({ st.1 with Id := (storeString kv.2 st.1.Id st.2).1 }, (storeString kv.2 st.1.Id st.2).2)
  else if matchesField kv.1 "image" then
    ({ st.1 with Image := (storeString kv.2 st.1.Image st.2).1 },
      (storeString kv.2 st.1.Image st.2).2)
  else if matchesField kv.1 "name" then
    ({ st.1 with Name := (storeString kv.2 st.1.Name st.2).1 }, (storeString kv.2 st.1.Name st.2).2)
  else st

/-- Store a document into a `Member` that is an element of a slice. -/
def storeMemberValue (j : Json) (cur : Member) (saved : Option JsonError) :
    Member × Option JsonError :=
  storeStruct storeMemberMember "sendbird.Member" j cur saved

/-- Store a document into a `[]Member` that is a field. -/
def storeMembers (j : Json) (cur : Slice Member) (saved : Option JsonError) :
    Slice Member × Option JsonError :=
  storeSlice storeMemberValue {} "[]sendbird.Member" j cur saved

/-- The struct `ChatChannelView`: an embedded `ChatChannel` and the members. -/
structure ChatChannelView extends ChatChannel where
  Members : Slice Member := none
deriving DecidableEq, Repr

/-- Store one member of an object into a `ChatChannelView`: `members`, or a
promoted field of the embedded `ChatChannel`. -/
def storeChatChannelViewMember (st : ChatChannelView × Option JsonError)
    (kv : String × Json) : ChatChannelView × Option JsonError :=
  if matchesField kv.1 "members" then
    ({ st.1 with Members := (storeMembers kv.2 st.1.Members st.2).1 },
      (storeMembers kv.2 st.1.Members st.2).2)
  else
    ({ st.1 with
        toChatChannel := (storeChatChannelMember (st.1.toChatChannel, st.2) kv).1 },
      (storeChatChannelMember (st.1.toChatChannel, st.2) kv).2)

/-- Store a document into a `*ChatChannelView`. -/
def storeChatChannelView (j : Json) (x : ChatChannelView) : ChatChannelView × Option JsonError :=
  storeStruct storeChatChannelViewMember "sendbird.ChatChannelView" j x none

/-- The struct `MessageCount`. -/
structure MessageCount where
  MessageCount : Int := 0
deriving DecidableEq, Repr

/-- Store one member of an object into a `MessageCount`. -/
def storeMessageCountMember (st : MessageCount × Option JsonError)
    (kv : String × Json) : MessageCount × Option JsonError :=
  if matchesField kv.1 "message_count" then
    ({ st.1 with MessageCount := (storeInt kv.2 st.1.MessageCount st.2).1 },
      (storeInt kv.2 st.1.MessageCount st.2).2)
  else st

/-- Store a document into a `*MessageCount`. -/
def storeMessageCount (j : Json) (x : MessageCount) : MessageCount × Option JsonError :=
  storeStruct storeMessageCountMember "sendbird.MessageCount" j x none

/-- The struct `ChannelUrl`. -/
structure ChannelUrl where
  ChannelUrl : String := ""
deriving DecidableEq, Repr

/-- Store one member of an object into a `ChannelUrl`. -/
def storeChannelUrlMember (st : ChannelUrl × Option JsonError)
    (kv : String × Json) : ChannelUrl × Option JsonError :=
  if matchesField kv.1 "channel_url" then
    ({ st.1 with ChannelUrl := (storeString kv.2 st.1.ChannelUrl st.2).1 },
      (storeString kv.2 st.1.ChannelUrl st.2).2)
  else st

/-- Store a document into a `ChannelUrl` that is a field. -/
def storeChannelUrlValue (j : Json) (cur : ChannelUrl) (saved : Option JsonError) :
    ChannelUrl × Option JsonError :=
  storeStruct storeChannelUrlMember "sendbird.ChannelUrl" j cur saved

/-- The struct `MessagingChannelUrl`: the record under the key `channel`. -/
structure MessagingChannelUrl where
  Channel : ChannelUrl := {}
deriving DecidableEq, Repr

/-- Store one member of an object into a `MessagingChannelUrl`. -/
def storeMessagingChannelUrlMember (st : MessagingChannelUrl × Option JsonError)
    (kv : String × Json) : MessagingChannelUrl × Option JsonError :=
  if matchesField kv.1 "channel" then
    ({ st.1 with Channel := (storeChannelUrlValue kv.2 st.1.Channel st.2).1 },
      (storeChannelUrlValue kv.2 st.1.Channel st.2).2)
  else st

/-- Store a document into a `*MessagingChannelUrl`. -/
def storeMessagingChannelUrl (j : Json) (x : MessagingChannelUrl) :
    MessagingChannelUrl × Option JsonError :=
  storeStruct storeMessagingChannelUrlMember "sendbird.MessagingChannelUrl" j x none

/-- The struct `MessagingChannelView`. -/
structure MessagingChannelView where
  ChannelUrl : String := ""
  LastMessage : String := ""
  LastMessageTS : Int := 0
  CreatedAt : Int := 0
  Members : Slice Member := none
deriving DecidableEq, Repr

/-- Store one member of an object into a `MessagingChannelView`, by the JSON names of its tags. -/
def storeMessagingChannelViewMember (st : MessagingChannelView × Option JsonError)
    (kv : String × Json) : MessagingChannelView × Option JsonError :=
  if matchesField kv.1 "channel_url" then
    ({ st.1 with ChannelUrl := (storeString kv.2 st.1.ChannelUrl st.2).1 },
      (storeString kv.2 st.1.ChannelUrl st.2).2)
  else if matchesField kv.1 "last_message" then
    ({ st.1 with LastMessage := (storeString kv.2 st.1.LastMessage st.2).1 },
      (storeString kv.2 st.1.LastMessage st.2).2)
  else if matchesField kv.1 "last_message_ts" then
    ({ st.1 with LastMessageTS := (storeInt64 kv.2 st.1.LastMessageTS st.2).1 },
      (storeInt64 kv.2 st.1.LastMessageTS st.2).2)
  else if matchesField kv.1 "created_at" then
    ({ st.1 with CreatedAt := (storeInt64 kv.2 st.1.CreatedAt st.2).1 },
      (storeInt64 kv.2 st.1.CreatedAt st.2).2)
  else if matchesField kv.1 "members" then
    ({ st.1 with Members := (storeMembers kv.2 st.1.Members st.2).1 },
      (storeMembers kv.2 st.1.Members st.2).2)
  else st

/-- Store a document into a `*MessagingChannelView`. -/
def storeMessagingChannelView (j : Json) (x : MessagingChannelView) :
    MessagingChannelView × Option JsonError :=
  storeStruct storeMessagingChannelViewMember "sendbird.MessagingChannelView" j x none

/-- The struct `AdminMessageFile`.  `FileType` is the field `Type`, tagged `type`. -/
structure AdminMessageFile where
  Url : String := ""
  Custom : String := ""
  FileType : String := ""
  Name : String := ""
  Size : Int := 0
deriving DecidableEq, Repr

/-- Store one member of an object into an `AdminMessageFile`, by the JSON names of its tags. -/
def storeAdminMessageFileMember (st : AdminMessageFile × Option JsonError)
    (kv : String × Json) : AdminMessageFile × Option JsonError :=
  if matchesField kv.1 "url" then
    ({ st.1 with Url := (storeString kv.2 st.1.Url st.2).1 }, (storeString kv.2 st.1.Url st.2).2)
  else if matchesField kv.1 "custom" then
    ({ st.1 with Custom := (storeString kv.2 st.1.Custom st.2).1 },
      (storeString kv.2 st.1.Custom st.2).2)
  else if matchesField kv.1 "type" then
    ({ st.1 with FileType := (storeString kv.2 st.1.FileType st.2).1 },
      (storeString kv.2 st.1.FileType st.2).2)
  else if matchesField kv.1 "name" then
    ({ st.1 with Name := (storeString kv.2 st.1.Name st.2).1 }, (storeString kv.2 st.1.Name st.2).2)
  else if matchesField kv.1 "size" then
    ({ st.1 with Size := (storeInt64 kv.2 st.1.Size st.2).1 }, (storeInt64 kv.2 st.1.Size st.2).2)
  else st

/-- Store a document into an `AdminMessageFile` that is a field. -/
def storeAdminMessageFileValue (j : Json) (cur : AdminMessageFile) (saved : Option JsonError) :
    AdminMessageFile × Option JsonError :=
  storeStruct storeAdminMessageFileMember "sendbird.AdminMessageFile" j cur saved

/-- The struct `AdminMessage`.  The tag of `Nickname` is spelled `nickanme`. -/
structure AdminMessage where
  Id : String := ""
  Nickname : String := ""
  MessageId : Int := 0
  Timestamp : Int := 0
  Message : String := ""
  File : AdminMessageFile := {}
deriving DecidableEq, Repr

/-- Store one member of an object into an `AdminMessage`, by the JSON names of its tags. -/
def storeAdminMessageMember (st : AdminMessage × Option JsonError)
    (kv : String × Json) : AdminMessage × Option JsonError :=
  if matchesField kv.1 "id" then
    ({ st.1 with Id := (storeString kv.2 st.1.Id st.2).1 }, (storeString kv.2 st.1.Id st.2).2)
  else if matchesField kv.1 "nickanme" then
    ({ st.1 with Nickname := (storeString kv.2 st.1.Nickname st.2).1 },
      (storeString kv.2 st.1.Nickname st.2).2)
  else if matchesField kv.1 "message_id" then
    ({ st.1 with MessageId := (storeInt64 kv.2 st.1.MessageId st.2).1 },
      (storeInt64 kv.2 st.1.MessageId st.2).2)
  else if matchesField kv.1 "timestamp" then
    ({ st.1 with Timestamp := (storeInt64 kv.2 st.1.Timestamp st.2).1 },
      (storeInt64 kv.2 st.1.Timestamp st.2).2)
  else if matchesField kv.1 "message" then
    ({ st.1 with Message := (storeString kv.2 st.1.Message st.2).1 },
      (storeString kv.2 st.1.Message st.2).2)
  else if matchesField kv.1 "file" then
    ({ st.1 with File := (storeAdminMessageFileValue kv.2 st.1.File st.2).1 },
      (storeAdminMessageFileValue kv.2 st.1.File st.2).2)
  else st

/-- Store a document into an `AdminMessage` that is an element of a slice. -/
def storeAdminMessageValue (j : Json) (cur : AdminMessage) (saved : Option JsonError) :
    AdminMessage × Option JsonError :=
  storeStruct storeAdminMessageMember "sendbird.AdminMessage" j cur saved

/-- Store a document into a `*[]AdminMessage`. -/
def storeAdminMessages (j : Json) (cur : Slice AdminMessage) :
    Slice AdminMessage × Option JsonError :=
  storeSlice storeAdminMessageValue {} "[]sendbird.AdminMessage" j cur none

/-- The struct `AdminMessagingChannel`. -/
structure AdminMessagingChannel where
  ChannelUrl : String := ""
  UnreadMessageCount : Int := 0
  LastMessage : String := ""
  LastMessageTS : Int := 0
  Members : Slice Member := none
deriving DecidableEq, Repr

/-- Store one member of an object into an `AdminMessagingChannel`, by the JSON names of its tags. -/
def storeAdminMessagingChannelMember (st : AdminMessagingChannel × Option JsonError)
    (kv : String × Json) : AdminMessagingChannel × Option JsonError :=
  if matchesField kv.1 "channel_url" then
    ({ st.1 with ChannelUrl := (storeString kv.2 st.1.ChannelUrl st.2).1 },
      (storeString kv.2 st.1.ChannelUrl st.2).2)
  else if matchesField kv.1 "unread_message_count" then
    ({ st.1 with UnreadMessageCount := (storeInt kv.2 st.1.UnreadMessageCount st.2).1 },
      (storeInt kv.2 st.1.UnreadMessageCount st.2).2)
  else if matchesField kv.1 "last_message" then
    ({ st.1 with LastMessage := (storeString kv.2 st.1.LastMessage st.2).1 },
      (storeString kv.2 st.1.LastMessage st.2).2)
  else if matchesField kv.1 "last_message_ts" then
    ({ st.1 with LastMessageTS := (storeInt64 kv.2 st.1.LastMessageTS st.2).1 },
      (storeInt64 kv.2 st.1.LastMessageTS st.2).2)
  else if matchesField kv.1 "members" then
    ({ st.1 with Members := (storeMembers kv.2 st.1.Members st.2).1 },
      (storeMembers kv.2 st.1.Members st.2).2)
  else st

/-- Store a document into an `AdminMessagingChannel` that is an element of a slice. -/
def storeAdminMessagingChannelValue (j : Json) (cur : AdminMessagingChannel) (saved : Option JsonError) :
    AdminMessagingChannel × Option JsonError :=
  storeStruct storeAdminMessagingChannelMember "sendbird.AdminMessagingChannel" j cur saved

/-- Store a document into a `*[]AdminMessagingChannel`. -/
def storeAdminMessagingChannels (j : Json) (cur : Slice AdminMessagingChannel) :
    Slice AdminMessagingChannel × Option JsonError :=
  storeSlice storeAdminMessagingChannelValue {} "[]sendbird.AdminMessagingChannel" j cur none

/-- The struct `ChannelMemberCount`. -/
structure ChannelMemberCount where
  AccumulatedMemberCount : Int := 0
  OnlineMemberCount : Int := 0
  MemberCount : Int := 0
deriving DecidableEq, Repr

/-- Store one member of an object into a `ChannelMemberCount`, by the JSON names of its tags. -/
def storeChannelMemberCountMember (st : ChannelMemberCount × Option JsonError)
    (kv : String × Json) : ChannelMemberCount × Option JsonError :=
  if matchesField kv.1 "accumulated_member_count" then
    ({ st.1 with AccumulatedMemberCount := (storeInt kv.2 st.1.AccumulatedMemberCount st.2).1 },
      (storeInt kv.2 st.1.AccumulatedMemberCount st.2).2)
  else if matchesField kv.1 "online_member_count" then
    ({ st.1 with OnlineMemberCount := (storeInt kv.2 st.1.OnlineMemberCount st.2).1 },
      (storeInt kv.2 st.1.OnlineMemberCount st.2).2)
  else if matchesField kv.1 "member_count" then
    ({ st.1 with MemberCount := (storeInt kv.2 st.1.MemberCount st.2).1 },
      (storeInt kv.2 st.1.MemberCount st.2).2)
  else st

/-- Store a document into a `*ChannelMemberCount`. -/
def storeChannelMemberCount (j : Json) (x : ChannelMemberCount) :
    ChannelMemberCount × Option JsonError :=
  storeStruct storeChannelMemberCountMember "sendbird.ChannelMemberCount" j x none

/-! ## The remaining request envelopes -/

/-- The own fields of `ChatChannelSetMetadataRequest`. -/
structure ChatChannelSetMetadataParams where
  ChannelUrl : String := ""
  Data : GoMap String := none
deriving DecidableEq, Repr

/-- The struct `ChatChannelSetMetadataRequest`. -/
abbrev ChatChannelSetMetadataRequest := Envelope ChatChannelSetMetadataParams

/-- The members the own fields of a `ChatChannelSetMetadataRequest` encode to. -/
def ChatChannelSetMetadataParams.members (p : ChatChannelSetMetadataParams) :
    List (String × Json) :=
  [("channel_url", .str p.ChannelUrl), ("data", encodeStringMap p.Data)]

/-- The own fields of `ChatChannelMetacounterRequest`. -/
structure ChatChannelMetacounterParams where
  ChannelUrl : String := ""
  Keys : Slice String := none
deriving DecidableEq, Repr

/-- The struct `ChatChannelMetacounterRequest`. -/
abbrev ChatChannelMetacounterRequest := Envelope ChatChannelMetacounterParams

/-- The members the own fields of a `ChatChannelMetacounterRequest` encode to. -/
def ChatChannelMetacounterParams.members (p : ChatChannelMetacounterParams) :
    List (String × Json) :=
  [("channel_url", .str p.ChannelUrl), ("keys", encodeStrings p.Keys)]

/-- The own fields of `ChatChannelSetMetacounterRequest`. -/
structure ChatChannelSetMetacounterParams where
  ChannelUrl : String := ""
  Data : GoMap Int := none
deriving DecidableEq, Repr

/-- The struct `ChatChannelSetMetacounterRequest`. -/
abbrev ChatChannelSetMetacounterRequest := Envelope ChatChannelSetMetacounterParams

/-- The members the own fields of a `ChatChannelSetMetacounterRequest` encode to. -/
def ChatChannelSetMetacounterParams.members (p : ChatChannelSetMetacounterParams) :
    List (String × Json) :=
  [("channel_url", .str p.ChannelUrl), ("data", encodeIntMap p.Data)]

/-- The own fields of `MessagingChannelInviteRequest`. -/
structure MessagingChannelInviteParams where
  ChannelUrl : String := ""
  UserIds : Slice String := none
deriving DecidableEq, Repr

/-- The struct `MessagingChannelInviteRequest`. -/
abbrev MessagingChannelInviteRequest := Envelope MessagingChannelInviteParams

/-- The members the own fields of a `MessagingChannelInviteRequest` encode to. -/
def MessagingChannelInviteParams.members (p : MessagingChannelInviteParams) :
    List (String × Json) :=
  [("channel_url", .str p.ChannelUrl), ("user_ids", encodeStrings p.UserIds)]

/-- The own fields of `MessagingChannelHideRequest`. -/
structure MessagingChannelHideParams where
  Id : String := ""
  ChannelUrl : String := ""
deriving DecidableEq, Repr

/-- The struct `MessagingChannelHideRequest`. -/
abbrev MessagingChannelHideRequest := Envelope MessagingChannelHideParams

/-- The members the own fields of a `MessagingChannelHideRequest` encode to. -/
def MessagingChannelHideParams.members (p : MessagingChannelHideParams) : List (String × Json) :=
  [("ids", .str p.Id), ("channel_url", .str p.ChannelUrl)]

/-- The own fields of `MessagingChannelLeaveRequest`. -/
structure MessagingChannelLeaveParams where
  ChannelUrl : String := ""
  UserIds : Slice String := none
deriving DecidableEq, Repr

/-- The struct `MessagingChannelLeaveRequest`. -/
abbrev MessagingChannelLeaveRequest := Envelope MessagingChannelLeaveParams

/-- The members the own fields of a `MessagingChannelLeaveRequest` encode to. -/
def MessagingChannelLeaveParams.members (p : MessagingChannelLeaveParams) : List (String × Json) :=
  [("channel_url", .str p.ChannelUrl), ("user_ids", encodeStrings p.UserIds)]

/-- The own fields of `MessagingChannelMetadataRequest`. -/
structure MessagingChannelMetadataParams where
  ChannelUrl : String := ""
  Keys : Slice String := none
deriving DecidableEq, Repr

/-- The struct `MessagingChannelMetadataRequest`. -/
abbrev MessagingChannelMetadataRequest := Envelope MessagingChannelMetadataParams

/-- The members the own fields of a `MessagingChannelMetadataRequest` encode to. -/
def MessagingChannelMetadataParams.members (p : MessagingChannelMetadataParams) :
    List (String × Json) :=
  [("channel_url", .str p.ChannelUrl), ("keys", encodeStrings p.Keys)]

/-- The own fields of `MessagingChannelSetMetadataRequest`. -/
structure MessagingChannelSetMetadataParams where
  ChannelUrl : String := ""
  Data : GoMap String := none
deriving DecidableEq, Repr

/-- The struct `MessagingChannelSetMetadataRequest`. -/
abbrev MessagingChannelSetMetadataRequest := Envelope MessagingChannelSetMetadataParams

/-- The members the own fields of a `MessagingChannelSetMetadataRequest` encode to. -/
def MessagingChannelSetMetadataParams.members (p : MessagingChannelSetMetadataParams) :
    List (String × Json) :=
  [("channel_url", .str p.ChannelUrl), ("data", encodeStringMap p.Data)]

/-- The own fields of `MessagingChannelMetacounterRequest`. -/
structure MessagingChannelMetacounterParams where
  ChannelUrl : String := ""
  Keys : Slice String := none
deriving DecidableEq, Repr

/-- The struct `MessagingChannelMetacounterRequest`. -/
abbrev MessagingChannelMetacounterRequest := Envelope MessagingChannelMetacounterParams

/-- The members the own fields of a `MessagingChannelMetacounterRequest` encode to. -/
def MessagingChannelMetacounterParams.members (p : MessagingChannelMetacounterParams) :
    List (String × Json) :=
  [("channel_url", .str p.ChannelUrl), ("keys", encodeStrings p.Keys)]

/-- The own fields of `MessagingChannelSetMetacounterRequest`. -/
structure MessagingChannelSetMetacounterParams where
  ChannelUrl : String := ""
  Data : GoMap Int := none
deriving DecidableEq, Repr

/-- The struct `MessagingChannelSetMetacounterRequest`. -/
abbrev MessagingChannelSetMetacounterRequest := Envelope MessagingChannelSetMetacounterParams

/-- The members the own fields of a `MessagingChannelSetMetacounterRequest` encode to. -/
def MessagingChannelSetMetacounterParams.members (p : MessagingChannelSetMetacounterParams) :
    List (String × Json) :=
  [("channel_url", .str p.ChannelUrl), ("data", encodeIntMap p.Data)]

/-- The own fields of `ReadMessagesRequest`. -/
structure ReadMessagesParams where
  ChannelUrl : String := ""
  TargetUserIds : Slice String := none
  Limit : Int := 0
  MessageId : Int := 0
deriving DecidableEq, Repr

/-- The struct `ReadMessagesRequest`. -/
abbrev ReadMessagesRequest := Envelope ReadMessagesParams

/-- The members the own fields of a `ReadMessagesRequest` encode to. -/
def ReadMessagesParams.members (p : ReadMessagesParams) : List (String × Json) :=
  omitEmptyString "channel_url" p.ChannelUrl ++
    omitEmptyStrings "target_user_ids" p.TargetUserIds ++
    [("limit", encodeInt p.Limit), ("message_id", encodeInt p.MessageId)]

/-- The own fields of `MuteRequest`. -/
structure MuteParams where
  Id : String := ""
  ChannelUrls : Slice String := none
  IsSoftMute : Bool := false
deriving DecidableEq, Repr

/-- The struct `MuteRequest`. -/
abbrev MuteRequest := Envelope MuteParams

/-- The members the own fields of a `MuteRequest` encode to. -/
def MuteParams.members (p : MuteParams) : List (String × Json) :=

    [("id", .str p.Id), ("channel_urls", encodeStrings p.ChannelUrls),
    ("is_soft_mute", .bool p.IsSoftMute)]

/-- The own fields of `UnMuteRequest`. -/
structure UnMuteParams where
  Id : String := ""
  ChannelUrls : Slice String := none
deriving DecidableEq, Repr

/-- The struct `UnMuteRequest`. -/
abbrev UnMuteRequest := Envelope UnMuteParams

/-- The members the own fields of a `UnMuteRequest` encode to. -/
def UnMuteParams.members (p : UnMuteParams) : List (String × Json) :=
  [("id", .str p.Id), ("channel_urls", encodeStrings p.ChannelUrls)]

/-- The own field of the anonymous struct of `MuteList`: `ChannelUrls`, tagged `channel_urls`. -/
structure ChannelUrlsParams where
  ChannelUrls : Slice String := none
deriving DecidableEq, Repr

/-- The member the own field of that struct encodes to. -/
def ChannelUrlsParams.members (p : ChannelUrlsParams) : List (String × Json) :=
  [("channel_urls", encodeStrings p.ChannelUrls)]

/-- The own field of the anonymous struct of `MemberCountInChannel`: `ChannelUrl`, tagged `channel_url`. -/
structure ChannelUrlParams where
  ChannelUrl : String := ""
deriving DecidableEq, Repr

/-- The member the own field of that struct encodes to. -/
def ChannelUrlParams.members (p : ChannelUrlParams) : List (String × Json) :=
  [("channel_url", .str p.ChannelUrl)]

/-! ## The remaining operations with a typed result -/

/-- Update updates a user.  The first component is
`*params` after the call. -/
def UserServiceOp.Update (c : SendbirdClient) (params : UserRequest) :
    UserRequest × Outcome (OpResult User) :=
  let path := "/user/update"
  let params1 := params.PopulateAuthApiToken c
  let req := (c.NewRequest (Envelope.encode UserParams.members) "POST" path (some params1)).1
  (params1, finishTyped (c.Do storeUser req (.value {})))

/-- Auth retrieve a user's information.  The first component is
`*params` after the call. -/
def UserServiceOp.Auth (c : SendbirdClient) (params : UserRequest) :
    UserRequest × Outcome (OpResult User) :=
  let path := "/user/auth"
  let params1 := params.PopulateAuthApiToken c
  let req := (c.NewRequest (Envelope.encode UserParams.members) "POST" path (some params1)).1
  (params1, finishTyped (c.Do storeUser req (.value {})))

/-- View the channel information and its online members.  `CoverUrl` is
overwritten with `CoverImageUrl` before the error is looked at. -/
def ChatChannelServiceOp.View (c : SendbirdClient) (channelUrl : String) :
    Outcome (OpResult ChatChannelView) :=
  let path := "/channel/view"
  let params : ChatChannelRequest := { params := { ChannelUrl := channelUrl } }
  let params1 := params.PopulateAuthApiToken c
  let req := (c.NewRequest (Envelope.encode ChatChannelParams.members) "POST" path (some params1)).1
  match finishTyped (c.Do storeChatChannelView req (.value {})) with
  | .panic => .panic
  | .returned r =>
    .returned { r with result := r.result.map fun ch => { ch with CoverUrl := ch.CoverImageUrl } }

/-- Get values of metadata keys.  The destination is an empty, non-nil map;
the tail is the one of the operations that return a slice.  The first
component is `*params` after the call. -/
def ChatChannelServiceOp.GetMetadata (c : SendbirdClient) (params : ChatChannelMetadataRequest) :
    ChatChannelMetadataRequest × Outcome (OpResult (Entries String)) :=
  let path := "/channel/get_metadata"
  let params1 := params.PopulateAuthApiToken c
  let req :=
    (c.NewRequest (Envelope.encode ChatChannelMetadataParams.members) "POST" path (some params1)).1
  (params1, finishSlice id (c.Do storeStringMap req (.value (some []))))

/-- Set values of metadata keys.  The first component is
`*params` after the call. -/
def ChatChannelServiceOp.SetMetadata (c : SendbirdClient) (params : ChatChannelSetMetadataRequest) :
    ChatChannelSetMetadataRequest × Outcome (OpResult (Entries String)) :=
  let path := "/channel/set_metadata"
  let params1 := params.PopulateAuthApiToken c
  let req :=
    (c.NewRequest (Envelope.encode ChatChannelSetMetadataParams.members) "POST" path
      (some params1)).1
  (params1, finishSlice id (c.Do storeStringMap req (.value (some []))))

/-- Get values of metacounter keys.  The first component is
`*params` after the call. -/
def ChatChannelServiceOp.GetMetacounter (c : SendbirdClient) (params : ChatChannelMetacounterRequest) :
    ChatChannelMetacounterRequest × Outcome (OpResult (Entries Int)) :=
  let path := "/channel/get_metacounter"
  let params1 := params.PopulateAuthApiToken c
  let req :=
    (c.NewRequest (Envelope.encode ChatChannelMetacounterParams.members) "POST" path
      (some params1)).1
  (params1, finishSlice id (c.Do storeIntMap req (.value (some []))))

/-- Set values of metacounter keys.  All values should be integer.  The first component is
`*params` after the call. -/
def ChatChannelServiceOp.SetMetacounter (c : SendbirdClient) (params : ChatChannelSetMetacounterRequest) :
    ChatChannelSetMetacounterRequest × Outcome (OpResult (Entries Int)) :=
  let path := "/channel/set_metacounter"
  let params1 := params.PopulateAuthApiToken c
  let req :=
    (c.NewRequest (Envelope.encode ChatChannelSetMetacounterParams.members) "POST" path
      (some params1)).1
  (params1, finishSlice id (c.Do storeIntMap req (.value (some []))))

/-- Increase values of metacounter keys.  All deltas should be integer.  The first component is
`*params` after the call. -/
def ChatChannelServiceOp.IncreaseMetacounter (c : SendbirdClient) (params : ChatChannelSetMetacounterRequest) :
    ChatChannelSetMetacounterRequest × Outcome (OpResult (Entries Int)) :=
  let path := "/channel/incr_metacounter"
  let params1 := params.PopulateAuthApiToken c
  let req :=
    (c.NewRequest (Envelope.encode ChatChannelSetMetacounterParams.members) "POST" path
      (some params1)).1
  (params1, finishSlice id (c.Do storeIntMap req (.value (some []))))

/-- Decrease values of metacounter keys.  All deltas should be integer.  The first component is
`*params` after the call. -/
def ChatChannelServiceOp.DecreaseMetacounter (c : SendbirdClient) (params : ChatChannelSetMetacounterRequest) :
    ChatChannelSetMetacounterRequest × Outcome (OpResult (Entries Int)) :=
  let path := "/channel/decr_metacounter"
  let params1 := params.PopulateAuthApiToken c
  let req :=
    (c.NewRequest (Envelope.encode ChatChannelSetMetacounterParams.members) "POST" path
      (some params1)).1
  (params1, finishSlice id (c.Do storeIntMap req (.value (some []))))

/-- Get message count of the channel. -/
def ChatChannelServiceOp.MessageCount (c : SendbirdClient) (channelUrl : String) :
    Outcome (OpResult Sendbird.MessageCount) :=
  let path := "/channel/message_count"
  let params : ChatChannelRequest := { params := { ChannelUrl := channelUrl } }
  let params1 := params.PopulateAuthApiToken c
  let req := (c.NewRequest (Envelope.encode ChatChannelParams.members) "POST" path (some params1)).1
  finishTyped (c.Do storeMessageCount req (.value {}))

/-- Delete deletes a group messaging channel using given channel_url. -/
def MessagingChannelServiceOp.Delete (c : SendbirdClient) (channelUrl : String) :
    Outcome (OpResult MessagingChannelUrl) :=
  let path := "/messaging/delete"
  let params : MessagingChannelUpdateRequest := { params := { ChannelUrl := channelUrl } }
  let params1 := params.PopulateAuthApiToken c
  let req :=
    (c.NewRequest (Envelope.encode MessagingChannelUpdateParams.members) "POST" path (some params1)).1
  finishTyped (c.Do storeMessagingChannelUrl req (.value {}))

/-- Invite invites users to the channel.  The first component is
`*params` after the call. -/
def MessagingChannelServiceOp.Invite (c : SendbirdClient) (params : MessagingChannelInviteRequest) :
    MessagingChannelInviteRequest × Outcome (OpResult MessagingChannelUrl) :=
  let path := "/messaging/invite"
  let params1 := params.PopulateAuthApiToken c
  let req :=
    (c.NewRequest (Envelope.encode MessagingChannelInviteParams.members) "POST" path
      (some params1)).1
  (params1, finishTyped (c.Do storeMessagingChannelUrl req (.value {})))

/-- Hide hides a messaging channel from the user messaging channel list.  The first component is
`*params` after the call. -/
def MessagingChannelServiceOp.Hide (c : SendbirdClient) (params : MessagingChannelHideRequest) :
    MessagingChannelHideRequest × Outcome (OpResult MessagingChannelUrl) :=
  let path := "/messaging/hide"
  let params1 := params.PopulateAuthApiToken c
  let req :=
    (c.NewRequest (Envelope.encode MessagingChannelHideParams.members) "POST" path (some params1)).1
  (params1, finishTyped (c.Do storeMessagingChannelUrl req (.value {})))

/-- Leave leaves a messaging channel.  The first component is
`*params` after the call. -/
def MessagingChannelServiceOp.Leave (c : SendbirdClient) (params : MessagingChannelLeaveRequest) :
    MessagingChannelLeaveRequest × Outcome (OpResult MessagingChannelUrl) :=
  let path := "/messaging/leave"
  let params1 := params.PopulateAuthApiToken c
  let req :=
    (c.NewRequest (Envelope.encode MessagingChannelLeaveParams.members) "POST" path
      (some params1)).1
  (params1, finishTyped (c.Do storeMessagingChannelUrl req (.value {})))

/-- View views information of the channel. -/
def MessagingChannelServiceOp.View (c : SendbirdClient) (channelUrl : String) :
    Outcome (OpResult MessagingChannelView) :=
  let path := "/messaging/view"
  let params : MessagingChannelUpdateRequest := { params := { ChannelUrl := channelUrl } }
  let params1 := params.PopulateAuthApiToken c
  let req :=
    (c.NewRequest (Envelope.encode MessagingChannelUpdateParams.members) "POST" path (some params1)).1
  finishTyped (c.Do storeMessagingChannelView req (.value {}))

/-- GetMetadata gets values of metadata keys.  The first component is
`*params` after the call. -/
def MessagingChannelServiceOp.GetMetadata (c : SendbirdClient) (params : MessagingChannelMetadataRequest) :
    MessagingChannelMetadataRequest × Outcome (OpResult (Entries String)) :=
  let path := "/messaging/get_metadata"
  let params1 := params.PopulateAuthApiToken c
  let req :=
    (c.NewRequest (Envelope.encode MessagingChannelMetadataParams.members) "POST" path
      (some params1)).1
  (params1, finishSlice id (c.Do storeStringMap req (.value (some []))))

/-- SetMetadata sets values of metadata keys.  The first component is
`*params` after the call. -/
def MessagingChannelServiceOp.SetMetadata (c : SendbirdClient) (params : MessagingChannelSetMetadataRequest) :
    MessagingChannelSetMetadataRequest × Outcome (OpResult (Entries String)) :=
  let path := "/messaging/set_metadata"
  let params1 := params.PopulateAuthApiToken c
  let req :=
    (c.NewRequest (Envelope.encode MessagingChannelSetMetadataParams.members) "POST" path
      (some params1)).1
  (params1, finishSlice id (c.Do storeStringMap req (.value (some []))))

/-- GetMetacounter gets values of metacounter keys.  The first component is
`*params` after the call. -/
def MessagingChannelServiceOp.GetMetacounter (c : SendbirdClient) (params : MessagingChannelMetacounterRequest) :
    MessagingChannelMetacounterRequest × Outcome (OpResult (Entries Int)) :=
  let path := "/messaging/get_metacounter"
  let params1 := params.PopulateAuthApiToken c
  let req :=
    (c.NewRequest (Envelope.encode MessagingChannelMetacounterParams.members) "POST" path
      (some params1)).1
  (params1, finishSlice id (c.Do storeIntMap req (.value (some []))))

/-- SetMetacounter sets values of metacounter keys.  All values should be integer.  The first component is
`*params` after the call. -/
def MessagingChannelServiceOp.SetMetacounter (c : SendbirdClient) (params : MessagingChannelSetMetacounterRequest) :
    MessagingChannelSetMetacounterRequest × Outcome (OpResult (Entries Int)) :=
  let path := "/messaging/set_metacounter"
  let params1 := params.PopulateAuthApiToken c
  let req :=
    (c.NewRequest (Envelope.encode MessagingChannelSetMetacounterParams.members) "POST" path
      (some params1)).1
  (params1, finishSlice id (c.Do storeIntMap req (.value (some []))))

/-- IncreaseMetacounter increases values of metacounter keys.  All deltas should be integer.  The first component is
`*params` after the call. -/
def MessagingChannelServiceOp.IncreaseMetacounter (c : SendbirdClient) (params : MessagingChannelSetMetacounterRequest) :
    MessagingChannelSetMetacounterRequest × Outcome (OpResult (Entries Int)) :=
  let path := "/messaging/incr_metacounter"
  let params1 := params.PopulateAuthApiToken c
  let req :=
    (c.NewRequest (Envelope.encode MessagingChannelSetMetacounterParams.members) "POST" path
      (some params1)).1
  (params1, finishSlice id (c.Do storeIntMap req (.value (some []))))

/-- DecreaseMetacounter decreases values of metacounter keys.  All deltas should be integer.  The first component is
`*params` after the call. -/
def MessagingChannelServiceOp.DecreaseMetacounter (c : SendbirdClient) (params : MessagingChannelSetMetacounterRequest) :
    MessagingChannelSetMetacounterRequest × Outcome (OpResult (Entries Int)) :=
  let path := "/messaging/decr_metacounter"
  let params1 := params.PopulateAuthApiToken c
  let req :=
    (c.NewRequest (Envelope.encode MessagingChannelSetMetacounterParams.members) "POST" path
      (some params1)).1
  (params1, finishSlice id (c.Do storeIntMap req (.value (some []))))

/-- MessageCount gets message count of the channel. -/
def MessagingChannelServiceOp.MessageCount (c : SendbirdClient) (channelUrl : String) :
    Outcome (OpResult Sendbird.MessageCount) :=
  let path := "/messaging/message_count"
  let params : MessagingChannelUpdateRequest := { params := { ChannelUrl := channelUrl } }
  let params1 := params.PopulateAuthApiToken c
  let req :=
    (c.NewRequest (Envelope.encode MessagingChannelUpdateParams.members) "POST" path (some params1)).1
  finishTyped (c.Do storeMessageCount req (.value {}))

/-- ReadMessages reads messages from the target channel.  Either channel_url or
target_user_ids must be set.  The first component is
`*params` after the call. -/
def AdminServiceOp.ReadMessages (c : SendbirdClient) (params : ReadMessagesRequest) :
    ReadMessagesRequest × Outcome (OpResult (List AdminMessage)) :=
  let path := "/admin/read_messages"
  let params1 := params.PopulateAuthApiToken c
  let req :=
    (c.NewRequest (Envelope.encode ReadMessagesParams.members) "POST" path (some params1)).1
  (params1, finishSlice id (c.Do storeAdminMessages req (.value (some []))))

/-- ListMessagingChannels lists messaging channels of the target user. -/
def AdminServiceOp.ListMessagingChannels (c : SendbirdClient) (userId : String) :
    Outcome (OpResult (List AdminMessagingChannel)) :=
  let path := "/admin/list_messaging_channels"
  let params : Envelope IdParams := { params := { Id := userId } }
  let params1 := params.PopulateAuthApiToken c
  let req := (c.NewRequest (Envelope.encode IdParams.members) "POST" path (some params1)).1
  finishSlice id (c.Do storeAdminMessagingChannels req (.value (some [])))

/-- Mute mutes a user in some channels in your application.  The first component is
`*params` after the call. -/
def AdminServiceOp.Mute (c : SendbirdClient) (params : MuteRequest) :
    MuteRequest × Outcome (OpResult (List String)) :=
  let path := "/admin/mute"
  let params1 := params.PopulateAuthApiToken c
  let req := (c.NewRequest (Envelope.encode MuteParams.members) "POST" path (some params1)).1
  (params1, finishSlice id (c.Do storeStrings req (.value (some []))))

/-- UnMute unmutes a user in some channels in your application.  The first component is
`*params` after the call. -/
def AdminServiceOp.UnMute (c : SendbirdClient) (params : UnMuteRequest) :
    UnMuteRequest × Outcome (OpResult (List String)) :=
  let path := "/admin/unmute"
  let params1 := params.PopulateAuthApiToken c
  let req := (c.NewRequest (Envelope.encode UnMuteParams.members) "POST" path (some params1)).1
  (params1, finishSlice id (c.Do storeStrings req (.value (some []))))

/-- MuteList gets the list of muted user ids in application-wide mute. -/
def AdminServiceOp.MuteList (c : SendbirdClient) (channelUrls : Slice String) :
    Outcome (OpResult (List String)) :=
  let path := "/admin/mute_list"
  let params : Envelope ChannelUrlsParams := { params := { ChannelUrls := channelUrls } }
  let params1 := params.PopulateAuthApiToken c
  let req := (c.NewRequest (Envelope.encode ChannelUrlsParams.members) "POST" path (some params1)).1
  finishSlice id (c.Do storeStrings req (.value (some [])))

/-- MemberCountInChannel posts the channel url to `/admin/member_count` and
returns the member counts of the channel. -/
def AdminServiceOp.MemberCountInChannel (c : SendbirdClient) (channelUrl : String) :
    Outcome (OpResult ChannelMemberCount) :=
  let path := "/admin/member_count"
  let params : Envelope ChannelUrlParams := { params := { ChannelUrl := channelUrl } }
  let params1 := params.PopulateAuthApiToken c
  let req := (c.NewRequest (Envelope.encode ChannelUrlParams.members) "POST" path (some params1)).1
  finishTyped (c.Do storeChannelMemberCount req (.value {}))

/-! ## Request envelopes read back (the decoding the package's tests apply to a request body) -/

/-- The bodies of the requests a call handed to the HTTP client. -/
def sentBodies {τ : Type} (o : Outcome (OpResult τ)) : List (Option Json) :=
  (sentRequests o).map fun rq => rq.Body

/-- Store one member of an object into a `UserRequest`: the promoted field
`auth` of the embedded struct, or a field of its own. -/
def storeUserRequestMember (st : UserRequest × Option JsonError)
    (kv : String × Json) : UserRequest × Option JsonError :=
  if matchesField kv.1 "auth" then
    ({ st.1 with Auth := (storeString kv.2 st.1.Auth st.2).1 }, (storeString kv.2 st.1.Auth st.2).2)
  else if matchesField kv.1 "id" then
    ({ st.1 with params := { st.1.params with Id := (storeString kv.2 st.1.params.Id st.2).1 } },
      (storeString kv.2 st.1.params.Id st.2).2)
  else if matchesField kv.1 "nickname" then
    ({ st.1 with params := { st.1.params with
        Nickname := (storeString kv.2 st.1.params.Nickname st.2).1 } },
      (storeString kv.2 st.1.params.Nickname st.2).2)
  else if matchesField kv.1 "image_url" then
    ({ st.1 with params := { st.1.params with
        ImageUrl := (storeString kv.2 st.1.params.ImageUrl st.2).1 } },
      (storeString kv.2 st.1.params.ImageUrl st.2).2)
  else if matchesField kv.1 "issue_access_token" then
    ({ st.1 with params := { st.1.params with
        IssueAccessToken := (storeBool kv.2 st.1.params.IssueAccessToken st.2).1 } },
      (storeBool kv.2 st.1.params.IssueAccessToken st.2).2)
  else st

/-- Store a document into a `*UserRequest`. -/
def storeUserRequest (j : Json) (x : UserRequest) : UserRequest × Option JsonError :=
  storeStruct storeUserRequestMember "sendbird.UserRequest" j x none

/-- Store one member of an object into a `BlockRequest`: the promoted field
`auth` of the embedded struct, or a field of its own. -/
def storeBlockRequestMember (st : BlockRequest × Option JsonError)
    (kv : String × Json) : BlockRequest × Option JsonError :=
  if matchesField kv.1 "auth" then
    ({ st.1 with Auth := (storeString kv.2 st.1.Auth st.2).1 }, (storeString kv.2 st.1.Auth st.2).2)
  else if matchesField kv.1 "id" then
    ({ st.1 with params := { st.1.params with Id := (storeString kv.2 st.1.params.Id st.2).1 } },
      (storeString kv.2 st.1.params.Id st.2).2)
  else if matchesField kv.1 "target_id" then
    ({ st.1 with params := { st.1.params with
        TargetId := (storeString kv.2 st.1.params.TargetId st.2).1 } },
      (storeString kv.2 st.1.params.TargetId st.2).2)
  else st

/-- Store a document into a `*BlockRequest`. -/
def storeBlockRequest (j : Json) (x : BlockRequest) : BlockRequest × Option JsonError :=
  storeStruct storeBlockRequestMember "sendbird.BlockRequest" j x none

/-- Store one member of an object into a `DeactivateRequest`: the promoted field
`auth` of the embedded struct, or a field of its own. -/
def storeDeactivateRequestMember (st : DeactivateRequest × Option JsonError)
    (kv : String × Json) : DeactivateRequest × Option JsonError :=
  if matchesField kv.1 "auth" then
    ({ st.1 with Auth := (storeString kv.2 st.1.Auth st.2).1 }, (storeString kv.2 st.1.Auth st.2).2)
  else if matchesField kv.1 "id" then
    ({ st.1 with params := { st.1.params with Id := (storeString kv.2 st.1.params.Id st.2).1 } },
      (storeString kv.2 st.1.params.Id st.2).2)
  else st

/-- Store a document into a `*DeactivateRequest`. -/
def storeDeactivateRequest (j : Json) (x : DeactivateRequest) :
    DeactivateRequest × Option JsonError :=
  storeStruct storeDeactivateRequestMember "sendbird.DeactivateRequest" j x none

/-- Store one member of an object into a `ChatChannelRequest`: the promoted field
`auth` of the embedded struct, or a field of its own. -/
def storeChatChannelRequestMember (st : ChatChannelRequest × Option JsonError)
    (kv : String × Json) : ChatChannelRequest × Option JsonError :=
  if matchesField kv.1 "auth" then
    ({ st.1 with Auth := (storeString kv.2 st.1.Auth st.2).1 }, (storeString kv.2 st.1.Auth st.2).2)
  else if matchesField kv.1 "channel_url" then
    ({ st.1 with params := { st.1.params with
        ChannelUrl := (storeString kv.2 st.1.params.ChannelUrl st.2).1 } },
      (storeString kv.2 st.1.params.ChannelUrl st.2).2)
  else if matchesField kv.1 "name" then
    ({ st.1 with params := { st.1.params with
        Name := (storeString kv.2 st.1.params.Name st.2).1 } },
      (storeString kv.2 st.1.params.Name st.2).2)
  else if matchesField kv.1 "cover_url" then
    ({ st.1 with params := { st.1.params with
        CoverUrl := (storeString kv.2 st.1.params.CoverUrl st.2).1 } },
      (storeString kv.2 st.1.params.CoverUrl st.2).2)
  else if matchesField kv.1 "data" then
    ({ st.1 with params := { st.1.params with
        Data := (storeString kv.2 st.1.params.Data st.2).1 } },
      (storeString kv.2 st.1.params.Data st.2).2)
  else st

/-- Store a document into a `*ChatChannelRequest`. -/
def storeChatChannelRequest (j : Json) (x : ChatChannelRequest) :
    ChatChannelRequest × Option JsonError :=
  storeStruct storeChatChannelRequestMember "sendbird.ChatChannelRequest" j x none

/-- Store one member of an object into a `ChatChannelUpdateRequest`: the promoted field
`auth` of the embedded struct, or a field of its own. -/
def storeChatChannelUpdateRequestMember (st : ChatChannelUpdateRequest × Option JsonError)
    (kv : String × Json) : ChatChannelUpdateRequest × Option JsonError :=
  if matchesField kv.1 "auth" then
    ({ st.1 with Auth := (storeString kv.2 st.1.Auth st.2).1 }, (storeString kv.2 st.1.Auth st.2).2)
  else if matchesField kv.1 "channel_url" then
    ({ st.1 with params := { st.1.params with
        ChannelUrl := (storeString kv.2 st.1.params.ChannelUrl st.2).1 } },
      (storeString kv.2 st.1.params.ChannelUrl st.2).2)
  else if matchesField kv.1 "name" then
    ({ st.1 with params := { st.1.params with
        Name := (storeString kv.2 st.1.params.Name st.2).1 } },
      (storeString kv.2 st.1.params.Name st.2).2)
  else if matchesField kv.1 "cover_url" then
    ({ st.1 with params := { st.1.params with
        CoverUrl := (storeString kv.2 st.1.params.CoverUrl st.2).1 } },
      (storeString kv.2 st.1.params.CoverUrl st.2).2)
  else if matchesField kv.1 "data" then
    ({ st.1 with params := { st.1.params with
        Data := (storeString kv.2 st.1.params.Data st.2).1 } },
      (storeString kv.2 st.1.params.Data st.2).2)
  else if matchesField kv.1 "target_channel_url" then
    ({ st.1 with params := { st.1.params with
        TargetChannelUrl := (storeString kv.2 st.1.params.TargetChannelUrl st.2).1 } },
      (storeString kv.2 st.1.params.TargetChannelUrl st.2).2)
  else if matchesField kv.1 "ops" then
    ({ st.1 with params := { st.1.params with
        Ops := (storeStringSlice kv.2 st.1.params.Ops st.2).1 } },
      (storeStringSlice kv.2 st.1.params.Ops st.2).2)
  else st

/-- Store a document into a `*ChatChannelUpdateRequest`. -/
def storeChatChannelUpdateRequest (j : Json) (x : ChatChannelUpdateRequest) :
    ChatChannelUpdateRequest × Option JsonError :=
  storeStruct storeChatChannelUpdateRequestMember "sendbird.ChatChannelUpdateRequest" j x none

/-- Store one member of an object into a `ChatChannelMessageRequest`: the promoted field
`auth` of the embedded struct, or a field of its own. -/
def storeChatChannelMessageRequestMember (st : ChatChannelMessageRequest × Option JsonError)
    (kv : String × Json) : ChatChannelMessageRequest × Option JsonError :=
  if matchesField kv.1 "auth" then
    ({ st.1 with Auth := (storeString kv.2 st.1.Auth st.2).1 }, (storeString kv.2 st.1.Auth st.2).2)
  else if matchesField kv.1 "id" then
    ({ st.1 with params := { st.1.params with Id := (storeString kv.2 st.1.params.Id st.2).1 } },
      (storeString kv.2 st.1.params.Id st.2).2)
  else if matchesField kv.1 "channel_url" then
    ({ st.1 with params := { st.1.params with
        ChannelUrl := (storeString kv.2 st.1.params.ChannelUrl st.2).1 } },
      (storeString kv.2 st.1.params.ChannelUrl st.2).2)
  else if matchesField kv.1 "message" then
    ({ st.1 with params := { st.1.params with
        Message := (storeString kv.2 st.1.params.Message st.2).1 } },
      (storeString kv.2 st.1.params.Message st.2).2)
  else if matchesField kv.1 "data" then
    ({ st.1 with params := { st.1.params with
        Data := (storeString kv.2 st.1.params.Data st.2).1 } },
      (storeString kv.2 st.1.params.Data st.2).2)
  else st

/-- Store a document into a `*ChatChannelMessageRequest`. -/
def storeChatChannelMessageRequest (j : Json) (x : ChatChannelMessageRequest) :
    ChatChannelMessageRequest × Option JsonError :=
  storeStruct storeChatChannelMessageRequestMember "sendbird.ChatChannelMessageRequest" j x none

/-- Store one member of an object into a `ChatChannelMetadataRequest`: the promoted field
`auth` of the embedded struct, or a field of its own. -/
def storeChatChannelMetadataRequestMember (st : ChatChannelMetadataRequest × Option JsonError)
    (kv : String × Json) : ChatChannelMetadataRequest × Option JsonError :=
  if matchesField kv.1 "auth" then
    ({ st.1 with Auth := (storeString kv.2 st.1.Auth st.2).1 }, (storeString kv.2 st.1.Auth st.2).2)
  else if matchesField kv.1 "channel_url" then
    ({ st.1 with params := { st.1.params with
        ChannelUrl := (storeString kv.2 st.1.params.ChannelUrl st.2).1 } },
      (storeString kv.2 st.1.params.ChannelUrl st.2).2)
  else if matchesField kv.1 "keys" then
    ({ st.1 with params := { st.1.params with
        Keys := (storeStringSlice kv.2 st.1.params.Keys st.2).1 } },
      (storeStringSlice kv.2 st.1.params.Keys st.2).2)
  else st

/-- Store a document into a `*ChatChannelMetadataRequest`. -/
def storeChatChannelMetadataRequest (j : Json) (x : ChatChannelMetadataRequest) :
    ChatChannelMetadataRequest × Option JsonError :=
  storeStruct storeChatChannelMetadataRequestMember "sendbird.ChatChannelMetadataRequest" j x none

/-- Store one member of an object into a `ChatChannelSetMetadataRequest`: the promoted field
`auth` of the embedded struct, or a field of its own. -/
def storeChatChannelSetMetadataRequestMember (st : ChatChannelSetMetadataRequest × Option JsonError)
    (kv : String × Json) : ChatChannelSetMetadataRequest × Option JsonError :=
  if matchesField kv.1 "auth" then
    ({ st.1 with Auth := (storeString kv.2 st.1.Auth st.2).1 }, (storeString kv.2 st.1.Auth st.2).2)
  else if matchesField kv.1 "channel_url" then
    ({ st.1 with params := { st.1.params with
        ChannelUrl := (storeString kv.2 st.1.params.ChannelUrl st.2).1 } },
      (storeString kv.2 st.1.params.ChannelUrl st.2).2)
  else if matchesField kv.1 "data" then
    ({ st.1 with params := { st.1.params with
        Data := (storeStringMapValue kv.2 st.1.params.Data st.2).1 } },
      (storeStringMapValue kv.2 st.1.params.Data st.2).2)
  else st

/-- Store a document into a `*ChatChannelSetMetadataRequest`. -/
def storeChatChannelSetMetadataRequest (j : Json) (x : ChatChannelSetMetadataRequest) :
    ChatChannelSetMetadataRequest × Option JsonError :=
  storeStruct storeChatChannelSetMetadataRequestMember "sendbird.ChatChannelSetMetadataRequest" j x none

/-- Store one member of an object into a `ChatChannelMetacounterRequest`: the promoted field
`auth` of the embedded struct, or a field of its own. -/
def storeChatChannelMetacounterRequestMember (st : ChatChannelMetacounterRequest × Option JsonError)
    (kv : String × Json) : ChatChannelMetacounterRequest × Option JsonError :=
  if matchesField kv.1 "auth" then
    ({ st.1 with Auth := (storeString kv.2 st.1.Auth st.2).1 }, (storeString kv.2 st.1.Auth st.2).2)
  else if matchesField kv.1 "channel_url" then
    ({ st.1 with params := { st.1.params with
        ChannelUrl := (storeString kv.2 st.1.params.ChannelUrl st.2).1 } },
      (storeString kv.2 st.1.params.ChannelUrl st.2).2)
  else if matchesField kv.1 "keys" then
    ({ st.1 with params := { st.1.params with
        Keys := (storeStringSlice kv.2 st.1.params.Keys st.2).1 } },
      (storeStringSlice kv.2 st.1.params.Keys st.2).2)
  else st

/-- Store a document into a `*ChatChannelMetacounterRequest`. -/
def storeChatChannelMetacounterRequest (j : Json) (x : ChatChannelMetacounterRequest) :
    ChatChannelMetacounterRequest × Option JsonError :=
  storeStruct storeChatChannelMetacounterRequestMember "sendbird.ChatChannelMetacounterRequest" j x none

/-- Store one member of an object into a `ChatChannelSetMetacounterRequest`: the promoted field
`auth` of the embedded struct, or a field of its own. -/
def storeChatChannelSetMetacounterRequestMember (st : ChatChannelSetMetacounterRequest × Option JsonError)
    (kv : String × Json) : ChatChannelSetMetacounterRequest × Option JsonError :=
  if matchesField kv.1 "auth" then
    ({ st.1 with Auth := (storeString kv.2 st.1.Auth st.2).1 }, (storeString kv.2 st.1.Auth st.2).2)
  else if matchesField kv.1 "channel_url" then
    ({ st.1 with params := { st.1.params with
        ChannelUrl := (storeString kv.2 st.1.params.ChannelUrl st.2).1 } },
      (storeString kv.2 st.1.params.ChannelUrl st.2).2)
  else if matchesField kv.1 "data" then
    ({ st.1 with params := { st.1.params with
        Data := (storeIntMapValue kv.2 st.1.params.Data st.2).1 } },
      (storeIntMapValue kv.2 st.1.params.Data st.2).2)
  else st

/-- Store a document into a `*ChatChannelSetMetacounterRequest`. -/
def storeChatChannelSetMetacounterRequest (j : Json) (x : ChatChannelSetMetacounterRequest) :
    ChatChannelSetMetacounterRequest × Option JsonError :=
  storeStruct storeChatChannelSetMetacounterRequestMember "sendbird.ChatChannelSetMetacounterRequest" j x none

/-- Store one member of an object into a `MessagingChannelRequest`: the promoted field
`auth` of the embedded struct, or a field of its own. -/
def storeMessagingChannelRequestMember (st : MessagingChannelRequest × Option JsonError)
    (kv : String × Json) : MessagingChannelRequest × Option JsonError :=
  if matchesField kv.1 "auth" then
    ({ st.1 with Auth := (storeString kv.2 st.1.Auth st.2).1 }, (storeString kv.2 st.1.Auth st.2).2)
  else if matchesField kv.1 "name" then
    ({ st.1 with params := { st.1.params with
        Name := (storeString kv.2 st.1.params.Name st.2).1 } },
      (storeString kv.2 st.1.params.Name st.2).2)
  else if matchesField kv.1 "is_group" then
    ({ st.1 with params := { st.1.params with
        IsGroup := (storeBool kv.2 st.1.params.IsGroup st.2).1 } },
      (storeBool kv.2 st.1.params.IsGroup st.2).2)
  else if matchesField kv.1 "cover_url" then
    ({ st.1 with params := { st.1.params with
        CoverUrl := (storeString kv.2 st.1.params.CoverUrl st.2).1 } },
      (storeString kv.2 st.1.params.CoverUrl st.2).2)
  else if matchesField kv.1 "data" then
    ({ st.1 with params := { st.1.params with
        Data := (storeString kv.2 st.1.params.Data st.2).1 } },
      (storeString kv.2 st.1.params.Data st.2).2)
  else st

/-- Store a document into a `*MessagingChannelRequest`. -/
def storeMessagingChannelRequest (j : Json) (x : MessagingChannelRequest) :
    MessagingChannelRequest × Option JsonError :=
  storeStruct storeMessagingChannelRequestMember "sendbird.MessagingChannelRequest" j x none

/-- Store one member of an object into a `MessagingChannelUpdateRequest`: the promoted field
`auth` of the embedded struct, or a field of its own. -/
def storeMessagingChannelUpdateRequestMember (st : MessagingChannelUpdateRequest × Option JsonError)
    (kv : String × Json) : MessagingChannelUpdateRequest × Option JsonError :=
  if matchesField kv.1 "auth" then
    ({ st.1 with Auth := (storeString kv.2 st.1.Auth st.2).1 }, (storeString kv.2 st.1.Auth st.2).2)
  else if matchesField kv.1 "name" then
    ({ st.1 with params := { st.1.params with
        Name := (storeString kv.2 st.1.params.Name st.2).1 } },
      (storeString kv.2 st.1.params.Name st.2).2)
  else if matchesField kv.1 "is_group" then
    ({ st.1 with params := { st.1.params with
        IsGroup := (storeBool kv.2 st.1.params.IsGroup st.2).1 } },
      (storeBool kv.2 st.1.params.IsGroup st.2).2)
  else if matchesField kv.1 "cover_url" then
    ({ st.1 with params := { st.1.params with
        CoverUrl := (storeString kv.2 st.1.params.CoverUrl st.2).1 } },
      (storeString kv.2 st.1.params.CoverUrl st.2).2)
  else if matchesField kv.1 "data" then
    ({ st.1 with params := { st.1.params with
        Data := (storeString kv.2 st.1.params.Data st.2).1 } },
      (storeString kv.2 st.1.params.Data st.2).2)
  else if matchesField kv.1 "channel_url" then
    ({ st.1 with params := { st.1.params with
        ChannelUrl := (storeString kv.2 st.1.params.ChannelUrl st.2).1 } },
      (storeString kv.2 st.1.params.ChannelUrl st.2).2)
  else st

/-- Store a document into a `*MessagingChannelUpdateRequest`. -/
def storeMessagingChannelUpdateRequest (j : Json) (x : MessagingChannelUpdateRequest) :
    MessagingChannelUpdateRequest × Option JsonError :=
  storeStruct storeMessagingChannelUpdateRequestMember "sendbird.MessagingChannelUpdateRequest" j x none

/-- Store one member of an object into a `MessagingChannelInviteRequest`: the promoted field
`auth` of the embedded struct, or a field of its own. -/
def storeMessagingChannelInviteRequestMember (st : MessagingChannelInviteRequest × Option JsonError)
    (kv : String × Json) : MessagingChannelInviteRequest × Option JsonError :=
  if matchesField kv.1 "auth" then
    ({ st.1 with Auth := (storeString kv.2 st.1.Auth st.2).1 }, (storeString kv.2 st.1.Auth st.2).2)
  else if matchesField kv.1 "channel_url" then
    ({ st.1 with params := { st.1.params with
        ChannelUrl := (storeString kv.2 st.1.params.ChannelUrl st.2).1 } },
      (storeString kv.2 st.1.params.ChannelUrl st.2).2)
  else if matchesField kv.1 "user_ids" then
    ({ st.1 with params := { st.1.params with
        UserIds := (storeStringSlice kv.2 st.1.params.UserIds st.2).1 } },
      (storeStringSlice kv.2 st.1.params.UserIds st.2).2)
  else st

/-- Store a document into a `*MessagingChannelInviteRequest`. -/
def storeMessagingChannelInviteRequest (j : Json) (x : MessagingChannelInviteRequest) :
    MessagingChannelInviteRequest × Option JsonError :=
  storeStruct storeMessagingChannelInviteRequestMember "sendbird.MessagingChannelInviteRequest" j x none

/-- Store one member of an object into a `MessagingChannelHideRequest`: the promoted field
`auth` of the embedded struct, or a field of its own. -/
def storeMessagingChannelHideRequestMember (st : MessagingChannelHideRequest × Option JsonError)
    (kv : String × Json) : MessagingChannelHideRequest × Option JsonError :=
  if matchesField kv.1 "auth" then
    ({ st.1 with Auth := (storeString kv.2 st.1.Auth st.2).1 }, (storeString kv.2 st.1.Auth st.2).2)
  else if matchesField kv.1 "ids" then
    ({ st.1 with params := { st.1.params with Id := (storeString kv.2 st.1.params.Id st.2).1 } },
      (storeString kv.2 st.1.params.Id st.2).2)
  else if matchesField kv.1 "channel_url" then
    ({ st.1 with params := { st.1.params with
        ChannelUrl := (storeString kv.2 st.1.params.ChannelUrl st.2).1 } },
      (storeString kv.2 st.1.params.ChannelUrl st.2).2)
  else st

/-- Store a document into a `*MessagingChannelHideRequest`. -/
def storeMessagingChannelHideRequest (j : Json) (x : MessagingChannelHideRequest) :
    MessagingChannelHideRequest × Option JsonError :=
  storeStruct storeMessagingChannelHideRequestMember "sendbird.MessagingChannelHideRequest" j x none

/-- Store one member of an object into a `MessagingChannelLeaveRequest`: the promoted field
`auth` of the embedded struct, or a field of its own. -/
def storeMessagingChannelLeaveRequestMember (st : MessagingChannelLeaveRequest × Option JsonError)
    (kv : String × Json) : MessagingChannelLeaveRequest × Option JsonError :=
  if matchesField kv.1 "auth" then
    ({ st.1 with Auth := (storeString kv.2 st.1.Auth st.2).1 }, (storeString kv.2 st.1.Auth st.2).2)
  else if matchesField kv.1 "channel_url" then
    ({ st.1 with params := { st.1.params with
        ChannelUrl := (storeString kv.2 st.1.params.ChannelUrl st.2).1 } },
      (storeString kv.2 st.1.params.ChannelUrl st.2).2)
  else if matchesField kv.1 "user_ids" then
    ({ st.1 with params := { st.1.params with
        UserIds := (storeStringSlice kv.2 st.1.params.UserIds st.2).1 } },
      (storeStringSlice kv.2 st.1.params.UserIds st.2).2)
  else st

/-- Store a document into a `*MessagingChannelLeaveRequest`. -/
def storeMessagingChannelLeaveRequest (j : Json) (x : MessagingChannelLeaveRequest) :
    MessagingChannelLeaveRequest × Option JsonError :=
  storeStruct storeMessagingChannelLeaveRequestMember "sendbird.MessagingChannelLeaveRequest" j x none

/-- Store one member of an object into a `MessagingChannelMetadataRequest`: the promoted field
`auth` of the embedded struct, or a field of its own. -/
def storeMessagingChannelMetadataRequestMember (st : MessagingChannelMetadataRequest × Option JsonError)
    (kv : String × Json) : MessagingChannelMetadataRequest × Option JsonError :=
  if matchesField kv.1 "auth" then
    ({ st.1 with Auth := (storeString kv.2 st.1.Auth st.2).1 }, (storeString kv.2 st.1.Auth st.2).2)
  else if matchesField kv.1 "channel_url" then
    ({ st.1 with params := { st.1.params with
        ChannelUrl := (storeString kv.2 st.1.params.ChannelUrl st.2).1 } },
      (storeString kv.2 st.1.params.ChannelUrl st.2).2)
  else if matchesField kv.1 "keys" then
    ({ st.1 with params := { st.1.params with
        Keys := (storeStringSlice kv.2 st.1.params.Keys st.2).1 } },
      (storeStringSlice kv.2 st.1.params.Keys st.2).2)
  else st

/-- Store a document into a `*MessagingChannelMetadataRequest`. -/
def storeMessagingChannelMetadataRequest (j : Json) (x : MessagingChannelMetadataRequest) :
    MessagingChannelMetadataRequest × Option JsonError :=
  storeStruct storeMessagingChannelMetadataRequestMember "sendbird.MessagingChannelMetadataRequest" j x none

/-- Store one member of an object into a `MessagingChannelSetMetadataRequest`: the promoted field
`auth` of the embedded struct, or a field of its own. -/
def storeMessagingChannelSetMetadataRequestMember (st : MessagingChannelSetMetadataRequest × Option JsonError)
    (kv : String × Json) : MessagingChannelSetMetadataRequest × Option JsonError :=
  if matchesField kv.1 "auth" then
    ({ st.1 with Auth := (storeString kv.2 st.1.Auth st.2).1 }, (storeString kv.2 st.1.Auth st.2).2)
  else if matchesField kv.1 "channel_url" then
    ({ st.1 with params := { st.1.params with
        ChannelUrl := (storeString kv.2 st.1.params.ChannelUrl st.2).1 } },
      (storeString kv.2 st.1.params.ChannelUrl st.2).2)
  else if matchesField kv.1 "data" then
    ({ st.1 with params := { st.1.params with
        Data := (storeStringMapValue kv.2 st.1.params.Data st.2).1 } },
      (storeStringMapValue kv.2 st.1.params.Data st.2).2)
  else st

/-- Store a document into a `*MessagingChannelSetMetadataRequest`. -/
def storeMessagingChannelSetMetadataRequest (j : Json) (x : MessagingChannelSetMetadataRequest) :
    MessagingChannelSetMetadataRequest × Option JsonError :=
  storeStruct storeMessagingChannelSetMetadataRequestMember "sendbird.MessagingChannelSetMetadataRequest" j x none

/-- Store one member of an object into a `MessagingChannelMetacounterRequest`: the promoted field
`auth` of the embedded struct, or a field of its own. -/
def storeMessagingChannelMetacounterRequestMember (st : MessagingChannelMetacounterRequest × Option JsonError)
    (kv : String × Json) : MessagingChannelMetacounterRequest × Option JsonError :=
  if matchesField kv.1 "auth" then
    ({ st.1 with Auth := (storeString kv.2 st.1.Auth st.2).1 }, (storeString kv.2 st.1.Auth st.2).2)
  else if matchesField kv.1 "channel_url" then
    ({ st.1 with params := { st.1.params with
        ChannelUrl := (storeString kv.2 st.1.params.ChannelUrl st.2).1 } },
      (storeString kv.2 st.1.params.ChannelUrl st.2).2)
  else if matchesField kv.1 "keys" then
    ({ st.1 with params := { st.1.params with
        Keys := (storeStringSlice kv.2 st.1.params.Keys st.2).1 } },
      (storeStringSlice kv.2 st.1.params.Keys st.2).2)
  else st

/-- Store a document into a `*MessagingChannelMetacounterRequest`. -/
def storeMessagingChannelMetacounterRequest (j : Json) (x : MessagingChannelMetacounterRequest) :
    MessagingChannelMetacounterRequest × Option JsonError :=
  storeStruct storeMessagingChannelMetacounterRequestMember "sendbird.MessagingChannelMetacounterRequest" j x none

/-- Store one member of an object into a `MessagingChannelSetMetacounterRequest`: the promoted field
`auth` of the embedded struct, or a field of its own. -/
def storeMessagingChannelSetMetacounterRequestMember (st : MessagingChannelSetMetacounterRequest × Option JsonError)
    (kv : String × Json) : MessagingChannelSetMetacounterRequest × Option JsonError :=
  if matchesField kv.1 "auth" then
    ({ st.1 with Auth := (storeString kv.2 st.1.Auth st.2).1 }, (storeString kv.2 st.1.Auth st.2).2)
  else if matchesField kv.1 "channel_url" then
    ({ st.1 with params := { st.1.params with
        ChannelUrl := (storeString kv.2 st.1.params.ChannelUrl st.2).1 } },
      (storeString kv.2 st.1.params.ChannelUrl st.2).2)
  else if matchesField kv.1 "data" then
    ({ st.1 with params := { st.1.params with
        Data := (storeIntMapValue kv.2 st.1.params.Data st.2).1 } },
      (storeIntMapValue kv.2 st.1.params.Data st.2).2)
  else st

/-- Store a document into a `*MessagingChannelSetMetacounterRequest`. -/
def storeMessagingChannelSetMetacounterRequest (j : Json) (x : MessagingChannelSetMetacounterRequest) :
    MessagingChannelSetMetacounterRequest × Option JsonError :=
  storeStruct storeMessagingChannelSetMetacounterRequestMember "sendbird.MessagingChannelSetMetacounterRequest" j x none

/-- Store one member of an object into a `BroadcastMessageRequest`: the promoted field
`auth` of the embedded struct, or a field of its own. -/
def storeBroadcastMessageRequestMember (st : BroadcastMessageRequest × Option JsonError)
    (kv : String × Json) : BroadcastMessageRequest × Option JsonError :=
  if matchesField kv.1 "auth" then
    ({ st.1 with Auth := (storeString kv.2 st.1.Auth st.2).1 }, (storeString kv.2 st.1.Auth st.2).2)
  else if matchesField kv.1 "channel_url" then
    ({ st.1 with params := { st.1.params with
        ChannelUrls := (storeStringSlice kv.2 st.1.params.ChannelUrls st.2).1 } },
      (storeStringSlice kv.2 st.1.params.ChannelUrls st.2).2)
  else if matchesField kv.1 "message" then
    ({ st.1 with params := { st.1.params with
        Message := (storeString kv.2 st.1.params.Message st.2).1 } },
      (storeString kv.2 st.1.params.Message st.2).2)
  else if matchesField kv.1 "persistent" then
    ({ st.1 with params := { st.1.params with
        Persistent := (storeBool kv.2 st.1.params.Persistent st.2).1 } },
      (storeBool kv.2 st.1.params.Persistent st.2).2)
  else if matchesField kv.1 "data" then
    ({ st.1 with params := { st.1.params with
        Data := (storeString kv.2 st.1.params.Data st.2).1 } },
      (storeString kv.2 st.1.params.Data st.2).2)
  else st

/-- Store a document into a `*BroadcastMessageRequest`. -/
def storeBroadcastMessageRequest (j : Json) (x : BroadcastMessageRequest) :
    BroadcastMessageRequest × Option JsonError :=
  storeStruct storeBroadcastMessageRequestMember "sendbird.BroadcastMessageRequest" j x none

/-- Store one member of an object into a `ReadMessagesRequest`: the promoted field
`auth` of the embedded struct, or a field of its own. -/
def storeReadMessagesRequestMember (st : ReadMessagesRequest × Option JsonError)
    (kv : String × Json) : ReadMessagesRequest × Option JsonError :=
  if matchesField kv.1 "auth" then
    ({ st.1 with Auth := (storeString kv.2 st.1.Auth st.2).1 }, (storeString kv.2 st.1.Auth st.2).2)
  else if matchesField kv.1 "channel_url" then
    ({ st.1 with params := { st.1.params with
        ChannelUrl := (storeString kv.2 st.1.params.ChannelUrl st.2).1 } },
      (storeString kv.2 st.1.params.ChannelUrl st.2).2)
  else if matchesField kv.1 "target_user_ids" then
    ({ st.1 with params := { st.1.params with
        TargetUserIds := (storeStringSlice kv.2 st.1.params.TargetUserIds st.2).1 } },
      (storeStringSlice kv.2 st.1.params.TargetUserIds st.2).2)
  else if matchesField kv.1 "limit" then
    ({ st.1 with params := { st.1.params with Limit := (storeInt kv.2 st.1.params.Limit st.2).1 } },
      (storeInt kv.2 st.1.params.Limit st.2).2)
  else if matchesField kv.1 "message_id" then
    ({ st.1 with params := { st.1.params with
        MessageId := (storeInt64 kv.2 st.1.params.MessageId st.2).1 } },
      (storeInt64 kv.2 st.1.params.MessageId st.2).2)
  else st

/-- Store a document into a `*ReadMessagesRequest`. -/
def storeReadMessagesRequest (j : Json) (x : ReadMessagesRequest) :
    ReadMessagesRequest × Option JsonError :=
  storeStruct storeReadMessagesRequestMember "sendbird.ReadMessagesRequest" j x none

/-- Store one member of an object into a `MuteRequest`: the promoted field
`auth` of the embedded struct, or a field of its own. -/
def storeMuteRequestMember (st : MuteRequest × Option JsonError)
    (kv : String × Json) : MuteRequest × Option JsonError :=
  if matchesField kv.1 "auth" then
    ({ st.1 with Auth := (storeString kv.2 st.1.Auth st.2).1 }, (storeString kv.2 st.1.Auth st.2).2)
  else if matchesField kv.1 "id" then
    ({ st.1 with params := { st.1.params with Id := (storeString kv.2 st.1.params.Id st.2).1 } },
      (storeString kv.2 st.1.params.Id st.2).2)
  else if matchesField kv.1 "channel_urls" then
    ({ st.1 with params := { st.1.params with
        ChannelUrls := (storeStringSlice kv.2 st.1.params.ChannelUrls st.2).1 } },
      (storeStringSlice kv.2 st.1.params.ChannelUrls st.2).2)
  else if matchesField kv.1 "is_soft_mute" then
    ({ st.1 with params := { st.1.params with
        IsSoftMute := (storeBool kv.2 st.1.params.IsSoftMute st.2).1 } },
      (storeBool kv.2 st.1.params.IsSoftMute st.2).2)
  else st

/-- Store a document into a `*MuteRequest`. -/
def storeMuteRequest (j : Json) (x : MuteRequest) : MuteRequest × Option JsonError :=
  storeStruct storeMuteRequestMember "sendbird.MuteRequest" j x none

/-- Store one member of an object into a `UnMuteRequest`: the promoted field
`auth` of the embedded struct, or a field of its own. -/
def storeUnMuteRequestMember (st : UnMuteRequest × Option JsonError)
    (kv : String × Json) : UnMuteRequest × Option JsonError :=
  if matchesField kv.1 "auth" then
    ({ st.1 with Auth := (storeString kv.2 st.1.Auth st.2).1 }, (storeString kv.2 st.1.Auth st.2).2)
  else if matchesField kv.1 "id" then
    ({ st.1 with params := { st.1.params with Id := (storeString kv.2 st.1.params.Id st.2).1 } },
      (storeString kv.2 st.1.params.Id st.2).2)
  else if matchesField kv.1 "channel_urls" then
    ({ st.1 with params := { st.1.params with
        ChannelUrls := (storeStringSlice kv.2 st.1.params.ChannelUrls st.2).1 } },
      (storeStringSlice kv.2 st.1.params.ChannelUrls st.2).2)
  else st

/-- Store a document into a `*UnMuteRequest`. -/
def storeUnMuteRequest (j : Json) (x : UnMuteRequest) : UnMuteRequest × Option JsonError :=
  storeStruct storeUnMuteRequestMember "sendbird.UnMuteRequest" j x none

/-- Store one member of an object into a `BotRequest`: the promoted field
`api_token` of the embedded struct, or a field of its own. -/
def storeBotRequestMember (st : BotRequest × Option JsonError)
    (kv : String × Json) : BotRequest × Option JsonError :=
  if matchesField kv.1 "api_token" then
    ({ st.1 with ApiToken := (storeString kv.2 st.1.ApiToken st.2).1 },
      (storeString kv.2 st.1.ApiToken st.2).2)
  else if matchesField kv.1 "bot_userid" then
    ({ st.1 with params := { st.1.params with
        BotUserId := (storeString kv.2 st.1.params.BotUserId st.2).1 } },
      (storeString kv.2 st.1.params.BotUserId st.2).2)
  else if matchesField kv.1 "bot_nickname" then
    ({ st.1 with params := { st.1.params with
        BotNickname := (storeString kv.2 st.1.params.BotNickname st.2).1 } },
      (storeString kv.2 st.1.params.BotNickname st.2).2)
  else if matchesField kv.1 "bot_callback_url" then
    ({ st.1 with params := { st.1.params with
        BotCallbackUrl := (storeString kv.2 st.1.params.BotCallbackUrl st.2).1 } },
      (storeString kv.2 st.1.params.BotCallbackUrl st.2).2)
  else if matchesField kv.1 "is_privacy_mode" then
    ({ st.1 with params := { st.1.params with
        IsPrivacyMode := (storeBool kv.2 st.1.params.IsPrivacyMode st.2).1 } },
      (storeBool kv.2 st.1.params.IsPrivacyMode st.2).2)
  else st

/-- Store a document into a `*BotRequest`. -/
def storeBotRequest (j : Json) (x : BotRequest) : BotRequest × Option JsonError :=
  storeStruct storeBotRequestMember "sendbird.BotRequest" j x none

/-- Store one member of an object into a `BotUpdateRequest`: the promoted field
`api_token` of the embedded struct, or a field of its own. -/
def storeBotUpdateRequestMember (st : BotUpdateRequest × Option JsonError)
    (kv : String × Json) : BotUpdateRequest × Option JsonError :=
  if matchesField kv.1 "api_token" then
    ({ st.1 with ApiToken := (storeString kv.2 st.1.ApiToken st.2).1 },
      (storeString kv.2 st.1.ApiToken st.2).2)
  else if matchesField kv.1 "bot_nickname" then
    ({ st.1 with params := { st.1.params with
        BotNickname := (storeString kv.2 st.1.params.BotNickname st.2).1 } },
      (storeString kv.2 st.1.params.BotNickname st.2).2)
  else if matchesField kv.1 "bot_callback_url" then
    ({ st.1 with params := { st.1.params with
        BotCallbackUrl := (storeString kv.2 st.1.params.BotCallbackUrl st.2).1 } },
      (storeString kv.2 st.1.params.BotCallbackUrl st.2).2)
  else if matchesField kv.1 "is_privacy_mode" then
    ({ st.1 with params := { st.1.params with
        IsPrivacyMode := (storeBool kv.2 st.1.params.IsPrivacyMode st.2).1 } },
      (storeBool kv.2 st.1.params.IsPrivacyMode st.2).2)
  else st

/-- Store a document into a `*BotUpdateRequest`. -/
def storeBotUpdateRequest (j : Json) (x : BotUpdateRequest) : BotUpdateRequest × Option JsonError :=
  storeStruct storeBotUpdateRequestMember "sendbird.BotUpdateRequest" j x none

/-- Store one member of an object into a `BotMessageRequest`: the promoted field
`api_token` of the embedded struct, or a field of its own. -/
def storeBotMessageRequestMember (st : BotMessageRequest × Option JsonError)
    (kv : String × Json) : BotMessageRequest × Option JsonError :=
  if matchesField kv.1 "api_token" then
    ({ st.1 with ApiToken := (storeString kv.2 st.1.ApiToken st.2).1 },
      (storeString kv.2 st.1.ApiToken st.2).2)
  else if matchesField kv.1 "message" then
    ({ st.1 with params := { st.1.params with
        Message := (storeString kv.2 st.1.params.Message st.2).1 } },
      (storeString kv.2 st.1.params.Message st.2).2)
  else if matchesField kv.1 "data" then
    ({ st.1 with params := { st.1.params with
        Data := (storeString kv.2 st.1.params.Data st.2).1 } },
      (storeString kv.2 st.1.params.Data st.2).2)
  else if matchesField kv.1 "channel_url" then
    ({ st.1 with params := { st.1.params with
        ChannelUrl := (storeString kv.2 st.1.params.ChannelUrl st.2).1 } },
      (storeString kv.2 st.1.params.ChannelUrl st.2).2)
  else st

/-- Store a document into a `*BotMessageRequest`. -/
def storeBotMessageRequest (j : Json) (x : BotMessageRequest) :
    BotMessageRequest × Option JsonError :=
  storeStruct storeBotMessageRequestMember "sendbird.BotMessageRequest" j x none

/-! ## The goroutines of the webhook handler -/

/-- One effect of the goroutine that runs `Handler`, in program order:
`log.Fatal`, the `go` statement that starts the registered callback, and
`WriteHeader`.  `call` is the plain call of the callback, the statement without
`go`: `Handler` has none, it is there to tell the two apart. -/
inductive HandlerEffect where
  | fatal (logged : Logged)
  | start (payload : BotCallback)
  | call (payload : BotCallback)
  | writeHeader (status : Nat)
deriving DecidableEq, Repr

/-- A sequence of effects. -/
abbrev Effects := List HandlerEffect

/-- How a run of the registered callback ends, when it ends: it returns, it
panics, or it ends the process (`os.Exit`, `log.Fatal`). -/
inductive Ending where
  | returns
  | panics
  | exits (code : Nat)
deriving DecidableEq, Repr

/-- What the registered callback does on a payload: the number of steps it
takes before it ends (`none`: it never ends) and how it ends. -/
structure Behaviour where
  steps : Option Nat
  ending : Ending := .returns
deriving DecidableEq, Repr

/-- Does a run of the callback leave the process alive: it returns, or it
never ends? -/
def Behaviour.harmless (b : Behaviour) : Bool :=
  b.steps.isNone || b.ending == .returns

/-- The effects of `Handler` in the order of the program text: after the body
was read and decoded, the callback is started with `go` when one is
registered, and then the header is written. -/
def BotServiceOp.HandlerEffects (MessageReceived : Bool) (body : Body) : Effects :=
  match ReadAll body with
  | (_, some err, _) => [.fatal { text := err }]
  | (read, none, _) =>
    match unmarshalBotCallback read with
    | (_, some e) => [.fatal { text := "Couldn't parse sendbird json:", err := some e }]
    | (callbackData, none) =>
      (if MessageReceived then [.start callbackData] else []) ++ [.writeHeader StatusOK]

/-- What a list of effects, run to its end, leaves behind, when every callback
that is called returns. -/
def HandlerEffect.outcome : List HandlerEffect → List BotCallback → HandlerOutcome
  | [], started => .responded StatusOK started
  | .fatal logged :: _, _ => .exited 1 logged
  | .start payload :: rest, started => HandlerEffect.outcome rest (started ++ [payload])
  | .call payload :: rest, started => HandlerEffect.outcome rest (started ++ [payload])
  | .writeHeader status :: _, started => .responded status started

/-- The effects with every `go` statement replaced by a plain call. -/
def withoutGo (es : Effects) : Effects :=
  es.map fun e =>
    match e with
    | .start payload => .call payload
    | other => other

/-- A run of the registered callback: the payload it was given and the steps
it has taken so far. -/
structure CallbackRun where
  payload : BotCallback
  steps : Nat := 0
deriving DecidableEq, Repr

/-- Has the run come to its end? -/
def CallbackRun.ended (work : BotCallback → Behaviour) (g : CallbackRun) : Bool :=
  match (work g.payload).steps with
  | some n => decide (n ≤ g.steps)
  | none => false

/-- The process while it serves one inbound request: the effects the goroutine
of `Handler` has still to perform, the steps taken in the plain call it is in,
the status written to the response, the exit status when the process has
ended, and the callback goroutines started. -/
structure Serving where
  pending : List HandlerEffect
  inCall : Nat := 0
  status : Option Nat := none
  exitCode : Option Nat := none
  callbacks : List CallbackRun := []
deriving DecidableEq, Repr

/-- The goroutine the scheduler runs next. -/
inductive Turn where
  | handler
  | callback (i : Nat)
deriving DecidableEq, Repr

/-- The exit status of a process that ends in a panic. -/
def panicExit : Nat := 2

/-- One step of callback goroutine `i`, when it exists: a run that has not
come to its end takes a step; a run at its end returns, or ends the process
with it when it panics or exits.  The result is the goroutines and the exit
status of the process, if it ended. -/
def advance (work : BotCallback → Behaviour) :
    Nat → List CallbackRun → List CallbackRun × Option Nat
  | _, [] => ([], none)
  | 0, g :: gs =>
    if g.ended work then
      (g :: gs,
        match (work g.payload).ending with
        | .returns => none
        | .panics => some panicExit
        | .exits code => some code)
    else ({ g with steps := g.steps + 1 } :: gs, none)
  | i + 1, g :: gs => (g :: (advance work i gs).1, (advance work i gs).2)

/-- One turn of the scheduler.  A `go` statement adds a goroutine and the
goroutine of `Handler` goes on with its next effect; in a plain call the
goroutine of `Handler` takes the steps of the callback itself and goes on when
the callback has returned (a panic of the callback there unwinds `Handler`,
whose remaining effects are lost; the server recovers it).  The first
`WriteHeader` fixes the status.  A panic in a callback goroutine and `os.Exit`
end the process, after which nothing runs. -/
def Serving.step (work : BotCallback → Behaviour) (s : Serving) (t : Turn) : Serving :=
  if s.exitCode.isSome then s
  else
    match t with
    | .handler =>
      match s.pending with
      | [] => s
      | .fatal _ :: _ => { s with pending := [], exitCode := some 1 }
      | .start payload :: rest =>
        { s with pending := rest, callbacks := s.callbacks ++ [{ payload := payload }] }
      | .call payload :: rest =>
        if CallbackRun.ended work { payload := payload, steps := s.inCall } then
          match (work payload).ending with
          | .returns => { s with pending := rest, inCall := 0 }
          | .panics => { s with pending := [], inCall := 0 }
          | .exits code => { s with pending := [], exitCode := some code }
        else { s with inCall := s.inCall + 1 }
      | .writeHeader status :: rest =>
        { s with pending := rest, status := some (s.status.getD status) }
    | .callback i =>
      { s with callbacks := (advance work i s.callbacks).1,
               exitCode := (advance work i s.callbacks).2 }

/-- The process after the scheduler has given the turns in order. -/
def Serving.run (work : BotCallback → Behaviour) (s : Serving) (turns : List Turn) : Serving :=
  turns.foldl (Serving.step work) s

/-- The process when `Handler` starts to serve the request. -/
def serve (MessageReceived : Bool) (body : Body) : Serving :=
  { pending := BotServiceOp.HandlerEffects MessageReceived body }

/-- The process when a `Handler` without the `go` statement starts to serve the request. -/
def serveWithoutGo (MessageReceived : Bool) (body : Body) : Serving :=
  { pending := withoutGo (BotServiceOp.HandlerEffects MessageReceived body) }

/-! ## Response classification -/

/-- C1: `CheckResponse` returns no error exactly for the status codes 200 to
299; every other status code yields an error. -/
theorem CheckResponse_nil_iff_2xx (r : HttpResponse) :
    (CheckResponse r).2 = none ↔ (200 ≤ r.StatusCode ∧ r.StatusCode ≤ 299) := by
  unfold CheckResponse
  constructor
  · intro h
    by_contra hc
    rw [if_neg hc] at h
    by_cases h404 : r.StatusCode = 404
    · rw [if_pos h404] at h
      simp at h
    · rw [if_neg h404] at h
      simp only [ReadAll] at h
      split at h
      · split at h <;> simp at h
      · simp at h
  · intro h
    rw [if_pos h]

/-- C2: for a response with status 404, whatever its body, the error of
`CheckResponse` is an `ErrorResponse` whose message is the misspelt constant
"Resouce Not Found - please check the URL", which is not the message
"Resource Not Found - please check the URL". -/
theorem CheckResponse_404_message (r : HttpResponse) (h : r.StatusCode = 404) :
    (CheckResponse r).2 = some (.errorResponse
        { Response := some r, Message := "Resouce Not Found - please check the URL" }) ∧
      "Resouce Not Found - please check the URL" ≠ "Resource Not Found - please check the URL" := by
  refine ⟨?_, by decide⟩
  unfold CheckResponse
  have h2 : ¬ (200 ≤ r.StatusCode ∧ r.StatusCode ≤ 299) := by omega
  rw [if_neg h2, if_pos h]

/-- A 404 response with a JSON error body: the body plays no part. -/
theorem CheckResponse_404_message_witness :
    (404 : Int) = 404 ∧
    (CheckResponse { StatusCode := 404, Body := { data := "\x7b\"message\":\"gone\"\x7d" } }).2 =
      some (.errorResponse
        { Response := some { StatusCode := 404, Body := { data := "\x7b\"message\":\"gone\"\x7d" } },
          Message := "Resouce Not Found - please check the URL" }) :=
  ⟨rfl, (CheckResponse_404_message
    { StatusCode := 404, Body := { data := "\x7b\"message\":\"gone\"\x7d" } } rfl).1⟩

/-- A member whose key selects neither field of `ErrorResponse` is skipped. -/
theorem storeErrorResponseMember_skip (st : ErrDecodeState) (kv : String × Json)
    (hR : matchesField kv.1 "Response" = false) (hM : matchesField kv.1 "Message" = false) :
    storeErrorResponseMember st kv = st := by
  simp [storeErrorResponseMember, hR, hM]

/-- A string member whose key selects `Message` replaces the message and
nothing else. -/
theorem storeErrorResponseMember_message (st : ErrDecodeState) (k s : String)
    (hR : matchesField k "Response" = false) (hM : matchesField k "Message" = true) :
    storeErrorResponseMember st (k, .str s) = { st with message := s } := by
  simp [storeErrorResponseMember, hR, hM, storeString]

/-- Members none of which selects a field leave the decoding state as it is. -/
theorem foldl_storeErrorResponseMember_skip (kvs : List (String × Json)) (st : ErrDecodeState)
    (hR : ∀ kv ∈ kvs, matchesField kv.1 "Response" = false)
    (hM : ∀ kv ∈ kvs, matchesField kv.1 "Message" = false) :
    kvs.foldl storeErrorResponseMember st = st := by
  induction kvs generalizing st with
  | nil => rfl
  | cons kv rest ih =>
    rw [List.foldl_cons,
      storeErrorResponseMember_skip st kv (hR kv (List.mem_cons_self _ _))
        (hM kv (List.mem_cons_self _ _))]
    exact ih st (fun x hx => hR x (List.mem_cons_of_mem _ hx))
      (fun x hx => hM x (List.mem_cons_of_mem _ hx))

/-- Members none of which selects `Response`, and whose `Message` members are
all strings, change the message only. -/
theorem foldl_storeErrorResponseMember_strings (kvs : List (String × Json)) (st : ErrDecodeState)
    (hR : ∀ kv ∈ kvs, matchesField kv.1 "Response" = false)
    (hS : ∀ kv ∈ kvs, matchesField kv.1 "Message" = true → ∃ s, kv.2 = .str s) :
    ∃ m, kvs.foldl storeErrorResponseMember st = { st with message := m } := by
  induction kvs generalizing st with
  | nil => exact ⟨st.message, rfl⟩
  | cons kv rest ih =>
    have hR1 := hR kv (List.mem_cons_self _ _)
    have hRr : ∀ x ∈ rest, matchesField x.1 "Response" = false :=
      fun x hx => hR x (List.mem_cons_of_mem _ hx)
    have hSr : ∀ x ∈ rest, matchesField x.1 "Message" = true → ∃ s, x.2 = .str s :=
      fun x hx => hS x (List.mem_cons_of_mem _ hx)
    rw [List.foldl_cons]
    cases hM : matchesField kv.1 "Message" with
    | false =>
      rw [storeErrorResponseMember_skip st kv hR1 hM]
      exact ih st hRr hSr
    | true =>
      obtain ⟨s, hs⟩ := hS kv (List.mem_cons_self _ _) hM
      obtain ⟨k, v⟩ := kv
      simp only at hs hR1 hM
      subst hs
      rw [storeErrorResponseMember_message st k s hR1 hM]
      obtain ⟨m, hm⟩ := ih { st with message := s } hRr hSr
      exact ⟨m, by rw [hm]⟩

/-- A byte string that denotes a document is not empty. -/
theorem length_pos_of_parseJSON (data : String) (v : Json) (h : parseJSON data = some v) :
    0 < data.length := by
  rcases Nat.eq_zero_or_pos data.length with h0 | h0
  · have hd : data = "" := by
      apply String.ext
      exact List.length_eq_zero.mp h0
    have hnone : parseJSON "" = none := by decide
    rw [hd, hnone] at h
    cases h
  · exact h0

/-- The last branch of `CheckResponse`: a status outside 200–299 other than
404, with a body that was read without error and is not empty, is classified
by what `json.Unmarshal` makes of the body. -/
theorem CheckResponse_of_body (r : HttpResponse)
    (h2xx : ¬ (200 ≤ r.StatusCode ∧ r.StatusCode ≤ 299)) (h404 : r.StatusCode ≠ 404)
    (hread : r.Body.readErr = none) (hlen : 0 < r.Body.data.length) :
    CheckResponse r =
      match unmarshalErrorResponse r.Body.data { r with Body := { r.Body with data := "" } } with
      | (r2, _, some jerr) => (r2, some (.json jerr))
      | (r2, errorResponse, none) => (r2, some (.errorResponse errorResponse)) := by
  unfold CheckResponse
  rw [if_neg h2xx, if_neg h404]
  simp only [ReadAll, hread, Option.isNone_none, true_and]
  rw [if_pos (by simpa using hlen)]

/-- C3, as stated, fails: with the body `{"message":"a","Message":"b"}` and
status 500 the body is a JSON object with the string field `message` of value
"a", and the `ErrorResponse` returned has the message "b". -/
theorem CheckResponse_message_field_counterexample :
    ¬ (∀ (r : HttpResponse) (kvs : List (String × Json)) (m : String),
        ¬ (200 ≤ r.StatusCode ∧ r.StatusCode ≤ 299) → r.StatusCode ≠ 404 →
        r.Body.readErr = none → parseJSON r.Body.data = some (.obj kvs) →
        ("message", Json.str m) ∈ kvs →
        ∃ e, (CheckResponse r).2 = some (.errorResponse e) ∧ e.Message = m) := by
  intro h
  obtain ⟨e, he, hm⟩ := h
    { StatusCode := 500, Body := { data := "\x7b\"message\":\"a\",\"Message\":\"b\"\x7d" } }
    [("message", .str "a"), ("Message", .str "b")] "a"
    (by decide) (by decide) rfl (by decide) (by decide)
  have hb : (CheckResponse
      { StatusCode := 500, Body := { data := "\x7b\"message\":\"a\",\"Message\":\"b\"\x7d" } }).2 =
      some (.errorResponse { Response := some { StatusCode := 500 }, Message := "b" }) := by
    decide
  rw [hb] at he
  injection he with he
  injection he with he
  rw [← he] at hm
  exact absurd hm (by decide)

/-- C3, amended: for a response whose status is outside 200–299 and is not
404, and whose body is a JSON object in which no key selects `Response`, every
member whose key selects `Message` (by name, ignoring case) is a string, and
the last such member holds the string `m`, `CheckResponse` returns an
`ErrorResponse` that holds the response and whose `Message` is `m`. -/
theorem CheckResponse_message_last_field (r : HttpResponse)
    (pre post : List (String × Json)) (k m : String)
    (h2xx : ¬ (200 ≤ r.StatusCode ∧ r.StatusCode ≤ 299)) (h404 : r.StatusCode ≠ 404)
    (hread : r.Body.readErr = none)
    (hparse : parseJSON r.Body.data = some (.obj (pre ++ (k, .str m) :: post)))
    (hR : ∀ kv ∈ pre ++ (k, .str m) :: post, matchesField kv.1 "Response" = false)
    (hS : ∀ kv ∈ pre, matchesField kv.1 "Message" = true → ∃ s, kv.2 = .str s)
    (hk : matchesField k "Message" = true)
    (hlast : ∀ kv ∈ post, matchesField kv.1 "Message" = false) :
    (CheckResponse r).2 = some (.errorResponse
      { Response := some { r with Body := { r.Body with data := "" } }, Message := m }) := by
  rw [CheckResponse_of_body r h2xx h404 hread (length_pos_of_parseJSON _ _ hparse)]
  have hRpre : ∀ kv ∈ pre, matchesField kv.1 "Response" = false :=
    fun kv hkv => hR kv (List.mem_append_left _ hkv)
  have hRk : matchesField k "Response" = false :=
    hR (k, .str m) (List.mem_append_right _ (List.mem_cons_self _ _))
  have hRpost : ∀ kv ∈ post, matchesField kv.1 "Response" = false :=
    fun kv hkv => hR kv (List.mem_append_right _ (List.mem_cons_of_mem _ hkv))
  obtain ⟨m0, hm0⟩ := foldl_storeErrorResponseMember_strings pre
    { r := { r with Body := { r.Body with data := "" } } } hRpre hS
  simp only [unmarshalErrorResponse, hparse, List.foldl_append, List.foldl_cons, hm0,
    storeErrorResponseMember_message _ k m hRk hk,
    foldl_storeErrorResponseMember_skip post _ hRpost hlast]
  rfl

/-- The body `{"Message":"a","message":"boom"}` with status 500: the last
member that selects `Message` wins. -/
theorem CheckResponse_message_last_field_witness :
    (CheckResponse
      { StatusCode := 500, Body := { data := "\x7b\"Message\":\"a\",\"message\":\"boom\"\x7d" } }).2 =
      some (.errorResponse { Response := some { StatusCode := 500 }, Message := "boom" }) :=
  CheckResponse_message_last_field
    { StatusCode := 500, Body := { data := "\x7b\"Message\":\"a\",\"message\":\"boom\"\x7d" } }
    [("Message", .str "a")] [] "message" "boom"
    (by decide) (by decide) rfl (by decide) (by decide)
    (by intro kv hkv; simp only [List.mem_singleton] at hkv; subst hkv; exact fun _ => ⟨"a", rfl⟩)
    (by decide) (by simp)

/-- C4: with status 500, a body that is not JSON, a body that is a JSON array
and a body whose `message` is a number each make `CheckResponse` return the
error of `json.Unmarshal` itself, not an `ErrorResponse`: the unusable body is
not ignored. -/
theorem CheckResponse_unparseable_body_returns_json_error :
    (CheckResponse { StatusCode := 500, Body := { data := "not json" } }).2 =
        some (.json .syntaxError) ∧
      (CheckResponse { StatusCode := 500, Body := { data := "[1]" } }).2 =
        some (.json (.unmarshalType "array" "sendbird.ErrorResponse")) ∧
      (CheckResponse { StatusCode := 500, Body := { data := "\x7b\"message\":5\x7d" } }).2 =
        some (.json (.unmarshalType "number" "string")) := by
  refine ⟨by decide, by decide, by decide⟩

/-- C5: with status 500, the body `{"response":null}` makes `CheckResponse`
return an `ErrorResponse` whose `Response` is nil, and the body
`{"response":{"StatusCode":200}}` one whose `Response.StatusCode` is 200: the
body overwrites the embedded response. -/
theorem CheckResponse_body_overwrites_response :
    (CheckResponse { StatusCode := 500, Body := { data := "\x7b\"response\":null\x7d" } }).2 =
        some (.errorResponse { Response := none, Message := "" }) ∧
      (CheckResponse
        { StatusCode := 500, Body := { data := "\x7b\"response\":\x7b\"StatusCode\":200\x7d\x7d" } }).2 =
        some (.errorResponse { Response := some { StatusCode := 200 }, Message := "" }) := by
  refine ⟨by decide, by decide⟩

/-! ## Request execution -/

/-- A status in 200–299 passes `CheckResponse` and leaves the response untouched. -/
theorem CheckResponse_2xx (r : HttpResponse) (h : 200 ≤ r.StatusCode ∧ r.StatusCode ≤ 299) :
    CheckResponse r = (r, none) := by
  unfold CheckResponse
  rw [if_pos h]

/-- An array at the head of the stream is the document read, whatever follows
it and however the stream ends. -/
theorem readDocument_of_arr (b : Body) (xs : List Json)
    (h : decodeFirst b.data = some (.arr xs)) : readDocument b = .ok (.arr xs) := by
  unfold decodeFirst at h
  unfold readDocument
  cases hp : parseValue (parseFuel b.data.data) b.data.data with
  | none => rw [hp] at h; cases h
  | some vr =>
    obtain ⟨v, rest⟩ := vr
    rw [hp] at h
    cases h
    rfl

/-- An object at the head of the stream is the document read, whatever follows
it and however the stream ends. -/
theorem readDocument_of_obj (b : Body) (kvs : List (String × Json))
    (h : decodeFirst b.data = some (.obj kvs)) : readDocument b = .ok (.obj kvs) := by
  unfold decodeFirst at h
  unfold readDocument
  cases hp : parseValue (parseFuel b.data.data) b.data.data with
  | none => rw [hp] at h; cases h
  | some vr =>
    obtain ⟨v, rest⟩ := vr
    rw [hp] at h
    cases h
    rfl

/-- The document read from a stream is the first value of its bytes. -/
theorem decodeFirst_of_readDocument (b : Body) (j : Json) (h : readDocument b = .ok j) :
    decodeFirst b.data = some j := by
  unfold readDocument at h
  unfold decodeFirst
  cases hp : parseValue (parseFuel b.data.data) b.data.data with
  | none =>
    rw [hp] at h
    exfalso
    revert h
    cases b.readErr <;> simp only <;> split_ifs <;> intro h <;> cases h
  | some vr =>
    obtain ⟨v, rest⟩ := vr
    rw [hp] at h
    simp only at h
    split_ifs at h
    · cases h; rfl
    · cases hr : b.readErr with
      | none => rw [hr] at h; cases h; rfl
      | some m => rw [hr] at h; cases h

/-- A stream that ends without a read error yields the first value of its bytes. -/
theorem readDocument_of_decodeFirst (b : Body) (j : Json) (h : decodeFirst b.data = some j)
    (hr : b.readErr = none) : readDocument b = .ok j := by
  unfold decodeFirst at h
  unfold readDocument
  cases hp : parseValue (parseFuel b.data.data) b.data.data with
  | none => rw [hp] at h; cases h
  | some vr =>
    obtain ⟨v, rest⟩ := vr
    rw [hp] at h
    cases h
    simp only [hr, ite_self]

/-- C6: for a response with status 200–299 and a destination that is neither
nil nor a writer, `Do` returns.  If the decoder reads a JSON document from the
body and the destination's type stores it without error, the error is nil, the
`Response` is the response received and the destination holds the stored
value.  If the store fails, or the decoder reads no document (an empty body
included), `Do` returns that error and no `Response`. -/
theorem Do_decodes_into_destination {α : Type} (c : SendbirdClient)
    (store : Json → α → α × Option JsonError) (rq : HttpRequest) (resp : HttpResponse) (x : α)
    (hresp : c.client rq = .ok resp)
    (h2xx : 200 ≤ resp.StatusCode ∧ resp.StatusCode ≤ 299) :
    ∃ d, c.Do store (some rq) (.value x) = .returned d ∧
      (∀ j, readDocument resp.Body = .ok j → (store j x).2 = none →
        d.err = none ∧
        d.response = some (newResponse { resp with Body := resp.Body.Close }) ∧
        d.v = .value (store j x).1) ∧
      (∀ j e, readDocument resp.Body = .ok j → (store j x).2 = some e →
        d.err = some (.json e) ∧ d.response = none ∧ d.v = .value (store j x).1) ∧
      (∀ e, readDocument resp.Body = .error e →
        d.err = some e ∧ d.response = none ∧ d.v = .value x) ∧
      (resp.Body.data = "" → d.err ≠ none ∧ d.response = none) := by
  have hempty : ∀ b : Body, b.data = "" → ∃ e, readDocument b = .error e := by
    intro b hb
    unfold readDocument
    rw [hb]
    cases hr : b.readErr with
    | none => exact ⟨_, rfl⟩
    | some m => exact ⟨_, rfl⟩
  unfold SendbirdClient.Do
  simp only [hresp, CheckResponse_2xx resp h2xx, decodeBody]
  cases hd : readDocument resp.Body with
  | error e0 =>
    refine ⟨_, rfl, ?_, ?_, ?_, ?_⟩
    · intro j hj
      cases hj
    · intro j e hj
      cases hj
    · intro e he
      cases he
      exact ⟨rfl, rfl, rfl⟩
    · intro _
      exact ⟨by simp, rfl⟩
  | ok j =>
    cases hs : (store j x).2 with
    | none =>
      simp only [hs, Option.map_none']
      refine ⟨_, rfl, ?_, ?_, ?_, ?_⟩
      · intro j2 hj2 _
        cases hj2
        exact ⟨rfl, rfl, rfl⟩
      · intro j2 e hj2 he
        cases hj2
        rw [hs] at he
        cases he
      · intro e he
        cases he
      · intro he
        obtain ⟨e, hee⟩ := hempty resp.Body he
        rw [hee] at hd
        cases hd
    | some e =>
      simp only [hs, Option.map_some']
      refine ⟨_, rfl, ?_, ?_, ?_, ?_⟩
      · intro j2 hj2 hnone
        cases hj2
        rw [hs] at hnone
        cases hnone
      · intro j2 e2 hj2 he2
        cases hj2
        rw [hs] at he2
        cases he2
        exact ⟨rfl, rfl, rfl⟩
      · intro e2 he2
        cases he2
      · intro _
        exact ⟨by simp, rfl⟩

/-- A `200` response whose body is `{"bot_userid":"b1"}`, decoded into a `Bot`:
`Do` returns no error, the response, and the bot with the user id stored. -/
theorem Do_decodes_into_destination_witness :
    ∃ d, SendbirdClient.Do
        (NewClient (fun _ => .error "unused") "app" "token"
          (some fun _ => .ok { StatusCode := 200, Body := { data := "\x7b\"bot_userid\":\"b1\"\x7d" } }))
        storeBot (some { Method := "GET", URL := {} }) (.value {}) = .returned d ∧
      d.err = none ∧
      d.response = some (newResponse
        { StatusCode := 200,
          Body := { data := "\x7b\"bot_userid\":\"b1\"\x7d", closed := true } }) ∧
      d.v = .value { BotUserId := "b1" } :=
  match Do_decodes_into_destination
    (NewClient (fun _ => .error "unused") "app" "token"
      (some fun _ => .ok { StatusCode := 200, Body := { data := "\x7b\"bot_userid\":\"b1\"\x7d" } }))
    storeBot { Method := "GET", URL := {} }
    { StatusCode := 200, Body := { data := "\x7b\"bot_userid\":\"b1\"\x7d" } } {}
    rfl (by decide) with
  | ⟨d, hd, hok, _, _, _⟩ =>
    ⟨d, hd, hok (.obj [("bot_userid", .str "b1")]) (by rfl) (by decide!)⟩

/-- C7 (as stated, refuted): a `200` response with body `hello` and a writer
that accepts three bytes only.  `Do` returns the error of the copy and no
`Response`, and the writer holds `hel`, not the bytes of the body. -/
theorem Do_writer_short_write_counterexample :
    ∃ d, SendbirdClient.Do
        (NewClient (fun _ => .error "unused") "app" "token"
          (some fun _ => .ok { StatusCode := 200, Body := { data := "hello" } }))
        storeBot (some { Method := "GET", URL := {} }) (.writer { room := some 3 }) = .returned d ∧
      d.err = some (.io "short write") ∧
      d.response = none ∧
      d.v = .writer { written := "hel", room := some 0 } :=
  ⟨_, rfl, rfl, rfl, rfl⟩

/-- C7 (amended): for a response with status 200–299 and a destination that is
a writer, `Do` does not consult the JSON store at all, and it returns.  When
the writer accepts all the bytes of the body, it has received exactly those
bytes, after what it held before; then, if the body was read to its end without
error, `Do` returns no error and the `Response` (nothing is required of the
body, so a body that is not JSON passes), and if the read broke, `Do` returns
the read error and no `Response`.  When the writer accepts fewer bytes than the
body has, it has received that prefix only and `Do` returns the error of the
copy and no `Response`. -/
theorem Do_writer_passthrough {α : Type} (c : SendbirdClient)
    (store : Json → α → α × Option JsonError) (rq : HttpRequest) (resp : HttpResponse)
    (w : Writer)
    (hresp : c.client rq = .ok resp)
    (h2xx : 200 ≤ resp.StatusCode ∧ resp.StatusCode ≤ 299) :
    (∀ store2 : Json → α → α × Option JsonError,
        c.Do store2 (some rq) (.writer w) = c.Do store (some rq) (.writer w)) ∧
      ∃ d w1, c.Do store (some rq) (.writer w) = .returned d ∧ d.v = .writer w1 ∧
        ((∀ n, w.room = some n → resp.Body.data.length ≤ n) →
          w1.written = w.written ++ resp.Body.data ∧
          (resp.Body.readErr = none →
            d.err = none ∧
            d.response = some (newResponse
              { resp with Body := { resp.Body with data := "", closed := true } })) ∧
          (∀ m, resp.Body.readErr = some m → d.err = some (.io m) ∧ d.response = none)) ∧
        (∀ n, w.room = some n → n < resp.Body.data.length →
          w1.written = w.written ++ String.mk (resp.Body.data.data.take n) ∧
          d.err = some (.io "short write") ∧ d.response = none) := by
  refine ⟨fun store2 => ?_, ?_⟩
  · unfold SendbirdClient.Do
    simp only [hresp, CheckResponse_2xx resp h2xx]
  · unfold SendbirdClient.Do
    simp only [hresp, CheckResponse_2xx resp h2xx, ioCopy]
    cases hr : w.room with
    | none =>
      cases he : resp.Body.readErr with
      | none =>
        refine ⟨_, _, rfl, rfl, fun _ => ⟨rfl, fun _ => ⟨rfl, rfl⟩, fun m hm => ?_⟩, fun n hn => ?_⟩
        · cases hm
        · cases hn
      | some m0 =>
        refine ⟨_, _, rfl, rfl, fun _ => ⟨rfl, fun hm => ?_, fun m hm => ?_⟩, fun n hn => ?_⟩
        · cases hm
        · cases hm
          exact ⟨rfl, rfl⟩
        · cases hn
    | some n0 =>
      by_cases hle : resp.Body.data.length ≤ n0
      · simp only [if_pos hle]
        cases he : resp.Body.readErr with
        | none =>
          refine ⟨_, _, rfl, rfl, fun _ => ⟨rfl, fun _ => ⟨rfl, rfl⟩, fun m hm => ?_⟩,
            fun n hn hlt => ?_⟩
          · cases hm
          · cases hn
            omega
        | some m0 =>
          refine ⟨_, _, rfl, rfl, fun _ => ⟨rfl, fun hm => ?_, fun m hm => ?_⟩,
            fun n hn hlt => ?_⟩
          · cases hm
          · cases hm
            exact ⟨rfl, rfl⟩
          · cases hn
            omega
      · simp only [if_neg hle]
        refine ⟨_, _, rfl, rfl, fun hroom => ?_, fun n hn _ => ?_⟩
        · exact absurd (hroom n0 rfl) hle
        · cases hn
          exact ⟨rfl, rfl, rfl⟩

/-- A `200` response whose body is not JSON, copied into an empty writer that
never refuses bytes; the store offered to `Do` fails on every document.  The
writer ends with the bytes of the body and `Do` returns no error. -/
theorem Do_writer_passthrough_witness :
    ∃ d w1, SendbirdClient.Do
        (NewClient (fun _ => .error "unused") "app" "token"
          (some fun _ => .ok { StatusCode := 200, Body := { data := "<html>not json" } }))
        (fun (_ : Json) (u : Unit) => (u, some JsonError.syntaxError))
        (some { Method := "GET", URL := {} }) (.writer {}) = .returned d ∧
      d.v = .writer w1 ∧ w1.written = "" ++ "<html>not json" ∧ d.err = none ∧
      d.response = some (newResponse { StatusCode := 200, Body := { data := "", closed := true } }) :=
  match (Do_writer_passthrough
    (NewClient (fun _ => .error "unused") "app" "token"
      (some fun _ => .ok { StatusCode := 200, Body := { data := "<html>not json" } }))
    (fun (_ : Json) (u : Unit) => (u, some JsonError.syntaxError))
    { Method := "GET", URL := {} }
    { StatusCode := 200, Body := { data := "<html>not json" } } {}
    rfl (by decide)).2 with
  | ⟨d, w1, hd, hv, hall, _⟩ =>
    ⟨d, w1, hd, hv, (hall (by intro n hn; cases hn)).1,
      ((hall (by intro n hn; cases hn)).2.1 rfl).1, ((hall (by intro n hn; cases hn)).2.1 rfl).2⟩

/-! ## Request construction inside the operations -/

/-- When `NewRequest` reports an error it returns no request. -/
theorem NewRequest_error_no_request {β : Type} (c : SendbirdClient) (enc : β → Except String Json)
    (method urlStr : String) (body : Option β)
    (h : (c.NewRequest enc method urlStr body).2 ≠ none) :
    (c.NewRequest enc method urlStr body).1 = none := by
  unfold SendbirdClient.NewRequest at h ⊢
  cases hp : urlParse urlStr with
  | error e => rfl
  | ok rel =>
    simp only [hp] at h ⊢
    split
    · rfl
    · split
      · rfl
      · rename_i h1 _ _ h2
        simp only [h1, h2] at h
        exact absurd rfl h

/-- C8: whenever `NewRequest` fails inside `Bot.Get`, `Users.Create` or
`Admin.ConcurrentUserCount`, the operation drops the error, hands the nil
request to `Do`, and panics instead of returning the error. -/
theorem operations_panic_when_NewRequest_fails (c : SendbirdClient) :
    (∀ botUserId : String,
      (c.NewRequest (fun (_ : Unit) => Except.ok Json.null) "GET"
        ("v2/bots/" ++ botUserId ++ "?api_token=" ++ c.ApiToken) none).2 ≠ none →
      BotServiceOp.Get c botUserId = .panic) ∧
    (∀ params : UserRequest,
      (c.NewRequest (Envelope.encode UserParams.members) "POST" "/user/create"
        (some (params.PopulateAuthApiToken c))).2 ≠ none →
      (UserServiceOp.Create c params).2 = .panic) ∧
    ((c.NewRequest (Envelope.encode fun (_ : Unit) => []) "POST" "/admin/ccu_count"
        (some (Envelope.PopulateAuthApiToken { params := () } c))).2 ≠ none →
      AdminServiceOp.ConcurrentUserCount c = .panic) := by
  refine ⟨fun botUserId h => ?_, fun params h => ?_, fun h => ?_⟩
  · unfold BotServiceOp.Get
    simp only [NewRequest_error_no_request _ _ _ _ _ h]
    rfl
  · unfold UserServiceOp.Create
    simp only [NewRequest_error_no_request _ _ _ _ _ h]
    rfl
  · unfold AdminServiceOp.ConcurrentUserCount
    simp only [NewRequest_error_no_request _ _ _ _ _ h]
    rfl

/-- The call `Bot.Get("%zz")` on a client made by `NewClient`: the path
`v2/bots/%zz?api_token=token` has a malformed escape, and the call panics. -/
theorem operations_panic_when_NewRequest_fails_witness :
    (SendbirdClient.NewRequest (NewClient (fun _ => .error "unused") "app" "token" none)
        (fun (_ : Unit) => Except.ok Json.null) "GET"
        ("v2/bots/" ++ "%zz" ++ "?api_token=" ++ "token") none).2 ≠ none ∧
      BotServiceOp.Get (NewClient (fun _ => .error "unused") "app" "token" none) "%zz" = .panic :=
  ⟨by decide,
    (operations_panic_when_NewRequest_fails
      (NewClient (fun _ => .error "unused") "app" "token" none)).1 "%zz" (by decide)⟩

/-! ## Authentication -/

/-- C9, as stated, fails: a client whose token is empty leaves the `Auth` field
of a decorated envelope empty. -/
theorem auth_field_nonempty_counterexample :
    ¬ (∀ (c : SendbirdClient) (e : Envelope Unit),
        (e.PopulateAuthApiToken c).Auth ≠ "" ∧
        ∃ kvs, Envelope.encode (fun _ => []) (e.PopulateAuthApiToken c) = .ok (.obj kvs) ∧
          ("auth", Json.str (e.PopulateAuthApiToken c).Auth) ∈ kvs) := by
  intro h
  exact (h (NewClient (fun _ => .error "unused") "app" "" none) { params := () }).1 rfl

/-- C9, amended: for every client whose token is not empty and every envelope,
after the decorator has run the authentication field is not empty and the
JSON encoding of the envelope has it as the member `auth` (first-generation
requests) or `api_token` (bot requests). -/
theorem auth_field_nonempty_of_token {β : Type} (c : SendbirdClient)
    (own : β → List (String × Json)) (e : Envelope β) (e2 : EnvelopeV2 β)
    (htoken : c.ApiToken ≠ "") :
    ((e.PopulateAuthApiToken c).Auth ≠ "" ∧
      ∃ kvs, Envelope.encode own (e.PopulateAuthApiToken c) = .ok (.obj kvs) ∧
        ("auth", Json.str c.ApiToken) ∈ kvs) ∧
    ((e2.PopulateApiV2Token c).ApiToken ≠ "" ∧
      ∃ kvs, EnvelopeV2.encode own (e2.PopulateApiV2Token c) = .ok (.obj kvs) ∧
        ("api_token", Json.str c.ApiToken) ∈ kvs) := by
  refine ⟨⟨htoken, _, rfl, ?_⟩, ⟨htoken, _, rfl, ?_⟩⟩
  · simp [Envelope.PopulateAuthApiToken, RequestDefaults.PopulateAuthApiToken,
      RequestDefaults.members, omitEmptyString, htoken]
  · simp [EnvelopeV2.PopulateApiV2Token, RequestDefaultsAPIV2.PopulateApiV2Token,
      RequestDefaultsAPIV2.members]

/-- The envelope of `Admin.ConcurrentUserCount` and the envelope of
`Bot.Delete`, decorated by a client whose token is "API_TOKEN_1". -/
theorem auth_field_nonempty_of_token_witness :
    ((Envelope.PopulateAuthApiToken { params := () }
        (NewClient (fun _ => .error "unused") "app" "API_TOKEN_1" none)).Auth ≠ "" ∧
      ∃ kvs, Envelope.encode (fun (_ : Unit) => [])
          (Envelope.PopulateAuthApiToken { params := () }
            (NewClient (fun _ => .error "unused") "app" "API_TOKEN_1" none)) = .ok (.obj kvs) ∧
        ("auth", Json.str "API_TOKEN_1") ∈ kvs) ∧
    ((EnvelopeV2.PopulateApiV2Token { params := () }
        (NewClient (fun _ => .error "unused") "app" "API_TOKEN_1" none)).ApiToken ≠ "" ∧
      ∃ kvs, EnvelopeV2.encode (fun (_ : Unit) => [])
          (EnvelopeV2.PopulateApiV2Token { params := () }
            (NewClient (fun _ => .error "unused") "app" "API_TOKEN_1" none)) = .ok (.obj kvs) ∧
        ("api_token", Json.str "API_TOKEN_1") ∈ kvs) :=
  auth_field_nonempty_of_token (NewClient (fun _ => .error "unused") "app" "API_TOKEN_1" none)
    (fun (_ : Unit) => []) { params := () } { params := () } (by decide)

/-- C10: `PopulateAuthApiToken` sets `Auth` to the client's token and
`PopulateApiV2Token` sets `ApiToken` to it, whatever the field held before; the
other fields of the envelope are kept, and running a decorator twice gives
what running it once gives. -/
theorem decorators_set_token_idempotent {β : Type} (c : SendbirdClient)
    (e : Envelope β) (e2 : EnvelopeV2 β) :
    ((e.PopulateAuthApiToken c).Auth = c.ApiToken ∧
      (e.PopulateAuthApiToken c).params = e.params ∧
      (e.PopulateAuthApiToken c).PopulateAuthApiToken c = e.PopulateAuthApiToken c) ∧
    ((e2.PopulateApiV2Token c).ApiToken = c.ApiToken ∧
      (e2.PopulateApiV2Token c).params = e2.params ∧
      (e2.PopulateApiV2Token c).PopulateApiV2Token c = e2.PopulateApiV2Token c) ∧
    (∀ s : RequestDefaults,
      (s.PopulateAuthApiToken c).Auth = c.ApiToken ∧
      (s.PopulateAuthApiToken c).PopulateAuthApiToken c = s.PopulateAuthApiToken c) ∧
    (∀ s : RequestDefaultsAPIV2,
      (s.PopulateApiV2Token c).ApiToken = c.ApiToken ∧
      (s.PopulateApiV2Token c).PopulateApiV2Token c = s.PopulateApiV2Token c) :=
  ⟨⟨rfl, rfl, rfl⟩, ⟨rfl, rfl, rfl⟩, fun _ => ⟨rfl, rfl⟩, fun _ => ⟨rfl, rfl⟩⟩

/-! ## The token in the query string -/

/-- C11: with the client token "a&b" the request `Bot.List` builds has the
query `api_token=a&b`, whose parameter `api_token` parses to "a", and so has
the request of `Bot.Get`; with the token "#x" the parameter parses to the
empty string, and with "a+b" to "a b".  The token is written into the path
text without escaping. -/
theorem bot_query_token_not_escaped :
    (sentRequests (BotServiceOp.List (stubClient "a&b" 200 "[]"))).map
        (fun rq => (rq.URL.RawQuery, valuesGet rq.URL.Query "api_token")) =
      [("api_token=a&b", "a")] ∧
    (sentRequests (BotServiceOp.Get (stubClient "a&b" 200 "\x7b\x7d") "helper_bot")).map
        (fun rq => (rq.URL.RawQuery, valuesGet rq.URL.Query "api_token")) =
      [("api_token=a&b", "a")] ∧
    (sentRequests (BotServiceOp.List (stubClient "#x" 200 "[]"))).map
        (fun rq => (rq.URL.RawQuery, rq.URL.Fragment, valuesGet rq.URL.Query "api_token")) =
      [("api_token=", "x", "")] ∧
    (sentRequests (BotServiceOp.List (stubClient "a+b" 200 "[]"))).map
        (fun rq => valuesGet rq.URL.Query "api_token") = ["a b"] := by
  refine ⟨by decide!, by decide!, by decide!, by decide!⟩


/-! ## The channel list -/

/-- A key that selects a field has the folded spelling of its name. -/
theorem foldName_eq_of_matchesField (key name : String) (h : matchesField key name = true) :
    foldName key = foldName name := by
  unfold matchesField at h
  rcases Bool.or_eq_true _ _ |>.mp h with h1 | h1
  · rw [beq_iff_eq.mp h1]
  · exact beq_iff_eq.mp h1

/-- A key selects at most one of two fields whose folded names differ. -/
theorem matchesField_exclusive (key n1 n2 : String) (h : matchesField key n1 = true)
    (hne : foldName n1 ≠ foldName n2) : matchesField key n2 = false := by
  cases h2 : matchesField key n2 with
  | false => rfl
  | true =>
    exact absurd ((foldName_eq_of_matchesField key n1 h).symm.trans
      (foldName_eq_of_matchesField key n2 h2)) hne

/-- A member whose key does not select `cover_image_url` leaves `CoverImageUrl` as it is. -/
theorem storeChatChannelMember_coverImage_other (st : ChatChannel × Option JsonError)
    (kv : String × Json) (h : matchesField kv.1 "cover_image_url" = false) :
    (storeChatChannelMember st kv).1.CoverImageUrl = st.1.CoverImageUrl := by
  unfold storeChatChannelMember
  split_ifs <;> first | rfl | (rename_i hc; rw [h] at hc; cases hc)

/-- A string member whose key selects `cover_image_url` is stored in `CoverImageUrl`. -/
theorem storeChatChannelMember_coverImage_str (st : ChatChannel × Option JsonError)
    (k v : String) (h : matchesField k "cover_image_url" = true) :
    (storeChatChannelMember st (k, .str v)).1.CoverImageUrl = v := by
  have h1 := matchesField_exclusive k "cover_image_url" "id" h (by decide)
  have h2 := matchesField_exclusive k "cover_image_url" "name" h (by decide)
  have h3 := matchesField_exclusive k "cover_image_url" "channel_url" h (by decide)
  have h4 := matchesField_exclusive k "cover_image_url" "member_count" h (by decide)
  have h5 := matchesField_exclusive k "cover_image_url" "cover_url" h (by decide)
  simp [storeChatChannelMember, h, h1, h2, h3, h4, h5, storeString]

/-- Decoding the members of a record leaves in `CoverImageUrl` the string of
the last member that selects it. -/
theorem foldl_storeChatChannelMember_coverImage (kvs : List (String × Json)) (v : String)
    (st : ChatChannel × Option JsonError) (acc : Option Json)
    (hlast : kvs.foldl (fun acc kv => if matchesField kv.1 "cover_image_url" then some kv.2 else acc)
      acc = some (.str v))
    (hacc : acc = some (.str v) → st.1.CoverImageUrl = v) :
    (kvs.foldl storeChatChannelMember st).1.CoverImageUrl = v := by
  induction kvs generalizing st acc with
  | nil => exact hacc hlast
  | cons kv rest ih =>
    rw [List.foldl_cons] at hlast ⊢
    apply ih _ _ hlast
    intro hnew
    cases hm : matchesField kv.1 "cover_image_url" with
    | false =>
      rw [storeChatChannelMember_coverImage_other st kv hm]
      simp only [hm, Bool.false_eq_true, if_false] at hnew
      exact hacc hnew
    | true =>
      simp only [hm, if_true] at hnew
      obtain ⟨k, j⟩ := kv
      simp only [Option.some.injEq] at hnew
      subst hnew
      exact storeChatChannelMember_coverImage_str st k v hm

/-- A record that reports a cover image decodes to a `ChatChannel` that holds it. -/
theorem storeChatChannelValue_coverImage (j : Json) (v : String) (cur : ChatChannel)
    (saved : Option JsonError) (h : reportedString "cover_image_url" j = some v) :
    (storeChatChannelValue j cur saved).1.CoverImageUrl = v := by
  unfold reportedString at h
  cases j with
  | obj kvs =>
    simp only at h
    unfold storeChatChannelValue storeStruct
    simp only
    apply foldl_storeChatChannelMember_coverImage kvs v (cur, saved) none
    · unfold lastMember at h
      split at h
      · rename_i s hs
        cases h
        exact hs
      · cases h
    · intro hn
      cases hn
  | null => cases h
  | bool b => cases h
  | num l => cases h
  | str s => cases h
  | arr xs => cases h

/-- The elements of a list response decode, in order, to records that hold the
cover images the response reports. -/
theorem storeElems_coverImage (recs : List Json) (vals : List String) (cur : List ChatChannel)
    (saved : Option JsonError)
    (h : recs.map (reportedString "cover_image_url") = vals.map some) :
    (storeElems storeChatChannelValue {} recs cur saved).1.map (fun ch => ch.CoverImageUrl) =
      vals := by
  induction recs generalizing vals cur saved with
  | nil =>
    cases vals with
    | nil => rfl
    | cons v vs => cases h
  | cons j js ih =>
    cases vals with
    | nil => cases h
    | cons v vs =>
      simp only [List.map_cons, List.cons.injEq] at h
      unfold storeElems
      simp only [List.map_cons, List.cons.injEq]
      exact ⟨storeChatChannelValue_coverImage j v _ saved h.1, ih vs _ _ h.2⟩

/-- After `mapCoverImageUrlToCoverUrl` every record has its `CoverImageUrl` in
both fields. -/
theorem mapCoverImageUrlToCoverUrl_fields (chans : List ChatChannel) :
    (mapCoverImageUrlToCoverUrl chans).map (fun ch => ch.CoverUrl) =
        chans.map (fun ch => ch.CoverImageUrl) ∧
      (mapCoverImageUrlToCoverUrl chans).map (fun ch => ch.CoverImageUrl) =
        chans.map (fun ch => ch.CoverImageUrl) := by
  unfold mapCoverImageUrlToCoverUrl
  simp only [List.map_map]
  exact ⟨rfl, rfl⟩

/-- C12: for a channel-list response with status 200 whose body is an array of
records, each reporting a cover image under `cover_image_url` (the string of
its last member of that name), every list of records `Chat.List` returns has,
record by record in the order of the response, `CoverUrl` and `CoverImageUrl`
equal to the value reported; and `Chat.List` does return the records, without
error, when the array decodes without a type error.  Whether a record also has
a `cover_url` member plays no part. -/
theorem ChatList_cover_url_mirrors_cover_image (c : SendbirdClient) (rq : HttpRequest)
    (resp : HttpResponse) (recs : List Json) (vals : List String)
    (hreq : (c.NewRequest (Envelope.encode fun (_ : Unit) => []) "POST" "/channel/list"
      (some (Envelope.PopulateAuthApiToken { params := () } c))).1 = some rq)
    (hresp : c.client rq = .ok resp)
    (hstatus : resp.StatusCode = 200)
    (hbody : decodeFirst resp.Body.data = some (.arr recs))
    (hrecs : recs.map (reportedString "cover_image_url") = vals.map some) :
    ∃ r, ChatChannelServiceOp.List c = .returned r ∧
      (∀ chans, r.result = some chans →
        chans.map (fun ch => ch.CoverUrl) = vals ∧
        chans.map (fun ch => ch.CoverImageUrl) = vals) ∧
      ((storeChatChannels (.arr recs) (some [])).2 = none → r.err = none ∧ r.result ≠ none) := by
  have h2xx : 200 ≤ resp.StatusCode ∧ resp.StatusCode ≤ 299 := by omega
  have hel := storeElems_coverImage recs vals [] none hrecs
  have hmap := mapCoverImageUrlToCoverUrl_fields
    (storeElems storeChatChannelValue {} recs [] none).1
  unfold ChatChannelServiceOp.List
  simp only [hreq]
  unfold SendbirdClient.Do
  simp only [hresp, CheckResponse_2xx resp h2xx, decodeBody, readDocument_of_arr resp.Body recs hbody]
  cases hs : (storeChatChannels (.arr recs) (some [])).2 with
  | some e =>
    simp only [hs, Option.map_some']
    refine ⟨_, rfl, ?_, ?_⟩
    · intro chans hch
      cases hch
    · intro hn
      cases hn
  | none =>
    simp only [hs, Option.map_none']
    refine ⟨_, rfl, ?_, ?_⟩
    · intro chans hch
      simp only [finishSlice, storeChatChannels, storeSlice, Option.getD_some, Option.map_some',
        Option.some.injEq] at hch
      subst hch
      exact ⟨hmap.1.trans hel, hmap.2.trans hel⟩
    · intro _
      refine ⟨rfl, ?_⟩
      simp [finishSlice, storeChatChannels, storeSlice]

/-- The list response `[{"cover_image_url":"u1","id":1},{"cover_image_url":"u2"}]`. -/
theorem ChatList_cover_url_mirrors_cover_image_witness :
    ∃ r, ChatChannelServiceOp.List
        (stubClient "t" 200
          "[\x7b\"cover_image_url\":\"u1\",\"id\":1\x7d,\x7b\"cover_image_url\":\"u2\"\x7d]") =
        .returned r ∧
      (∀ chans, r.result = some chans →
        chans.map (fun ch => ch.CoverUrl) = ["u1", "u2"] ∧
        chans.map (fun ch => ch.CoverImageUrl) = ["u1", "u2"]) ∧
      ((storeChatChannels
          (.arr [.obj [("cover_image_url", .str "u1"), ("id", .num "1")],
            .obj [("cover_image_url", .str "u2")]]) (some [])).2 = none →
        r.err = none ∧ r.result ≠ none) :=
  ChatList_cover_url_mirrors_cover_image
    (stubClient "t" 200
      "[\x7b\"cover_image_url\":\"u1\",\"id\":1\x7d,\x7b\"cover_image_url\":\"u2\"\x7d]")
    { Method := "POST",
      URL := { Scheme := "https", Host := "api.sendbird.com", Path := "/channel/list" },
      Header := [("Content-Type", "application/json, charset=utf8")],
      Body := some (.obj [("auth", .str "t")]) }
    { StatusCode := 200,
      Request := some
        { Method := "POST",
          URL := { Scheme := "https", Host := "api.sendbird.com", Path := "/channel/list" },
          Header := [("Content-Type", "application/json, charset=utf8")],
          Body := some (.obj [("auth", .str "t")]) },
      Body := { data :=
        "[\x7b\"cover_image_url\":\"u1\",\"id\":1\x7d,\x7b\"cover_image_url\":\"u2\"\x7d]" } }
    [.obj [("cover_image_url", .str "u1"), ("id", .num "1")],
      .obj [("cover_image_url", .str "u2")]]
    ["u1", "u2"]
    (by decide!) rfl rfl (by decide!) (by decide!)

/-! ## Cover images of chat channels -/

/-- C13: `Chat.List` on the 200 response `[{"cover_url":"u"}]` returns a record
whose `CoverUrl` is empty: the value reported under `cover_url` is overwritten
with the empty `CoverImageUrl`, and `Chat.Update` does the same.  `Chat.Create`
on the 200 response `{"cover_image_url":"v"}` returns a record whose `CoverUrl`
is empty: `Create` does not mirror `CoverImageUrl` at all. -/
theorem chat_cover_url_not_normalized :
    returnedResult (ChatChannelServiceOp.List (stubClient "t" 200 "[\x7b\"cover_url\":\"u\"\x7d]")) =
      some [{ CoverUrl := "", CoverImageUrl := "" }] ∧
    returnedResult
        (ChatChannelServiceOp.Update (stubClient "t" 200 "\x7b\"cover_url\":\"u\"\x7d")
          { params := {} }).2 =
      some { CoverUrl := "", CoverImageUrl := "" } ∧
    returnedResult
        (ChatChannelServiceOp.Create (stubClient "t" 200 "\x7b\"cover_image_url\":\"v\"\x7d")
          { params := {} }).2 =
      some { CoverUrl := "", CoverImageUrl := "v" } := by
  refine ⟨by decide!, by decide!, by decide!⟩

/-! ## The completion callback -/

/-- C14: when a completion callback is registered and the HTTP client returns
a response, `Do` calls the callback exactly once, with the request and the
response as the client returned it, whatever the status and the destination;
without a registered callback it calls nothing; when the HTTP client fails
`Do` calls nothing and returns the transport error and no `Response`. -/
theorem Do_completion_callback {α : Type} (c : SendbirdClient)
    (store : Json → α → α × Option JsonError) (rq : HttpRequest) (v : Destination α) :
    (∀ resp, c.client rq = .ok resp →
      ∃ d, c.Do store (some rq) v = .returned d ∧
        d.completed = if c.onRequestCompleted then [(rq, resp)] else []) ∧
    (∀ e, c.client rq = .error e →
      ∃ d, c.Do store (some rq) v = .returned d ∧
        d.completed = [] ∧ d.response = none ∧ d.err = some (.transport e)) := by
  refine ⟨fun resp hresp => ?_, fun e he => ?_⟩
  · unfold SendbirdClient.Do
    simp only [hresp]
    split
    · exact ⟨_, rfl, rfl⟩
    · split
      · exact ⟨_, rfl, rfl⟩
      · split <;> exact ⟨_, rfl, rfl⟩
      · split <;> exact ⟨_, rfl, rfl⟩
  · unfold SendbirdClient.Do
    simp only [he]
    exact ⟨_, rfl, rfl, rfl, rfl⟩

/-- A registered callback, a service that answers 500 and a service that
cannot be reached. -/
theorem Do_completion_callback_witness :
    (∃ d, (stubClient "t" 500 "").Do storeBot (some { Method := "GET", URL := {} }) (.value {}) =
        .returned d ∧
      d.completed = if (stubClient "t" 500 "").onRequestCompleted then
        [({ Method := "GET", URL := {} },
          { StatusCode := 500, Request := some { Method := "GET", URL := {} }, Body := {} })]
        else []) ∧
    (∃ d, SendbirdClient.Do
        (NewClient (fun _ => .error "connection refused") "APP_ID" "t" none).OnRequestCompleted
        storeBot (some { Method := "GET", URL := {} }) (.value {}) = .returned d ∧
      d.completed = [] ∧ d.response = none ∧ d.err = some (.transport "connection refused")) :=
  ⟨(Do_completion_callback (stubClient "t" 500 "") storeBot { Method := "GET", URL := {} }
      (.value {})).1 _ rfl,
    (Do_completion_callback
      (NewClient (fun _ => .error "connection refused") "APP_ID" "t" none).OnRequestCompleted
      storeBot { Method := "GET", URL := {} } (.value {})).2 _ rfl⟩

/-! ## Request construction -/

/-- A request made by `http.NewRequest` has no header yet. -/
theorem httpNewRequest_header (method url : String) (buf : Option Json) (req : HttpRequest)
    (h : httpNewRequest method url buf = .ok req) : req.Header = [] ∧ req.Body = buf := by
  unfold httpNewRequest at h
  cases hu : urlParse url with
  | error e =>
    simp only [hu] at h
    split_ifs at h
  | ok u =>
    simp only [hu] at h
    split_ifs at h <;>
    · cases h
      exact ⟨rfl, rfl⟩

/-- The shape of a successful `NewRequest`: the path parsed, the body (if any)
was encoded, `http.NewRequest` accepted the method and the text of the
resolved URL, and the request is its request with one header added. -/
theorem NewRequest_some {β : Type} (c : SendbirdClient) (enc : β → Except String Json)
    (method urlStr : String) (body : Option β) (req : HttpRequest)
    (h : (c.NewRequest enc method urlStr body).1 = some req) :
    ∃ rel buf req0, urlParse urlStr = .ok rel ∧
      (match body with
        | none => buf = none
        | some b => ∃ j, enc b = .ok j ∧ buf = some j) ∧
      httpNewRequest method (c.BaseURL.ResolveReference rel).String buf = .ok req0 ∧
      req = { req0 with Header := req0.Header ++ [("Content-Type", c.ContentType)] } ∧
      (c.NewRequest enc method urlStr body).2 = none := by
  unfold SendbirdClient.NewRequest at h ⊢
  cases hp : urlParse urlStr with
  | error e => simp [hp] at h
  | ok rel =>
    simp only [hp] at h ⊢
    cases body with
    | none =>
      simp only at h ⊢
      cases hn : httpNewRequest method (c.BaseURL.ResolveReference rel).String none with
      | error e => simp [hn] at h
      | ok req0 =>
        simp only [hn] at h ⊢
        exact ⟨rel, none, req0, rfl, rfl, hn, (Option.some.inj h).symm, trivial⟩
    | some b =>
      cases he : enc b with
      | error e => simp [he] at h
      | ok j =>
        simp only [he] at h ⊢
        cases hn : httpNewRequest method (c.BaseURL.ResolveReference rel).String (some j) with
        | error e => simp [hn] at h
        | ok req0 =>
          simp only [hn] at h ⊢
          exact ⟨rel, some j, req0, rfl, ⟨j, rfl, rfl⟩, hn, (Option.some.inj h).symm, trivial⟩

/-- C15: every request that `NewRequest` returns for a client made by
`NewClient` carries exactly one header, `Content-Type`, with the value
"application/json, charset=utf8"; the body plays no part, so this holds for a
nil body too. -/
theorem NewRequest_content_type {β : Type} (DefaultClient : Transport) (appId apiToken : String)
    (httpClient : Option Transport) (enc : β → Except String Json) (method urlStr : String)
    (body : Option β) (req : HttpRequest)
    (h : ((NewClient DefaultClient appId apiToken httpClient).NewRequest enc method urlStr body).1 =
      some req) :
    req.Header = [("Content-Type", "application/json, charset=utf8")] ∧
      (req.Header.filter fun kv => kv.1 == "Content-Type").length = 1 := by
  obtain ⟨rel, buf, req0, _, _, hn, hreq, _⟩ := NewRequest_some _ enc method urlStr body req h
  have hh := (httpNewRequest_header _ _ _ _ hn).1
  have hH : req.Header = [("Content-Type", "application/json, charset=utf8")] := by
    rw [hreq]
    simp only [hh, List.nil_append]
    rfl
  refine ⟨hH, ?_⟩
  rw [hH]
  decide

/-- The request `Bot.List` builds: a GET without body. -/
theorem NewRequest_content_type_witness :
    ∃ req, ((NewClient (fun _ => .error "unused") "APP_ID" "t" none).NewRequest
        (fun (_ : Unit) => Except.ok Json.null) "GET" "v2/bots?api_token=t" none).1 = some req ∧
      req.Header = [("Content-Type", "application/json, charset=utf8")] ∧
      (req.Header.filter fun kv => kv.1 == "Content-Type").length = 1 :=
  ⟨{ Method := "GET",
      URL := { Scheme := "https", Host := "api.sendbird.com", Path := "/v2/bots",
               RawQuery := "api_token=t" },
      Header := [("Content-Type", "application/json, charset=utf8")] },
    by decide!,
    NewRequest_content_type (fun _ => .error "unused") "APP_ID" "t" none
      (fun (_ : Unit) => Except.ok Json.null) "GET" "v2/bots?api_token=t" none _ (by decide!)⟩

/-- C16: `NewRequest` returns an error and no request when the path does not
parse as a URL (the error of `url.Parse`) and when the body has no JSON
encoding (the error of the encoder, when the path parsed); a request is
returned exactly when no error is; the payload of a returned request is the
JSON encoding of the body when a body was given, and empty when none was.
And a request is returned: when the path parses, the method is valid and the
text of the resolved URL parses, `NewRequest` returns a request with that
method and no error, for a body that encodes (the payload is its encoding) and
for a nil body (the payload is empty). -/
theorem NewRequest_errors_and_payload {β : Type} (c : SendbirdClient)
    (enc : β → Except String Json) (method urlStr : String) (body : Option β) :
    (∀ e, urlParse urlStr = .error e →
      c.NewRequest enc method urlStr body = (none, some (.malformed e))) ∧
    (∀ b e, body = some b → enc b = .error e →
      (c.NewRequest enc method urlStr body).1 = none ∧
      (c.NewRequest enc method urlStr body).2 ≠ none ∧
      (∀ rel, urlParse urlStr = .ok rel →
        c.NewRequest enc method urlStr body = (none, some (.malformed e)))) ∧
    ((c.NewRequest enc method urlStr body).1 = none ↔
      (c.NewRequest enc method urlStr body).2 ≠ none) ∧
    (∀ req, (c.NewRequest enc method urlStr body).1 = some req →
      (∀ b, body = some b → ∃ j, enc b = .ok j ∧ req.Body = some j) ∧
      (body = none → req.Body = none)) ∧
    (∀ rel u, urlParse urlStr = .ok rel →
      validMethod (if method = "" then "GET" else method) = true →
      urlParse (c.BaseURL.ResolveReference rel).String = .ok u →
      (∀ b j, body = some b → enc b = .ok j →
        ∃ req, c.NewRequest enc method urlStr body = (some req, none) ∧
          req.Body = some j ∧ req.Method = (if method = "" then "GET" else method)) ∧
      (body = none →
        ∃ req, c.NewRequest enc method urlStr body = (some req, none) ∧
          req.Body = none ∧ req.Method = (if method = "" then "GET" else method))) := by
  refine ⟨fun e he => ?_, fun b e hb he => ?_, ⟨fun h => ?_, fun h => ?_⟩, fun req h => ?_,
    fun rel u hp hm hu => ⟨fun b j hb hj => ?_, fun hb => ?_⟩⟩
  · unfold SendbirdClient.NewRequest
    simp only [he]
  · subst hb
    unfold SendbirdClient.NewRequest
    cases hp : urlParse urlStr with
    | error e2 => exact ⟨rfl, by simp, fun rel hrel => by cases hrel⟩
    | ok rel => simp [he]
  · intro h2
    unfold SendbirdClient.NewRequest at h h2
    cases hp : urlParse urlStr with
    | error e => simp [hp] at h2
    | ok rel =>
      simp only [hp] at h h2
      split at h2
      · simp at h2
      · split at h2
        · simp at h2
        · rename_i h3 _ _ h4
          simp [h3, h4] at h
  · exact NewRequest_error_no_request c enc method urlStr body h
  · obtain ⟨rel, buf, req0, _, hbuf, hn, hreq, _⟩ := NewRequest_some c enc method urlStr body req h
    have hb := (httpNewRequest_header _ _ _ _ hn).2
    have hB : req.Body = buf := by rw [hreq]; exact hb
    refine ⟨fun b hbody => ?_, fun hbody => ?_⟩
    · subst hbody
      obtain ⟨j, hj, hbj⟩ := hbuf
      exact ⟨j, hj, by rw [hB, hbj]⟩
    · subst hbody
      simp only at hbuf
      rw [hB, hbuf]
  · subst hb
    unfold SendbirdClient.NewRequest httpNewRequest
    simp only [hp, hj, hm, hu, Bool.not_true, Bool.false_eq_true, if_false]
    exact ⟨_, rfl, rfl, rfl⟩
  · subst hb
    unfold SendbirdClient.NewRequest httpNewRequest
    simp only [hp, hm, hu, Bool.not_true, Bool.false_eq_true, if_false]
    exact ⟨_, rfl, rfl, rfl⟩

/-- The envelope of `Users.Create` posted to the path `%zz`, which does not
parse, and to the path `/user/create`, for which the request is built with the
encoded envelope as its payload. -/
theorem NewRequest_errors_and_payload_witness :
    (stubClient "t" 200 "").NewRequest (Envelope.encode UserParams.members) "POST" "%zz"
        (some { Auth := "t", params := { Id := "u1" } }) =
      (none, some (.malformed "parse \"%zz\": invalid URL escape \"%zz\"")) ∧
    ∃ req, (stubClient "t" 200 "").NewRequest (Envelope.encode UserParams.members) "POST"
        "/user/create" (some { Auth := "t", params := { Id := "u1" } }) = (some req, none) ∧
      req.Body = some (Json.obj [("auth", .str "t"), ("id", .str "u1")]) ∧
      req.Method = "POST" :=
  ⟨(NewRequest_errors_and_payload (stubClient "t" 200 "") (Envelope.encode UserParams.members)
      "POST" "%zz" (some { Auth := "t", params := { Id := "u1" } })).1 _ (by rfl),
    ((NewRequest_errors_and_payload (stubClient "t" 200 "") (Envelope.encode UserParams.members)
      "POST" "/user/create" (some { Auth := "t", params := { Id := "u1" } })).2.2.2.2
      { Path := "/user/create" }
      { Scheme := "https", Host := "api.sendbird.com", Path := "/user/create" }
      (by rfl) (by decide) (by rfl)).1
      { Auth := "t", params := { Id := "u1" } }
      (Json.obj [("auth", .str "t"), ("id", .str "u1")]) rfl (by rfl)⟩


/-! ## Resolution of a plain path against a plain base -/

/-- Cutting at a separator that does not occur returns the text whole. -/
theorem cut_of_not_mem (sep : Char) (cs : List Char) (h : sep ∉ cs) :
    cut sep cs = (cs, [], false) := by
  induction cs with
  | nil => rfl
  | cons c rest ih =>
    have hc : (c == sep) = false := by
      simp only [beq_eq_false_iff_ne, ne_eq]
      intro he
      exact h (by rw [he]; exact List.mem_cons_self _ _)
    have hr := ih (fun hm => h (List.mem_cons_of_mem _ hm))
    unfold cut
    simp only [hc, Bool.false_eq_true, if_false, hr]

/-- Cutting at the first occurrence of a separator. -/
theorem cut_append (sep : Char) (a b : List Char) (h : sep ∉ a) :
    cut sep (a ++ sep :: b) = (a, b, true) := by
  induction a with
  | nil =>
    simp only [List.nil_append]
    unfold cut
    simp
  | cons c rest ih =>
    have hc : (c == sep) = false := by
      simp only [beq_eq_false_iff_ne, ne_eq]
      intro he
      exact h (by rw [he]; exact List.mem_cons_self _ _)
    have hr := ih (fun hm => h (List.mem_cons_of_mem _ hm))
    simp only [List.cons_append]
    unfold cut
    simp only [hc, Bool.false_eq_true, if_false, hr]

/-- There is no last occurrence of a separator that does not occur. -/
theorem cutLast_of_not_mem (sep : Char) (cs : List Char) (h : sep ∉ cs) :
    cutLast sep cs = none := by
  unfold cutLast
  rw [cut_of_not_mem sep cs.reverse (by simpa using h)]

/-- Cutting at the last occurrence of a separator. -/
theorem cutLast_append (sep : Char) (a b : List Char) (h : sep ∉ b) :
    cutLast sep (a ++ sep :: b) = some (a, sep :: b) := by
  unfold cutLast
  have hrev : (a ++ sep :: b).reverse = b.reverse ++ sep :: a.reverse := by simp
  rw [hrev, cut_append sep b.reverse a.reverse (by simpa using h)]
  simp

/-- The text before the first separator is part of the text. -/
theorem mem_of_mem_cut_fst (sep : Char) (cs : List Char) (x : Char) (h : x ∈ (cut sep cs).1) :
    x ∈ cs := by
  induction cs with
  | nil => simp [cut] at h
  | cons c rest ih =>
    unfold cut at h
    split_ifs at h
    · simp at h
    · simp only [List.mem_cons] at h ⊢
      rcases h with h | h
      · exact Or.inl h
      · exact Or.inr (ih h)


/-- What the characters of a plain path are not, and that they need no escape. -/
theorem pathChars_facts : ∀ c ∈ pathChars,
    c ≠ '#' ∧ c ≠ '?' ∧ c ≠ '%' ∧ c ≠ '*' ∧
      isCTL c = false ∧ c.toNat < 0x80 ∧ shouldEscape c .encodePath = false := by
  decide!

/-- What the characters of a plain host are not, and that they need no escape. -/
theorem hostChars_facts : ∀ c ∈ hostChars,
    c ≠ '#' ∧ c ≠ '?' ∧ c ≠ ':' ∧ c ≠ '%' ∧ c ≠ '+' ∧ c ≠ '/' ∧ c ≠ '@' ∧ c ≠ '[' ∧ c ≠ '*' ∧
      isCTL c = false ∧ c.toNat < 0x80 ∧ shouldEscape c .encodeHost = false := by
  decide!

/-- What the characters of a port are not, and that they are digits. -/
theorem portChars_facts : ∀ c ∈ portChars,
    c ≠ '#' ∧ c ≠ '?' ∧ c ≠ ':' ∧ c ≠ '%' ∧ c ≠ '+' ∧ c ≠ '/' ∧ c ≠ '@' ∧ c ≠ '[' ∧ c ≠ '*' ∧
      isCTL c = false ∧ c.toNat < 0x80 ∧ shouldEscape c .encodeHost = false ∧ c.isDigit = true := by
  decide!

/-- What the first character of a plain scheme is. -/
theorem schemeChars_facts : ∀ c ∈ schemeChars,
    c.isAlpha = true ∧ c.toLower = c ∧ c ≠ '#' ∧ c ≠ '?' ∧ c ≠ '*' ∧ isCTL c = false := by
  decide!

/-- What the further characters of a plain scheme are. -/
theorem schemeTailChars_facts : ∀ c ∈ schemeTailChars,
    (c.isAlpha = true ∨ (c.isDigit || c == '+' || c == '-' || c == '.') = true) ∧ c.toLower = c ∧
      c ≠ '#' ∧ c ≠ '?' ∧ c ≠ '*' ∧ c ≠ ':' ∧ isCTL c = false := by
  decide!

/-- A character is absent from a text all of whose characters differ from it. -/
theorem not_mem_of_forall_ne (x : Char) (cs : List Char) (h : ∀ c ∈ cs, c ≠ x) : x ∉ cs :=
  fun hm => h x hm rfl

/-- Text that holds no escape and nothing a host refuses is unescaped to itself. -/
theorem unescapeChars_id (mode : Encoding) (cs : List Char)
    (hq : mode ≠ .encodeQueryComponent)
    (h : ∀ c ∈ cs, c ≠ '%' ∧
      ¬ ((mode = .encodeHost ∨ mode = .encodeZone) ∧ c.toNat < 0x80 ∧
        shouldEscape c .encodeHost = true)) :
    unescapeChars mode cs = .ok cs := by
  induction cs with
  | nil => rfl
  | cons c rest ih =>
    have hc := h c (List.mem_cons_self _ _)
    have hr := ih (fun x hx => h x (List.mem_cons_of_mem _ hx))
    unfold unescapeChars
    split
    · rename_i heq
      cases heq
    · rename_i heq
      cases heq
      exact (hc.1 rfl).elim
    · rename_i heq
      cases heq
      exact (hc.1 rfl).elim
    · rename_i heq
      cases heq
      rw [hr, if_neg hq]
    · rename_i heq
      cases heq
      rw [if_neg hc.2, hr]

/-- Text made of bytes that need no escape is escaped to itself. -/
theorem escapeChars_id (mode : Encoding) (cs : List Char)
    (h : ∀ c ∈ cs, c.toNat < 0x80 ∧ shouldEscape c mode = false) :
    escapeChars mode cs = cs := by
  induction cs with
  | nil => rfl
  | cons c rest ih =>
    have hc := h c (List.mem_cons_self _ _)
    have hr := ih (fun x hx => h x (List.mem_cons_of_mem _ hx))
    unfold escapeChars
    rw [if_pos (by simp [hc.1, hc.2]), hr]

/-- A text is its part before the first separator, followed by the separator
and the rest when the separator occurs. -/
theorem cut_join (sep : Char) (cs : List Char) :
    cs = (cut sep cs).1 ++ (if (cut sep cs).2.2 = true then sep :: (cut sep cs).2.1 else []) := by
  induction cs with
  | nil => rfl
  | cons c rest ih =>
    unfold cut
    by_cases hc : (c == sep) = true
    · simp only [hc, if_true, List.nil_append]
      rw [beq_iff_eq] at hc
      rw [hc]
    · simp only [hc, Bool.false_eq_true, if_false, List.cons_append, List.cons.injEq, true_and]
      exact ih

/-- A text whose first run up to a slash, a question mark or the end holds no
colon has no scheme. -/
theorem getSchemeAux_stop (raw seen a rest : List Char) (h : ':' ∉ a)
    (hstop : rest = [] ∨ ∃ c tl, rest = c :: tl ∧ (c = '/' ∨ c = '?')) :
    getSchemeAux raw seen (a ++ rest) = .ok ([], raw) := by
  induction a generalizing seen with
  | nil =>
    rcases hstop with hr | ⟨c, tl, hr, hc⟩
    · subst hr
      rfl
    · subst hr
      simp only [List.nil_append]
      unfold getSchemeAux
      rcases hc with hc | hc <;> subst hc <;> rfl
  | cons c tl ih =>
    have hc : (c == ':') = false := by
      simp only [beq_eq_false_iff_ne, ne_eq]
      intro he
      exact h (by rw [he]; exact List.mem_cons_self _ _)
    have hr := fun seen2 => ih seen2 (fun hm => h (List.mem_cons_of_mem _ hm))
    simp only [List.cons_append]
    unfold getSchemeAux
    split_ifs <;> first | rfl | exact hr _ | simp_all

/-- Scheme characters followed by a colon are a scheme. -/
theorem getSchemeAux_of_scheme (raw seen s rest : List Char)
    (hs : ∀ c ∈ s, c.isAlpha = true ∨ (c.isDigit || c == '+' || c == '-' || c == '.') = true)
    (hne : seen ≠ [] ∨ ∃ a t, s = a :: t ∧ a.isAlpha = true) :
    getSchemeAux raw seen (s ++ ':' :: rest) = .ok (seen.reverse ++ s, rest) := by
  induction s generalizing seen with
  | nil =>
    have hseen : seen ≠ [] := by
      rcases hne with h | ⟨a, t, h, _⟩
      · exact h
      · cases h
    simp only [List.nil_append, List.append_nil]
    unfold getSchemeAux
    have he : seen.isEmpty = false := by
      cases seen with
      | nil => exact absurd rfl hseen
      | cons a b => rfl
    simp [he]
  | cons c tl ih =>
    have hc := hs c (List.mem_cons_self _ _)
    have hrec := ih (c :: seen) (fun x hx => hs x (List.mem_cons_of_mem _ hx))
      (Or.inl (List.cons_ne_nil _ _))
    simp only [List.cons_append]
    unfold getSchemeAux
    by_cases ha : c.isAlpha = true
    · rw [if_pos ha, hrec]
      simp
    · have hd : (c.isDigit || c == '+' || c == '-' || c == '.') = true := by
        rcases hc with hc | hc
        · exact absurd hc ha
        · exact hc
      have hseen : seen.isEmpty = false := by
        rcases hne with h | ⟨a, t, h, halpha⟩
        · cases seen with
          | nil => exact absurd rfl h
          | cons a b => rfl
        · cases h
          exact absurd halpha ha
      rw [if_neg ha, if_pos hd]
      simp only [hseen, Bool.false_eq_true, if_false]
      rw [hrec]
      simp

/-- How `parse` separates the query: no question mark. -/
theorem query_none (a : List Char) (h : '?' ∉ a) :
    (if a.getLast? = some '?' ∧ a.count '?' = 1 then (a.dropLast, ([] : List Char), true)
      else ((cut '?' a).1, (cut '?' a).2.1, false)) = (a, [], false) := by
  have hl : a.getLast? ≠ some '?' := fun he => h (List.mem_of_mem_getLast? he)
  rw [if_neg (fun hc => hl hc.1), cut_of_not_mem '?' a h]

/-- How `parse` separates the query: a question mark after a text without one. -/
theorem query_some (a q : List Char) (h : '?' ∉ a) :
    (if (a ++ '?' :: q).getLast? = some '?' ∧ (a ++ '?' :: q).count '?' = 1 then
        ((a ++ '?' :: q).dropLast, ([] : List Char), true)
      else ((cut '?' (a ++ '?' :: q)).1, (cut '?' (a ++ '?' :: q)).2.1, false)) =
      (a, q, q.isEmpty) := by
  have hcount : a.count '?' = 0 := List.count_eq_zero_of_not_mem h
  cases q with
  | nil =>
    have h1 : (a ++ ['?']).getLast? = some '?' := by simp
    have h2 : (a ++ ['?']).count '?' = 1 := by simp [hcount]
    rw [if_pos ⟨h1, h2⟩]
    simp
  | cons c tl =>
    have hne : ¬ ((a ++ '?' :: c :: tl).getLast? = some '?' ∧ (a ++ '?' :: c :: tl).count '?' = 1) := by
      rintro ⟨h1, h2⟩
      have hm : '?' ∈ c :: tl := by
        have : (a ++ '?' :: c :: tl).getLast? = (c :: tl).getLast? := by
          rw [show a ++ '?' :: c :: tl = (a ++ ['?']) ++ (c :: tl) by simp]
          rw [List.getLast?_append_of_ne_nil _ (List.cons_ne_nil _ _)]
        rw [this] at h1
        exact List.mem_of_mem_getLast? h1
      have hpos : 0 < (c :: tl).count '?' := List.count_pos_iff.2 hm
      have : (a ++ '?' :: c :: tl).count '?' = 1 + (c :: tl).count '?' := by
        rw [List.count_append, hcount, List.count_cons_self]
        omega
      omega
    rw [if_neg hne, cut_append '?' a (c :: tl) h]
    rfl

/-- The segments of a text, joined by slashes, give the text back. -/
theorem splitSlash_join (cs : List Char) :
    ∃ e es, splitSlash cs = e :: es ∧ cs = e ++ es.flatMap (fun x => '/' :: x) ∧
      ∀ x ∈ e :: es, ∀ ch ∈ x, ch ∈ cs := by
  induction cs with
  | nil => exact ⟨[], [], rfl, rfl, by simp⟩
  | cons c rest ih =>
    obtain ⟨e, es, hsplit, hjoin, hmem⟩ := ih
    unfold splitSlash
    by_cases hc : c = '/'
    · subst hc
      refine ⟨[], e :: es, by simp [hsplit], ?_, ?_⟩
      · simp only [List.nil_append, List.flatMap_cons, List.cons_append, List.cons.injEq, true_and]
        exact hjoin
      · intro x hx ch hch
        simp only [List.mem_cons] at hx
        rcases hx with hx | hx
        · subst hx
          cases hch
        · exact List.mem_cons_of_mem _ (hmem x (List.mem_cons.mpr hx) ch hch)
    · have hb : (c == '/') = false := by simpa using hc
      refine ⟨c :: e, es, by simp [hb, hsplit], ?_, ?_⟩
      · simp only [List.cons_append, List.cons.injEq, true_and]
        exact hjoin
      · intro x hx ch hch
        simp only [List.mem_cons] at hx
        rcases hx with hx | hx
        · subst hx
          simp only [List.mem_cons] at hch ⊢
          rcases hch with hch | hch
          · exact Or.inl hch
          · exact Or.inr (hmem e (List.mem_cons_self _ _) ch hch)
        · exact List.mem_cons_of_mem _ (hmem x (List.mem_cons_of_mem _ hx) ch hch)

/-- A segment that is not a dot segment is written where the path stands. -/
theorem resolveStep_of_no_dot (acc : List Char) (first : Bool) (e : List Char)
    (h : e ≠ ['.'] ∧ e ≠ ['.', '.']) :
    resolveStep (acc, first) e = ((if first then acc else acc ++ ['/']) ++ e, false) := by
  unfold resolveStep
  rw [if_neg h.1, if_neg h.2]

/-- Segments that are not dot segments are written one after the other, each after a slash. -/
theorem foldl_resolveStep_of_no_dot (es : List (List Char)) (acc : List Char)
    (h : ∀ e ∈ es, e ≠ ['.'] ∧ e ≠ ['.', '.']) :
    es.foldl resolveStep (acc, false) = (acc ++ es.flatMap (fun x => '/' :: x), false) := by
  induction es generalizing acc with
  | nil => simp
  | cons e rest ih =>
    rw [List.foldl_cons, resolveStep_of_no_dot acc false e (h e (List.mem_cons_self _ _))]
    simp only [Bool.false_eq_true, if_false]
    rw [ih _ (fun x hx => h x (List.mem_cons_of_mem _ hx))]
    simp

/-- The loop of `resolvePath` leaves a text without dot segments as it is, and its last
segment is not a dot segment. -/
theorem resolve_loop_of_no_dot (cs : List Char)
    (h : ∀ e ∈ splitSlash cs, e ≠ ['.'] ∧ e ≠ ['.', '.']) :
    (splitSlash cs).foldl resolveStep ([], true) = (cs, false) ∧
      (splitSlash cs).getLast?.getD [] ≠ ['.'] ∧
      (splitSlash cs).getLast?.getD [] ≠ ['.', '.'] := by
  obtain ⟨e, es, hsplit, hjoin, _⟩ := splitSlash_join cs
  have hno : ∀ x ∈ e :: es, x ≠ ['.'] ∧ x ≠ ['.', '.'] := fun x hx => h x (by rw [hsplit]; exact hx)
  have hmemLast : (e :: es).getLast?.getD [] ∈ e :: es := by
    rw [List.getLast?_eq_getLast _ (List.cons_ne_nil _ _)]
    exact List.getLast_mem _
  refine ⟨?_, ?_, ?_⟩
  · rw [hsplit, List.foldl_cons, resolveStep_of_no_dot [] true e (hno e (List.mem_cons_self _ _))]
    simp only [if_true, List.nil_append]
    rw [foldl_resolveStep_of_no_dot es e (fun x hx => hno x (List.mem_cons_of_mem _ hx))]
    rw [← hjoin]
  · rw [hsplit]
    exact (hno _ hmemLast).1
  · rw [hsplit]
    exact (hno _ hmemLast).2

/-- A text is empty exactly when its string is. -/
theorem mk_ne_empty (p : List Char) (h : p ≠ []) : String.mk p ≠ "" := by
  intro he
  exact h (by simpa using congrArg String.data he)

/-- The function `resolvePath` leaves an absolute path without dot segments as it is. -/
theorem resolvePath_absolute (base : String) (full : List Char)
    (hhead : full.head? = some '/')
    (hdot : ∀ e ∈ splitSlash full, e ≠ ['.'] ∧ e ≠ ['.', '.']) :
    resolvePath base (String.mk full) = String.mk full := by
  have hne : full ≠ [] := by
    intro he
    rw [he] at hhead
    cases hhead
  have hloop := resolve_loop_of_no_dot full hdot
  have hnil : full.isEmpty = false := by
    cases full with
    | nil => exact absurd rfl hne
    | cons a b => rfl
  have hh : ¬ (String.mk full).data.head? ≠ some '/' := by
    intro hc
    exact hc hhead
  unfold resolvePath
  rw [if_neg (mk_ne_empty full hne), if_neg hh]
  simp only [hnil, Bool.false_eq_true, if_false, hloop.1, hloop.2.1, hloop.2.2, or_self,
    List.append_nil]
  cases full with
  | nil => exact absurd rfl hne
  | cons a b =>
    simp only [List.head?_cons, Option.some.injEq] at hhead
    subst hhead
    simp

/-- The function `resolvePath` puts a relative path without dot segments after the root of
an empty base. -/
theorem resolvePath_empty_base (p : List Char)
    (hp : p ≠ [] ∧ p.head? ≠ some '/')
    (hdot : ∀ e ∈ splitSlash p, e ≠ ['.'] ∧ e ≠ ['.', '.']) :
    resolvePath (String.mk []) (String.mk p) = String.mk ('/' :: p) := by
  have hloop := resolve_loop_of_no_dot p hdot
  have hnil : p.isEmpty = false := by
    cases p with
    | nil => exact absurd rfl hp.1
    | cons a b => rfl
  have hh : (String.mk p).data.head? ≠ some '/' := hp.2
  have hc : cutLast '/' (String.mk []).data = none := rfl
  unfold resolvePath
  rw [if_neg (mk_ne_empty p hp.1), if_pos hh, hc]
  simp only [List.nil_append, hnil, Bool.false_eq_true, if_false, hloop.1, hloop.2.1, hloop.2.2,
    or_self, List.append_nil]
  cases p with
  | nil => exact absurd rfl hp.1
  | cons a b =>
    have ha : a ≠ '/' := by
      intro he
      exact hp.2 (by rw [he]; rfl)
    split
    · rename_i heq
      cases heq
      exact absurd rfl ha
    · rfl

/-- `resolvePath` merges a relative path with what precedes the last slash of
the base, and then works as on the merged path. -/
theorem resolvePath_merge (before last p : List Char) (h2 : '/' ∉ last)
    (hp : p ≠ [] ∧ p.head? ≠ some '/') (hb : before = [] ∨ before.head? = some '/') :
    resolvePath (String.mk (before ++ '/' :: last)) (String.mk p) =
      resolvePath (String.mk (before ++ '/' :: last)) (String.mk (before ++ ['/'] ++ p)) := by
  have hhead : (before ++ ['/'] ++ p).head? = some '/' := by
    rcases hb with hb | hb
    · subst hb
      rfl
    · cases before with
      | nil => cases hb
      | cons a b =>
        simp only [List.head?_cons, Option.some.injEq] at hb
        subst hb
        rfl
  have hh : (String.mk p).data.head? ≠ some '/' := hp.2
  have hh2 : ¬ (String.mk (before ++ ['/'] ++ p)).data.head? ≠ some '/' := by
    intro hc
    exact hc hhead
  have hc : cutLast '/' (String.mk (before ++ '/' :: last)).data = some (before, '/' :: last) :=
    cutLast_append '/' before last h2
  unfold resolvePath
  rw [if_neg (mk_ne_empty p hp.1), if_pos hh, hc, if_neg (mk_ne_empty _ (by simp)), if_neg hh2]

/-- The function `resolvePath` without dot segments: a reference without leading slash
replaces what follows the last slash of the base, and stands after a slash of
its own when the base is empty. -/
theorem resolvePath_plain (before p : List Char) (bp : List Char)
    (hbp : (bp = [] ∧ before = []) ∨ ∃ last, bp = before ++ '/' :: last ∧ '/' ∉ last)
    (hbefore : before = [] ∨ before.head? = some '/')
    (hp : p ≠ [] ∧ p.head? ≠ some '/')
    (hdot : ∀ e ∈ splitSlash (before ++ '/' :: p), e ≠ ['.'] ∧ e ≠ ['.', '.']) :
    resolvePath (String.mk bp) (String.mk p) = String.mk (before ++ '/' :: p) := by
  rcases hbp with ⟨h1, h2⟩ | ⟨last, h1, h2⟩
  · subst h1
    subst h2
    refine resolvePath_empty_base p hp (fun e he => hdot e ?_)
    simp only [List.nil_append, splitSlash, beq_self_eq_true, if_true]
    exact List.mem_cons_of_mem _ he
  · subst h1
    have hE : before ++ ['/'] ++ p = before ++ '/' :: p := by simp
    have hhead : (before ++ ['/'] ++ p).head? = some '/' := by
      rcases hbefore with hb | hb
      · subst hb
        rfl
      · cases before with
        | nil => cases hb
        | cons a b =>
          simp only [List.head?_cons, Option.some.injEq] at hb
          subst hb
          rfl
    rw [resolvePath_merge before last p h2 hp hbefore,
      resolvePath_absolute _ _ hhead (by rw [hE]; exact hdot)]
    simp

/-- A plain path is stored as it is, with no raw form. -/
theorem setPath_plain (u : URL) (p : List Char) (hp : ∀ x ∈ p, x ∈ pathChars) :
    URL.setPath u (String.mk p) = .ok { u with Path := String.mk p, RawPath := "" } := by
  have hun : unescapeChars .encodePath p = .ok p :=
    unescapeChars_id .encodePath p (by decide) (fun c hc =>
      ⟨(pathChars_facts c (hp c hc)).2.2.1, by simp⟩)
  have hes : escapeChars .encodePath p = p :=
    escapeChars_id .encodePath p (fun c hc =>
      ⟨(pathChars_facts c (hp c hc)).2.2.2.2.2.1, (pathChars_facts c (hp c hc)).2.2.2.2.2.2⟩)
  unfold URL.setPath unescape escape
  simp only [hun, hes, if_true]

/-- The escaped form of a plain path is the path. -/
theorem EscapedPath_plain (u : URL) (p : List Char) (hp : ∀ x ∈ p, x ∈ pathChars)
    (hu : u.Path = String.mk p) (hraw : u.RawPath = "") : u.EscapedPath = String.mk p := by
  have hes : escapeChars .encodePath p = p :=
    escapeChars_id .encodePath p (fun c hc =>
      ⟨(pathChars_facts c (hp c hc)).2.2.2.2.2.1, (pathChars_facts c (hp c hc)).2.2.2.2.2.2⟩)
  have hstar : String.mk p ≠ "*" := by
    intro he
    have hd : p = ['*'] := congrArg String.data he
    have hm : '*' ∈ p := by rw [hd]; simp
    exact (pathChars_facts '*' (hp '*' hm)).2.2.2.1 rfl
  unfold URL.EscapedPath escape
  simp [hraw, hu, hstar, hes]

/-- A text that does not start with a slash does not start with two. -/
theorem hasPrefix_slashes_of_head (p : List Char) (h : p.head? ≠ some '/') :
    hasPrefixChars ['/', '/'] p = false := by
  unfold hasPrefixChars
  cases p with
  | nil => rfl
  | cons a b =>
    have ha : a ≠ '/' := by
      intro he
      exact h (by rw [he]; rfl)
    simp only [List.isPrefixOf, Bool.and_eq_false_imp, beq_iff_eq]
    intro he
    exact absurd he.symm ha

/-- A plain relative path, with or without a query, parses to a URL that holds
the path and the query and nothing else. -/
theorem urlParse_rel (path : List Char) (query : Option (List Char))
    (hp : path ≠ [] ∧ path.head? ≠ some '/' ∧ ∀ x ∈ path, x ∈ pathChars)
    (hcolon : ':' ∉ (cut '/' path).1)
    (hq : ∀ q, query = some q → ∀ x ∈ q, x ≠ '#' ∧ isCTL x = false) :
    urlParse (String.mk (pathQuery path query)) =
      .ok { Path := String.mk path, RawQuery := String.mk (query.getD []),
            ForceQuery := queryForced query } := by
  have hf := fun c hc => pathChars_facts c (hp.2.2 c hc)
  have h1 : '#' ∉ path := not_mem_of_forall_ne _ _ (fun c hc => (hf c hc).1)
  have h2 : '?' ∉ path := not_mem_of_forall_ne _ _ (fun c hc => (hf c hc).2.1)
  have hseg : (cut '/' path).1.contains ':' = false := by
    simp only [List.contains_eq_any_beq, List.any_eq_false, beq_iff_eq]
    intro c hc he
    exact hcolon (by rw [he]; exact hc)
  have hpre := hasPrefix_slashes_of_head path hp.2.1
  have hjoin := cut_join '/' path
  cases query with
  | none =>
    have hctl : path.any isCTL = false := by
      simp only [List.any_eq_false]
      intro c hc
      simp [(hf c hc).2.2.2.2.1]
    have hstar : path ≠ ['*'] := by
      intro he
      have hm : '*' ∈ path := by rw [he]; simp
      exact (hf '*' hm).2.2.2.1 rfl
    have hscheme : getSchemeAux path [] path = .ok ([], path) := by
      have := getSchemeAux_stop path [] (cut '/' path).1
        (if (cut '/' path).2.2 = true then '/' :: (cut '/' path).2.1 else []) hcolon
        (by
          by_cases hb : (cut '/' path).2.2 = true
          · rw [if_pos hb]
            exact Or.inr ⟨_, _, rfl, Or.inl rfl⟩
          · rw [if_neg hb]
            exact Or.inl rfl)
      rw [← hjoin] at this
      exact this
    simp only [pathQuery, Option.getD_none, queryForced]
    unfold urlParse
    simp only [cut_of_not_mem '#' path h1]
    unfold parseNoFragment getScheme
    simp only [hctl, Bool.false_eq_true, if_false, hstar, hscheme, List.map_nil, query_none path h2,
      List.isEmpty_nil, Bool.not_true, and_false, hp.2.1, ne_eq, not_false_eq_true, hseg, hpre,
      Bool.and_false, true_and, Bool.or_false]
    rw [setPath_plain _ path hp.2.2]
    rfl
  | some q =>
    have hqf := hq q rfl
    have hall : ∀ c ∈ path ++ '?' :: q, c ≠ '#' ∧ isCTL c = false := by
      intro c hc
      rcases List.mem_append.1 hc with hc | hc
      · exact ⟨(hf c hc).1, (hf c hc).2.2.2.2.1⟩
      · rcases List.mem_cons.1 hc with hc | hc
        · subst hc
          decide
        · exact hqf c hc
    have h1' : '#' ∉ path ++ '?' :: q := not_mem_of_forall_ne _ _ (fun c hc => (hall c hc).1)
    have hctl : (path ++ '?' :: q).any isCTL = false := by
      simp only [List.any_eq_false]
      intro c hc
      simp [(hall c hc).2]
    have hstar : path ++ '?' :: q ≠ ['*'] := by
      intro he
      have hl := congrArg List.length he
      simp only [List.length_append, List.length_cons, List.length_nil] at hl
      have : 0 < path.length := List.length_pos.2 hp.1
      omega
    have hscheme : getSchemeAux (path ++ '?' :: q) [] (path ++ '?' :: q) =
        .ok ([], path ++ '?' :: q) := by
      have := getSchemeAux_stop (path ++ '?' :: q) [] (cut '/' path).1
        ((if (cut '/' path).2.2 = true then '/' :: (cut '/' path).2.1 else []) ++ '?' :: q) hcolon
        (by
          by_cases hb : (cut '/' path).2.2 = true
          · rw [if_pos hb]
            exact Or.inr ⟨_, _, rfl, Or.inl rfl⟩
          · rw [if_neg hb]
            exact Or.inr ⟨_, _, rfl, Or.inr rfl⟩)
      rw [← List.append_assoc, ← hjoin] at this
      exact this
    simp only [pathQuery, Option.getD_some, queryForced]
    unfold urlParse
    simp only [cut_of_not_mem '#' _ h1']
    unfold parseNoFragment getScheme
    simp only [hctl, Bool.false_eq_true, if_false, hstar, hscheme, List.map_nil, query_some path q h2,
      List.isEmpty_nil, Bool.not_true, and_false, hp.2.1, ne_eq, not_false_eq_true, hseg, hpre,
      Bool.and_false, true_and, Bool.or_false]
    rw [setPath_plain _ path hp.2.2]
    rfl

/-- What the characters of a plain host with an optional port are. -/
theorem hostPort_facts (h : List Char) (port : Option (List Char))
    (hh : ∀ x ∈ h, x ∈ hostChars)
    (hport : ∀ ds, port = some ds → ds ≠ [] ∧ ∀ x ∈ ds, x ∈ portChars) :
    ∀ c ∈ hostPort h port,
      c ≠ '#' ∧ c ≠ '?' ∧ c ≠ '%' ∧ c ≠ '/' ∧ c ≠ '@' ∧ c ≠ '[' ∧ c ≠ '*' ∧
        isCTL c = false ∧ c.toNat < 0x80 ∧ shouldEscape c .encodeHost = false := by
  intro c hc
  cases port with
  | none =>
    have f := hostChars_facts c (hh c hc)
    exact ⟨f.1, f.2.1, f.2.2.2.1, f.2.2.2.2.2.1, f.2.2.2.2.2.2.1, f.2.2.2.2.2.2.2.1,
      f.2.2.2.2.2.2.2.2.1, f.2.2.2.2.2.2.2.2.2.1, f.2.2.2.2.2.2.2.2.2.2.1,
      f.2.2.2.2.2.2.2.2.2.2.2⟩
  | some ds =>
    simp only [hostPort, List.mem_append, List.mem_cons] at hc
    rcases hc with hc | hc | hc
    · have f := hostChars_facts c (hh c hc)
      exact ⟨f.1, f.2.1, f.2.2.2.1, f.2.2.2.2.2.1, f.2.2.2.2.2.2.1, f.2.2.2.2.2.2.2.1,
        f.2.2.2.2.2.2.2.2.1, f.2.2.2.2.2.2.2.2.2.1, f.2.2.2.2.2.2.2.2.2.2.1,
        f.2.2.2.2.2.2.2.2.2.2.2⟩
    · subst hc
      decide
    · have f := portChars_facts c ((hport ds rfl).2 c hc)
      exact ⟨f.1, f.2.1, f.2.2.2.1, f.2.2.2.2.2.1, f.2.2.2.2.2.2.1, f.2.2.2.2.2.2.2.1,
        f.2.2.2.2.2.2.2.2.1, f.2.2.2.2.2.2.2.2.2.1, f.2.2.2.2.2.2.2.2.2.2.1,
        f.2.2.2.2.2.2.2.2.2.2.2.1⟩

/-- The text of a host with an optional port is not empty. -/
theorem hostPort_ne_nil (h : List Char) (port : Option (List Char)) (hne : h ≠ []) :
    hostPort h port ≠ [] := by
  cases port with
  | none => exact hne
  | some ds => simp [hostPort]

/-- A plain host with an optional port is escaped to itself. -/
theorem escape_hostPort (h : List Char) (port : Option (List Char))
    (hh : ∀ x ∈ h, x ∈ hostChars)
    (hport : ∀ ds, port = some ds → ds ≠ [] ∧ ∀ x ∈ ds, x ∈ portChars) :
    escape (String.mk (hostPort h port)) .encodeHost = String.mk (hostPort h port) := by
  unfold escape
  rw [escapeChars_id .encodeHost _ (fun c hc =>
    ⟨(hostPort_facts h port hh hport c hc).2.2.2.2.2.2.2.2.1,
      (hostPort_facts h port hh hport c hc).2.2.2.2.2.2.2.2.2⟩)]

/-- A plain host with an optional port is accepted as it is. -/
theorem parseHost_hostPort (h : List Char) (port : Option (List Char))
    (hh : h ≠ [] ∧ ∀ x ∈ h, x ∈ hostChars)
    (hport : ∀ ds, port = some ds → ds ≠ [] ∧ ∀ x ∈ ds, x ∈ portChars) :
    parseHost (hostPort h port) = .ok (String.mk (hostPort h port)) := by
  have hf := hostPort_facts h port hh.2 hport
  have hun : unescape (String.mk (hostPort h port)) .encodeHost =
      .ok (String.mk (hostPort h port)) := by
    unfold unescape
    rw [unescapeChars_id .encodeHost _ (by decide) (fun c hc =>
      ⟨(hf c hc).2.2.1, by simp [(hf c hc).2.2.2.2.2.2.2.2.2]⟩)]
  have hbr : ∀ rest, hostPort h port ≠ '[' :: rest := by
    intro rest he
    have hm : '[' ∈ hostPort h port := by rw [he]; exact List.mem_cons_self _ _
    exact (hf '[' hm).2.2.2.2.2.1 rfl
  unfold parseHost
  split
  · rename_i rest heq
    exact absurd heq (hbr rest)
  · cases port with
    | none =>
      have hcolon : ':' ∉ h :=
        not_mem_of_forall_ne _ _ (fun c hc => (hostChars_facts c (hh.2 c hc)).2.2.1)
      simp only [hostPort] at hun ⊢
      rw [cutLast_of_not_mem ':' h hcolon]
      exact hun
    | some ds =>
      have hcolon : ':' ∉ ds :=
        not_mem_of_forall_ne _ _ (fun c hc => (portChars_facts c ((hport ds rfl).2 c hc)).2.2.1)
      have hdig : ds.all Char.isDigit = true := by
        simp only [List.all_eq_true]
        intro c hc
        exact (portChars_facts c ((hport ds rfl).2 c hc)).2.2.2.2.2.2.2.2.2.2.2.2
      simp only [hostPort] at hun ⊢
      rw [cutLast_append ':' h ds hcolon]
      simp only [validOptionalPort, beq_self_eq_true, hdig, Bool.and_self, if_true]
      exact hun

/-- A plain host with an optional port is an authority without user information. -/
theorem parseAuthority_hostPort (h : List Char) (port : Option (List Char))
    (hh : h ≠ [] ∧ ∀ x ∈ h, x ∈ hostChars)
    (hport : ∀ ds, port = some ds → ds ≠ [] ∧ ∀ x ∈ ds, x ∈ portChars) :
    parseAuthority (hostPort h port) = .ok (none, String.mk (hostPort h port)) := by
  have hf := hostPort_facts h port hh.2 hport
  have hat : '@' ∉ hostPort h port :=
    not_mem_of_forall_ne _ _ (fun c hc => (hf c hc).2.2.2.2.1)
  unfold parseAuthority
  rw [cutLast_of_not_mem '@' _ hat]
  simp only [parseHost_hostPort h port hh hport]

/-- A plain host with an optional port has no empty port to remove. -/
theorem removeEmptyPort_hostPort (h : List Char) (port : Option (List Char))
    (hh : ∀ x ∈ h, x ∈ hostChars)
    (hport : ∀ ds, port = some ds → ds ≠ [] ∧ ∀ x ∈ ds, x ∈ portChars) :
    removeEmptyPort (String.mk (hostPort h port)) = String.mk (hostPort h port) := by
  have hl : (String.mk (hostPort h port)).data.getLast? ≠ some ':' := by
    cases port with
    | none =>
      intro he
      have hm : ':' ∈ h := List.mem_of_mem_getLast? he
      exact (hostChars_facts ':' (hh ':' hm)).2.2.1 rfl
    | some ds =>
      intro he
      have hne := (hport ds rfl).1
      have hl2 : (h ++ ':' :: ds).getLast? = ds.getLast? := by
        rw [show h ++ ':' :: ds = (h ++ [':']) ++ ds by simp]
        rw [List.getLast?_append_of_ne_nil _ hne]
      simp only [hostPort] at he
      rw [hl2] at he
      have hm : ':' ∈ ds := List.mem_of_mem_getLast? he
      exact (portChars_facts ':' ((hport ds rfl).2 ':' hm)).2.2.1 rfl
  unfold removeEmptyPort
  rw [if_neg hl]

/-- The text of a URL made of a plain scheme, a plain host and a plain
absolute path, with an optional query, is `scheme://host/path?query`. -/
theorem URL_String_plain (s host path : List Char) (query : Option (List Char))
    (hs : s ≠ [])
    (hhost : host ≠ [] ∧ escape (String.mk host) .encodeHost = String.mk host)
    (hpath : path.head? = some '/' ∧ ∀ x ∈ path, x ∈ pathChars) :
    URL.String { Scheme := String.mk s, Host := String.mk host, Path := String.mk path,
                 RawQuery := String.mk (query.getD []), ForceQuery := queryForced query } =
      String.mk (s ++ (':' :: '/' :: '/' :: (host ++ pathQuery path query))) := by
  have hesc := EscapedPath_plain
    { Scheme := String.mk s, Host := String.mk host, Path := String.mk path,
      RawQuery := String.mk (query.getD []), ForceQuery := queryForced query } path hpath.2 rfl rfl
  have hhead : (String.mk path).data.head? = some '/' := hpath.1
  have hpne : String.mk path ≠ "" := by
    apply mk_ne_empty
    intro he
    rw [he] at hpath
    cases hpath.1
  unfold URL.String
  simp only [hesc, hhost.2, mk_ne_empty s hs, mk_ne_empty host hhost.1, hpne, hhead, ne_eq,
    not_false_eq_true, not_true_eq_false, if_true, if_false, true_or, or_true, false_and,
    and_false, Bool.false_eq_true, Option.isNone_none, Option.isSome_none, or_false, false_or,
    and_true, true_and]
  apply String.ext
  simp only [String.data_append]
  rw [if_neg (fun hc => by
    have hd := congrArg String.data hc.1
    simp [String.data_append] at hd)]
  cases query with
  | none => simp [pathQuery, queryForced]
  | some q =>
    cases q with
    | nil => simp [pathQuery, queryForced]
    | cons a b =>
      have hq : String.mk (a :: b) ≠ "" := mk_ne_empty _ (List.cons_ne_nil _ _)
      simp [pathQuery, queryForced, hq]

/-- The text `scheme://host/path?query` of plain parts parses to the URL of those parts. -/
theorem urlParse_full (s0 : Char) (s h path : List Char) (port query : Option (List Char))
    (hs : s0 ∈ schemeChars ∧ ∀ x ∈ s, x ∈ schemeTailChars)
    (hh : h ≠ [] ∧ ∀ x ∈ h, x ∈ hostChars)
    (hport : ∀ ds, port = some ds → ds ≠ [] ∧ ∀ x ∈ ds, x ∈ portChars)
    (hpath : path.head? = some '/' ∧ ∀ x ∈ path, x ∈ pathChars)
    (hq : ∀ q, query = some q → ∀ x ∈ q, x ≠ '#' ∧ isCTL x = false) :
    urlParse (String.mk ((s0 :: s) ++ (':' :: '/' :: '/' :: (hostPort h port ++ pathQuery path query)))) =
      .ok { Scheme := String.mk (s0 :: s), Host := String.mk (hostPort h port),
            Path := String.mk path, RawQuery := String.mk (query.getD []),
            ForceQuery := queryForced query } := by
  have hfs0 := schemeChars_facts s0 hs.1
  have hfs := fun c hc => schemeTailChars_facts c (hs.2 c hc)
  have hfh := hostPort_facts h port hh.2 hport
  have hfp := fun c hc => pathChars_facts c (hpath.2 c hc)
  obtain ⟨path1, hpath1⟩ : ∃ path1, path = '/' :: path1 := by
    cases path with
    | nil => cases hpath.1
    | cons a b =>
      have ha := hpath.1
      simp only [List.head?_cons, Option.some.injEq] at ha
      exact ⟨b, by rw [ha]⟩
  -- the part of the text before the query
  have hA : ∀ c ∈ '/' :: '/' :: (hostPort h port ++ path),
      c ≠ '#' ∧ c ≠ '?' ∧ c ≠ '*' ∧ isCTL c = false := by
    intro c hc
    simp only [List.mem_append, List.mem_cons] at hc
    rcases hc with hc | hc | hc | hc
    · subst hc
      decide
    · subst hc
      decide
    · exact ⟨(hfh c hc).1, (hfh c hc).2.1, (hfh c hc).2.2.2.2.2.2.1, (hfh c hc).2.2.2.2.2.2.2.1⟩
    · exact ⟨(hfp c hc).1, (hfp c hc).2.1, (hfp c hc).2.2.2.1, (hfp c hc).2.2.2.2.1⟩
  have hqA : '?' ∉ '/' :: '/' :: (hostPort h port ++ path) := fun hm => (hA '?' hm).2.1 rfl
  have hS : ∀ c ∈ s0 :: s, c ≠ '#' ∧ isCTL c = false ∧ c.toLower = c ∧
      (c.isAlpha = true ∨ (c.isDigit || c == '+' || c == '-' || c == '.') = true) := by
    intro c hc
    rcases List.mem_cons.1 hc with hc | hc
    · subst hc
      exact ⟨hfs0.2.2.1, hfs0.2.2.2.2.2, hfs0.2.1, Or.inl hfs0.1⟩
    · exact ⟨(hfs c hc).2.2.1, (hfs c hc).2.2.2.2.2.2, (hfs c hc).2.1, (hfs c hc).1⟩
  -- the rest after the scheme, and the whole text
  have hrest : ∀ c ∈ '/' :: '/' :: (hostPort h port ++ pathQuery path query),
      c ≠ '#' ∧ isCTL c = false := by
    intro c hc
    cases query with
    | none => exact ⟨(hA c hc).1, (hA c hc).2.2.2⟩
    | some q =>
      have hc2 : c ∈ ('/' :: '/' :: (hostPort h port ++ path)) ++ '?' :: q := by
        simpa [pathQuery] using hc
      rcases List.mem_append.1 hc2 with hc3 | hc3
      · exact ⟨(hA c hc3).1, (hA c hc3).2.2.2⟩
      · rcases List.mem_cons.1 hc3 with hc4 | hc4
        · subst hc4
          decide
        · exact hq q rfl c hc4
  have hall : ∀ c ∈ (s0 :: s) ++ (':' :: '/' :: '/' :: (hostPort h port ++ pathQuery path query)),
      c ≠ '#' ∧ isCTL c = false := by
    intro c hc
    rcases List.mem_append.1 hc with hc | hc
    · exact ⟨(hS c hc).1, (hS c hc).2.1⟩
    · rcases List.mem_cons.1 hc with hc | hc
      · subst hc
        decide
      · exact hrest c hc
  have h1 : '#' ∉ (s0 :: s) ++ (':' :: '/' :: '/' :: (hostPort h port ++ pathQuery path query)) :=
    not_mem_of_forall_ne _ _ (fun c hc => (hall c hc).1)
  have hctl : ((s0 :: s) ++ (':' :: '/' :: '/' :: (hostPort h port ++ pathQuery path query))).any
      isCTL = false := by
    simp only [List.any_eq_false]
    intro c hc
    simp [(hall c hc).2]
  have hstar : (s0 :: s) ++ (':' :: '/' :: '/' :: (hostPort h port ++ pathQuery path query)) ≠
      ['*'] := by
    intro he
    have hl := congrArg List.length he
    simp only [List.length_append, List.length_cons, List.length_nil] at hl
    omega
  have hscheme : getSchemeAux
      ((s0 :: s) ++ (':' :: '/' :: '/' :: (hostPort h port ++ pathQuery path query))) []
      ((s0 :: s) ++ (':' :: '/' :: '/' :: (hostPort h port ++ pathQuery path query))) =
        .ok (s0 :: s, '/' :: '/' :: (hostPort h port ++ pathQuery path query)) := by
    have := getSchemeAux_of_scheme
      ((s0 :: s) ++ (':' :: '/' :: '/' :: (hostPort h port ++ pathQuery path query))) []
      (s0 :: s) ('/' :: '/' :: (hostPort h port ++ pathQuery path query))
      (fun c hc => (hS c hc).2.2.2) (Or.inr ⟨s0, s, rfl, hfs0.1⟩)
    simpa using this
  have hlower : (s0 :: s).map Char.toLower = s0 :: s := by
    conv_rhs => rw [← List.map_id (s0 :: s)]
    apply List.map_congr_left
    intro c hc
    exact (hS c hc).2.2.1
  have hslash : '/' ∉ hostPort h port :=
    not_mem_of_forall_ne _ _ (fun c hc => (hfh c hc).2.2.2.1)
  have hcut : cut '/' (hostPort h port ++ path) = (hostPort h port, path1, true) := by
    rw [hpath1]
    exact cut_append '/' (hostPort h port) path1 hslash
  have hhd : ('/' :: '/' :: (hostPort h port ++ path)).head? = some '/' := rfl
  have hdrop : List.drop 2 ('/' :: '/' :: (hostPort h port ++ path)) = hostPort h port ++ path := rfl
  have hpre : hasPrefixChars ['/', '/'] ('/' :: '/' :: (hostPort h port ++ path)) = true := by
    simp [hasPrefixChars, List.isPrefixOf]
  have hsplit : (if ('/' :: '/' :: (hostPort h port ++ pathQuery path query)).getLast? = some '?' ∧
        ('/' :: '/' :: (hostPort h port ++ pathQuery path query)).count '?' = 1 then
        (('/' :: '/' :: (hostPort h port ++ pathQuery path query)).dropLast, ([] : List Char), true)
      else ((cut '?' ('/' :: '/' :: (hostPort h port ++ pathQuery path query))).1,
        (cut '?' ('/' :: '/' :: (hostPort h port ++ pathQuery path query))).2.1, false)) =
      ('/' :: '/' :: (hostPort h port ++ path), query.getD [], queryForced query) := by
    cases query with
    | none => exact query_none _ hqA
    | some q =>
      have hE : '/' :: '/' :: (hostPort h port ++ pathQuery path (some q)) =
          ('/' :: '/' :: (hostPort h port ++ path)) ++ '?' :: q := by
        simp [pathQuery]
      rw [hE]
      exact query_some _ q hqA
  unfold urlParse
  simp only [cut_of_not_mem '#' _ h1]
  unfold parseNoFragment getScheme
  simp only [hctl, Bool.false_eq_true, if_false, hstar, hscheme, hlower, hsplit,
    List.isEmpty_cons, Bool.not_false, hhd, ne_eq, not_true_eq_false,
    and_true, true_or, true_and, hpre, if_true, hdrop, hcut, false_and,
    parseAuthority_hostPort h port hh hport]
  rw [← hpath1, setPath_plain _ path hpath.2]
  rfl

/-- Resolving a plain relative reference against a plain base keeps the scheme
and the host of the base, replaces what follows the last slash of its path,
and takes the query of the reference. -/
theorem ResolveReference_plain (s host bp before path : List Char) (query : Option (List Char))
    (hbpc : ∀ x ∈ bp, x ∈ pathChars)
    (hbp : (bp = [] ∧ before = []) ∨ ∃ last, bp = before ++ '/' :: last ∧ '/' ∉ last)
    (hbefore : before = [] ∨ before.head? = some '/')
    (hp : path ≠ [] ∧ path.head? ≠ some '/' ∧ ∀ x ∈ path, x ∈ pathChars)
    (hdot : ∀ e ∈ splitSlash (before ++ '/' :: path), e ≠ ['.'] ∧ e ≠ ['.', '.']) :
    URL.ResolveReference { Scheme := String.mk s, Host := String.mk host, Path := String.mk bp }
        { Path := String.mk path, RawQuery := String.mk (query.getD []),
          ForceQuery := queryForced query } =
      { Scheme := String.mk s, Host := String.mk host,
        Path := String.mk (before ++ '/' :: path), RawQuery := String.mk (query.getD []),
        ForceQuery := queryForced query } := by
  have hbeforec : ∀ x ∈ before, x ∈ pathChars := by
    rcases hbp with ⟨_, h2⟩ | ⟨last, h1, _⟩
    · subst h2
      intro x hx
      cases hx
    · intro x hx
      exact hbpc x (by rw [h1]; exact List.mem_append_left _ hx)
  have hres := resolvePath_plain before path bp hbp hbefore ⟨hp.1, hp.2.1⟩ hdot
  have he1 := EscapedPath_plain
    { Scheme := String.mk s, Host := String.mk host, Path := String.mk bp } bp hbpc rfl rfl
  have he2 := EscapedPath_plain
    { Path := String.mk path, RawQuery := String.mk (query.getD []),
      ForceQuery := queryForced query } path hp.2.2 rfl rfl
  have hnew : ∀ x ∈ before ++ '/' :: path, x ∈ pathChars := by
    intro x hx
    rcases List.mem_append.1 hx with hx | hx
    · exact hbeforec x hx
    · rcases List.mem_cons.1 hx with hx | hx
      · subst hx
        decide
      · exact hp.2.2 x hx
  have hpne : String.mk path ≠ "" := fun hc => hp.1 (congrArg String.data hc)
  unfold URL.ResolveReference
  simp only [ne_eq, not_true_eq_false, Option.isSome_none, Bool.false_eq_true, or_self,
    if_false, if_true, hpne, false_and, he1, he2, hres, setPath_plain _ _ hnew]

/-- The request `http.NewRequest` makes of a valid method and the text
`scheme://host/path?query` of plain parts. -/
theorem httpNewRequest_plain (method : String) (buf : Option Json) (s0 : Char)
    (s h path : List Char) (port query : Option (List Char))
    (hm : validMethod (if method = "" then "GET" else method) = true)
    (hs : s0 ∈ schemeChars ∧ ∀ x ∈ s, x ∈ schemeTailChars)
    (hh : h ≠ [] ∧ ∀ x ∈ h, x ∈ hostChars)
    (hport : ∀ ds, port = some ds → ds ≠ [] ∧ ∀ x ∈ ds, x ∈ portChars)
    (hpath : path.head? = some '/' ∧ ∀ x ∈ path, x ∈ pathChars)
    (hq : ∀ q, query = some q → ∀ x ∈ q, x ≠ '#' ∧ isCTL x = false) :
    httpNewRequest method
        (String.mk ((s0 :: s) ++ (':' :: '/' :: '/' :: (hostPort h port ++ pathQuery path query))))
        buf =
      .ok { Method := if method = "" then "GET" else method,
            URL := { Scheme := String.mk (s0 :: s), Host := String.mk (hostPort h port),
                     Path := String.mk path, RawQuery := String.mk (query.getD []),
                     ForceQuery := queryForced query },
            Body := buf } := by
  unfold httpNewRequest
  simp only [hm, Bool.not_true, Bool.false_eq_true, if_false,
    urlParse_full s0 s h path port query hs hh hport hpath hq,
    removeEmptyPort_hostPort h port hh.2 hport]

/-- C17 (counterexample): with the base endpoint `https://host/api/v1` the
request `NewRequest` builds for the relative path `v2/bots` has the URL
`https://host/api/v2/bots`: the last segment `v1` of the base is replaced, and
the URL is not the base with the path concatenated onto it. -/
theorem NewRequest_base_segment_replaced_counterexample :
    (((stubClientAt { Scheme := "https", Host := "host", Path := "/api/v1" } "t" 200 "").NewRequest
        (fun (_ : Unit) => Except.ok Json.null) "GET" "v2/bots" none).1.map
      (fun rq => (rq.URL.Path, rq.URL.String))) =
        some ("/api/v2/bots", "https://host/api/v2/bots") ∧
    "https://host/api/v2/bots" ≠ "https://host/api/v1" ++ "/" ++ "v2/bots" ∧
    "https://host/api/v2/bots" ≠ "https://host/api/v1" ++ "v2/bots" := by
  refine ⟨by decide!, by decide, by decide⟩

/-- C17 (amended): let the base endpoint have a plain scheme, a plain host
with or without a port, and a plain path that is empty or has the form
`before/last`, where `last` holds no slash and `before` is empty or starts with
a slash.  Let the reference be `path` or `path?query`, where `path` is a
non-empty plain path without a leading slash and without a colon in its first
segment, neither `before` nor `path` has a segment `.` or `..`, and the query
holds no `#` and no control character; let the method be valid and the body
encodable.  Then `NewRequest` returns a request and no error, and the URL of
the request has the scheme and the host of the base, the path `before/path`
and the query of the reference: what follows the last slash of the base path
is replaced by `path`.  The URL is the base with the reference concatenated
onto it exactly in the case `last = ""`, a base path that ends in a slash. -/
theorem NewRequest_resolves_relative_path {β : Type} (c : SendbirdClient)
    (enc : β → Except String Json) (method : String) (body : Option β)
    (s0 : Char) (s h bp before path : List Char) (port query : Option (List Char))
    (hbase : c.BaseURL =
      { Scheme := String.mk (s0 :: s), Host := String.mk (hostPort h port), Path := String.mk bp })
    (hs : s0 ∈ schemeChars ∧ ∀ x ∈ s, x ∈ schemeTailChars)
    (hh : h ≠ [] ∧ ∀ x ∈ h, x ∈ hostChars)
    (hport : ∀ ds, port = some ds → ds ≠ [] ∧ ∀ x ∈ ds, x ∈ portChars)
    (hbpc : ∀ x ∈ bp, x ∈ pathChars)
    (hbp : (bp = [] ∧ before = []) ∨ ∃ last, bp = before ++ '/' :: last ∧ '/' ∉ last)
    (hbefore : before = [] ∨ before.head? = some '/')
    (hp : path ≠ [] ∧ path.head? ≠ some '/' ∧ ∀ x ∈ path, x ∈ pathChars)
    (hcolon : ':' ∉ (cut '/' path).1)
    (hdot : ∀ e ∈ splitSlash (before ++ '/' :: path), e ≠ ['.'] ∧ e ≠ ['.', '.'])
    (hq : ∀ q, query = some q → ∀ x ∈ q, x ≠ '#' ∧ isCTL x = false)
    (hm : validMethod (if method = "" then "GET" else method) = true)
    (henc : ∀ b, body = some b → ∃ j, enc b = .ok j) :
    ∃ req, c.NewRequest enc method (String.mk (pathQuery path query)) body = (some req, none) ∧
      req.URL = { Scheme := String.mk (s0 :: s), Host := String.mk (hostPort h port),
                  Path := String.mk (before ++ '/' :: path),
                  RawQuery := String.mk (query.getD []), ForceQuery := queryForced query } ∧
      req.URL.String = String.mk ((s0 :: s) ++
        (':' :: '/' :: '/' :: (hostPort h port ++ pathQuery (before ++ '/' :: path) query))) := by
  have hnew : (before ++ '/' :: path).head? = some '/' ∧
      ∀ x ∈ before ++ '/' :: path, x ∈ pathChars := by
    refine ⟨?_, fun x hx => ?_⟩
    · rcases hbefore with hb | hb
      · subst hb
        rfl
      · cases before with
        | nil => cases hb
        | cons a b => exact hb
    · rcases List.mem_append.1 hx with hx | hx
      · rcases hbp with ⟨_, h2⟩ | ⟨last, h1, _⟩
        · subst h2
          cases hx
        · exact hbpc x (by rw [h1]; exact List.mem_append_left _ hx)
      · rcases List.mem_cons.1 hx with hx | hx
        · subst hx
          decide
        · exact hp.2.2 x hx
  have hstr := URL_String_plain (s0 :: s) (hostPort h port) (before ++ '/' :: path) query
    (List.cons_ne_nil _ _)
    ⟨hostPort_ne_nil h port hh.1, escape_hostPort h port hh.2 hport⟩ hnew
  unfold SendbirdClient.NewRequest
  simp only [urlParse_rel path query hp hcolon hq, hbase,
    ResolveReference_plain (s0 :: s) (hostPort h port) bp before path query hbpc hbp hbefore hp
      hdot, hstr]
  cases body with
  | none =>
    simp only [httpNewRequest_plain method none s0 s h _ port query hm hs hh hport hnew hq]
    exact ⟨_, rfl, rfl, hstr⟩
  | some b =>
    obtain ⟨j, hj⟩ := henc b rfl
    simp only [hj, httpNewRequest_plain method (some j) s0 s h _ port query hm hs hh hport hnew hq]
    exact ⟨_, rfl, rfl, hstr⟩

/-- The base endpoint `http://127.0.0.1:8080/api/v1/` and the reference
`v2/bots.json?api_token=t`: the request goes to
`http://127.0.0.1:8080/api/v1/v2/bots.json?api_token=t`. -/
theorem NewRequest_resolves_relative_path_witness :
    ∃ req, (stubClientAt { Scheme := "http", Host := "127.0.0.1:8080", Path := "/api/v1/" } "t" 200
        "").NewRequest (fun (_ : Unit) => Except.ok Json.null) "GET" "v2/bots.json?api_token=t" none =
          (some req, none) ∧
      req.URL = { Scheme := "http", Host := "127.0.0.1:8080", Path := "/api/v1/v2/bots.json",
                  RawQuery := "api_token=t" } ∧
      req.URL.String = "http://127.0.0.1:8080/api/v1/v2/bots.json?api_token=t" :=
  NewRequest_resolves_relative_path
    (stubClientAt { Scheme := "http", Host := "127.0.0.1:8080", Path := "/api/v1/" } "t" 200 "")
    (fun (_ : Unit) => Except.ok Json.null) "GET" none
    'h' "ttp".data "127.0.0.1".data "/api/v1/".data "/api/v1".data "v2/bots.json".data
    (some "8080".data) (some "api_token=t".data)
    rfl (by decide) (by decide) (by intro ds hd; cases hd; decide) (by decide)
    (Or.inr ⟨[], by decide, by decide⟩)
    (Or.inr (by decide)) (by decide) (by decide) (by decide)
    (by intro q hq; cases hq; decide) (by decide) (fun b hb => by cases hb)

/-! ## The paths of the operations -/

/-- C18: `Users.Create`, `Bot.Create`, `Chat.List` and
`Admin.ConcurrentUserCount` hand `NewRequest` the paths `/user/create`,
`/v2/bots`, `/channel/list` and `/admin/ccu_count`, each written with a
leading slash.  With the base endpoint `https://host/api/` the request of
`Users.Create` therefore goes to `https://host/user/create`, while the request
of `Bot.Get`, whose path has no leading slash, goes to
`https://host/api/v2/bots/x`. -/
theorem operation_paths_have_leading_slash :
    (∀ (c : SendbirdClient) (params : UserRequest),
      UserServiceOp.Create c params =
        (params.PopulateAuthApiToken c,
          finishTyped (c.Do storeUser
            (c.NewRequest (Envelope.encode UserParams.members) "POST" "/user/create"
              (some (params.PopulateAuthApiToken c))).1 (.value {})))) ∧
    (∀ (c : SendbirdClient) (params : BotRequest),
      BotServiceOp.Create c params =
        (params.PopulateApiV2Token c,
          finishTyped (c.Do storeBot
            (c.NewRequest (EnvelopeV2.encode BotParams.members) "POST" "/v2/bots"
              (some (params.PopulateApiV2Token c))).1 (.value {})))) ∧
    (∀ c : SendbirdClient,
      ChatChannelServiceOp.List c =
        finishSlice mapCoverImageUrlToCoverUrl (c.Do storeChatChannels
          (c.NewRequest (Envelope.encode fun (_ : Unit) => []) "POST" "/channel/list"
            (some (Envelope.PopulateAuthApiToken { params := () } c))).1 (.value (some [])))) ∧
    (∀ c : SendbirdClient,
      AdminServiceOp.ConcurrentUserCount c =
        finishTyped (c.Do storeConcurrentUserCount
          (c.NewRequest (Envelope.encode fun (_ : Unit) => []) "POST" "/admin/ccu_count"
            (some (Envelope.PopulateAuthApiToken { params := () } c))).1 (.value {}))) ∧
    ["/user/create", "/v2/bots", "/channel/list", "/admin/ccu_count"].map
        (fun path => path.data.head?) = [some '/', some '/', some '/', some '/'] ∧
    (sentRequests (UserServiceOp.Create
        (stubClientAt { Scheme := "https", Host := "host", Path := "/api/" } "t" 200 "\x7b\x7d")
        { params := {} }).2).map (fun rq => rq.URL.String) = ["https://host/user/create"] ∧
    (sentRequests (BotServiceOp.Get
        (stubClientAt { Scheme := "https", Host := "host", Path := "/api/" } "t" 200 "\x7b\x7d")
        "x")).map (fun rq => rq.URL.String) = ["https://host/api/v2/bots/x?api_token=t"] := by
  refine ⟨fun _ _ => rfl, fun _ _ => rfl, fun _ => rfl, fun _ => rfl, by decide, by decide!,
    by decide!⟩

/-- C19: with the default base endpoint, `Bot.Get("a?b")` sends GET to the
path `/v2/bots/a` (the rest of the id becomes the query), `Bot.Update("a?b")`
sends POST to `/v2/bots/a`, `Bot.Delete("a#b")` sends DELETE to `/v2/bots/a`
(the rest of the id becomes the fragment), `Bot.SendMessage("a?b")` sends POST
to `/v2/bots/a` and not to a path that ends in `/send`, and `Bot.Get("..")`
sends GET to `/v2/`.  The id is written into the path text without escaping. -/
theorem bot_path_id_not_escaped :
    (sentRequests (BotServiceOp.Get (stubClient "t" 200 "\x7b\x7d") "a?b")).map
        (fun rq => (rq.Method, rq.URL.Path, rq.URL.RawQuery)) =
      [("GET", "/v2/bots/a", "b?api_token=t")] ∧
    (sentRequests (BotServiceOp.Update (stubClient "t" 200 "\x7b\x7d") "a?b" { params := {} }).2).map
        (fun rq => (rq.Method, rq.URL.Path, rq.URL.RawQuery)) =
      [("POST", "/v2/bots/a", "b")] ∧
    (sentRequests (BotServiceOp.Delete (stubClient "t" 200 "\x7b\x7d") "a#b")).map
        (fun rq => (rq.Method, rq.URL.Path, rq.URL.Fragment)) =
      [("DELETE", "/v2/bots/a", "b")] ∧
    (sentRequests
        (BotServiceOp.SendMessage (stubClient "t" 200 "\x7b\x7d") "a?b" { params := {} }).2).map
        (fun rq => (rq.Method, rq.URL.Path, rq.URL.RawQuery)) =
      [("POST", "/v2/bots/a", "b/send")] ∧
    (sentRequests (BotServiceOp.Get (stubClient "t" 200 "\x7b\x7d") "..")).map
        (fun rq => (rq.Method, rq.URL.Path)) = [("GET", "/v2/")] := by
  refine ⟨by decide!, by decide!, by decide!, by decide!, by decide!⟩

/-! ## The webhook handler -/

/-- C20: when the body of an inbound request cannot be read, or cannot be
decoded as a callback payload, `Handler` ends the process through
`log.Fatal` with exit status 1: it does not respond with status 400 and does
not return.  (It does not start the registered callback either.) -/
theorem Handler_exits_on_bad_body (MessageReceived : Bool) (body : Body)
    (h : body.readErr ≠ none ∨ (unmarshalBotCallback body.data).2 ≠ none) :
    (∃ logged, BotServiceOp.Handler MessageReceived body = .exited 1 logged) ∧
      ∀ status dispatched,
        BotServiceOp.Handler MessageReceived body ≠ .responded status dispatched := by
  have hex : ∃ logged, BotServiceOp.Handler MessageReceived body = .exited 1 logged := by
    unfold BotServiceOp.Handler ReadAll
    cases hr : body.readErr with
    | some e => exact ⟨_, rfl⟩
    | none =>
      simp only
      rcases h with h | h
      · exact absurd hr h
      · cases hu : (unmarshalBotCallback body.data) with
        | mk cb err =>
          cases err with
          | none => rw [hu] at h; exact absurd rfl h
          | some e => exact ⟨_, rfl⟩
  refine ⟨hex, fun status dispatched hc => ?_⟩
  obtain ⟨logged, hl⟩ := hex
  rw [hl] at hc
  cases hc

/-- An inbound request whose body is `not json`, with a callback registered. -/
theorem Handler_exits_on_bad_body_witness :
    (∃ logged, BotServiceOp.Handler true { data := "not json" } = .exited 1 logged) ∧
      ∀ status dispatched,
        BotServiceOp.Handler true { data := "not json" } ≠ .responded status dispatched :=
  Handler_exits_on_bad_body true { data := "not json" } (Or.inr (by decide))

/-! ## The webhook handler on a decodable body -/

/-- A body that is read and decoded without error: `Handler` writes status 200
after it has started the registered callback, if any, once with the payload. -/
theorem Handler_of_decoded (MessageReceived : Bool) (body : Body)
    (hread : body.readErr = none) (hdec : (unmarshalBotCallback body.data).2 = none) :
    BotServiceOp.Handler MessageReceived body =
      .responded StatusOK
        (if MessageReceived then [(unmarshalBotCallback body.data).1] else []) := by
  unfold BotServiceOp.Handler ReadAll
  simp only [hread]
  cases hu : unmarshalBotCallback body.data with
  | mk cb err =>
    rw [hu] at hdec
    simp only at hdec
    subst hdec
    rfl

/-- An array of strings is stored into a `[]string` element by element. -/
theorem storeElems_strings (xs : List String) (cur : List String) (saved : Option JsonError) :
    storeElems storeString "" (xs.map Json.str) cur saved = (xs, saved) := by
  induction xs generalizing cur with
  | nil => rfl
  | cons x rest ih =>
    simp only [List.map_cons, storeElems, storeString, ih]

/-- An array of strings stored into a `[]string` gives the strings. -/
theorem storeStringSlice_strings (xs : List String) (cur : Slice String)
    (saved : Option JsonError) :
    storeStringSlice (.arr (xs.map Json.str)) cur saved = (some xs, saved) := by
  unfold storeStringSlice storeSlice
  simp only [storeElems_strings]

/-- C21: for every inbound request whose body is read and decoded without
error, `Handler` responds with status 200 whether or not a callback is
registered; a registered callback is started exactly once, with the decoded
payload, and without a registered callback nothing is started.  The payload
decoded from an object with the members `bot_userid`, `bot_token`,
`sender_username`, `message`, `data`, `mentioned`, `channel_url` and `ts` has
their values in the fields `BotUserId`, `BotToken`, `SenderUsername`,
`Message`, `Data`, `Mentioned`, `ChannelURl` and `Timestamp`. -/
theorem Handler_responds_200_and_dispatches (MessageReceived : Bool) (body : Body)
    (hread : body.readErr = none) (hdec : (unmarshalBotCallback body.data).2 = none) :
    BotServiceOp.Handler MessageReceived body =
      .responded 200 (if MessageReceived then [(unmarshalBotCallback body.data).1] else []) ∧
    BotServiceOp.Handler true body = .responded 200 [(unmarshalBotCallback body.data).1] ∧
    BotServiceOp.Handler false body = .responded 200 [] ∧
    (∀ (u t s m d c lit : String) (ms : List String) (n : Int),
      parseJSON body.data = some (.obj [("bot_userid", .str u), ("bot_token", .str t),
        ("sender_username", .str s), ("message", .str m), ("data", .str d),
        ("mentioned", .arr (ms.map Json.str)), ("channel_url", .str c), ("ts", .num lit)]) →
      parseIntLit lit = some n →
      (unmarshalBotCallback body.data).1 =
        { BotUserId := u, BotToken := t, SenderUsername := s, Message := m, Data := d,
          Mentioned := some ms, ChannelURl := c, Timestamp := n }) := by
  refine ⟨Handler_of_decoded MessageReceived body hread hdec,
    Handler_of_decoded true body hread hdec, Handler_of_decoded false body hread hdec, ?_⟩
  intro u t s m d c lit ms n hj hn
  unfold unmarshalBotCallback
  simp only [hj, storeStruct, List.foldl]
  have e1 : ∀ st v, storeBotCallbackMember st ("bot_userid", v) =
      ({ st.1 with BotUserId := (storeString v st.1.BotUserId st.2).1 },
        (storeString v st.1.BotUserId st.2).2) := fun _ _ => rfl
  have e2 : ∀ st v, storeBotCallbackMember st ("bot_token", v) =
      ({ st.1 with BotToken := (storeString v st.1.BotToken st.2).1 },
        (storeString v st.1.BotToken st.2).2) := fun _ _ => rfl
  have e3 : ∀ st v, storeBotCallbackMember st ("sender_username", v) =
      ({ st.1 with SenderUsername := (storeString v st.1.SenderUsername st.2).1 },
        (storeString v st.1.SenderUsername st.2).2) := fun _ _ => rfl
  have e4 : ∀ st v, storeBotCallbackMember st ("message", v) =
      ({ st.1 with Message := (storeString v st.1.Message st.2).1 },
        (storeString v st.1.Message st.2).2) := fun _ _ => rfl
  have e5 : ∀ st v, storeBotCallbackMember st ("data", v) =
      ({ st.1 with Data := (storeString v st.1.Data st.2).1 },
        (storeString v st.1.Data st.2).2) := fun _ _ => rfl
  have e6 : ∀ st v, storeBotCallbackMember st ("mentioned", v) =
      ({ st.1 with Mentioned := (storeStringSlice v st.1.Mentioned st.2).1 },
        (storeStringSlice v st.1.Mentioned st.2).2) := fun _ _ => rfl
  have e7 : ∀ st v, storeBotCallbackMember st ("channel_url", v) =
      ({ st.1 with ChannelURl := (storeString v st.1.ChannelURl st.2).1 },
        (storeString v st.1.ChannelURl st.2).2) := fun _ _ => rfl
  have e8 : ∀ st v, storeBotCallbackMember st ("ts", v) =
      ({ st.1 with Timestamp := (storeInt64 v st.1.Timestamp st.2).1 },
        (storeInt64 v st.1.Timestamp st.2).2) := fun _ _ => rfl
  simp only [e1, e2, e3, e4, e5, e6, e7, e8, storeString, storeInt, storeInt64, hn,
    storeStringSlice_strings]

/-- A notification with all the members named, delivered with and without a
registered callback. -/
theorem Handler_responds_200_and_dispatches_witness :
    BotServiceOp.Handler true
        { data := "\x7b\"bot_userid\":\"helper\",\"bot_token\":\"secret\",\"sender_username\":\"u1\",\"message\":\"hi\",\"data\":\"x\",\"mentioned\":[\"helper\"],\"channel_url\":\"c1\",\"ts\":1466000000\x7d" } =
      .responded 200
        [{ BotUserId := "helper", BotToken := "secret", SenderUsername := "u1", Message := "hi",
           Data := "x", Mentioned := some ["helper"], ChannelURl := "c1",
           Timestamp := 1466000000 }] ∧
    BotServiceOp.Handler false
        { data := "\x7b\"bot_userid\":\"helper\",\"bot_token\":\"secret\",\"sender_username\":\"u1\",\"message\":\"hi\",\"data\":\"x\",\"mentioned\":[\"helper\"],\"channel_url\":\"c1\",\"ts\":1466000000\x7d" } =
      .responded 200 [] :=
  ⟨((Handler_responds_200_and_dispatches true
      { data := "\x7b\"bot_userid\":\"helper\",\"bot_token\":\"secret\",\"sender_username\":\"u1\",\"message\":\"hi\",\"data\":\"x\",\"mentioned\":[\"helper\"],\"channel_url\":\"c1\",\"ts\":1466000000\x7d" }
      rfl (by decide!)).2.2.2 "helper" "secret" "u1" "hi" "x" "c1" "1466000000" ["helper"]
        1466000000 (by decide!) (by decide!)) ▸
    (Handler_responds_200_and_dispatches true
      { data := "\x7b\"bot_userid\":\"helper\",\"bot_token\":\"secret\",\"sender_username\":\"u1\",\"message\":\"hi\",\"data\":\"x\",\"mentioned\":[\"helper\"],\"channel_url\":\"c1\",\"ts\":1466000000\x7d" }
      rfl (by decide!)).2.1,
    (Handler_responds_200_and_dispatches false
      { data := "\x7b\"bot_userid\":\"helper\",\"bot_token\":\"secret\",\"sender_username\":\"u1\",\"message\":\"hi\",\"data\":\"x\",\"mentioned\":[\"helper\"],\"channel_url\":\"c1\",\"ts\":1466000000\x7d" }
      rfl (by decide!)).2.2.1⟩

/-! ## The response of the webhook handler and the callback goroutine -/

/-- The effects of `Handler`, run to their end, leave what `Handler` leaves. -/
theorem Handler_eq_outcome_of_effects (MessageReceived : Bool) (body : Body) :
    BotServiceOp.Handler MessageReceived body =
      HandlerEffect.outcome (BotServiceOp.HandlerEffects MessageReceived body) [] := by
  unfold BotServiceOp.Handler BotServiceOp.HandlerEffects
  cases hr : (ReadAll body).2.1 with
  | some e =>
    have : ReadAll body = ((ReadAll body).1, some e, (ReadAll body).2.2) := by
      rw [← hr]
    rw [this]
    rfl
  | none =>
    have : ReadAll body = ((ReadAll body).1, none, (ReadAll body).2.2) := by
      rw [← hr]
    rw [this]
    simp only
    cases hu : unmarshalBotCallback (ReadAll body).1 with
    | mk cb err =>
      cases err with
      | some e => rfl
      | none => cases MessageReceived <;> rfl

/-- A step of a callback goroutine keeps the payloads of the goroutines. -/
theorem advance_payloads (work : BotCallback → Behaviour) (i : Nat) (gs : List CallbackRun) :
    (advance work i gs).1.map (fun g => g.payload) = gs.map (fun g => g.payload) := by
  induction gs generalizing i with
  | nil => cases i <;> rfl
  | cons g rest ih =>
    cases i with
    | zero =>
      unfold advance
      split_ifs <;> rfl
    | succ k =>
      unfold advance
      simp only [List.map_cons, ih k]

/-- A step of a callback goroutine whose runs are all harmless does not end the process. -/
theorem advance_harmless (work : BotCallback → Behaviour) (i : Nat) (gs : List CallbackRun)
    (h : ∀ g ∈ gs, (work g.payload).harmless = true) : (advance work i gs).2 = none := by
  induction gs generalizing i with
  | nil => cases i <;> rfl
  | cons g rest ih =>
    cases i with
    | zero =>
      have hg := h g (List.mem_cons_self _ _)
      unfold advance
      by_cases he : g.ended work = true
      · rw [if_pos he]
        unfold Behaviour.harmless at hg
        unfold CallbackRun.ended at he
        cases hs : (work g.payload).steps with
        | none => rw [hs] at he; cases he
        | some n =>
          rw [hs] at hg
          simp only [Option.isNone_some, Bool.false_or, beq_iff_eq] at hg
          simp only [hg]
      · rw [if_neg he]
    | succ k =>
      unfold advance
      exact ih k (fun x hx => h x (List.mem_cons_of_mem _ hx))

/-- The payloads of the goroutines, which a step keeps. -/
theorem advance_mem_payload (work : BotCallback → Behaviour) (i : Nat) (gs : List CallbackRun)
    (g : CallbackRun) (hg : g ∈ (advance work i gs).1) : ∃ g0 ∈ gs, g0.payload = g.payload := by
  have hm : g.payload ∈ (advance work i gs).1.map (fun g => g.payload) :=
    List.mem_map_of_mem _ hg
  rw [advance_payloads] at hm
  obtain ⟨g0, h0, h1⟩ := List.mem_map.1 hm
  exact ⟨g0, h0, h1⟩

/-- A turn of a callback goroutine whose runs are all harmless changes the
goroutines only, and keeps their payloads. -/
theorem step_callback (work : BotCallback → Behaviour) (s : Serving) (i : Nat)
    (he : s.exitCode = none) (hh : ∀ g ∈ s.callbacks, (work g.payload).harmless = true) :
    s.step work (.callback i) = { s with callbacks := (advance work i s.callbacks).1 } ∧
      (∀ g ∈ (advance work i s.callbacks).1, (work g.payload).harmless = true) := by
  constructor
  · unfold Serving.step
    simp only [he, Option.isSome_none, Bool.false_eq_true, if_false,
      advance_harmless work i s.callbacks hh]
  · intro g hg
    obtain ⟨g0, h0, h1⟩ := advance_mem_payload work i s.callbacks g hg
    rw [← h1]
    exact hh g0 h0

/-- Once the goroutine of `Handler` has nothing left to do, no turn changes
the status or the payloads started, and harmless callbacks leave the process
alive. -/
theorem run_done (work : BotCallback → Behaviour) (turns : List Turn) (s : Serving)
    (hp : s.pending = []) (he : s.exitCode = none)
    (hh : ∀ g ∈ s.callbacks, (work g.payload).harmless = true) :
    (s.run work turns).status = s.status ∧ (s.run work turns).exitCode = none ∧
      (s.run work turns).callbacks.map (fun g => g.payload) =
        s.callbacks.map (fun g => g.payload) := by
  induction turns generalizing s with
  | nil => exact ⟨rfl, he, rfl⟩
  | cons t rest ih =>
    cases t with
    | handler =>
      have hs : s.step work .handler = s := by
        unfold Serving.step
        simp only [he, Option.isSome_none, Bool.false_eq_true, if_false, hp]
      unfold Serving.run
      rw [List.foldl_cons, hs]
      exact ih s hp he hh
    | callback i =>
      obtain ⟨hs, hh2⟩ := step_callback work s i he hh
      unfold Serving.run
      rw [List.foldl_cons, hs]
      obtain ⟨h1, h2, h3⟩ := ih { s with callbacks := (advance work i s.callbacks).1 } hp he hh2
      exact ⟨h1, h2, h3.trans (advance_payloads work i s.callbacks)⟩

/-- When only `WriteHeader` is left, one turn of the goroutine of `Handler`
writes the status, whatever turns the harmless callback goroutines take. -/
theorem run_write (work : BotCallback → Behaviour) (status : Nat) (turns : List Turn)
    (s : Serving) (hp : s.pending = [.writeHeader status]) (he : s.exitCode = none)
    (hs : s.status = none) (hh : ∀ g ∈ s.callbacks, (work g.payload).harmless = true)
    (h1 : 1 ≤ turns.count .handler) :
    (s.run work turns).status = some status ∧ (s.run work turns).exitCode = none ∧
      (s.run work turns).callbacks.map (fun g => g.payload) =
        s.callbacks.map (fun g => g.payload) := by
  induction turns generalizing s with
  | nil => simp at h1
  | cons t rest ih =>
    cases t with
    | handler =>
      have hstep : s.step work .handler = { s with pending := [], status := some status } := by
        unfold Serving.step
        simp only [he, Option.isSome_none, Bool.false_eq_true, if_false, hp, hs, Option.getD_none]
      unfold Serving.run
      rw [List.foldl_cons, hstep]
      exact run_done work rest { s with pending := [], status := some status } rfl he hh
    | callback i =>
      obtain ⟨hstep, hh2⟩ := step_callback work s i he hh
      have hc : 1 ≤ rest.count .handler := by
        simpa [List.count_cons] using h1
      unfold Serving.run
      rw [List.foldl_cons, hstep]
      obtain ⟨r1, r2, r3⟩ :=
        ih { s with callbacks := (advance work i s.callbacks).1 } hp he hs hh2 hc
      exact ⟨r1, r2, r3.trans (advance_payloads work i s.callbacks)⟩

/-- When the `go` statement and `WriteHeader` are left, two turns of the
goroutine of `Handler` start the callback and write the status, whatever turns
the harmless callback goroutines take. -/
theorem run_start (work : BotCallback → Behaviour) (payload : BotCallback) (status : Nat)
    (turns : List Turn) (s : Serving)
    (hp : s.pending = [.start payload, .writeHeader status]) (he : s.exitCode = none)
    (hs : s.status = none) (hh : ∀ g ∈ s.callbacks, (work g.payload).harmless = true)
    (hpay : (work payload).harmless = true) (h2 : 2 ≤ turns.count .handler) :
    (s.run work turns).status = some status ∧ (s.run work turns).exitCode = none ∧
      (s.run work turns).callbacks.map (fun g => g.payload) =
        s.callbacks.map (fun g => g.payload) ++ [payload] := by
  induction turns generalizing s with
  | nil => simp at h2
  | cons t rest ih =>
    cases t with
    | handler =>
      have hstep : s.step work .handler =
          { s with pending := [.writeHeader status],
                   callbacks := s.callbacks ++ [{ payload := payload }] } := by
        unfold Serving.step
        simp only [he, Option.isSome_none, Bool.false_eq_true, if_false, hp]
      have hc : 1 ≤ rest.count .handler := by
        simp only [List.count_cons, beq_self_eq_true, if_true] at h2
        omega
      have hh2 : ∀ g ∈ s.callbacks ++ [({ payload := payload } : CallbackRun)],
          (work g.payload).harmless = true := by
        intro g hg
        rcases List.mem_append.1 hg with hg | hg
        · exact hh g hg
        · rw [List.mem_singleton] at hg
          rw [hg]
          exact hpay
      unfold Serving.run
      rw [List.foldl_cons, hstep]
      obtain ⟨r1, r2, r3⟩ := run_write work status rest
        { s with pending := [.writeHeader status],
                 callbacks := s.callbacks ++ [{ payload := payload }] } rfl he hs hh2 hc
      exact ⟨r1, r2, r3.trans (by simp)⟩
    | callback i =>
      obtain ⟨hstep, hh2⟩ := step_callback work s i he hh
      have hc : 2 ≤ rest.count .handler := by
        simpa [List.count_cons] using h2
      unfold Serving.run
      rw [List.foldl_cons, hstep]
      obtain ⟨r1, r2, r3⟩ :=
        ih { s with callbacks := (advance work i s.callbacks).1 } hp he hs hh2 hc
      exact ⟨r1, r2, r3.trans (by simp only [advance_payloads])⟩

/-- A goroutine of `Handler` that is in a plain call of a callback that never
ends stays in it: no schedule gets it to write the status. -/
theorem run_call_never (work : BotCallback → Behaviour) (payload : BotCallback)
    (rest : List HandlerEffect) (turns : List Turn) (s : Serving)
    (hp : s.pending = .call payload :: rest) (he : s.exitCode = none) (hs : s.status = none)
    (hc : s.callbacks = []) (hw : (work payload).steps = none) :
    (s.run work turns).status = none ∧ (s.run work turns).exitCode = none := by
  induction turns generalizing s with
  | nil => exact ⟨hs, he⟩
  | cons t tl ih =>
    cases t with
    | handler =>
      have hstep : s.step work .handler = { s with inCall := s.inCall + 1 } := by
        unfold Serving.step
        simp only [he, Option.isSome_none, Bool.false_eq_true, if_false, hp, CallbackRun.ended, hw]
      unfold Serving.run
      rw [List.foldl_cons, hstep]
      exact ih { s with inCall := s.inCall + 1 } hp he hs hc
    | callback i =>
      have hadv : advance work i s.callbacks = ([], none) := by
        rw [hc]
        cases i <;> rfl
      have hstep : s.step work (.callback i) = s := by
        unfold Serving.step
        simp only [he, Option.isSome_none, Bool.false_eq_true, if_false, hadv]
        cases s
        simp only at hc he
        subst hc
        subst he
        rfl
      unfold Serving.run
      rw [List.foldl_cons, hstep]
      exact ih s hp he hs hc

/-- After the process has ended nothing runs. -/
theorem run_exited (work : BotCallback → Behaviour) (turns : List Turn) (s : Serving)
    (he : s.exitCode.isSome = true) : s.run work turns = s := by
  induction turns with
  | nil => rfl
  | cons t rest ih =>
    have hs : s.step work t = s := by
      unfold Serving.step
      rw [if_pos he]
    unfold Serving.run at ih ⊢
    rw [List.foldl_cons, hs]
    exact ih

/-- The run over turns given one after the other. -/
theorem run_append (work : BotCallback → Behaviour) (s : Serving) (a b : List Turn) :
    s.run work (a ++ b) = (s.run work a).run work b := by
  unfold Serving.run
  rw [List.foldl_append]

/-- C22 (as stated, refuted): a valid body and a registered callback that
panics at once.  When the callback goroutine runs right after the `go`
statement, its panic ends the process with exit status 2 before `Handler`
has written the status: under no continuation of that schedule is a response
sent. -/
theorem Handler_callback_panic_counterexample :
    (unmarshalBotCallback "\x7b\"bot_userid\":\"helper\",\"message\":\"hi\"\x7d").2 = none ∧
    ∀ more : List Turn,
      ((serve true { data := "\x7b\"bot_userid\":\"helper\",\"message\":\"hi\"\x7d" }).run
          (fun _ => { steps := some 0, ending := .panics })
          ([.handler, .callback 0] ++ more)).status = none ∧
      ((serve true { data := "\x7b\"bot_userid\":\"helper\",\"message\":\"hi\"\x7d" }).run
          (fun _ => { steps := some 0, ending := .panics })
          ([.handler, .callback 0] ++ more)).exitCode = some 2 := by
  refine ⟨by decide!, fun more => ?_⟩
  rw [run_append, run_exited _ more _ (by decide!)]
  exact ⟨by decide!, by decide!⟩

/-- C22 (amended): for a body that is read and decoded without error and a
registered callback whose run on the payload leaves the process alive (it
returns, or never ends), the goroutine of `Handler` starts the callback with a
`go` statement and then writes status 200: under every schedule that gives the
goroutine of `Handler` two turns the status 200 is written, the process is
alive and the callback was started once with the payload, however many steps
the callback takes and also when it never ends; after the first two turns of
`Handler` the status is written while the callback goroutine has not run a
step; and a callback that never ends has not ended under any such schedule.
The `go` statement matters: with a plain call in its place, a callback that
never ends keeps `Handler` from writing the status under every schedule. -/
theorem Handler_responds_without_waiting (body : Body) (work : BotCallback → Behaviour)
    (hread : body.readErr = none) (hdec : (unmarshalBotCallback body.data).2 = none)
    (hsafe : (work (unmarshalBotCallback body.data).1).harmless = true) :
    BotServiceOp.HandlerEffects true body =
      [.start (unmarshalBotCallback body.data).1, .writeHeader 200] ∧
    (∀ turns : List Turn, 2 ≤ turns.count .handler →
      ((serve true body).run work turns).status = some 200 ∧
      ((serve true body).run work turns).exitCode = none ∧
      ((serve true body).run work turns).callbacks.map (fun g => g.payload) =
        [(unmarshalBotCallback body.data).1]) ∧
    ((serve true body).run work [.handler, .handler]).status = some 200 ∧
    ((serve true body).run work [.handler, .handler]).callbacks =
      [{ payload := (unmarshalBotCallback body.data).1, steps := 0 }] ∧
    ((work (unmarshalBotCallback body.data).1).steps = none →
      ∀ turns : List Turn, 2 ≤ turns.count .handler →
        ((serve true body).run work turns).status = some 200 ∧
        ∀ g ∈ ((serve true body).run work turns).callbacks, g.ended work = false) ∧
    ((work (unmarshalBotCallback body.data).1).steps = none →
      ∀ turns : List Turn, ((serveWithoutGo true body).run work turns).status = none) := by
  have heff : BotServiceOp.HandlerEffects true body =
      [.start (unmarshalBotCallback body.data).1, .writeHeader 200] := by
    unfold BotServiceOp.HandlerEffects ReadAll
    simp only [hread]
    cases hu : unmarshalBotCallback body.data with
    | mk cb err =>
      rw [hu] at hdec
      simp only at hdec
      subst hdec
      rfl
  have hrun : ∀ turns : List Turn, 2 ≤ turns.count .handler →
      ((serve true body).run work turns).status = some 200 ∧
      ((serve true body).run work turns).exitCode = none ∧
      ((serve true body).run work turns).callbacks.map (fun g => g.payload) =
        [(unmarshalBotCallback body.data).1] := by
    intro turns h2
    have h := run_start work (unmarshalBotCallback body.data).1 200 turns (serve true body)
      (by unfold serve; exact heff) rfl rfl (by intro g hg; cases hg) hsafe h2
    exact ⟨h.1, h.2.1, by rw [h.2.2]; rfl⟩
  refine ⟨heff, hrun, ?_, ?_, ?_, ?_⟩
  · exact (hrun [.handler, .handler] (by decide)).1
  · unfold serve Serving.run
    rw [heff]
    rfl
  · intro hw turns h2
    refine ⟨(hrun turns h2).1, fun g hg => ?_⟩
    have hmem : g.payload ∈ ((serve true body).run work turns).callbacks.map
        (fun g => g.payload) := List.mem_map_of_mem _ hg
    rw [(hrun turns h2).2.2, List.mem_singleton] at hmem
    unfold CallbackRun.ended
    rw [hmem, hw]
  · intro hw turns
    exact (run_call_never work (unmarshalBotCallback body.data).1 [.writeHeader 200] turns
      (serveWithoutGo true body)
      (by unfold serveWithoutGo; rw [heff]; rfl) rfl rfl rfl hw).1

/-- A callback that never ends, scheduled before, between and after the two
turns of `Handler`: the status 200 is written and the callback has not ended;
with a plain call in place of the `go` statement the same schedule writes no
status. -/
theorem Handler_responds_without_waiting_witness :
    ((serve true { data := "\x7b\"bot_userid\":\"helper\",\"message\":\"hi\"\x7d" }).run
        (fun _ => { steps := none })
        [.callback 0, .handler, .callback 0, .callback 0, .handler]).status = some 200 ∧
    (∀ g ∈ ((serve true { data := "\x7b\"bot_userid\":\"helper\",\"message\":\"hi\"\x7d" }).run
        (fun _ => { steps := none })
        [.callback 0, .handler, .callback 0, .callback 0, .handler]).callbacks,
      g.ended (fun _ => { steps := none }) = false) ∧
    ((serveWithoutGo true { data := "\x7b\"bot_userid\":\"helper\",\"message\":\"hi\"\x7d" }).run
        (fun _ => { steps := none })
        [.callback 0, .handler, .callback 0, .callback 0, .handler]).status = none :=
  ⟨((Handler_responds_without_waiting
      { data := "\x7b\"bot_userid\":\"helper\",\"message\":\"hi\"\x7d" }
      (fun _ => { steps := none }) rfl (by decide!) rfl).2.2.2.2.1 rfl
      [.callback 0, .handler, .callback 0, .callback 0, .handler] (by decide)).1,
    ((Handler_responds_without_waiting
      { data := "\x7b\"bot_userid\":\"helper\",\"message\":\"hi\"\x7d" }
      (fun _ => { steps := none }) rfl (by decide!) rfl).2.2.2.2.1 rfl
      [.callback 0, .handler, .callback 0, .callback 0, .handler] (by decide)).2,
    (Handler_responds_without_waiting
      { data := "\x7b\"bot_userid\":\"helper\",\"message\":\"hi\"\x7d" }
      (fun _ => { steps := none }) rfl (by decide!) rfl).2.2.2.2.2 rfl
      [.callback 0, .handler, .callback 0, .callback 0, .handler]⟩

/-! ## The token of an inbound notification -/

/-- Storing a member into two payloads that differ in `BotToken` only gives the
same error and payloads that differ in `BotToken` only. -/
theorem storeBotCallbackMember_token_frame (x : BotCallback) (e : Option JsonError) (t : String)
    (kv : String × Json) :
    (storeBotCallbackMember ({ x with BotToken := t }, e) kv).2 =
        (storeBotCallbackMember (x, e) kv).2 ∧
      ∃ t2, (storeBotCallbackMember ({ x with BotToken := t }, e) kv).1 =
        { (storeBotCallbackMember (x, e) kv).1 with BotToken := t2 } := by
  rcases kv with ⟨k, v⟩
  unfold storeBotCallbackMember
  by_cases h0 : matchesField (k, v).1 "bot_userid" = true
  · rw [if_pos h0, if_pos h0]
    exact ⟨rfl, t, rfl⟩
  · rw [if_neg h0, if_neg h0]
    by_cases h1 : matchesField (k, v).1 "bot_message_notification" = true
    · rw [if_pos h1, if_pos h1]
      exact ⟨rfl, t, rfl⟩
    · rw [if_neg h1, if_neg h1]
      by_cases h2 : matchesField (k, v).1 "ts" = true
      · rw [if_pos h2, if_pos h2]
        exact ⟨rfl, t, rfl⟩
      · rw [if_neg h2, if_neg h2]
        by_cases h3 : matchesField (k, v).1 "bot_token" = true
        · rw [if_pos h3, if_pos h3]
          cases v <;> exact ⟨rfl, _, rfl⟩
        · rw [if_neg h3, if_neg h3]
          by_cases h4 : matchesField (k, v).1 "bot_nickname" = true
          · rw [if_pos h4, if_pos h4]
            exact ⟨rfl, t, rfl⟩
          · rw [if_neg h4, if_neg h4]
            by_cases h5 : matchesField (k, v).1 "sender_username" = true
            · rw [if_pos h5, if_pos h5]
              exact ⟨rfl, t, rfl⟩
            · rw [if_neg h5, if_neg h5]
              by_cases h6 : matchesField (k, v).1 "sender_nickname" = true
              · rw [if_pos h6, if_pos h6]
                exact ⟨rfl, t, rfl⟩
              · rw [if_neg h6, if_neg h6]
                by_cases h7 : matchesField (k, v).1 "message" = true
                · rw [if_pos h7, if_pos h7]
                  exact ⟨rfl, t, rfl⟩
                · rw [if_neg h7, if_neg h7]
                  by_cases h8 : matchesField (k, v).1 "data" = true
                  · rw [if_pos h8, if_pos h8]
                    exact ⟨rfl, t, rfl⟩
                  · rw [if_neg h8, if_neg h8]
                    by_cases h9 : matchesField (k, v).1 "mentioned" = true
                    · rw [if_pos h9, if_pos h9]
                      exact ⟨rfl, t, rfl⟩
                    · rw [if_neg h9, if_neg h9]
                      by_cases h10 : matchesField (k, v).1 "channel_type" = true
                      · rw [if_pos h10, if_pos h10]
                        exact ⟨rfl, t, rfl⟩
                      · rw [if_neg h10, if_neg h10]
                        by_cases h11 : matchesField (k, v).1 "channel_url" = true
                        · rw [if_pos h11, if_pos h11]
                          exact ⟨rfl, t, rfl⟩
                        · rw [if_neg h11, if_neg h11]
                          exact ⟨rfl, t, rfl⟩

/-- Storing members into two payloads that differ in `BotToken` only. -/
theorem foldl_storeBotCallbackMember_token_frame (kvs : List (String × Json)) (x : BotCallback)
    (e : Option JsonError) (t : String) :
    (kvs.foldl storeBotCallbackMember ({ x with BotToken := t }, e)).2 =
        (kvs.foldl storeBotCallbackMember (x, e)).2 ∧
      ∃ t2, (kvs.foldl storeBotCallbackMember ({ x with BotToken := t }, e)).1 =
        { (kvs.foldl storeBotCallbackMember (x, e)).1 with BotToken := t2 } := by
  induction kvs generalizing x e t with
  | nil => exact ⟨rfl, t, rfl⟩
  | cons kv rest ih =>
    obtain ⟨h2, t2, h1⟩ := storeBotCallbackMember_token_frame x e t kv
    have hst : storeBotCallbackMember ({ x with BotToken := t }, e) kv =
        ({ (storeBotCallbackMember (x, e) kv).1 with BotToken := t2 },
          (storeBotCallbackMember (x, e) kv).2) := Prod.ext h1 h2
    simp only [List.foldl_cons, hst]
    exact ih _ _ t2

/-- Two documents that differ in the value of one member `bot_token` only
decode with the same error, to payloads that differ in `BotToken` only. -/
theorem storeBotCallback_token_frame (pre post : List (String × Json)) (t1 t2 : String) :
    (storeStruct storeBotCallbackMember "sendbird.BotCallback"
        (.obj (pre ++ ("bot_token", .str t2) :: post)) {} none).2 =
      (storeStruct storeBotCallbackMember "sendbird.BotCallback"
        (.obj (pre ++ ("bot_token", .str t1) :: post)) {} none).2 ∧
    ∃ t, (storeStruct storeBotCallbackMember "sendbird.BotCallback"
        (.obj (pre ++ ("bot_token", .str t2) :: post)) {} none).1 =
      { (storeStruct storeBotCallbackMember "sendbird.BotCallback"
        (.obj (pre ++ ("bot_token", .str t1) :: post)) {} none).1 with BotToken := t } := by
  have e2 : ∀ (st : BotCallback × Option JsonError) (s : String),
      storeBotCallbackMember st ("bot_token", .str s) = ({ st.1 with BotToken := s }, st.2) :=
    fun _ _ => rfl
  simp only [storeStruct, List.foldl_append, List.foldl_cons, e2]
  exact foldl_storeBotCallbackMember_token_frame post
    { (pre.foldl storeBotCallbackMember ({}, none)).1 with BotToken := t1 } _ t2

/-- C23: `Handler` makes no integrity check.  For any two bodies that are read
and decoded without error it responds with status 200 to both and starts the
registered callback once for each; when the two documents differ only in the
value of the member `bot_token`, the two payloads handed to the callback
differ in `BotToken` only.  The outcome does not depend on the token. -/
theorem Handler_ignores_bot_token (MessageReceived : Bool) (b1 b2 : Body)
    (hread1 : b1.readErr = none) (hdec1 : (unmarshalBotCallback b1.data).2 = none)
    (hread2 : b2.readErr = none) (hdec2 : (unmarshalBotCallback b2.data).2 = none) :
    BotServiceOp.Handler MessageReceived b1 =
      .responded 200 (if MessageReceived then [(unmarshalBotCallback b1.data).1] else []) ∧
    BotServiceOp.Handler MessageReceived b2 =
      .responded 200 (if MessageReceived then [(unmarshalBotCallback b2.data).1] else []) ∧
    (∀ (pre post : List (String × Json)) (t1 t2 : String),
      parseJSON b1.data = some (.obj (pre ++ ("bot_token", .str t1) :: post)) →
      parseJSON b2.data = some (.obj (pre ++ ("bot_token", .str t2) :: post)) →
      ∃ t, (unmarshalBotCallback b2.data).1 =
        { (unmarshalBotCallback b1.data).1 with BotToken := t }) := by
  refine ⟨Handler_of_decoded MessageReceived b1 hread1 hdec1,
    Handler_of_decoded MessageReceived b2 hread2 hdec2, ?_⟩
  intro pre post t1 t2 h1 h2
  unfold unmarshalBotCallback
  simp only [h1, h2]
  exact (storeBotCallback_token_frame pre post t1 t2).2

/-- Two notifications that differ in the token only. -/
theorem Handler_ignores_bot_token_witness :
    BotServiceOp.Handler true
        { data := "\x7b\"bot_userid\":\"helper\",\"bot_token\":\"secret\",\"message\":\"hi\"\x7d" } =
      .responded 200 [{ BotUserId := "helper", BotToken := "secret", Message := "hi" }] ∧
    BotServiceOp.Handler true
        { data := "\x7b\"bot_userid\":\"helper\",\"bot_token\":\"forged\",\"message\":\"hi\"\x7d" } =
      .responded 200 [{ BotUserId := "helper", BotToken := "forged", Message := "hi" }] :=
  ⟨(Handler_ignores_bot_token true
      { data := "\x7b\"bot_userid\":\"helper\",\"bot_token\":\"secret\",\"message\":\"hi\"\x7d" }
      { data := "\x7b\"bot_userid\":\"helper\",\"bot_token\":\"forged\",\"message\":\"hi\"\x7d" }
      rfl (by decide!) rfl (by decide!)).1,
    (Handler_ignores_bot_token true
      { data := "\x7b\"bot_userid\":\"helper\",\"bot_token\":\"secret\",\"message\":\"hi\"\x7d" }
      { data := "\x7b\"bot_userid\":\"helper\",\"bot_token\":\"forged\",\"message\":\"hi\"\x7d" }
      rfl (by decide!) rfl (by decide!)).2.1⟩

/-! ## Request envelopes read back -/

/-- The payload of a request built for a body is the encoding of the body. -/
theorem NewRequest_body {β : Type} (c : SendbirdClient) (enc : β → Except String Json)
    (method urlStr : String) (b : β) (rq : HttpRequest) (j : Json)
    (hreq : (c.NewRequest enc method urlStr (some b)).1 = some rq) (henc : enc b = .ok j) :
    rq.Body = some j := by
  obtain ⟨rel, buf, req0, _, hbuf, hn, hrq, _⟩ := NewRequest_some c enc method urlStr (some b) rq hreq
  obtain ⟨j2, hj2, hb⟩ := hbuf
  rw [henc] at hj2
  cases hj2
  rw [hrq]
  exact (httpNewRequest_header _ _ _ _ hn).2.trans hb

theorem digitChar_toNat (d : Nat) (h : d < 10) : (digitChar d).toNat - '0'.toNat = d := by
  interval_cases d <;> rfl

theorem digitChar_isDigit (d : Nat) (h : d < 10) : (digitChar d).isDigit = true := by
  interval_cases d <;> rfl

theorem digitsVal_natDigitsAux (fuel : Nat) : ∀ (n : Nat) (acc : List Char), n < fuel →
    (natDigitsAux fuel n acc).foldl (fun n c => 10 * n + (c.toNat - '0'.toNat)) 0 =
      acc.foldl (fun n c => 10 * n + (c.toNat - '0'.toNat)) n := by
  induction fuel with
  | zero => intro n acc h; omega
  | succ fuel ih =>
    intro n acc h
    unfold natDigitsAux
    by_cases h10 : n < 10
    · rw [if_pos h10]
      simp only [List.foldl_cons, Nat.mul_zero, Nat.zero_add, digitChar_toNat n h10]
    · rw [if_neg h10, ih (n / 10) _ (by omega)]
      simp only [List.foldl_cons, digitChar_toNat (n % 10) (Nat.mod_lt _ (by omega))]
      congr 1
      omega

theorem digitsVal_natDigits (n : Nat) : digitsVal (natDigits n) = n := by
  unfold digitsVal natDigits
  rw [digitsVal_natDigitsAux (n + 1) n [] (by omega)]
  rfl

theorem natDigitsAux_all (fuel : Nat) : ∀ (n : Nat) (acc : List Char), n < fuel →
    acc.all Char.isDigit = true → (natDigitsAux fuel n acc).all Char.isDigit = true := by
  induction fuel with
  | zero => intro n acc h; omega
  | succ fuel ih =>
    intro n acc h hacc
    unfold natDigitsAux
    by_cases h10 : n < 10
    · rw [if_pos h10]
      simp only [List.all_cons, digitChar_isDigit n h10, hacc, Bool.and_self]
    · rw [if_neg h10]
      apply ih (n / 10) _ (by omega)
      simp only [List.all_cons, digitChar_isDigit (n % 10) (Nat.mod_lt _ (by omega)), hacc,
        Bool.and_self]

theorem natDigitsAux_ne_nil (fuel : Nat) : ∀ (n : Nat) (acc : List Char), n < fuel →
    natDigitsAux fuel n acc ≠ [] := by
  induction fuel with
  | zero => intro n acc h; omega
  | succ fuel ih =>
    intro n acc h
    unfold natDigitsAux
    by_cases h10 : n < 10
    · rw [if_pos h10]
      exact List.cons_ne_nil _ _
    · rw [if_neg h10]
      exact ih (n / 10) _ (by omega)

theorem natDigits_head (n : Nat) : ∃ d ds, natDigits n = d :: ds ∧ d ≠ '-' ∧
    (d :: ds).all Char.isDigit = true := by
  have hall := natDigitsAux_all (n + 1) n [] (by omega) rfl
  have hne := natDigitsAux_ne_nil (n + 1) n [] (by omega)
  unfold natDigits
  cases hd : natDigitsAux (n + 1) n [] with
  | nil => exact absurd hd hne
  | cons d ds =>
    rw [hd] at hall
    refine ⟨d, ds, rfl, ?_, hall⟩
    intro h
    subst h
    simp only [List.all_cons, Bool.and_eq_true] at hall
    exact absurd hall.1 (by decide)

/-- An integer in the range of int64 is read back from its decimal text. -/
theorem parseIntLit_renderInt (n : Int) (h : isInt64 n = true) :
    parseIntLit (renderInt n) = some n := by
  simp only [isInt64, decide_eq_true_eq] at h
  cases n with
  | ofNat m =>
    obtain ⟨d, ds, hd, hminus, hall⟩ := natDigits_head m
    have hv := digitsVal_natDigits m
    unfold parseIntLit renderInt
    simp only
    rw [hd] at hv ⊢
    have hm : m < 2 ^ 63 := by
      have := h.2
      simp only [Int.ofNat_eq_coe] at this
      exact_mod_cast this
    have key : ∀ p : Bool × List Char, p = (false, d :: ds) →
        (if (p.2.isEmpty || !p.2.all Char.isDigit) = true then none
          else if p.1 = true then
            (if digitsVal p.2 ≤ 2 ^ 63 then some (-(digitsVal p.2 : Int)) else none)
          else (if digitsVal p.2 < 2 ^ 63 then some (digitsVal p.2 : Int) else none)) =
          some (Int.ofNat m) := by
      intro p hp
      subst hp
      simp only [List.isEmpty_cons, hall, Bool.not_true, Bool.or_self, Bool.false_eq_true,
        if_false, hv, if_pos hm]
      rfl
    refine key _ ?_
    split
    · rename_i r heq
      cases heq
      exact absurd rfl hminus
    · rfl
  | negSucc m =>
    obtain ⟨d, ds, hd, hminus, hall⟩ := natDigits_head (m + 1)
    have hv := digitsVal_natDigits (m + 1)
    unfold parseIntLit renderInt
    simp only
    rw [hd] at hv ⊢
    have hm : m + 1 ≤ 2 ^ 63 := by
      have := h.1
      rw [Int.negSucc_eq] at this
      omega
    simp only [List.isEmpty_cons, hall, Bool.not_true, Bool.or_self, Bool.false_eq_true,
      if_false, hv, if_true, if_pos hm]
    rfl

/-- An integer in the range of int64 is read back from its encoding into an `int`. -/
theorem storeInt_encodeInt (n cur : Int) (saved : Option JsonError) (h : isInt64 n = true) :
    storeInt (encodeInt n) cur saved = (n, saved) := by
  simp only [storeInt, encodeInt, parseIntLit_renderInt n h]

/-- An integer in the range of int64 is read back from its encoding into an `int64`. -/
theorem storeInt64_encodeInt (n cur : Int) (saved : Option JsonError) (h : isInt64 n = true) :
    storeInt64 (encodeInt n) cur saved = (n, saved) := by
  simp only [storeInt64, encodeInt, parseIntLit_renderInt n h]

/-- An assignment under a key above all keys of the map adds the entry at the end. -/
theorem mapSet_append {β : Type} (l : List (String × β)) (k : String) (v : β)
    (h : ∀ e ∈ l, e.1 < k) : mapSet l k v = l ++ [(k, v)] := by
  induction l with
  | nil => rfl
  | cons e es ih =>
    have he : e.1 < k := h e (List.mem_cons_self _ _)
    unfold mapSet
    rw [if_neg (lt_asymm he), if_neg (ne_of_gt he), ih (fun x hx => h x (List.mem_cons_of_mem _ hx))]
    rfl

/-- The entries in front of an entry have smaller keys. -/
theorem keysIncrease_append {β : Type} (acc : List (String × β)) (e : String × β)
    (l : List (String × β)) (h : keysIncrease (acc ++ e :: l) = true) :
    (∀ x ∈ acc, x.1 < e.1) := by
  induction acc with
  | nil => intro x hx; cases hx
  | cons a acc ih =>
    have h2 : ((acc ++ e :: l).all (fun x => decide (a.1 < x.1)) &&
        keysIncrease (acc ++ e :: l)) = true := h
    rw [Bool.and_eq_true, List.all_eq_true] at h2
    intro x hx
    rcases List.mem_cons.1 hx with hxa | hxa
    · subst hxa
      exact of_decide_eq_true (h2.1 e (List.mem_append_right _ (List.mem_cons_self _ _)))
    · exact ih h2.2 x hxa

/-- Entries in key order are stored one after the other into a map. -/
theorem foldl_storeMapMember {β : Type}
    (elem : Json → β → Option JsonError → β × Option JsonError) (zero : β) (enc : β → Json)
    (l : List (String × β)) :
    ∀ (acc : List (String × β)) (saved : Option JsonError),
      (∀ e ∈ l, ∀ s, elem (enc e.2) zero s = (e.2, s)) →
      keysIncrease (acc ++ l) = true →
      (l.map fun e => (e.1, enc e.2)).foldl (storeMapMember elem zero) (acc, saved) =
        (acc ++ l, saved) := by
  induction l with
  | nil => intro acc saved _ _; simp
  | cons e l ih =>
    intro acc saved helem hk
    simp only [List.map_cons, List.foldl_cons, storeMapMember]
    rw [helem e (List.mem_cons_self _ _) saved]
    simp only
    rw [mapSet_append acc e.1 e.2 (keysIncrease_append acc e l hk),
      ih (acc ++ [e]) saved (fun x hx => helem x (List.mem_cons_of_mem _ hx))
        (by simpa using hk)]
    simp

/-- A `map[string]string` whose entries are in key order is read back from its encoding. -/
theorem storeStringMapValue_encode (m cur : GoMap String) (saved : Option JsonError)
    (hcur : cur = none) (h : keysIncrease (m.getD []) = true) :
    storeStringMapValue (encodeStringMap m) cur saved = (m, saved) := by
  subst hcur
  cases m with
  | none => rfl
  | some es =>
    simp only [storeStringMapValue, storeMap, encodeStringMap, Option.getD_none]
    rw [foldl_storeMapMember storeString "" Json.str es [] saved (fun _ _ _ => rfl)
      (by simpa using h)]
    simp

/-- A `map[string]int` whose entries are in key order and whose values are in
the range of int64 is read back from its encoding. -/
theorem storeIntMapValue_encode (m cur : GoMap Int) (saved : Option JsonError)
    (hcur : cur = none) (h : keysIncrease (m.getD []) = true)
    (hv : ∀ e ∈ m.getD [], isInt64 e.2 = true) :
    storeIntMapValue (encodeIntMap m) cur saved = (m, saved) := by
  subst hcur
  cases m with
  | none => rfl
  | some es =>
    simp only [storeIntMapValue, storeMap, encodeIntMap, Option.getD_none]
    rw [foldl_storeMapMember storeInt 0 encodeInt es [] saved
      (fun e he s => storeInt_encodeInt e.2 0 s (hv e he)) (by simpa using h)]
    simp

/-- An `UserRequest` is read back from its encoding. -/
theorem UserRequest_round_trip (r : UserRequest) :
    storeUserRequest
        (.obj (r.toRequestDefaults.members ++ UserParams.members r.params))
        { params := {} } = (r, none) := by
  obtain ⟨⟨auth⟩, ⟨x1, x2, x3, x4⟩⟩ := r
  have s0 : ∀ (a : String) (st : UserRequest), st.Auth = "" →
      (omitEmptyString "auth" a).foldl storeUserRequestMember (st, none) =
        ({ st with Auth := a }, none) := by
    intro a st h
    by_cases ha : a = ""
    · subst ha
      obtain ⟨⟨d⟩, p⟩ := st
      dsimp only at h
      subst h
      rfl
    · simp only [omitEmptyString, if_neg ha, List.foldl]
      rfl
  have s1 : ∀ (v : String) (st : UserRequest), st.params.Id = "" →
      (omitEmptyString "id" v).foldl storeUserRequestMember (st, none) =
        ({ st with params := { st.params with Id := v } }, none) := by
    intro v st h
    by_cases hv : v = ""
    · subst hv
      obtain ⟨d, p⟩ := st
      cases p
      dsimp only at h
      subst h
      rfl
    · simp only [omitEmptyString, if_neg hv, List.foldl]
      rfl
  have s2 : ∀ (v : String) (st : UserRequest), st.params.Nickname = "" →
      (omitEmptyString "nickname" v).foldl storeUserRequestMember (st, none) =
        ({ st with params := { st.params with Nickname := v } }, none) := by
    intro v st h
    by_cases hv : v = ""
    · subst hv
      obtain ⟨d, p⟩ := st
      cases p
      dsimp only at h
      subst h
      rfl
    · simp only [omitEmptyString, if_neg hv, List.foldl]
      rfl
  have s3 : ∀ (v : String) (st : UserRequest), st.params.ImageUrl = "" →
      (omitEmptyString "image_url" v).foldl storeUserRequestMember (st, none) =
        ({ st with params := { st.params with ImageUrl := v } }, none) := by
    intro v st h
    by_cases hv : v = ""
    · subst hv
      obtain ⟨d, p⟩ := st
      cases p
      dsimp only at h
      subst h
      rfl
    · simp only [omitEmptyString, if_neg hv, List.foldl]
      rfl
  have s4 : ∀ (v : Bool) (st : UserRequest), st.params.IssueAccessToken = false →
      (omitEmptyBool "issue_access_token" v).foldl storeUserRequestMember (st, none) =
        ({ st with params := { st.params with IssueAccessToken := v } }, none) := by
    intro v st h
    cases v
    · obtain ⟨d, p⟩ := st
      cases p
      dsimp only at h
      subst h
      rfl
    · rfl
  unfold storeUserRequest storeStruct
  simp only [RequestDefaults.members, UserParams.members, List.foldl_append, List.foldl_cons,
    List.foldl_nil]
  rw [s0, s1, s2, s3, s4]
  all_goals rfl

/-- A `BlockRequest` is read back from its encoding. -/
theorem BlockRequest_round_trip (r : BlockRequest) :
    storeBlockRequest
        (.obj (r.toRequestDefaults.members ++ BlockParams.members r.params))
        { params := {} } = (r, none) := by
  obtain ⟨⟨auth⟩, ⟨x1, x2⟩⟩ := r
  have s0 : ∀ (a : String) (st : BlockRequest), st.Auth = "" →
      (omitEmptyString "auth" a).foldl storeBlockRequestMember (st, none) =
        ({ st with Auth := a }, none) := by
    intro a st h
    by_cases ha : a = ""
    · subst ha
      obtain ⟨⟨d⟩, p⟩ := st
      dsimp only at h
      subst h
      rfl
    · simp only [omitEmptyString, if_neg ha, List.foldl]
      rfl
  have s1 : ∀ (v : String) (st : BlockRequest),
      storeBlockRequestMember (st, none) ("id", Json.str v) =
        ({ st with params := { st.params with Id := v } }, none) :=
    fun _ _ => rfl
  have s2 : ∀ (v : String) (st : BlockRequest), st.params.TargetId = "" →
      (omitEmptyString "target_id" v).foldl storeBlockRequestMember (st, none) =
        ({ st with params := { st.params with TargetId := v } }, none) := by
    intro v st h
    by_cases hv : v = ""
    · subst hv
      obtain ⟨d, p⟩ := st
      cases p
      dsimp only at h
      subst h
      rfl
    · simp only [omitEmptyString, if_neg hv, List.foldl]
      rfl
  unfold storeBlockRequest storeStruct
  simp only [RequestDefaults.members, BlockParams.members, List.foldl_append, List.foldl_cons,
    List.foldl_nil]
  rw [s0, s1, s2]
  all_goals rfl

/-- A `DeactivateRequest` is read back from its encoding. -/
theorem DeactivateRequest_round_trip (r : DeactivateRequest) :
    storeDeactivateRequest
        (.obj (r.toRequestDefaults.members ++ IdParams.members r.params))
        { params := {} } = (r, none) := by
  obtain ⟨⟨auth⟩, ⟨x1⟩⟩ := r
  have s0 : ∀ (a : String) (st : DeactivateRequest), st.Auth = "" →
      (omitEmptyString "auth" a).foldl storeDeactivateRequestMember (st, none) =
        ({ st with Auth := a }, none) := by
    intro a st h
    by_cases ha : a = ""
    · subst ha
      obtain ⟨⟨d⟩, p⟩ := st
      dsimp only at h
      subst h
      rfl
    · simp only [omitEmptyString, if_neg ha, List.foldl]
      rfl
  have s1 : ∀ (v : String) (st : DeactivateRequest),
      storeDeactivateRequestMember (st, none) ("id", Json.str v) =
        ({ st with params := { st.params with Id := v } }, none) :=
    fun _ _ => rfl
  unfold storeDeactivateRequest storeStruct
  simp only [RequestDefaults.members, IdParams.members, List.foldl_append, List.foldl_cons,
    List.foldl_nil]
  rw [s0, s1]
  all_goals rfl

/-- A `ChatChannelRequest` is read back from its encoding. -/
theorem ChatChannelRequest_round_trip (r : ChatChannelRequest) :
    storeChatChannelRequest
        (.obj (r.toRequestDefaults.members ++ ChatChannelParams.members r.params))
        { params := {} } = (r, none) := by
  obtain ⟨⟨auth⟩, ⟨x1, x2, x3, x4⟩⟩ := r
  have s0 : ∀ (a : String) (st : ChatChannelRequest), st.Auth = "" →
      (omitEmptyString "auth" a).foldl storeChatChannelRequestMember (st, none) =
        ({ st with Auth := a }, none) := by
    intro a st h
    by_cases ha : a = ""
    · subst ha
      obtain ⟨⟨d⟩, p⟩ := st
      dsimp only at h
      subst h
      rfl
    · simp only [omitEmptyString, if_neg ha, List.foldl]
      rfl
  have s1 : ∀ (v : String) (st : ChatChannelRequest), st.params.ChannelUrl = "" →
      (omitEmptyString "channel_url" v).foldl storeChatChannelRequestMember (st, none) =
        ({ st with params := { st.params with ChannelUrl := v } }, none) := by
    intro v st h
    by_cases hv : v = ""
    · subst hv
      obtain ⟨d, p⟩ := st
      cases p
      dsimp only at h
      subst h
      rfl
    · simp only [omitEmptyString, if_neg hv, List.foldl]
      rfl
  have s2 : ∀ (v : String) (st : ChatChannelRequest), st.params.Name = "" →
      (omitEmptyString "name" v).foldl storeChatChannelRequestMember (st, none) =
        ({ st with params := { st.params with Name := v } }, none) := by
    intro v st h
    by_cases hv : v = ""
    · subst hv
      obtain ⟨d, p⟩ := st
      cases p
      dsimp only at h
      subst h
      rfl
    · simp only [omitEmptyString, if_neg hv, List.foldl]
      rfl
  have s3 : ∀ (v : String) (st : ChatChannelRequest), st.params.CoverUrl = "" →
      (omitEmptyString "cover_url" v).foldl storeChatChannelRequestMember (st, none) =
        ({ st with params := { st.params with CoverUrl := v } }, none) := by
    intro v st h
    by_cases hv : v = ""
    · subst hv
      obtain ⟨d, p⟩ := st
      cases p
      dsimp only at h
      subst h
      rfl
    · simp only [omitEmptyString, if_neg hv, List.foldl]
      rfl
  have s4 : ∀ (v : String) (st : ChatChannelRequest), st.params.Data = "" →
      (omitEmptyString "data" v).foldl storeChatChannelRequestMember (st, none) =
        ({ st with params := { st.params with Data := v } }, none) := by
    intro v st h
    by_cases hv : v = ""
    · subst hv
      obtain ⟨d, p⟩ := st
      cases p
      dsimp only at h
      subst h
      rfl
    · simp only [omitEmptyString, if_neg hv, List.foldl]
      rfl
  unfold storeChatChannelRequest storeStruct
  simp only [RequestDefaults.members, ChatChannelParams.members, List.foldl_append, List.foldl_cons,
    List.foldl_nil]
  rw [s0, s1, s2, s3, s4]
  all_goals rfl

/-- A `ChatChannelUpdateRequest` in which `Ops` is not an empty, non-nil slice
is read back from its encoding. -/
theorem ChatChannelUpdateRequest_round_trip (r : ChatChannelUpdateRequest)
    (hOps : r.params.Ops ≠ some []) :
    storeChatChannelUpdateRequest
        (.obj (r.toRequestDefaults.members ++ ChatChannelUpdateParams.members r.params))
        { params := {} } = (r, none) := by
  obtain ⟨⟨auth⟩, ⟨x1, x2, x3, x4, x5, x6⟩⟩ := r
  have s0 : ∀ (a : String) (st : ChatChannelUpdateRequest), st.Auth = "" →
      (omitEmptyString "auth" a).foldl storeChatChannelUpdateRequestMember (st, none) =
        ({ st with Auth := a }, none) := by
    intro a st h
    by_cases ha : a = ""
    · subst ha
      obtain ⟨⟨d⟩, p⟩ := st
      dsimp only at h
      subst h
      rfl
    · simp only [omitEmptyString, if_neg ha, List.foldl]
      rfl
  have s1 : ∀ (v : String) (st : ChatChannelUpdateRequest), st.params.ChannelUrl = "" →
      (omitEmptyString "channel_url" v).foldl storeChatChannelUpdateRequestMember (st, none) =
        ({ st with params := { st.params with ChannelUrl := v } }, none) := by
    intro v st h
    by_cases hv : v = ""
    · subst hv
      obtain ⟨d, p⟩ := st
      cases p
      dsimp only at h
      subst h
      rfl
    · simp only [omitEmptyString, if_neg hv, List.foldl]
      rfl
  have s2 : ∀ (v : String) (st : ChatChannelUpdateRequest), st.params.Name = "" →
      (omitEmptyString "name" v).foldl storeChatChannelUpdateRequestMember (st, none) =
        ({ st with params := { st.params with Name := v } }, none) := by
    intro v st h
    by_cases hv : v = ""
    · subst hv
      obtain ⟨d, p⟩ := st
      cases p
      dsimp only at h
      subst h
      rfl
    · simp only [omitEmptyString, if_neg hv, List.foldl]
      rfl
  have s3 : ∀ (v : String) (st : ChatChannelUpdateRequest), st.params.CoverUrl = "" →
      (omitEmptyString "cover_url" v).foldl storeChatChannelUpdateRequestMember (st, none) =
        ({ st with params := { st.params with CoverUrl := v } }, none) := by
    intro v st h
    by_cases hv : v = ""
    · subst hv
      obtain ⟨d, p⟩ := st
      cases p
      dsimp only at h
      subst h
      rfl
    · simp only [omitEmptyString, if_neg hv, List.foldl]
      rfl
  have s4 : ∀ (v : String) (st : ChatChannelUpdateRequest), st.params.Data = "" →
      (omitEmptyString "data" v).foldl storeChatChannelUpdateRequestMember (st, none) =
        ({ st with params := { st.params with Data := v } }, none) := by
    intro v st h
    by_cases hv : v = ""
    · subst hv
      obtain ⟨d, p⟩ := st
      cases p
      dsimp only at h
      subst h
      rfl
    · simp only [omitEmptyString, if_neg hv, List.foldl]
      rfl
  have s5 : ∀ (v : String) (st : ChatChannelUpdateRequest), st.params.TargetChannelUrl = "" →
      (omitEmptyString "target_channel_url" v).foldl storeChatChannelUpdateRequestMember (st, none) =
        ({ st with params := { st.params with TargetChannelUrl := v } }, none) := by
    intro v st h
    by_cases hv : v = ""
    · subst hv
      obtain ⟨d, p⟩ := st
      cases p
      dsimp only at h
      subst h
      rfl
    · simp only [omitEmptyString, if_neg hv, List.foldl]
      rfl
  have s6 : ∀ (v : Slice String), v ≠ some [] → ∀ (st : ChatChannelUpdateRequest),
      st.params.Ops = none →
      (omitEmptyStrings "ops" v).foldl storeChatChannelUpdateRequestMember (st, none) =
        ({ st with params := { st.params with Ops := v } }, none) := by
    intro v hv st h
    have hm : ∀ (s : ChatChannelUpdateRequest × Option JsonError) (w : Json),
        storeChatChannelUpdateRequestMember s ("ops", w) =
          ({ s.1 with params := { s.1.params with
              Ops := (storeStringSlice w s.1.params.Ops s.2).1 } },
            (storeStringSlice w s.1.params.Ops s.2).2) := fun _ _ => rfl
    match v, hv with
    | none, _ =>
      obtain ⟨d, p⟩ := st
      cases p
      dsimp only at h
      subst h
      rfl
    | some [], hv => exact absurd rfl hv
    | some (y :: ys), _ =>
      simp only [omitEmptyStrings, List.foldl, hm, storeStringSlice_strings]
  unfold storeChatChannelUpdateRequest storeStruct
  simp only [RequestDefaults.members, ChatChannelUpdateParams.members, List.foldl_append, List.foldl_cons,
    List.foldl_nil]
  rw [s0, s1, s2, s3, s4, s5, s6 _ hOps]
  all_goals rfl

/-- A `ChatChannelMessageRequest` is read back from its encoding. -/
theorem ChatChannelMessageRequest_round_trip (r : ChatChannelMessageRequest) :
    storeChatChannelMessageRequest
        (.obj (r.toRequestDefaults.members ++ ChatChannelMessageParams.members r.params))
        { params := {} } = (r, none) := by
  obtain ⟨⟨auth⟩, ⟨x1, x2, x3, x4⟩⟩ := r
  have s0 : ∀ (a : String) (st : ChatChannelMessageRequest), st.Auth = "" →
      (omitEmptyString "auth" a).foldl storeChatChannelMessageRequestMember (st, none) =
        ({ st with Auth := a }, none) := by
    intro a st h
    by_cases ha : a = ""
    · subst ha
      obtain ⟨⟨d⟩, p⟩ := st
      dsimp only at h
      subst h
      rfl
    · simp only [omitEmptyString, if_neg ha, List.foldl]
      rfl
  have s1 : ∀ (v : String) (st : ChatChannelMessageRequest),
      storeChatChannelMessageRequestMember (st, none) ("id", Json.str v) =
        ({ st with params := { st.params with Id := v } }, none) :=
    fun _ _ => rfl
  have s2 : ∀ (v : String) (st : ChatChannelMessageRequest), st.params.ChannelUrl = "" →
      (omitEmptyString "channel_url" v).foldl storeChatChannelMessageRequestMember (st, none) =
        ({ st with params := { st.params with ChannelUrl := v } }, none) := by
    intro v st h
    by_cases hv : v = ""
    · subst hv
      obtain ⟨d, p⟩ := st
      cases p
      dsimp only at h
      subst h
      rfl
    · simp only [omitEmptyString, if_neg hv, List.foldl]
      rfl
  have s3 : ∀ (v : String) (st : ChatChannelMessageRequest),
      storeChatChannelMessageRequestMember (st, none) ("message", Json.str v) =
        ({ st with params := { st.params with Message := v } }, none) :=
    fun _ _ => rfl
  have s4 : ∀ (v : String) (st : ChatChannelMessageRequest),
      storeChatChannelMessageRequestMember (st, none) ("data", Json.str v) =
        ({ st with params := { st.params with Data := v } }, none) :=
    fun _ _ => rfl
  unfold storeChatChannelMessageRequest storeStruct
  simp only [RequestDefaults.members, ChatChannelMessageParams.members, List.foldl_append, List.foldl_cons,
    List.foldl_nil]
  rw [s0, s1, s2, s3, s4]
  all_goals rfl

/-- A `ChatChannelMetadataRequest` is read back from its encoding. -/
theorem ChatChannelMetadataRequest_round_trip (r : ChatChannelMetadataRequest) :
    storeChatChannelMetadataRequest
        (.obj (r.toRequestDefaults.members ++ ChatChannelMetadataParams.members r.params))
        { params := {} } = (r, none) := by
  obtain ⟨⟨auth⟩, ⟨x1, x2⟩⟩ := r
  have s0 : ∀ (a : String) (st : ChatChannelMetadataRequest), st.Auth = "" →
      (omitEmptyString "auth" a).foldl storeChatChannelMetadataRequestMember (st, none) =
        ({ st with Auth := a }, none) := by
    intro a st h
    by_cases ha : a = ""
    · subst ha
      obtain ⟨⟨d⟩, p⟩ := st
      dsimp only at h
      subst h
      rfl
    · simp only [omitEmptyString, if_neg ha, List.foldl]
      rfl
  have s1 : ∀ (v : String) (st : ChatChannelMetadataRequest),
      storeChatChannelMetadataRequestMember (st, none) ("channel_url", Json.str v) =
        ({ st with params := { st.params with ChannelUrl := v } }, none) :=
    fun _ _ => rfl
  have s2 : ∀ (v : Slice String) (st : ChatChannelMetadataRequest),
      storeChatChannelMetadataRequestMember (st, none) ("keys", encodeStrings v) =
        ({ st with params := { st.params with Keys := v } }, none) := by
    intro v st
    have hm : ∀ (s : ChatChannelMetadataRequest × Option JsonError) (w : Json),
        storeChatChannelMetadataRequestMember s ("keys", w) =
          ({ s.1 with params := { s.1.params with
              Keys := (storeStringSlice w s.1.params.Keys s.2).1 } },
            (storeStringSlice w s.1.params.Keys s.2).2) := fun _ _ => rfl
    cases v with
    | none => rfl
    | some xs =>
      rw [hm]
      simp only [encodeStrings, storeStringSlice_strings]
  unfold storeChatChannelMetadataRequest storeStruct
  simp only [RequestDefaults.members, ChatChannelMetadataParams.members, List.foldl_append, List.foldl_cons,
    List.foldl_nil]
  rw [s0, s1, s2]
  all_goals rfl

/-- A `ChatChannelSetMetadataRequest` in which `Data` holds its entries in key
order is read back from its encoding. -/
theorem ChatChannelSetMetadataRequest_round_trip (r : ChatChannelSetMetadataRequest)
    (hData : keysIncrease (r.params.Data.getD []) = true) :
    storeChatChannelSetMetadataRequest
        (.obj (r.toRequestDefaults.members ++ ChatChannelSetMetadataParams.members r.params))
        { params := {} } = (r, none) := by
  obtain ⟨⟨auth⟩, ⟨x1, x2⟩⟩ := r
  have s0 : ∀ (a : String) (st : ChatChannelSetMetadataRequest), st.Auth = "" →
      (omitEmptyString "auth" a).foldl storeChatChannelSetMetadataRequestMember (st, none) =
        ({ st with Auth := a }, none) := by
    intro a st h
    by_cases ha : a = ""
    · subst ha
      obtain ⟨⟨d⟩, p⟩ := st
      dsimp only at h
      subst h
      rfl
    · simp only [omitEmptyString, if_neg ha, List.foldl]
      rfl
  have s1 : ∀ (v : String) (st : ChatChannelSetMetadataRequest),
      storeChatChannelSetMetadataRequestMember (st, none) ("channel_url", Json.str v) =
        ({ st with params := { st.params with ChannelUrl := v } }, none) :=
    fun _ _ => rfl
  have s2 : ∀ (v : GoMap String), keysIncrease (v.getD []) = true →
      ∀ (st : ChatChannelSetMetadataRequest), st.params.Data = none →
      storeChatChannelSetMetadataRequestMember (st, none) ("data", encodeStringMap v) =
        ({ st with params := { st.params with Data := v } }, none) := by
    intro v hv st h
    have hm : ∀ (s : ChatChannelSetMetadataRequest × Option JsonError) (w : Json),
        storeChatChannelSetMetadataRequestMember s ("data", w) =
          ({ s.1 with params := { s.1.params with
              Data := (storeStringMapValue w s.1.params.Data s.2).1 } },
            (storeStringMapValue w s.1.params.Data s.2).2) := fun _ _ => rfl
    rw [hm, storeStringMapValue_encode v _ _ h hv]
  unfold storeChatChannelSetMetadataRequest storeStruct
  simp only [RequestDefaults.members, ChatChannelSetMetadataParams.members, List.foldl_append, List.foldl_cons,
    List.foldl_nil]
  rw [s0, s1, s2 _ hData]
  all_goals rfl

/-- A `ChatChannelMetacounterRequest` is read back from its encoding. -/
theorem ChatChannelMetacounterRequest_round_trip (r : ChatChannelMetacounterRequest) :
    storeChatChannelMetacounterRequest
        (.obj (r.toRequestDefaults.members ++ ChatChannelMetacounterParams.members r.params))
        { params := {} } = (r, none) := by
  obtain ⟨⟨auth⟩, ⟨x1, x2⟩⟩ := r
  have s0 : ∀ (a : String) (st : ChatChannelMetacounterRequest), st.Auth = "" →
      (omitEmptyString "auth" a).foldl storeChatChannelMetacounterRequestMember (st, none) =
        ({ st with Auth := a }, none) := by
    intro a st h
    by_cases ha : a = ""
    · subst ha
      obtain ⟨⟨d⟩, p⟩ := st
      dsimp only at h
      subst h
      rfl
    · simp only [omitEmptyString, if_neg ha, List.foldl]
      rfl
  have s1 : ∀ (v : String) (st : ChatChannelMetacounterRequest),
      storeChatChannelMetacounterRequestMember (st, none) ("channel_url", Json.str v) =
        ({ st with params := { st.params with ChannelUrl := v } }, none) :=
    fun _ _ => rfl
  have s2 : ∀ (v : Slice String) (st : ChatChannelMetacounterRequest),
      storeChatChannelMetacounterRequestMember (st, none) ("keys", encodeStrings v) =
        ({ st with params := { st.params with Keys := v } }, none) := by
    intro v st
    have hm : ∀ (s : ChatChannelMetacounterRequest × Option JsonError) (w : Json),
        storeChatChannelMetacounterRequestMember s ("keys", w) =
          ({ s.1 with params := { s.1.params with
              Keys := (storeStringSlice w s.1.params.Keys s.2).1 } },
            (storeStringSlice w s.1.params.Keys s.2).2) := fun _ _ => rfl
    cases v with
    | none => rfl
    | some xs =>
      rw [hm]
      simp only [encodeStrings, storeStringSlice_strings]
  unfold storeChatChannelMetacounterRequest storeStruct
  simp only [RequestDefaults.members, ChatChannelMetacounterParams.members, List.foldl_append, List.foldl_cons,
    List.foldl_nil]
  rw [s0, s1, s2]
  all_goals rfl

/-- A `ChatChannelSetMetacounterRequest` in which `Data` holds its entries in
key order and values in the range of int64 is read back from its encoding. -/
theorem ChatChannelSetMetacounterRequest_round_trip (r : ChatChannelSetMetacounterRequest)
    (hData : keysIncrease (r.params.Data.getD []) = true)
    (hDatav : ∀ e ∈ r.params.Data.getD [], isInt64 e.2 = true) :
    storeChatChannelSetMetacounterRequest
        (.obj (r.toRequestDefaults.members ++ ChatChannelSetMetacounterParams.members r.params))
        { params := {} } = (r, none) := by
  obtain ⟨⟨auth⟩, ⟨x1, x2⟩⟩ := r
  have s0 : ∀ (a : String) (st : ChatChannelSetMetacounterRequest), st.Auth = "" →
      (omitEmptyString "auth" a).foldl storeChatChannelSetMetacounterRequestMember (st, none) =
        ({ st with Auth := a }, none) := by
    intro a st h
    by_cases ha : a = ""
    · subst ha
      obtain ⟨⟨d⟩, p⟩ := st
      dsimp only at h
      subst h
      rfl
    · simp only [omitEmptyString, if_neg ha, List.foldl]
      rfl
  have s1 : ∀ (v : String) (st : ChatChannelSetMetacounterRequest),
      storeChatChannelSetMetacounterRequestMember (st, none) ("channel_url", Json.str v) =
        ({ st with params := { st.params with ChannelUrl := v } }, none) :=
    fun _ _ => rfl
  have s2 : ∀ (v : GoMap Int), keysIncrease (v.getD []) = true →
      (∀ e ∈ v.getD [], isInt64 e.2 = true) →
      ∀ (st : ChatChannelSetMetacounterRequest), st.params.Data = none →
      storeChatChannelSetMetacounterRequestMember (st, none) ("data", encodeIntMap v) =
        ({ st with params := { st.params with Data := v } }, none) := by
    intro v hv hr st h
    have hm : ∀ (s : ChatChannelSetMetacounterRequest × Option JsonError) (w : Json),
        storeChatChannelSetMetacounterRequestMember s ("data", w) =
          ({ s.1 with params := { s.1.params with
              Data := (storeIntMapValue w s.1.params.Data s.2).1 } },
            (storeIntMapValue w s.1.params.Data s.2).2) := fun _ _ => rfl
    rw [hm, storeIntMapValue_encode v _ _ h hv hr]
  unfold storeChatChannelSetMetacounterRequest storeStruct
  simp only [RequestDefaults.members, ChatChannelSetMetacounterParams.members, List.foldl_append, List.foldl_cons,
    List.foldl_nil]
  rw [s0, s1, s2 _ hData hDatav]
  all_goals rfl

/-- A `MessagingChannelRequest` is read back from its encoding. -/
theorem MessagingChannelRequest_round_trip (r : MessagingChannelRequest) :
    storeMessagingChannelRequest
        (.obj (r.toRequestDefaults.members ++ MessagingChannelParams.members r.params))
        { params := {} } = (r, none) := by
  obtain ⟨⟨auth⟩, ⟨x1, x2, x3, x4⟩⟩ := r
  have s0 : ∀ (a : String) (st : MessagingChannelRequest), st.Auth = "" →
      (omitEmptyString "auth" a).foldl storeMessagingChannelRequestMember (st, none) =
        ({ st with Auth := a }, none) := by
    intro a st h
    by_cases ha : a = ""
    · subst ha
      obtain ⟨⟨d⟩, p⟩ := st
      dsimp only at h
      subst h
      rfl
    · simp only [omitEmptyString, if_neg ha, List.foldl]
      rfl
  have s1 : ∀ (v : String) (st : MessagingChannelRequest), st.params.Name = "" →
      (omitEmptyString "name" v).foldl storeMessagingChannelRequestMember (st, none) =
        ({ st with params := { st.params with Name := v } }, none) := by
    intro v st h
    by_cases hv : v = ""
    · subst hv
      obtain ⟨d, p⟩ := st
      cases p
      dsimp only at h
      subst h
      rfl
    · simp only [omitEmptyString, if_neg hv, List.foldl]
      rfl
  have s2 : ∀ (v : Bool) (st : MessagingChannelRequest), st.params.IsGroup = false →
      (omitEmptyBool "is_group" v).foldl storeMessagingChannelRequestMember (st, none) =
        ({ st with params := { st.params with IsGroup := v } }, none) := by
    intro v st h
    cases v
    · obtain ⟨d, p⟩ := st
      cases p
      dsimp only at h
      subst h
      rfl
    · rfl
  have s3 : ∀ (v : String) (st : MessagingChannelRequest), st.params.CoverUrl = "" →
      (omitEmptyString "cover_url" v).foldl storeMessagingChannelRequestMember (st, none) =
        ({ st with params := { st.params with CoverUrl := v } }, none) := by
    intro v st h
    by_cases hv : v = ""
    · subst hv
      obtain ⟨d, p⟩ := st
      cases p
      dsimp only at h
      subst h
      rfl
    · simp only [omitEmptyString, if_neg hv, List.foldl]
      rfl
  have s4 : ∀ (v : String) (st : MessagingChannelRequest), st.params.Data = "" →
      (omitEmptyString "data" v).foldl storeMessagingChannelRequestMember (st, none) =
        ({ st with params := { st.params with Data := v } }, none) := by
    intro v st h
    by_cases hv : v = ""
    · subst hv
      obtain ⟨d, p⟩ := st
      cases p
      dsimp only at h
      subst h
      rfl
    · simp only [omitEmptyString, if_neg hv, List.foldl]
      rfl
  unfold storeMessagingChannelRequest storeStruct
  simp only [RequestDefaults.members, MessagingChannelParams.members, List.foldl_append, List.foldl_cons,
    List.foldl_nil]
  rw [s0, s1, s2, s3, s4]
  all_goals rfl

/-- A `MessagingChannelUpdateRequest` is read back from its encoding. -/
theorem MessagingChannelUpdateRequest_round_trip (r : MessagingChannelUpdateRequest) :
    storeMessagingChannelUpdateRequest
        (.obj (r.toRequestDefaults.members ++ MessagingChannelUpdateParams.members r.params))
        { params := {} } = (r, none) := by
  obtain ⟨⟨auth⟩, ⟨x1, x2, x3, x4, x5⟩⟩ := r
  have s0 : ∀ (a : String) (st : MessagingChannelUpdateRequest), st.Auth = "" →
      (omitEmptyString "auth" a).foldl storeMessagingChannelUpdateRequestMember (st, none) =
        ({ st with Auth := a }, none) := by
    intro a st h
    by_cases ha : a = ""
    · subst ha
      obtain ⟨⟨d⟩, p⟩ := st
      dsimp only at h
      subst h
      rfl
    · simp only [omitEmptyString, if_neg ha, List.foldl]
      rfl
  have s1 : ∀ (v : String) (st : MessagingChannelUpdateRequest), st.params.Name = "" →
      (omitEmptyString "name" v).foldl storeMessagingChannelUpdateRequestMember (st, none) =
        ({ st with params := { st.params with Name := v } }, none) := by
    intro v st h
    by_cases hv : v = ""
    · subst hv
      obtain ⟨d, p⟩ := st
      cases p
      dsimp only at h
      subst h
      rfl
    · simp only [omitEmptyString, if_neg hv, List.foldl]
      rfl
  have s2 : ∀ (v : Bool) (st : MessagingChannelUpdateRequest), st.params.IsGroup = false →
      (omitEmptyBool "is_group" v).foldl storeMessagingChannelUpdateRequestMember (st, none) =
        ({ st with params := { st.params with IsGroup := v } }, none) := by
    intro v st h
    cases v
    · obtain ⟨d, p⟩ := st
      cases p
      dsimp only at h
      subst h
      rfl
    · rfl
  have s3 : ∀ (v : String) (st : MessagingChannelUpdateRequest), st.params.CoverUrl = "" →
      (omitEmptyString "cover_url" v).foldl storeMessagingChannelUpdateRequestMember (st, none) =
        ({ st with params := { st.params with CoverUrl := v } }, none) := by
    intro v st h
    by_cases hv : v = ""
    · subst hv
      obtain ⟨d, p⟩ := st
      cases p
      dsimp only at h
      subst h
      rfl
    · simp only [omitEmptyString, if_neg hv, List.foldl]
      rfl
  have s4 : ∀ (v : String) (st : MessagingChannelUpdateRequest), st.params.Data = "" →
      (omitEmptyString "data" v).foldl storeMessagingChannelUpdateRequestMember (st, none) =
        ({ st with params := { st.params with Data := v } }, none) := by
    intro v st h
    by_cases hv : v = ""
    · subst hv
      obtain ⟨d, p⟩ := st
      cases p
      dsimp only at h
      subst h
      rfl
    · simp only [omitEmptyString, if_neg hv, List.foldl]
      rfl
  have s5 : ∀ (v : String) (st : MessagingChannelUpdateRequest), st.params.ChannelUrl = "" →
      (omitEmptyString "channel_url" v).foldl storeMessagingChannelUpdateRequestMember (st, none) =
        ({ st with params := { st.params with ChannelUrl := v } }, none) := by
    intro v st h
    by_cases hv : v = ""
    · subst hv
      obtain ⟨d, p⟩ := st
      cases p
      dsimp only at h
      subst h
      rfl
    · simp only [omitEmptyString, if_neg hv, List.foldl]
      rfl
  unfold storeMessagingChannelUpdateRequest storeStruct
  simp only [RequestDefaults.members, MessagingChannelUpdateParams.members, List.foldl_append, List.foldl_cons,
    List.foldl_nil]
  rw [s0, s1, s2, s3, s4, s5]
  all_goals rfl

/-- A `MessagingChannelInviteRequest` is read back from its encoding. -/
theorem MessagingChannelInviteRequest_round_trip (r : MessagingChannelInviteRequest) :
    storeMessagingChannelInviteRequest
        (.obj (r.toRequestDefaults.members ++ MessagingChannelInviteParams.members r.params))
        { params := {} } = (r, none) := by
  obtain ⟨⟨auth⟩, ⟨x1, x2⟩⟩ := r
  have s0 : ∀ (a : String) (st : MessagingChannelInviteRequest), st.Auth = "" →
      (omitEmptyString "auth" a).foldl storeMessagingChannelInviteRequestMember (st, none) =
        ({ st with Auth := a }, none) := by
    intro a st h
    by_cases ha : a = ""
    · subst ha
      obtain ⟨⟨d⟩, p⟩ := st
      dsimp only at h
      subst h
      rfl
    · simp only [omitEmptyString, if_neg ha, List.foldl]
      rfl
  have s1 : ∀ (v : String) (st : MessagingChannelInviteRequest),
      storeMessagingChannelInviteRequestMember (st, none) ("channel_url", Json.str v) =
        ({ st with params := { st.params with ChannelUrl := v } }, none) :=
    fun _ _ => rfl
  have s2 : ∀ (v : Slice String) (st : MessagingChannelInviteRequest),
      storeMessagingChannelInviteRequestMember (st, none) ("user_ids", encodeStrings v) =
        ({ st with params := { st.params with UserIds := v } }, none) := by
    intro v st
    have hm : ∀ (s : MessagingChannelInviteRequest × Option JsonError) (w : Json),
        storeMessagingChannelInviteRequestMember s ("user_ids", w) =
          ({ s.1 with params := { s.1.params with
              UserIds := (storeStringSlice w s.1.params.UserIds s.2).1 } },
            (storeStringSlice w s.1.params.UserIds s.2).2) := fun _ _ => rfl
    cases v with
    | none => rfl
    | some xs =>
      rw [hm]
      simp only [encodeStrings, storeStringSlice_strings]
  unfold storeMessagingChannelInviteRequest storeStruct
  simp only [RequestDefaults.members, MessagingChannelInviteParams.members, List.foldl_append, List.foldl_cons,
    List.foldl_nil]
  rw [s0, s1, s2]
  all_goals rfl

/-- A `MessagingChannelHideRequest` is read back from its encoding. -/
theorem MessagingChannelHideRequest_round_trip (r : MessagingChannelHideRequest) :
    storeMessagingChannelHideRequest
        (.obj (r.toRequestDefaults.members ++ MessagingChannelHideParams.members r.params))
        { params := {} } = (r, none) := by
  obtain ⟨⟨auth⟩, ⟨x1, x2⟩⟩ := r
  have s0 : ∀ (a : String) (st : MessagingChannelHideRequest), st.Auth = "" →
      (omitEmptyString "auth" a).foldl storeMessagingChannelHideRequestMember (st, none) =
        ({ st with Auth := a }, none) := by
    intro a st h
    by_cases ha : a = ""
    · subst ha
      obtain ⟨⟨d⟩, p⟩ := st
      dsimp only at h
      subst h
      rfl
    · simp only [omitEmptyString, if_neg ha, List.foldl]
      rfl
  have s1 : ∀ (v : String) (st : MessagingChannelHideRequest),
      storeMessagingChannelHideRequestMember (st, none) ("ids", Json.str v) =
        ({ st with params := { st.params with Id := v } }, none) :=
    fun _ _ => rfl
  have s2 : ∀ (v : String) (st : MessagingChannelHideRequest),
      storeMessagingChannelHideRequestMember (st, none) ("channel_url", Json.str v) =
        ({ st with params := { st.params with ChannelUrl := v } }, none) :=
    fun _ _ => rfl
  unfold storeMessagingChannelHideRequest storeStruct
  simp only [RequestDefaults.members, MessagingChannelHideParams.members, List.foldl_append, List.foldl_cons,
    List.foldl_nil]
  rw [s0, s1, s2]
  all_goals rfl

/-- A `MessagingChannelLeaveRequest` is read back from its encoding. -/
theorem MessagingChannelLeaveRequest_round_trip (r : MessagingChannelLeaveRequest) :
    storeMessagingChannelLeaveRequest
        (.obj (r.toRequestDefaults.members ++ MessagingChannelLeaveParams.members r.params))
        { params := {} } = (r, none) := by
  obtain ⟨⟨auth⟩, ⟨x1, x2⟩⟩ := r
  have s0 : ∀ (a : String) (st : MessagingChannelLeaveRequest), st.Auth = "" →
      (omitEmptyString "auth" a).foldl storeMessagingChannelLeaveRequestMember (st, none) =
        ({ st with Auth := a }, none) := by
    intro a st h
    by_cases ha : a = ""
    · subst ha
      obtain ⟨⟨d⟩, p⟩ := st
      dsimp only at h
      subst h
      rfl
    · simp only [omitEmptyString, if_neg ha, List.foldl]
      rfl
  have s1 : ∀ (v : String) (st : MessagingChannelLeaveRequest),
      storeMessagingChannelLeaveRequestMember (st, none) ("channel_url", Json.str v) =
        ({ st with params := { st.params with ChannelUrl := v } }, none) :=
    fun _ _ => rfl
  have s2 : ∀ (v : Slice String) (st : MessagingChannelLeaveRequest),
      storeMessagingChannelLeaveRequestMember (st, none) ("user_ids", encodeStrings v) =
        ({ st with params := { st.params with UserIds := v } }, none) := by
    intro v st
    have hm : ∀ (s : MessagingChannelLeaveRequest × Option JsonError) (w : Json),
        storeMessagingChannelLeaveRequestMember s ("user_ids", w) =
          ({ s.1 with params := { s.1.params with
              UserIds := (storeStringSlice w s.1.params.UserIds s.2).1 } },
            (storeStringSlice w s.1.params.UserIds s.2).2) := fun _ _ => rfl
    cases v with
    | none => rfl
    | some xs =>
      rw [hm]
      simp only [encodeStrings, storeStringSlice_strings]
  unfold storeMessagingChannelLeaveRequest storeStruct
  simp only [RequestDefaults.members, MessagingChannelLeaveParams.members, List.foldl_append, List.foldl_cons,
    List.foldl_nil]
  rw [s0, s1, s2]
  all_goals rfl

/-- A `MessagingChannelMetadataRequest` is read back from its encoding. -/
theorem MessagingChannelMetadataRequest_round_trip (r : MessagingChannelMetadataRequest) :
    storeMessagingChannelMetadataRequest
        (.obj (r.toRequestDefaults.members ++ MessagingChannelMetadataParams.members r.params))
        { params := {} } = (r, none) := by
  obtain ⟨⟨auth⟩, ⟨x1, x2⟩⟩ := r
  have s0 : ∀ (a : String) (st : MessagingChannelMetadataRequest), st.Auth = "" →
      (omitEmptyString "auth" a).foldl storeMessagingChannelMetadataRequestMember (st, none) =
        ({ st with Auth := a }, none) := by
    intro a st h
    by_cases ha : a = ""
    · subst ha
      obtain ⟨⟨d⟩, p⟩ := st
      dsimp only at h
      subst h
      rfl
    · simp only [omitEmptyString, if_neg ha, List.foldl]
      rfl
  have s1 : ∀ (v : String) (st : MessagingChannelMetadataRequest),
      storeMessagingChannelMetadataRequestMember (st, none) ("channel_url", Json.str v) =
        ({ st with params := { st.params with ChannelUrl := v } }, none) :=
    fun _ _ => rfl
  have s2 : ∀ (v : Slice String) (st : MessagingChannelMetadataRequest),
      storeMessagingChannelMetadataRequestMember (st, none) ("keys", encodeStrings v) =
        ({ st with params := { st.params with Keys := v } }, none) := by
    intro v st
    have hm : ∀ (s : MessagingChannelMetadataRequest × Option JsonError) (w : Json),
        storeMessagingChannelMetadataRequestMember s ("keys", w) =
          ({ s.1 with params := { s.1.params with
              Keys := (storeStringSlice w s.1.params.Keys s.2).1 } },
            (storeStringSlice w s.1.params.Keys s.2).2) := fun _ _ => rfl
    cases v with
    | none => rfl
    | some xs =>
      rw [hm]
      simp only [encodeStrings, storeStringSlice_strings]
  unfold storeMessagingChannelMetadataRequest storeStruct
  simp only [RequestDefaults.members, MessagingChannelMetadataParams.members, List.foldl_append, List.foldl_cons,
    List.foldl_nil]
  rw [s0, s1, s2]
  all_goals rfl

/-- A `MessagingChannelSetMetadataRequest` in which `Data` holds its entries in
key order is read back from its encoding. -/
theorem MessagingChannelSetMetadataRequest_round_trip (r : MessagingChannelSetMetadataRequest)
    (hData : keysIncrease (r.params.Data.getD []) = true) :
    storeMessagingChannelSetMetadataRequest
        (.obj (r.toRequestDefaults.members ++ MessagingChannelSetMetadataParams.members r.params))
        { params := {} } = (r, none) := by
  obtain ⟨⟨auth⟩, ⟨x1, x2⟩⟩ := r
  have s0 : ∀ (a : String) (st : MessagingChannelSetMetadataRequest), st.Auth = "" →
      (omitEmptyString "auth" a).foldl storeMessagingChannelSetMetadataRequestMember (st, none) =
        ({ st with Auth := a }, none) := by
    intro a st h
    by_cases ha : a = ""
    · subst ha
      obtain ⟨⟨d⟩, p⟩ := st
      dsimp only at h
      subst h
      rfl
    · simp only [omitEmptyString, if_neg ha, List.foldl]
      rfl
  have s1 : ∀ (v : String) (st : MessagingChannelSetMetadataRequest),
      storeMessagingChannelSetMetadataRequestMember (st, none) ("channel_url", Json.str v) =
        ({ st with params := { st.params with ChannelUrl := v } }, none) :=
    fun _ _ => rfl
  have s2 : ∀ (v : GoMap String), keysIncrease (v.getD []) = true →
      ∀ (st : MessagingChannelSetMetadataRequest), st.params.Data = none →
      storeMessagingChannelSetMetadataRequestMember (st, none) ("data", encodeStringMap v) =
        ({ st with params := { st.params with Data := v } }, none) := by
    intro v hv st h
    have hm : ∀ (s : MessagingChannelSetMetadataRequest × Option JsonError) (w : Json),
        storeMessagingChannelSetMetadataRequestMember s ("data", w) =
          ({ s.1 with params := { s.1.params with
              Data := (storeStringMapValue w s.1.params.Data s.2).1 } },
            (storeStringMapValue w s.1.params.Data s.2).2) := fun _ _ => rfl
    rw [hm, storeStringMapValue_encode v _ _ h hv]
  unfold storeMessagingChannelSetMetadataRequest storeStruct
  simp only [RequestDefaults.members, MessagingChannelSetMetadataParams.members, List.foldl_append, List.foldl_cons,
    List.foldl_nil]
  rw [s0, s1, s2 _ hData]
  all_goals rfl

/-- A `MessagingChannelMetacounterRequest` is read back from its encoding. -/
theorem MessagingChannelMetacounterRequest_round_trip (r : MessagingChannelMetacounterRequest) :
    storeMessagingChannelMetacounterRequest
        (.obj (r.toRequestDefaults.members ++ MessagingChannelMetacounterParams.members r.params))
        { params := {} } = (r, none) := by
  obtain ⟨⟨auth⟩, ⟨x1, x2⟩⟩ := r
  have s0 : ∀ (a : String) (st : MessagingChannelMetacounterRequest), st.Auth = "" →
      (omitEmptyString "auth" a).foldl storeMessagingChannelMetacounterRequestMember (st, none) =
        ({ st with Auth := a }, none) := by
    intro a st h
    by_cases ha : a = ""
    · subst ha
      obtain ⟨⟨d⟩, p⟩ := st
      dsimp only at h
      subst h
      rfl
    · simp only [omitEmptyString, if_neg ha, List.foldl]
      rfl
  have s1 : ∀ (v : String) (st : MessagingChannelMetacounterRequest),
      storeMessagingChannelMetacounterRequestMember (st, none) ("channel_url", Json.str v) =
        ({ st with params := { st.params with ChannelUrl := v } }, none) :=
    fun _ _ => rfl
  have s2 : ∀ (v : Slice String) (st : MessagingChannelMetacounterRequest),
      storeMessagingChannelMetacounterRequestMember (st, none) ("keys", encodeStrings v) =
        ({ st with params := { st.params with Keys := v } }, none) := by
    intro v st
    have hm : ∀ (s : MessagingChannelMetacounterRequest × Option JsonError) (w : Json),
        storeMessagingChannelMetacounterRequestMember s ("keys", w) =
          ({ s.1 with params := { s.1.params with
              Keys := (storeStringSlice w s.1.params.Keys s.2).1 } },
            (storeStringSlice w s.1.params.Keys s.2).2) := fun _ _ => rfl
    cases v with
    | none => rfl
    | some xs =>
      rw [hm]
      simp only [encodeStrings, storeStringSlice_strings]
  unfold storeMessagingChannelMetacounterRequest storeStruct
  simp only [RequestDefaults.members, MessagingChannelMetacounterParams.members, List.foldl_append, List.foldl_cons,
    List.foldl_nil]
  rw [s0, s1, s2]
  all_goals rfl

/-- A `MessagingChannelSetMetacounterRequest` in which `Data` holds its entries
in key order and values in the range of int64 is read back from its encoding. -/
theorem MessagingChannelSetMetacounterRequest_round_trip (r : MessagingChannelSetMetacounterRequest)
    (hData : keysIncrease (r.params.Data.getD []) = true)
    (hDatav : ∀ e ∈ r.params.Data.getD [], isInt64 e.2 = true) :
    storeMessagingChannelSetMetacounterRequest
        (.obj (r.toRequestDefaults.members ++ MessagingChannelSetMetacounterParams.members r.params))
        { params := {} } = (r, none) := by
  obtain ⟨⟨auth⟩, ⟨x1, x2⟩⟩ := r
  have s0 : ∀ (a : String) (st : MessagingChannelSetMetacounterRequest), st.Auth = "" →
      (omitEmptyString "auth" a).foldl storeMessagingChannelSetMetacounterRequestMember (st, none) =
        ({ st with Auth := a }, none) := by
    intro a st h
    by_cases ha : a = ""
    · subst ha
      obtain ⟨⟨d⟩, p⟩ := st
      dsimp only at h
      subst h
      rfl
    · simp only [omitEmptyString, if_neg ha, List.foldl]
      rfl
  have s1 : ∀ (v : String) (st : MessagingChannelSetMetacounterRequest),
      storeMessagingChannelSetMetacounterRequestMember (st, none) ("channel_url", Json.str v) =
        ({ st with params := { st.params with ChannelUrl := v } }, none) :=
    fun _ _ => rfl
  have s2 : ∀ (v : GoMap Int), keysIncrease (v.getD []) = true →
      (∀ e ∈ v.getD [], isInt64 e.2 = true) →
      ∀ (st : MessagingChannelSetMetacounterRequest), st.params.Data = none →
      storeMessagingChannelSetMetacounterRequestMember (st, none) ("data", encodeIntMap v) =
        ({ st with params := { st.params with Data := v } }, none) := by
    intro v hv hr st h
    have hm : ∀ (s : MessagingChannelSetMetacounterRequest × Option JsonError) (w : Json),
        storeMessagingChannelSetMetacounterRequestMember s ("data", w) =
          ({ s.1 with params := { s.1.params with
              Data := (storeIntMapValue w s.1.params.Data s.2).1 } },
            (storeIntMapValue w s.1.params.Data s.2).2) := fun _ _ => rfl
    rw [hm, storeIntMapValue_encode v _ _ h hv hr]
  unfold storeMessagingChannelSetMetacounterRequest storeStruct
  simp only [RequestDefaults.members, MessagingChannelSetMetacounterParams.members, List.foldl_append, List.foldl_cons,
    List.foldl_nil]
  rw [s0, s1, s2 _ hData hDatav]
  all_goals rfl

/-- A `BroadcastMessageRequest` in which `ChannelUrls` is not an empty, non-nil
slice is read back from its encoding. -/
theorem BroadcastMessageRequest_round_trip (r : BroadcastMessageRequest)
    (hChannelUrls : r.params.ChannelUrls ≠ some []) :
    storeBroadcastMessageRequest
        (.obj (r.toRequestDefaults.members ++ BroadcastMessageParams.members r.params))
        { params := {} } = (r, none) := by
  obtain ⟨⟨auth⟩, ⟨x1, x2, x3, x4⟩⟩ := r
  have s0 : ∀ (a : String) (st : BroadcastMessageRequest), st.Auth = "" →
      (omitEmptyString "auth" a).foldl storeBroadcastMessageRequestMember (st, none) =
        ({ st with Auth := a }, none) := by
    intro a st h
    by_cases ha : a = ""
    · subst ha
      obtain ⟨⟨d⟩, p⟩ := st
      dsimp only at h
      subst h
      rfl
    · simp only [omitEmptyString, if_neg ha, List.foldl]
      rfl
  have s1 : ∀ (v : Slice String), v ≠ some [] → ∀ (st : BroadcastMessageRequest),
      st.params.ChannelUrls = none →
      (omitEmptyStrings "channel_url" v).foldl storeBroadcastMessageRequestMember (st, none) =
        ({ st with params := { st.params with ChannelUrls := v } }, none) := by
    intro v hv st h
    have hm : ∀ (s : BroadcastMessageRequest × Option JsonError) (w : Json),
        storeBroadcastMessageRequestMember s ("channel_url", w) =
          ({ s.1 with params := { s.1.params with
              ChannelUrls := (storeStringSlice w s.1.params.ChannelUrls s.2).1 } },
            (storeStringSlice w s.1.params.ChannelUrls s.2).2) := fun _ _ => rfl
    match v, hv with
    | none, _ =>
      obtain ⟨d, p⟩ := st
      cases p
      dsimp only at h
      subst h
      rfl
    | some [], hv => exact absurd rfl hv
    | some (y :: ys), _ =>
      simp only [omitEmptyStrings, List.foldl, hm, storeStringSlice_strings]
  have s2 : ∀ (v : String) (st : BroadcastMessageRequest), st.params.Message = "" →
      (omitEmptyString "message" v).foldl storeBroadcastMessageRequestMember (st, none) =
        ({ st with params := { st.params with Message := v } }, none) := by
    intro v st h
    by_cases hv : v = ""
    · subst hv
      obtain ⟨d, p⟩ := st
      cases p
      dsimp only at h
      subst h
      rfl
    · simp only [omitEmptyString, if_neg hv, List.foldl]
      rfl
  have s3 : ∀ (v : Bool) (st : BroadcastMessageRequest), st.params.Persistent = false →
      (omitEmptyBool "persistent" v).foldl storeBroadcastMessageRequestMember (st, none) =
        ({ st with params := { st.params with Persistent := v } }, none) := by
    intro v st h
    cases v
    · obtain ⟨d, p⟩ := st
      cases p
      dsimp only at h
      subst h
      rfl
    · rfl
  have s4 : ∀ (v : String) (st : BroadcastMessageRequest), st.params.Data = "" →
      (omitEmptyString "data" v).foldl storeBroadcastMessageRequestMember (st, none) =
        ({ st with params := { st.params with Data := v } }, none) := by
    intro v st h
    by_cases hv : v = ""
    · subst hv
      obtain ⟨d, p⟩ := st
      cases p
      dsimp only at h
      subst h
      rfl
    · simp only [omitEmptyString, if_neg hv, List.foldl]
      rfl
  unfold storeBroadcastMessageRequest storeStruct
  simp only [RequestDefaults.members, BroadcastMessageParams.members, List.foldl_append, List.foldl_cons,
    List.foldl_nil]
  rw [s0, s1 _ hChannelUrls, s2, s3, s4]
  all_goals rfl

/-- A `ReadMessagesRequest` in which `TargetUserIds` is not an empty, non-nil
slice and `Limit` is in the range of int64 and `MessageId` is in the range of
int64 is read back from its encoding. -/
theorem ReadMessagesRequest_round_trip (r : ReadMessagesRequest)
    (hTargetUserIds : r.params.TargetUserIds ≠ some [])
    (hLimit : isInt64 r.params.Limit = true)
    (hMessageId : isInt64 r.params.MessageId = true) :
    storeReadMessagesRequest
        (.obj (r.toRequestDefaults.members ++ ReadMessagesParams.members r.params))
        { params := {} } = (r, none) := by
  obtain ⟨⟨auth⟩, ⟨x1, x2, x3, x4⟩⟩ := r
  have s0 : ∀ (a : String) (st : ReadMessagesRequest), st.Auth = "" →
      (omitEmptyString "auth" a).foldl storeReadMessagesRequestMember (st, none) =
        ({ st with Auth := a }, none) := by
    intro a st h
    by_cases ha : a = ""
    · subst ha
      obtain ⟨⟨d⟩, p⟩ := st
      dsimp only at h
      subst h
      rfl
    · simp only [omitEmptyString, if_neg ha, List.foldl]
      rfl
  have s1 : ∀ (v : String) (st : ReadMessagesRequest), st.params.ChannelUrl = "" →
      (omitEmptyString "channel_url" v).foldl storeReadMessagesRequestMember (st, none) =
        ({ st with params := { st.params with ChannelUrl := v } }, none) := by
    intro v st h
    by_cases hv : v = ""
    · subst hv
      obtain ⟨d, p⟩ := st
      cases p
      dsimp only at h
      subst h
      rfl
    · simp only [omitEmptyString, if_neg hv, List.foldl]
      rfl
  have s2 : ∀ (v : Slice String), v ≠ some [] → ∀ (st : ReadMessagesRequest),
      st.params.TargetUserIds = none →
      (omitEmptyStrings "target_user_ids" v).foldl storeReadMessagesRequestMember (st, none) =
        ({ st with params := { st.params with TargetUserIds := v } }, none) := by
    intro v hv st h
    have hm : ∀ (s : ReadMessagesRequest × Option JsonError) (w : Json),
        storeReadMessagesRequestMember s ("target_user_ids", w) =
          ({ s.1 with params := { s.1.params with
              TargetUserIds := (storeStringSlice w s.1.params.TargetUserIds s.2).1 } },
            (storeStringSlice w s.1.params.TargetUserIds s.2).2) := fun _ _ => rfl
    match v, hv with
    | none, _ =>
      obtain ⟨d, p⟩ := st
      cases p
      dsimp only at h
      subst h
      rfl
    | some [], hv => exact absurd rfl hv
    | some (y :: ys), _ =>
      simp only [omitEmptyStrings, List.foldl, hm, storeStringSlice_strings]
  have s3 : ∀ (v : Int), isInt64 v = true → ∀ (st : ReadMessagesRequest),
      storeReadMessagesRequestMember (st, none) ("limit", encodeInt v) =
        ({ st with params := { st.params with Limit := v } }, none) := by
    intro v hv st
    have hm : ∀ (s : ReadMessagesRequest × Option JsonError) (w : Json),
        storeReadMessagesRequestMember s ("limit", w) =
          ({ s.1 with params := { s.1.params with
              Limit := (storeInt w s.1.params.Limit s.2).1 } },
            (storeInt w s.1.params.Limit s.2).2) := fun _ _ => rfl
    rw [hm, storeInt_encodeInt v _ _ hv]
  have s4 : ∀ (v : Int), isInt64 v = true → ∀ (st : ReadMessagesRequest),
      storeReadMessagesRequestMember (st, none) ("message_id", encodeInt v) =
        ({ st with params := { st.params with MessageId := v } }, none) := by
    intro v hv st
    have hm : ∀ (s : ReadMessagesRequest × Option JsonError) (w : Json),
        storeReadMessagesRequestMember s ("message_id", w) =
          ({ s.1 with params := { s.1.params with
              MessageId := (storeInt64 w s.1.params.MessageId s.2).1 } },
            (storeInt64 w s.1.params.MessageId s.2).2) := fun _ _ => rfl
    rw [hm, storeInt64_encodeInt v _ _ hv]
  unfold storeReadMessagesRequest storeStruct
  simp only [RequestDefaults.members, ReadMessagesParams.members, List.foldl_append, List.foldl_cons,
    List.foldl_nil]
  rw [s0, s1, s2 _ hTargetUserIds, s3 _ hLimit, s4 _ hMessageId]
  all_goals rfl

/-- A `MuteRequest` is read back from its encoding. -/
theorem MuteRequest_round_trip (r : MuteRequest) :
    storeMuteRequest
        (.obj (r.toRequestDefaults.members ++ MuteParams.members r.params))
        { params := {} } = (r, none) := by
  obtain ⟨⟨auth⟩, ⟨x1, x2, x3⟩⟩ := r
  have s0 : ∀ (a : String) (st : MuteRequest), st.Auth = "" →
      (omitEmptyString "auth" a).foldl storeMuteRequestMember (st, none) =
        ({ st with Auth := a }, none) := by
    intro a st h
    by_cases ha : a = ""
    · subst ha
      obtain ⟨⟨d⟩, p⟩ := st
      dsimp only at h
      subst h
      rfl
    · simp only [omitEmptyString, if_neg ha, List.foldl]
      rfl
  have s1 : ∀ (v : String) (st : MuteRequest),
      storeMuteRequestMember (st, none) ("id", Json.str v) =
        ({ st with params := { st.params with Id := v } }, none) :=
    fun _ _ => rfl
  have s2 : ∀ (v : Slice String) (st : MuteRequest),
      storeMuteRequestMember (st, none) ("channel_urls", encodeStrings v) =
        ({ st with params := { st.params with ChannelUrls := v } }, none) := by
    intro v st
    have hm : ∀ (s : MuteRequest × Option JsonError) (w : Json),
        storeMuteRequestMember s ("channel_urls", w) =
          ({ s.1 with params := { s.1.params with
              ChannelUrls := (storeStringSlice w s.1.params.ChannelUrls s.2).1 } },
            (storeStringSlice w s.1.params.ChannelUrls s.2).2) := fun _ _ => rfl
    cases v with
    | none => rfl
    | some xs =>
      rw [hm]
      simp only [encodeStrings, storeStringSlice_strings]
  have s3 : ∀ (v : Bool) (st : MuteRequest),
      storeMuteRequestMember (st, none) ("is_soft_mute", Json.bool v) =
        ({ st with params := { st.params with IsSoftMute := v } }, none) :=
    fun _ _ => rfl
  unfold storeMuteRequest storeStruct
  simp only [RequestDefaults.members, MuteParams.members, List.foldl_append, List.foldl_cons,
    List.foldl_nil]
  rw [s0, s1, s2, s3]
  all_goals rfl

/-- An `UnMuteRequest` is read back from its encoding. -/
theorem UnMuteRequest_round_trip (r : UnMuteRequest) :
    storeUnMuteRequest
        (.obj (r.toRequestDefaults.members ++ UnMuteParams.members r.params))
        { params := {} } = (r, none) := by
  obtain ⟨⟨auth⟩, ⟨x1, x2⟩⟩ := r
  have s0 : ∀ (a : String) (st : UnMuteRequest), st.Auth = "" →
      (omitEmptyString "auth" a).foldl storeUnMuteRequestMember (st, none) =
        ({ st with Auth := a }, none) := by
    intro a st h
    by_cases ha : a = ""
    · subst ha
      obtain ⟨⟨d⟩, p⟩ := st
      dsimp only at h
      subst h
      rfl
    · simp only [omitEmptyString, if_neg ha, List.foldl]
      rfl
  have s1 : ∀ (v : String) (st : UnMuteRequest),
      storeUnMuteRequestMember (st, none) ("id", Json.str v) =
        ({ st with params := { st.params with Id := v } }, none) :=
    fun _ _ => rfl
  have s2 : ∀ (v : Slice String) (st : UnMuteRequest),
      storeUnMuteRequestMember (st, none) ("channel_urls", encodeStrings v) =
        ({ st with params := { st.params with ChannelUrls := v } }, none) := by
    intro v st
    have hm : ∀ (s : UnMuteRequest × Option JsonError) (w : Json),
        storeUnMuteRequestMember s ("channel_urls", w) =
          ({ s.1 with params := { s.1.params with
              ChannelUrls := (storeStringSlice w s.1.params.ChannelUrls s.2).1 } },
            (storeStringSlice w s.1.params.ChannelUrls s.2).2) := fun _ _ => rfl
    cases v with
    | none => rfl
    | some xs =>
      rw [hm]
      simp only [encodeStrings, storeStringSlice_strings]
  unfold storeUnMuteRequest storeStruct
  simp only [RequestDefaults.members, UnMuteParams.members, List.foldl_append, List.foldl_cons,
    List.foldl_nil]
  rw [s0, s1, s2]
  all_goals rfl

/-- A `BotRequest` is read back from its encoding. -/
theorem BotRequest_round_trip (r : BotRequest) :
    storeBotRequest
        (.obj (r.toRequestDefaultsAPIV2.members ++ BotParams.members r.params))
        { params := {} } = (r, none) := by
  obtain ⟨⟨auth⟩, ⟨x1, x2, x3, x4⟩⟩ := r
  have s0 : ∀ (a : String) (st : BotRequest),
      storeBotRequestMember (st, none) ("api_token", Json.str a) =
        ({ st with ApiToken := a }, none) := fun _ _ => rfl
  have s1 : ∀ (v : String) (st : BotRequest),
      storeBotRequestMember (st, none) ("bot_userid", Json.str v) =
        ({ st with params := { st.params with BotUserId := v } }, none) :=
    fun _ _ => rfl
  have s2 : ∀ (v : String) (st : BotRequest),
      storeBotRequestMember (st, none) ("bot_nickname", Json.str v) =
        ({ st with params := { st.params with BotNickname := v } }, none) :=
    fun _ _ => rfl
  have s3 : ∀ (v : String) (st : BotRequest),
      storeBotRequestMember (st, none) ("bot_callback_url", Json.str v) =
        ({ st with params := { st.params with BotCallbackUrl := v } }, none) :=
    fun _ _ => rfl
  have s4 : ∀ (v : Bool) (st : BotRequest),
      storeBotRequestMember (st, none) ("is_privacy_mode", Json.bool v) =
        ({ st with params := { st.params with IsPrivacyMode := v } }, none) :=
    fun _ _ => rfl
  unfold storeBotRequest storeStruct
  simp only [RequestDefaultsAPIV2.members, BotParams.members, List.foldl_append, List.foldl_cons,
    List.foldl_nil]
  rw [s0, s1, s2, s3, s4]

/-- A `BotUpdateRequest` is read back from its encoding. -/
theorem BotUpdateRequest_round_trip (r : BotUpdateRequest) :
    storeBotUpdateRequest
        (.obj (r.toRequestDefaultsAPIV2.members ++ BotUpdateParams.members r.params))
        { params := {} } = (r, none) := by
  obtain ⟨⟨auth⟩, ⟨x1, x2, x3⟩⟩ := r
  have s0 : ∀ (a : String) (st : BotUpdateRequest),
      storeBotUpdateRequestMember (st, none) ("api_token", Json.str a) =
        ({ st with ApiToken := a }, none) := fun _ _ => rfl
  have s1 : ∀ (v : String) (st : BotUpdateRequest),
      storeBotUpdateRequestMember (st, none) ("bot_nickname", Json.str v) =
        ({ st with params := { st.params with BotNickname := v } }, none) :=
    fun _ _ => rfl
  have s2 : ∀ (v : String) (st : BotUpdateRequest),
      storeBotUpdateRequestMember (st, none) ("bot_callback_url", Json.str v) =
        ({ st with params := { st.params with BotCallbackUrl := v } }, none) :=
    fun _ _ => rfl
  have s3 : ∀ (v : Bool) (st : BotUpdateRequest),
      storeBotUpdateRequestMember (st, none) ("is_privacy_mode", Json.bool v) =
        ({ st with params := { st.params with IsPrivacyMode := v } }, none) :=
    fun _ _ => rfl
  unfold storeBotUpdateRequest storeStruct
  simp only [RequestDefaultsAPIV2.members, BotUpdateParams.members, List.foldl_append, List.foldl_cons,
    List.foldl_nil]
  rw [s0, s1, s2, s3]

/-- A `BotMessageRequest` is read back from its encoding. -/
theorem BotMessageRequest_round_trip (r : BotMessageRequest) :
    storeBotMessageRequest
        (.obj (r.toRequestDefaultsAPIV2.members ++ BotMessageParams.members r.params))
        { params := {} } = (r, none) := by
  obtain ⟨⟨auth⟩, ⟨x1, x2, x3⟩⟩ := r
  have s0 : ∀ (a : String) (st : BotMessageRequest),
      storeBotMessageRequestMember (st, none) ("api_token", Json.str a) =
        ({ st with ApiToken := a }, none) := fun _ _ => rfl
  have s1 : ∀ (v : String) (st : BotMessageRequest),
      storeBotMessageRequestMember (st, none) ("message", Json.str v) =
        ({ st with params := { st.params with Message := v } }, none) :=
    fun _ _ => rfl
  have s2 : ∀ (v : String) (st : BotMessageRequest),
      storeBotMessageRequestMember (st, none) ("data", Json.str v) =
        ({ st with params := { st.params with Data := v } }, none) :=
    fun _ _ => rfl
  have s3 : ∀ (v : String) (st : BotMessageRequest),
      storeBotMessageRequestMember (st, none) ("channel_url", Json.str v) =
        ({ st with params := { st.params with ChannelUrl := v } }, none) :=
    fun _ _ => rfl
  unfold storeBotMessageRequest storeStruct
  simp only [RequestDefaultsAPIV2.members, BotMessageParams.members, List.foldl_append, List.foldl_cons,
    List.foldl_nil]
  rw [s0, s1, s2, s3]

/-- C24 (counterexample): `Chat.Update` on a request whose `Ops` is an empty,
non-nil slice sends a body without the member `ops`; decoded into a new
`ChatChannelUpdateRequest` the body gives `Ops` nil, while the request holds
the empty slice. -/
theorem envelope_empty_slice_lost_counterexample :
    sentBodies (ChatChannelServiceOp.Update (stubClient "t" 200 "\x7b\x7d")
        { params := { Name := "n", Ops := some [] } }).2 =
      [some (.obj [("auth", .str "t"), ("name", .str "n")])] ∧
    (storeChatChannelUpdateRequest (.obj [("auth", .str "t"), ("name", .str "n")])
        { params := {} }).1.params.Ops = none ∧
    (storeChatChannelUpdateRequest (.obj [("auth", .str "t"), ("name", .str "n")])
        { params := {} }).2 = none ∧
    (ChatChannelServiceOp.Update (stubClient "t" 200 "\x7b\x7d")
        { params := { Name := "n", Ops := some [] } }).1.params.Ops = some [] ∧
    (some [] : Slice String) ≠ none := by
  refine ⟨by decide!, by decide!, by decide!, by decide!, by decide⟩

/-- C24 (amended): for every operation that is handed a request envelope
(`Users`: `Create`, `Update`, `Auth`, `Block`, `UnBlock`, `Deactivate`; `Chat`:
`Create`, `Update`, `Send`, `GetMetadata`, `SetMetadata`, `GetMetacounter`,
`SetMetacounter`, `IncreaseMetacounter`, `DecreaseMetacounter`; `Messaging`:
`Create`, `Update`, `Invite`, `Hide`, `Leave`, `GetMetadata`, `SetMetadata`,
`GetMetacounter`, `SetMetacounter`, `IncreaseMetacounter`,
`DecreaseMetacounter`; `Admin`: `BroadcastMessage`, `ReadMessages`, `Mute`,
`UnMute`; `Bot`: `Create`, `SendMessage`, `Update`) and every envelope in which
no slice field tagged `omitempty` holds an empty, non-nil slice, the body of the
request the operation builds is a JSON document, and decoding it into a new
envelope of the same type gives, without error, the envelope as the operation
left it: the caller's fields, and the authentication field equal to the token of
the client.  An envelope holds Go values: an integer is in the range of int64
(`isInt64`) and a map holds its entries in key order, each key once
(`keysIncrease`). -/
theorem envelope_round_trip (c : SendbirdClient) (rq : HttpRequest) :
    (∀ r : UserRequest,
      (c.NewRequest (Envelope.encode UserParams.members) "POST" "/user/create"
        (some (r.PopulateAuthApiToken c))).1 = some rq →
      ∃ j, rq.Body = some j ∧
        storeUserRequest j { params := {} } = ((UserServiceOp.Create c r).1, none) ∧
        (UserServiceOp.Create c r).1.Auth = c.ApiToken ∧
        (UserServiceOp.Create c r).1.params = r.params) ∧
    (∀ r : UserRequest,
      (c.NewRequest (Envelope.encode UserParams.members) "POST" "/user/update"
        (some (r.PopulateAuthApiToken c))).1 = some rq →
      ∃ j, rq.Body = some j ∧
        storeUserRequest j { params := {} } = ((UserServiceOp.Update c r).1, none) ∧
        (UserServiceOp.Update c r).1.Auth = c.ApiToken ∧
        (UserServiceOp.Update c r).1.params = r.params) ∧
    (∀ r : UserRequest,
      (c.NewRequest (Envelope.encode UserParams.members) "POST" "/user/auth"
        (some (r.PopulateAuthApiToken c))).1 = some rq →
      ∃ j, rq.Body = some j ∧
        storeUserRequest j { params := {} } = ((UserServiceOp.Auth c r).1, none) ∧
        (UserServiceOp.Auth c r).1.Auth = c.ApiToken ∧
        (UserServiceOp.Auth c r).1.params = r.params) ∧
    (∀ r : BlockRequest,
      (c.NewRequest (Envelope.encode BlockParams.members) "POST" "/user/block"
        (some (r.PopulateAuthApiToken c))).1 = some rq →
      ∃ j, rq.Body = some j ∧
        storeBlockRequest j { params := {} } = ((UserServiceOp.Block c r).1, none) ∧
        (UserServiceOp.Block c r).1.Auth = c.ApiToken ∧
        (UserServiceOp.Block c r).1.params = r.params) ∧
    (∀ r : BlockRequest,
      (c.NewRequest (Envelope.encode BlockParams.members) "POST" "/user/unblock"
        (some (r.PopulateAuthApiToken c))).1 = some rq →
      ∃ j, rq.Body = some j ∧
        storeBlockRequest j { params := {} } = ((UserServiceOp.UnBlock c r).1, none) ∧
        (UserServiceOp.UnBlock c r).1.Auth = c.ApiToken ∧
        (UserServiceOp.UnBlock c r).1.params = r.params) ∧
    (∀ r : DeactivateRequest,
      (c.NewRequest (Envelope.encode IdParams.members) "POST" "/user/deactivate"
        (some (r.PopulateAuthApiToken c))).1 = some rq →
      ∃ j, rq.Body = some j ∧
        storeDeactivateRequest j { params := {} } = ((UserServiceOp.Deactivate c r).1, none) ∧
        (UserServiceOp.Deactivate c r).1.Auth = c.ApiToken ∧
        (UserServiceOp.Deactivate c r).1.params = r.params) ∧
    (∀ r : ChatChannelRequest,
      (c.NewRequest (Envelope.encode ChatChannelParams.members) "POST" "/channel/create"
        (some (r.PopulateAuthApiToken c))).1 = some rq →
      ∃ j, rq.Body = some j ∧
        storeChatChannelRequest j { params := {} } = ((ChatChannelServiceOp.Create c r).1, none) ∧
        (ChatChannelServiceOp.Create c r).1.Auth = c.ApiToken ∧
        (ChatChannelServiceOp.Create c r).1.params = r.params) ∧
    (∀ r : ChatChannelUpdateRequest, r.params.Ops ≠ some [] →
      (c.NewRequest (Envelope.encode ChatChannelUpdateParams.members) "POST" "/channel/update"
        (some (r.PopulateAuthApiToken c))).1 = some rq →
      ∃ j, rq.Body = some j ∧
        storeChatChannelUpdateRequest j { params := {} } =
          ((ChatChannelServiceOp.Update c r).1, none) ∧
        (ChatChannelServiceOp.Update c r).1.Auth = c.ApiToken ∧
        (ChatChannelServiceOp.Update c r).1.params = r.params) ∧
    (∀ r : ChatChannelMessageRequest,
      (c.NewRequest (Envelope.encode ChatChannelMessageParams.members) "POST" "/channel/send"
        (some (r.PopulateAuthApiToken c))).1 = some rq →
      ∃ j, rq.Body = some j ∧
        storeChatChannelMessageRequest j { params := {} } =
          ((ChatChannelServiceOp.Send c r).1, none) ∧
        (ChatChannelServiceOp.Send c r).1.Auth = c.ApiToken ∧
        (ChatChannelServiceOp.Send c r).1.params = r.params) ∧
    (∀ r : ChatChannelMetadataRequest,
      (c.NewRequest (Envelope.encode ChatChannelMetadataParams.members) "POST"
        "/channel/get_metadata"
        (some (r.PopulateAuthApiToken c))).1 = some rq →
      ∃ j, rq.Body = some j ∧
        storeChatChannelMetadataRequest j { params := {} } =
          ((ChatChannelServiceOp.GetMetadata c r).1, none) ∧
        (ChatChannelServiceOp.GetMetadata c r).1.Auth = c.ApiToken ∧
        (ChatChannelServiceOp.GetMetadata c r).1.params = r.params) ∧
    (∀ r : ChatChannelSetMetadataRequest, keysIncrease (r.params.Data.getD []) = true →
      (c.NewRequest (Envelope.encode ChatChannelSetMetadataParams.members) "POST"
        "/channel/set_metadata"
        (some (r.PopulateAuthApiToken c))).1 = some rq →
      ∃ j, rq.Body = some j ∧
        storeChatChannelSetMetadataRequest j { params := {} } =
          ((ChatChannelServiceOp.SetMetadata c r).1, none) ∧
        (ChatChannelServiceOp.SetMetadata c r).1.Auth = c.ApiToken ∧
        (ChatChannelServiceOp.SetMetadata c r).1.params = r.params) ∧
    (∀ r : ChatChannelMetacounterRequest,
      (c.NewRequest (Envelope.encode ChatChannelMetacounterParams.members) "POST"
        "/channel/get_metacounter"
        (some (r.PopulateAuthApiToken c))).1 = some rq →
      ∃ j, rq.Body = some j ∧
        storeChatChannelMetacounterRequest j { params := {} } =
          ((ChatChannelServiceOp.GetMetacounter c r).1, none) ∧
        (ChatChannelServiceOp.GetMetacounter c r).1.Auth = c.ApiToken ∧
        (ChatChannelServiceOp.GetMetacounter c r).1.params = r.params) ∧
    (∀ r : ChatChannelSetMetacounterRequest,
      keysIncrease (r.params.Data.getD []) = true →
      (∀ e ∈ r.params.Data.getD [], isInt64 e.2 = true) →
      (c.NewRequest (Envelope.encode ChatChannelSetMetacounterParams.members) "POST"
        "/channel/set_metacounter"
        (some (r.PopulateAuthApiToken c))).1 = some rq →
      ∃ j, rq.Body = some j ∧
        storeChatChannelSetMetacounterRequest j { params := {} } =
          ((ChatChannelServiceOp.SetMetacounter c r).1, none) ∧
        (ChatChannelServiceOp.SetMetacounter c r).1.Auth = c.ApiToken ∧
        (ChatChannelServiceOp.SetMetacounter c r).1.params = r.params) ∧
    (∀ r : ChatChannelSetMetacounterRequest,
      keysIncrease (r.params.Data.getD []) = true →
      (∀ e ∈ r.params.Data.getD [], isInt64 e.2 = true) →
      (c.NewRequest (Envelope.encode ChatChannelSetMetacounterParams.members) "POST"
        "/channel/incr_metacounter"
        (some (r.PopulateAuthApiToken c))).1 = some rq →
      ∃ j, rq.Body = some j ∧
        storeChatChannelSetMetacounterRequest j { params := {} } =
          ((ChatChannelServiceOp.IncreaseMetacounter c r).1, none) ∧
        (ChatChannelServiceOp.IncreaseMetacounter c r).1.Auth = c.ApiToken ∧
        (ChatChannelServiceOp.IncreaseMetacounter c r).1.params = r.params) ∧
    (∀ r : ChatChannelSetMetacounterRequest,
      keysIncrease (r.params.Data.getD []) = true →
      (∀ e ∈ r.params.Data.getD [], isInt64 e.2 = true) →
      (c.NewRequest (Envelope.encode ChatChannelSetMetacounterParams.members) "POST"
        "/channel/decr_metacounter"
        (some (r.PopulateAuthApiToken c))).1 = some rq →
      ∃ j, rq.Body = some j ∧
        storeChatChannelSetMetacounterRequest j { params := {} } =
          ((ChatChannelServiceOp.DecreaseMetacounter c r).1, none) ∧
        (ChatChannelServiceOp.DecreaseMetacounter c r).1.Auth = c.ApiToken ∧
        (ChatChannelServiceOp.DecreaseMetacounter c r).1.params = r.params) ∧
    (∀ r : MessagingChannelRequest,
      (c.NewRequest (Envelope.encode MessagingChannelParams.members) "POST" "/messaging/create"
        (some (r.PopulateAuthApiToken c))).1 = some rq →
      ∃ j, rq.Body = some j ∧
        storeMessagingChannelRequest j { params := {} } =
          ((MessagingChannelServiceOp.Create c r).1, none) ∧
        (MessagingChannelServiceOp.Create c r).1.Auth = c.ApiToken ∧
        (MessagingChannelServiceOp.Create c r).1.params = r.params) ∧
    (∀ r : MessagingChannelUpdateRequest,
      (c.NewRequest (Envelope.encode MessagingChannelUpdateParams.members) "POST"
        "/messaging/update"
        (some (r.PopulateAuthApiToken c))).1 = some rq →
      ∃ j, rq.Body = some j ∧
        storeMessagingChannelUpdateRequest j { params := {} } =
          ((MessagingChannelServiceOp.Update c r).1, none) ∧
        (MessagingChannelServiceOp.Update c r).1.Auth = c.ApiToken ∧
        (MessagingChannelServiceOp.Update c r).1.params = r.params) ∧
    (∀ r : MessagingChannelInviteRequest,
      (c.NewRequest (Envelope.encode MessagingChannelInviteParams.members) "POST"
        "/messaging/invite"
        (some (r.PopulateAuthApiToken c))).1 = some rq →
      ∃ j, rq.Body = some j ∧
        storeMessagingChannelInviteRequest j { params := {} } =
          ((MessagingChannelServiceOp.Invite c r).1, none) ∧
        (MessagingChannelServiceOp.Invite c r).1.Auth = c.ApiToken ∧
        (MessagingChannelServiceOp.Invite c r).1.params = r.params) ∧
    (∀ r : MessagingChannelHideRequest,
      (c.NewRequest (Envelope.encode MessagingChannelHideParams.members) "POST" "/messaging/hide"
        (some (r.PopulateAuthApiToken c))).1 = some rq →
      ∃ j, rq.Body = some j ∧
        storeMessagingChannelHideRequest j { params := {} } =
          ((MessagingChannelServiceOp.Hide c r).1, none) ∧
        (MessagingChannelServiceOp.Hide c r).1.Auth = c.ApiToken ∧
        (MessagingChannelServiceOp.Hide c r).1.params = r.params) ∧
    (∀ r : MessagingChannelLeaveRequest,
      (c.NewRequest (Envelope.encode MessagingChannelLeaveParams.members) "POST" "/messaging/leave"
        (some (r.PopulateAuthApiToken c))).1 = some rq →
      ∃ j, rq.Body = some j ∧
        storeMessagingChannelLeaveRequest j { params := {} } =
          ((MessagingChannelServiceOp.Leave c r).1, none) ∧
        (MessagingChannelServiceOp.Leave c r).1.Auth = c.ApiToken ∧
        (MessagingChannelServiceOp.Leave c r).1.params = r.params) ∧
    (∀ r : MessagingChannelMetadataRequest,
      (c.NewRequest (Envelope.encode MessagingChannelMetadataParams.members) "POST"
        "/messaging/get_metadata"
        (some (r.PopulateAuthApiToken c))).1 = some rq →
      ∃ j, rq.Body = some j ∧
        storeMessagingChannelMetadataRequest j { params := {} } =
          ((MessagingChannelServiceOp.GetMetadata c r).1, none) ∧
        (MessagingChannelServiceOp.GetMetadata c r).1.Auth = c.ApiToken ∧
        (MessagingChannelServiceOp.GetMetadata c r).1.params = r.params) ∧
    (∀ r : MessagingChannelSetMetadataRequest, keysIncrease (r.params.Data.getD []) = true →
      (c.NewRequest (Envelope.encode MessagingChannelSetMetadataParams.members) "POST"
        "/messaging/set_metadata"
        (some (r.PopulateAuthApiToken c))).1 = some rq →
      ∃ j, rq.Body = some j ∧
        storeMessagingChannelSetMetadataRequest j { params := {} } =
          ((MessagingChannelServiceOp.SetMetadata c r).1, none) ∧
        (MessagingChannelServiceOp.SetMetadata c r).1.Auth = c.ApiToken ∧
        (MessagingChannelServiceOp.SetMetadata c r).1.params = r.params) ∧
    (∀ r : MessagingChannelMetacounterRequest,
      (c.NewRequest (Envelope.encode MessagingChannelMetacounterParams.members) "POST"
        "/messaging/get_metacounter"
        (some (r.PopulateAuthApiToken c))).1 = some rq →
      ∃ j, rq.Body = some j ∧
        storeMessagingChannelMetacounterRequest j { params := {} } =
          ((MessagingChannelServiceOp.GetMetacounter c r).1, none) ∧
        (MessagingChannelServiceOp.GetMetacounter c r).1.Auth = c.ApiToken ∧
        (MessagingChannelServiceOp.GetMetacounter c r).1.params = r.params) ∧
    (∀ r : MessagingChannelSetMetacounterRequest,
      keysIncrease (r.params.Data.getD []) = true →
      (∀ e ∈ r.params.Data.getD [], isInt64 e.2 = true) →
      (c.NewRequest (Envelope.encode MessagingChannelSetMetacounterParams.members) "POST"
        "/messaging/set_metacounter"
        (some (r.PopulateAuthApiToken c))).1 = some rq →
      ∃ j, rq.Body = some j ∧
        storeMessagingChannelSetMetacounterRequest j { params := {} } =
          ((MessagingChannelServiceOp.SetMetacounter c r).1, none) ∧
        (MessagingChannelServiceOp.SetMetacounter c r).1.Auth = c.ApiToken ∧
        (MessagingChannelServiceOp.SetMetacounter c r).1.params = r.params) ∧
    (∀ r : MessagingChannelSetMetacounterRequest,
      keysIncrease (r.params.Data.getD []) = true →
      (∀ e ∈ r.params.Data.getD [], isInt64 e.2 = true) →
      (c.NewRequest (Envelope.encode MessagingChannelSetMetacounterParams.members) "POST"
        "/messaging/incr_metacounter"
        (some (r.PopulateAuthApiToken c))).1 = some rq →
      ∃ j, rq.Body = some j ∧
        storeMessagingChannelSetMetacounterRequest j { params := {} } =
          ((MessagingChannelServiceOp.IncreaseMetacounter c r).1, none) ∧
        (MessagingChannelServiceOp.IncreaseMetacounter c r).1.Auth = c.ApiToken ∧
        (MessagingChannelServiceOp.IncreaseMetacounter c r).1.params = r.params) ∧
    (∀ r : MessagingChannelSetMetacounterRequest,
      keysIncrease (r.params.Data.getD []) = true →
      (∀ e ∈ r.params.Data.getD [], isInt64 e.2 = true) →
      (c.NewRequest (Envelope.encode MessagingChannelSetMetacounterParams.members) "POST"
        "/messaging/decr_metacounter"
        (some (r.PopulateAuthApiToken c))).1 = some rq →
      ∃ j, rq.Body = some j ∧
        storeMessagingChannelSetMetacounterRequest j { params := {} } =
          ((MessagingChannelServiceOp.DecreaseMetacounter c r).1, none) ∧
        (MessagingChannelServiceOp.DecreaseMetacounter c r).1.Auth = c.ApiToken ∧
        (MessagingChannelServiceOp.DecreaseMetacounter c r).1.params = r.params) ∧
    (∀ r : BroadcastMessageRequest, r.params.ChannelUrls ≠ some [] →
      (c.NewRequest (Envelope.encode BroadcastMessageParams.members) "POST"
        "/admin/broadcast_message"
        (some (r.PopulateAuthApiToken c))).1 = some rq →
      ∃ j, rq.Body = some j ∧
        storeBroadcastMessageRequest j { params := {} } =
          ((AdminServiceOp.BroadcastMessage c r).1, none) ∧
        (AdminServiceOp.BroadcastMessage c r).1.Auth = c.ApiToken ∧
        (AdminServiceOp.BroadcastMessage c r).1.params = r.params) ∧
    (∀ r : ReadMessagesRequest,
      r.params.TargetUserIds ≠ some [] →
      isInt64 r.params.Limit = true →
      isInt64 r.params.MessageId = true →
      (c.NewRequest (Envelope.encode ReadMessagesParams.members) "POST" "/admin/read_messages"
        (some (r.PopulateAuthApiToken c))).1 = some rq →
      ∃ j, rq.Body = some j ∧
        storeReadMessagesRequest j { params := {} } = ((AdminServiceOp.ReadMessages c r).1, none) ∧
        (AdminServiceOp.ReadMessages c r).1.Auth = c.ApiToken ∧
        (AdminServiceOp.ReadMessages c r).1.params = r.params) ∧
    (∀ r : MuteRequest,
      (c.NewRequest (Envelope.encode MuteParams.members) "POST" "/admin/mute"
        (some (r.PopulateAuthApiToken c))).1 = some rq →
      ∃ j, rq.Body = some j ∧
        storeMuteRequest j { params := {} } = ((AdminServiceOp.Mute c r).1, none) ∧
        (AdminServiceOp.Mute c r).1.Auth = c.ApiToken ∧
        (AdminServiceOp.Mute c r).1.params = r.params) ∧
    (∀ r : UnMuteRequest,
      (c.NewRequest (Envelope.encode UnMuteParams.members) "POST" "/admin/unmute"
        (some (r.PopulateAuthApiToken c))).1 = some rq →
      ∃ j, rq.Body = some j ∧
        storeUnMuteRequest j { params := {} } = ((AdminServiceOp.UnMute c r).1, none) ∧
        (AdminServiceOp.UnMute c r).1.Auth = c.ApiToken ∧
        (AdminServiceOp.UnMute c r).1.params = r.params) ∧
    (∀ r : BotRequest,
      (c.NewRequest (EnvelopeV2.encode BotParams.members) "POST" "/v2/bots"
        (some (r.PopulateApiV2Token c))).1 = some rq →
      ∃ j, rq.Body = some j ∧
        storeBotRequest j { params := {} } = ((BotServiceOp.Create c r).1, none) ∧
        (BotServiceOp.Create c r).1.ApiToken = c.ApiToken ∧
        (BotServiceOp.Create c r).1.params = r.params) ∧
    (∀ (botUserId : String) (r : BotMessageRequest),
      (c.NewRequest (EnvelopeV2.encode BotMessageParams.members) "POST"
        ("v2/bots/" ++ botUserId ++ "/send")
        (some (r.PopulateApiV2Token c))).1 = some rq →
      ∃ j, rq.Body = some j ∧
        storeBotMessageRequest j { params := {} } =
          ((BotServiceOp.SendMessage c botUserId r).1, none) ∧
        (BotServiceOp.SendMessage c botUserId r).1.ApiToken = c.ApiToken ∧
        (BotServiceOp.SendMessage c botUserId r).1.params = r.params) ∧
    (∀ (botUserId : String) (r : BotUpdateRequest),
      (c.NewRequest (EnvelopeV2.encode BotUpdateParams.members) "POST" ("v2/bots/" ++ botUserId)
        (some (r.PopulateApiV2Token c))).1 = some rq →
      ∃ j, rq.Body = some j ∧
        storeBotUpdateRequest j { params := {} } = ((BotServiceOp.Update c botUserId r).1, none) ∧
        (BotServiceOp.Update c botUserId r).1.ApiToken = c.ApiToken ∧
        (BotServiceOp.Update c botUserId r).1.params = r.params) := by
  refine ⟨?_, ?_, ?_, ?_, ?_, ?_, ?_, ?_, ?_, ?_, ?_, ?_, ?_, ?_, ?_, ?_, ?_, ?_, ?_, ?_, ?_, ?_, ?_, ?_, ?_, ?_, ?_, ?_, ?_, ?_, ?_, ?_, ?_⟩
  · intro r hreq
    exact ⟨_, NewRequest_body c _ _ _ _ rq _ hreq rfl,
      UserRequest_round_trip (r.PopulateAuthApiToken c), rfl, rfl⟩
  · intro r hreq
    exact ⟨_, NewRequest_body c _ _ _ _ rq _ hreq rfl,
      UserRequest_round_trip (r.PopulateAuthApiToken c), rfl, rfl⟩
  · intro r hreq
    exact ⟨_, NewRequest_body c _ _ _ _ rq _ hreq rfl,
      UserRequest_round_trip (r.PopulateAuthApiToken c), rfl, rfl⟩
  · intro r hreq
    exact ⟨_, NewRequest_body c _ _ _ _ rq _ hreq rfl,
      BlockRequest_round_trip (r.PopulateAuthApiToken c), rfl, rfl⟩
  · intro r hreq
    exact ⟨_, NewRequest_body c _ _ _ _ rq _ hreq rfl,
      BlockRequest_round_trip (r.PopulateAuthApiToken c), rfl, rfl⟩
  · intro r hreq
    exact ⟨_, NewRequest_body c _ _ _ _ rq _ hreq rfl,
      DeactivateRequest_round_trip (r.PopulateAuthApiToken c), rfl, rfl⟩
  · intro r hreq
    exact ⟨_, NewRequest_body c _ _ _ _ rq _ hreq rfl,
      ChatChannelRequest_round_trip (r.PopulateAuthApiToken c), rfl, rfl⟩
  · intro r hOps hreq
    exact ⟨_, NewRequest_body c _ _ _ _ rq _ hreq rfl,
      ChatChannelUpdateRequest_round_trip (r.PopulateAuthApiToken c) hOps, rfl, rfl⟩
  · intro r hreq
    exact ⟨_, NewRequest_body c _ _ _ _ rq _ hreq rfl,
      ChatChannelMessageRequest_round_trip (r.PopulateAuthApiToken c), rfl, rfl⟩
  · intro r hreq
    exact ⟨_, NewRequest_body c _ _ _ _ rq _ hreq rfl,
      ChatChannelMetadataRequest_round_trip (r.PopulateAuthApiToken c), rfl, rfl⟩
  · intro r hData hreq
    exact ⟨_, NewRequest_body c _ _ _ _ rq _ hreq rfl,
      ChatChannelSetMetadataRequest_round_trip (r.PopulateAuthApiToken c) hData, rfl, rfl⟩
  · intro r hreq
    exact ⟨_, NewRequest_body c _ _ _ _ rq _ hreq rfl,
      ChatChannelMetacounterRequest_round_trip (r.PopulateAuthApiToken c), rfl, rfl⟩
  · intro r hData hDatav hreq
    exact ⟨_, NewRequest_body c _ _ _ _ rq _ hreq rfl,
      ChatChannelSetMetacounterRequest_round_trip (r.PopulateAuthApiToken c) hData hDatav, rfl, rfl⟩
  · intro r hData hDatav hreq
    exact ⟨_, NewRequest_body c _ _ _ _ rq _ hreq rfl,
      ChatChannelSetMetacounterRequest_round_trip (r.PopulateAuthApiToken c) hData hDatav, rfl, rfl⟩
  · intro r hData hDatav hreq
    exact ⟨_, NewRequest_body c _ _ _ _ rq _ hreq rfl,
      ChatChannelSetMetacounterRequest_round_trip (r.PopulateAuthApiToken c) hData hDatav, rfl, rfl⟩
  · intro r hreq
    exact ⟨_, NewRequest_body c _ _ _ _ rq _ hreq rfl,
      MessagingChannelRequest_round_trip (r.PopulateAuthApiToken c), rfl, rfl⟩
  · intro r hreq
    exact ⟨_, NewRequest_body c _ _ _ _ rq _ hreq rfl,
      MessagingChannelUpdateRequest_round_trip (r.PopulateAuthApiToken c), rfl, rfl⟩
  · intro r hreq
    exact ⟨_, NewRequest_body c _ _ _ _ rq _ hreq rfl,
      MessagingChannelInviteRequest_round_trip (r.PopulateAuthApiToken c), rfl, rfl⟩
  · intro r hreq
    exact ⟨_, NewRequest_body c _ _ _ _ rq _ hreq rfl,
      MessagingChannelHideRequest_round_trip (r.PopulateAuthApiToken c), rfl, rfl⟩
  · intro r hreq
    exact ⟨_, NewRequest_body c _ _ _ _ rq _ hreq rfl,
      MessagingChannelLeaveRequest_round_trip (r.PopulateAuthApiToken c), rfl, rfl⟩
  · intro r hreq
    exact ⟨_, NewRequest_body c _ _ _ _ rq _ hreq rfl,
      MessagingChannelMetadataRequest_round_trip (r.PopulateAuthApiToken c), rfl, rfl⟩
  · intro r hData hreq
    exact ⟨_, NewRequest_body c _ _ _ _ rq _ hreq rfl,
      MessagingChannelSetMetadataRequest_round_trip (r.PopulateAuthApiToken c) hData, rfl, rfl⟩
  · intro r hreq
    exact ⟨_, NewRequest_body c _ _ _ _ rq _ hreq rfl,
      MessagingChannelMetacounterRequest_round_trip (r.PopulateAuthApiToken c), rfl, rfl⟩
  · intro r hData hDatav hreq
    exact ⟨_, NewRequest_body c _ _ _ _ rq _ hreq rfl,
      MessagingChannelSetMetacounterRequest_round_trip (r.PopulateAuthApiToken c) hData hDatav, rfl, rfl⟩
  · intro r hData hDatav hreq
    exact ⟨_, NewRequest_body c _ _ _ _ rq _ hreq rfl,
      MessagingChannelSetMetacounterRequest_round_trip (r.PopulateAuthApiToken c) hData hDatav, rfl, rfl⟩
  · intro r hData hDatav hreq
    exact ⟨_, NewRequest_body c _ _ _ _ rq _ hreq rfl,
      MessagingChannelSetMetacounterRequest_round_trip (r.PopulateAuthApiToken c) hData hDatav, rfl, rfl⟩
  · intro r hChannelUrls hreq
    exact ⟨_, NewRequest_body c _ _ _ _ rq _ hreq rfl,
      BroadcastMessageRequest_round_trip (r.PopulateAuthApiToken c) hChannelUrls, rfl, rfl⟩
  · intro r hTargetUserIds hLimit hMessageId hreq
    exact ⟨_, NewRequest_body c _ _ _ _ rq _ hreq rfl,
      ReadMessagesRequest_round_trip (r.PopulateAuthApiToken c) hTargetUserIds hLimit hMessageId, rfl, rfl⟩
  · intro r hreq
    exact ⟨_, NewRequest_body c _ _ _ _ rq _ hreq rfl,
      MuteRequest_round_trip (r.PopulateAuthApiToken c), rfl, rfl⟩
  · intro r hreq
    exact ⟨_, NewRequest_body c _ _ _ _ rq _ hreq rfl,
      UnMuteRequest_round_trip (r.PopulateAuthApiToken c), rfl, rfl⟩
  · intro r hreq
    exact ⟨_, NewRequest_body c _ _ _ _ rq _ hreq rfl,
      BotRequest_round_trip (r.PopulateApiV2Token c), rfl, rfl⟩
  · intro botUserId r hreq
    exact ⟨_, NewRequest_body c _ _ _ _ rq _ hreq rfl,
      BotMessageRequest_round_trip (r.PopulateApiV2Token c), rfl, rfl⟩
  · intro botUserId r hreq
    exact ⟨_, NewRequest_body c _ _ _ _ rq _ hreq rfl,
      BotUpdateRequest_round_trip (r.PopulateApiV2Token c), rfl, rfl⟩

/-- The update of the package's tests, and metacounters set on a chat channel. -/
theorem envelope_round_trip_witness :
    (∃ j, some (Json.obj [("auth", .str "t"), ("channel_url", .str "chat_channel_url"),
          ("name", .str "new chat channel"),
          ("cover_url", .str "https://sendbird/images/cover_url.jpg"),
          ("data", .str "extra data"), ("ops", .arr [.str "user_id_1", .str "user_id_2"])]) =
        some j ∧
      storeChatChannelUpdateRequest j { params := {} } =
        ((ChatChannelServiceOp.Update (stubClient "t" 200 "\x7b\x7d")
          { params := { ChannelUrl := "chat_channel_url", Name := "new chat channel",
                        CoverUrl := "https://sendbird/images/cover_url.jpg",
                        Data := "extra data", Ops := some ["user_id_1", "user_id_2"] } }).1,
          none) ∧
      (ChatChannelServiceOp.Update (stubClient "t" 200 "\x7b\x7d")
          { params := { ChannelUrl := "chat_channel_url", Name := "new chat channel",
                        CoverUrl := "https://sendbird/images/cover_url.jpg",
                        Data := "extra data", Ops := some ["user_id_1", "user_id_2"] } }).1.Auth =
        "t" ∧
      (ChatChannelServiceOp.Update (stubClient "t" 200 "\x7b\x7d")
          { params := { ChannelUrl := "chat_channel_url", Name := "new chat channel",
                        CoverUrl := "https://sendbird/images/cover_url.jpg",
                        Data := "extra data", Ops := some ["user_id_1", "user_id_2"] } }).1.params =
        { ChannelUrl := "chat_channel_url", Name := "new chat channel",
          CoverUrl := "https://sendbird/images/cover_url.jpg",
          Data := "extra data", Ops := some ["user_id_1", "user_id_2"] }) ∧
    (∃ j, some (Json.obj [("auth", .str "t"), ("channel_url", .str "c1"),
          ("data", .obj [("likes", .num "3"), ("views", .num "-2")])]) = some j ∧
      storeChatChannelSetMetacounterRequest j { params := {} } =
        ((ChatChannelServiceOp.SetMetacounter (stubClient "t" 200 "\x7b\x7d")
          { params := { ChannelUrl := "c1", Data := some [("likes", 3), ("views", -2)] } }).1,
          none) ∧
      (ChatChannelServiceOp.SetMetacounter (stubClient "t" 200 "\x7b\x7d")
          { params := { ChannelUrl := "c1", Data := some [("likes", 3), ("views", -2)] } }).1.Auth =
        "t" ∧
      (ChatChannelServiceOp.SetMetacounter (stubClient "t" 200 "\x7b\x7d")
          { params := { ChannelUrl := "c1", Data := some [("likes", 3), ("views", -2)] } }).1.params =
        { ChannelUrl := "c1", Data := some [("likes", 3), ("views", -2)] }) :=
  ⟨(envelope_round_trip (stubClient "t" 200 "\x7b\x7d")
      { Method := "POST",
        URL := { Scheme := "https", Host := "api.sendbird.com", Path := "/channel/update" },
        Header := [("Content-Type", "application/json, charset=utf8")],
        Body := some (.obj [("auth", .str "t"), ("channel_url", .str "chat_channel_url"),
          ("name", .str "new chat channel"),
          ("cover_url", .str "https://sendbird/images/cover_url.jpg"),
          ("data", .str "extra data"), ("ops", .arr [.str "user_id_1", .str "user_id_2"])]) }
      ).2.2.2.2.2.2.2.1
      { params := { ChannelUrl := "chat_channel_url", Name := "new chat channel",
                    CoverUrl := "https://sendbird/images/cover_url.jpg",
                    Data := "extra data", Ops := some ["user_id_1", "user_id_2"] } }
      (by decide) (by decide!),
    (envelope_round_trip (stubClient "t" 200 "\x7b\x7d")
      { Method := "POST",
        URL := { Scheme := "https", Host := "api.sendbird.com", Path := "/channel/set_metacounter" },
        Header := [("Content-Type", "application/json, charset=utf8")],
        Body := some (.obj [("auth", .str "t"), ("channel_url", .str "c1"),
          ("data", .obj [("likes", .num "3"), ("views", .num "-2")])]) }
      ).2.2.2.2.2.2.2.2.2.2.2.2.1
      { params := { ChannelUrl := "c1", Data := some [("likes", 3), ("views", -2)] } }
      (by decide!) (by decide!) (by decide!)⟩

/-! ## The wrapper of a messaging channel -/

/-- What `Messaging.Create` and `Messaging.Update` make of a response with a
status of the 200 range whose body holds an object: the field `Channel` of the
decoded response when the members were stored without error, and the error
and no record otherwise. -/
theorem finishChannel_of_object (c : SendbirdClient) (rq : HttpRequest) (resp : HttpResponse)
    (kvs : List (String × Json)) (hresp : c.client rq = .ok resp)
    (h2xx : 200 ≤ resp.StatusCode ∧ resp.StatusCode ≤ 299)
    (hbody : decodeFirst resp.Body.data = some (.obj kvs)) :
    ∃ r, finishChannel (c.Do storeMessagingChannelResponse (some rq) (.value {})) = .returned r ∧
      ((kvs.foldl storeMessagingChannelResponseMember ({}, none)).2 = none →
        r.err = none ∧
        r.result = some (kvs.foldl storeMessagingChannelResponseMember ({}, none)).1.Channel) ∧
      (∀ e, (kvs.foldl storeMessagingChannelResponseMember ({}, none)).2 = some e →
        r.err = some (.json e) ∧ r.result = none) := by
  unfold finishChannel finishTyped SendbirdClient.Do
  simp only [hresp, CheckResponse_2xx resp h2xx, decodeBody, readDocument_of_obj resp.Body kvs hbody, storeMessagingChannelResponse,
    storeStruct]
  cases hs : (kvs.foldl storeMessagingChannelResponseMember ({}, none)).2 with
  | none =>
    simp only [Option.map_none']
    exact ⟨_, rfl, fun _ => ⟨rfl, rfl⟩, fun e he => (by cases he)⟩
  | some e =>
    simp only [Option.map_some']
    exact ⟨_, rfl, fun h => (by cases h), fun e2 he => (by cases he; exact ⟨rfl, rfl⟩)⟩

/-- Members that a fold leaves aside can be dropped from the list. -/
theorem foldl_filter_of_skip {σ κ : Type} (f : σ → κ → σ) (p : κ → Bool)
    (hskip : ∀ st kv, p kv = false → f st kv = st) (kvs : List κ) (st : σ) :
    kvs.foldl f st = (kvs.filter p).foldl f st := by
  induction kvs generalizing st with
  | nil => rfl
  | cons kv rest ih =>
    cases hp : p kv with
    | true => simp only [List.foldl_cons, List.filter_cons_of_pos hp, ih]
    | false =>
      have hn : ¬ p kv = true := by simp [hp]
      simp only [List.foldl_cons, List.filter_cons_of_neg hn, hskip st kv hp, ih]

/-- C25: for a response with status 200 whose body is an object,
`Messaging.Create` and `Messaging.Update` return the field `Channel` of the
decoded response, and no error, when the members are stored without error, and
the error and a nil record otherwise.  The decoded response is made of the
members whose key selects `channel` alone: every other top-level member is
left aside.  For the body `{"channel": C}` the record returned is the decoding
of `C` into a new `MessagingChannel`, whose members `channel_url`, `data`,
`name`, `is_group` and `cover_url` fill the fields of those names. -/
theorem Messaging_channel_read_from_wrapper (c : SendbirdClient) (rq : HttpRequest)
    (resp : HttpResponse) (kvs : List (String × Json)) (hresp : c.client rq = .ok resp)
    (hstatus : resp.StatusCode = 200)
    (hbody : decodeFirst resp.Body.data = some (.obj kvs)) :
    (∀ params : MessagingChannelRequest,
      (c.NewRequest (Envelope.encode MessagingChannelParams.members) "POST" "/messaging/create"
        (some (params.PopulateAuthApiToken c))).1 = some rq →
      ∃ r, (MessagingChannelServiceOp.Create c params).2 = .returned r ∧
        ((kvs.foldl storeMessagingChannelResponseMember ({}, none)).2 = none →
          r.err = none ∧
          r.result = some (kvs.foldl storeMessagingChannelResponseMember ({}, none)).1.Channel) ∧
        (∀ e, (kvs.foldl storeMessagingChannelResponseMember ({}, none)).2 = some e →
          r.err = some (.json e) ∧ r.result = none)) ∧
    (∀ params : MessagingChannelUpdateRequest,
      (c.NewRequest (Envelope.encode MessagingChannelUpdateParams.members) "POST"
        "/messaging/update" (some (params.PopulateAuthApiToken c))).1 = some rq →
      ∃ r, (MessagingChannelServiceOp.Update c params).2 = .returned r ∧
        ((kvs.foldl storeMessagingChannelResponseMember ({}, none)).2 = none →
          r.err = none ∧
          r.result = some (kvs.foldl storeMessagingChannelResponseMember ({}, none)).1.Channel) ∧
        (∀ e, (kvs.foldl storeMessagingChannelResponseMember ({}, none)).2 = some e →
          r.err = some (.json e) ∧ r.result = none)) ∧
    kvs.foldl storeMessagingChannelResponseMember ({}, none) =
      (kvs.filter fun kv => matchesField kv.1 "channel").foldl
        storeMessagingChannelResponseMember ({}, none) ∧
    (∀ C : Json, kvs = [("channel", C)] →
      kvs.foldl storeMessagingChannelResponseMember ({}, none) =
        ({ Channel := (storeMessagingChannelValue C {} none).1 },
          (storeMessagingChannelValue C {} none).2)) ∧
    (∀ u d n v : String, ∀ g : Bool,
      storeMessagingChannelValue (.obj [("channel_url", .str u), ("data", .str d),
          ("name", .str n), ("is_group", .bool g), ("cover_url", .str v)]) {} none =
        ({ ChannelUrl := u, Data := d, Name := n, IsGroup := g, CoverUrl := v }, none)) := by
  have h2xx : 200 ≤ resp.StatusCode ∧ resp.StatusCode ≤ 299 := by omega
  have key := finishChannel_of_object c rq resp kvs hresp h2xx hbody
  refine ⟨?_, ?_, ?_, ?_, ?_⟩
  · intro params hreq
    unfold MessagingChannelServiceOp.Create
    dsimp only
    rw [hreq]
    exact key
  · intro params hreq
    unfold MessagingChannelServiceOp.Update
    dsimp only
    rw [hreq]
    exact key
  · exact foldl_filter_of_skip storeMessagingChannelResponseMember
      (fun kv => matchesField kv.1 "channel")
      (fun st kv hp => by
        unfold storeMessagingChannelResponseMember
        simp only [hp, Bool.false_eq_true, if_false]) kvs _
  · intro C hk
    rw [hk]
    rfl
  · intro u d n v g
    rfl

/-- The response of the package's tests for `Messaging.Create`, with a
top-level member `name` added. -/
theorem Messaging_channel_read_from_wrapper_witness :
    ∃ r, (MessagingChannelServiceOp.Create
        (stubClient "t" 200
          "\x7b\"channel\":\x7b\"channel_url\":\"c1\",\"name\":\"inner\",\"is_group\":true\x7d,\"name\":\"outer\"\x7d")
        { params := { Name := "inner" } }).2 = .returned r ∧
      r.err = none ∧
      r.result = some { ChannelUrl := "c1", Name := "inner", IsGroup := true } :=
  match (Messaging_channel_read_from_wrapper
    (stubClient "t" 200
      "\x7b\"channel\":\x7b\"channel_url\":\"c1\",\"name\":\"inner\",\"is_group\":true\x7d,\"name\":\"outer\"\x7d")
    { Method := "POST",
      URL := { Scheme := "https", Host := "api.sendbird.com", Path := "/messaging/create" },
      Header := [("Content-Type", "application/json, charset=utf8")],
      Body := some (.obj [("auth", .str "t"), ("name", .str "inner")]) }
    { StatusCode := 200,
      Request := some
        { Method := "POST",
          URL := { Scheme := "https", Host := "api.sendbird.com", Path := "/messaging/create" },
          Header := [("Content-Type", "application/json, charset=utf8")],
          Body := some (.obj [("auth", .str "t"), ("name", .str "inner")]) },
      Body := { data :=
        "\x7b\"channel\":\x7b\"channel_url\":\"c1\",\"name\":\"inner\",\"is_group\":true\x7d,\"name\":\"outer\"\x7d" } }
    [("channel", .obj [("channel_url", .str "c1"), ("name", .str "inner"), ("is_group", .bool true)]),
      ("name", .str "outer")]
    rfl rfl (by decide!)).1 { params := { Name := "inner" } } (by decide!) with
  | ⟨r, h1, h2, _⟩ => ⟨r, h1, (h2 (by decide!)).1, (h2 (by decide!)).2⟩

/-! ## Operations without a typed result -/

/-- With a nil destination `Do` returns the response and no error as soon as
the HTTP client answered with a status of the 200 range: the body is not read. -/
theorem Do_nil_of_answered2xx {α : Type} (c : SendbirdClient)
    (store : Json → α → α × Option JsonError) (req : Option HttpRequest)
    (h : answered2xx c req = true) :
    ∃ d, c.Do store req .nil = .returned d ∧ d.err = none ∧ d.closePanicked = false ∧
      ∃ rq resp, req = some rq ∧ c.client rq = .ok resp ∧
        d.response = some (newResponse { resp with Body := resp.Body.Close }) := by
  unfold answered2xx at h
  cases req with
  | none => simp at h
  | some rq =>
    simp only at h
    cases hc : c.client rq with
    | error e => simp [hc] at h
    | ok resp =>
      simp only [hc, decide_eq_true_eq] at h
      unfold SendbirdClient.Do
      simp only [hc, CheckResponse_2xx resp h]
      exact ⟨_, rfl, rfl, rfl, rq, resp, rfl, hc, rfl⟩

/-- C26: each of `Admin.BroadcastMessage`, `Admin.MuteAllChannels`,
`Admin.UnMuteAllChannels`, `Chat.Delete`, `Chat.Send`, `Users.Block`,
`Users.UnBlock` and `Users.Deactivate` hands `Do` a nil destination; whenever
the HTTP client answers the request of the operation with a status from 200 to
299, the operation returns the response, with its body unread, and no error,
whatever the body holds. -/
theorem untyped_operations_ignore_body (c : SendbirdClient) :
    (∀ params : BroadcastMessageRequest,
      answered2xx c (c.NewRequest (Envelope.encode BroadcastMessageParams.members) "POST"
        "/admin/broadcast_message" (some (params.PopulateAuthApiToken c))).1 = true →
      ∃ d, (AdminServiceOp.BroadcastMessage c params).2 = .returned d ∧ d.err = none ∧
        ∃ rq resp, c.client rq = .ok resp ∧
          d.response = some (newResponse { resp with Body := resp.Body.Close })) ∧
    (∀ userId : String,
      answered2xx c (c.NewRequest (Envelope.encode IdParams.members) "POST" "/admin/mute"
        (some (Envelope.PopulateAuthApiToken { params := { Id := userId } } c))).1 = true →
      ∃ d, AdminServiceOp.MuteAllChannels c userId = .returned d ∧ d.err = none ∧
        ∃ rq resp, c.client rq = .ok resp ∧
          d.response = some (newResponse { resp with Body := resp.Body.Close })) ∧
    (∀ userId : String,
      answered2xx c (c.NewRequest (Envelope.encode IdParams.members) "POST" "/admin/unmute"
        (some (Envelope.PopulateAuthApiToken { params := { Id := userId } } c))).1 = true →
      ∃ d, AdminServiceOp.UnMuteAllChannels c userId = .returned d ∧ d.err = none ∧
        ∃ rq resp, c.client rq = .ok resp ∧
          d.response = some (newResponse { resp with Body := resp.Body.Close })) ∧
    (∀ channelUrl : String,
      answered2xx c (c.NewRequest (Envelope.encode ChatChannelParams.members) "POST"
        "/channel/delete"
        (some (Envelope.PopulateAuthApiToken { params := { ChannelUrl := channelUrl } } c))).1 =
          true →
      ∃ d, ChatChannelServiceOp.Delete c channelUrl = .returned d ∧ d.err = none ∧
        ∃ rq resp, c.client rq = .ok resp ∧
          d.response = some (newResponse { resp with Body := resp.Body.Close })) ∧
    (∀ params : ChatChannelMessageRequest,
      answered2xx c (c.NewRequest (Envelope.encode ChatChannelMessageParams.members) "POST"
        "/channel/send" (some (params.PopulateAuthApiToken c))).1 = true →
      ∃ d, (ChatChannelServiceOp.Send c params).2 = .returned d ∧ d.err = none ∧
        ∃ rq resp, c.client rq = .ok resp ∧
          d.response = some (newResponse { resp with Body := resp.Body.Close })) ∧
    (∀ params : BlockRequest,
      answered2xx c (c.NewRequest (Envelope.encode BlockParams.members) "POST" "/user/block"
        (some (params.PopulateAuthApiToken c))).1 = true →
      ∃ d, (UserServiceOp.Block c params).2 = .returned d ∧ d.err = none ∧
        ∃ rq resp, c.client rq = .ok resp ∧
          d.response = some (newResponse { resp with Body := resp.Body.Close })) ∧
    (∀ params : BlockRequest,
      answered2xx c (c.NewRequest (Envelope.encode BlockParams.members) "POST" "/user/unblock"
        (some (params.PopulateAuthApiToken c))).1 = true →
      ∃ d, (UserServiceOp.UnBlock c params).2 = .returned d ∧ d.err = none ∧
        ∃ rq resp, c.client rq = .ok resp ∧
          d.response = some (newResponse { resp with Body := resp.Body.Close })) ∧
    (∀ params : DeactivateRequest,
      answered2xx c (c.NewRequest (Envelope.encode IdParams.members) "POST" "/user/deactivate"
        (some (params.PopulateAuthApiToken c))).1 = true →
      ∃ d, (UserServiceOp.Deactivate c params).2 = .returned d ∧ d.err = none ∧
        ∃ rq resp, c.client rq = .ok resp ∧
          d.response = some (newResponse { resp with Body := resp.Body.Close })) := by
  have key : ∀ req : Option HttpRequest, answered2xx c req = true →
      ∃ d, afterDeferred (c.Do storeNothing req .nil) = .returned d ∧ d.err = none ∧
        ∃ rq resp, c.client rq = .ok resp ∧
          d.response = some (newResponse { resp with Body := resp.Body.Close }) := by
    intro req h
    obtain ⟨d, hd, he, hp, rq, resp, _, hc, hr⟩ := Do_nil_of_answered2xx c storeNothing req h
    refine ⟨d, ?_, he, rq, resp, hc, hr⟩
    rw [hd]
    simp only [afterDeferred, hp, Bool.false_eq_true, if_false]
  refine ⟨?_, ?_, ?_, ?_, ?_, ?_, ?_, ?_⟩
  · intro a h
    unfold AdminServiceOp.BroadcastMessage
    dsimp only
    exact key _ h
  · intro a h
    unfold AdminServiceOp.MuteAllChannels
    dsimp only
    exact key _ h
  · intro a h
    unfold AdminServiceOp.UnMuteAllChannels
    dsimp only
    exact key _ h
  · intro a h
    unfold ChatChannelServiceOp.Delete
    dsimp only
    exact key _ h
  · intro a h
    unfold ChatChannelServiceOp.Send
    dsimp only
    exact key _ h
  · intro a h
    unfold UserServiceOp.Block
    dsimp only
    exact key _ h
  · intro a h
    unfold UserServiceOp.UnBlock
    dsimp only
    exact key _ h
  · intro a h
    unfold UserServiceOp.Deactivate
    dsimp only
    exact key _ h

/-- The broadcast of the package's tests, answered with status 200 and a body
that is not JSON, and answered with an empty body. -/
theorem untyped_operations_ignore_body_witness :
    (∃ d, (AdminServiceOp.BroadcastMessage (stubClient "t" 200 "not json")
        { params := { ChannelUrls := some ["c1", "c2"], Message := "hi", Persistent := true,
                      Data := "x" } }).2 = .returned d ∧ d.err = none ∧
      ∃ rq resp, (stubClient "t" 200 "not json").client rq = .ok resp ∧
        d.response = some (newResponse { resp with Body := resp.Body.Close })) ∧
    (∃ d, ChatChannelServiceOp.Delete (stubClient "t" 204 "") "c1" = .returned d ∧ d.err = none ∧
      ∃ rq resp, (stubClient "t" 204 "").client rq = .ok resp ∧
        d.response = some (newResponse { resp with Body := resp.Body.Close })) :=
  ⟨(untyped_operations_ignore_body (stubClient "t" 200 "not json")).1
      { params := { ChannelUrls := some ["c1", "c2"], Message := "hi", Persistent := true,
                    Data := "x" } } (by decide!),
    (untyped_operations_ignore_body (stubClient "t" 204 "")).2.2.2.1 "c1" (by decide!)⟩

/-! ## Typed results and errors -/

/-- The status check passes a response on unchanged when it reports no error. -/
theorem CheckResponse_of_no_error (r r1 : HttpResponse) (h : CheckResponse r = (r1, none)) :
    r1 = r := by
  have h2 : (CheckResponse r).2 = none := by rw [h]
  have h1 : (CheckResponse r).1 = r1 := by rw [h]
  by_cases hc : 200 ≤ r.StatusCode ∧ r.StatusCode ≤ 299
  · rw [CheckResponse_2xx r hc] at h1
    exact h1.symm
  · exfalso
    unfold CheckResponse at h2
    rw [if_neg hc] at h2
    by_cases h404 : r.StatusCode = 404
    · rw [if_pos h404] at h2
      simp at h2
    · rw [if_neg h404] at h2
      simp only [ReadAll] at h2
      split at h2
      · split at h2 <;> simp at h2
      · simp at h2

/-- A transport failure leaves no nil `Body` to the deferred `Close`, and
neither does a response whose `Body` the HTTP client has set when its status
is of the 200 range or 404, when its body breaks while it is read, is empty,
or is not a JSON object. -/
theorem closesNilBody_false (c : SendbirdClient) (rq : HttpRequest) :
    (∀ e, c.client rq = .error e → c.closesNilBody rq = false) ∧
    (∀ resp, c.client rq = .ok resp → resp.NilBody = false →
      (200 ≤ resp.StatusCode ∧ resp.StatusCode ≤ 299) ∨ resp.StatusCode = 404 ∨
        resp.Body.readErr ≠ none ∨ resp.Body.data = "" ∨
        (∀ kvs, parseJSON resp.Body.data ≠ some (.obj kvs)) →
      c.closesNilBody rq = false) := by
  refine ⟨fun e he => ?_, fun resp hr hb hs => ?_⟩
  · simp only [SendbirdClient.closesNilBody, he]
  · simp only [SendbirdClient.closesNilBody, hr]
    by_cases h2 : 200 ≤ resp.StatusCode ∧ resp.StatusCode ≤ 299
    · rw [CheckResponse_2xx resp h2]
      rfl
    · by_cases h4 : resp.StatusCode = 404
      · unfold CheckResponse
        rw [if_neg h2, if_pos h4]
        simp only [Option.isSome_some, hb, Bool.and_false]
      · have hs2 : resp.Body.readErr ≠ none ∨ resp.Body.data = "" ∨
            (∀ kvs, parseJSON resp.Body.data ≠ some (.obj kvs)) := by
          rcases hs with h | h | h
          · exact absurd h h2
          · exact absurd h h4
          · exact h
        unfold CheckResponse
        rw [if_neg h2, if_neg h4]
        simp only [ReadAll]
        by_cases hc : resp.Body.readErr.isNone = true ∧ resp.Body.data.length > 0
        · rw [if_pos hc]
          have hj : ∀ kvs, parseJSON resp.Body.data ≠ some (.obj kvs) := by
            rcases hs2 with h | h | h
            · cases hre : resp.Body.readErr with
              | none => exact absurd hre h
              | some m => rw [hre] at hc; exact absurd hc.1 (by simp)
            · rw [h] at hc
              exact absurd hc.2 (by decide)
            · exact h
          unfold unmarshalErrorResponse
          cases hp : parseJSON resp.Body.data with
          | none => simp only [Option.isSome_some, hb, Bool.and_false]
          | some j =>
            cases j with
            | obj kvs => exact absurd hp (hj kvs)
            | null => simp only [Option.isSome_some, hb, Bool.and_false]
            | bool b => simp only [Option.isSome_some, hb, Bool.and_false]
            | num n => simp only [Option.isSome_some, hb, Bool.and_false]
            | str s => simp only [Option.isSome_some, hb, Bool.and_false]
            | arr xs => simp only [Option.isSome_some, hb, Bool.and_false]
        · rw [if_neg hc]
          simp only [Option.isSome_some, hb, Bool.and_false]

/-- What `Do` hands to its caller for a destination to decode into: the panic
of the deferred `Close`, or a return at which the destination is still one and
at which a nil error tells that the document of the body was stored. -/
theorem Do_value_cases {α : Type} (c : SendbirdClient) (store : Json → α → α × Option JsonError)
    (rq : HttpRequest) (x : α) :
    (c.closesNilBody rq = true → afterDeferred (c.Do store (some rq) (.value x)) = .panic) ∧
    (c.closesNilBody rq = false →
      ∃ d y, afterDeferred (c.Do store (some rq) (.value x)) = .returned d ∧ d.v = .value y ∧
        (d.err = none → ∃ resp, c.client rq = .ok resp ∧
          ∃ j, readDocument resp.Body = .ok j ∧ (store j x).2 = none ∧ y = (store j x).1)) := by
  unfold SendbirdClient.closesNilBody SendbirdClient.Do
  simp only
  cases c.client rq with
  | error e =>
    simp only
    exact ⟨fun h => (by cases h), fun _ => ⟨_, x, rfl, rfl, fun h => (by cases h)⟩⟩
  | ok resp =>
    simp only
    cases hk : CheckResponse resp with
    | mk resp1 err =>
      cases err with
      | some e =>
        simp only [Option.isSome_some, Bool.true_and]
        refine ⟨fun h => ?_, fun h => ?_⟩
        · simp only [afterDeferred, h, if_true]
        · simp only [afterDeferred, h, Bool.false_eq_true, if_false]
          exact ⟨_, x, rfl, rfl, fun h => (by cases h)⟩
      | none =>
        have h1 := CheckResponse_of_no_error resp resp1 hk
        subst h1
        simp only [Option.isSome_none, Bool.false_and, Bool.false_eq_true, false_implies, true_and,
          decodeBody]
        intro _
        cases hj : readDocument resp1.Body with
        | error e0 =>
          simp only
          exact ⟨_, x, rfl, rfl, fun h => (by cases h)⟩
        | ok j =>
          simp only
          cases hs : (store j x).2 with
          | some e =>
            simp only [Option.map_some']
            exact ⟨_, _, rfl, rfl, fun h => (by cases h)⟩
          | none =>
            simp only [Option.map_none']
            exact ⟨_, _, rfl, rfl, fun _ => ⟨resp1, rfl, j, hj, hs, rfl⟩⟩

/-- The operations that return a typed pointer: when the deferred `Close`
panics so do they, and otherwise they return, with nil exactly when they return
an error. -/
theorem finishTyped_Do_nil_iff {α : Type} (c : SendbirdClient)
    (store : Json → α → α × Option JsonError) (rq : HttpRequest) (x : α) :
    (c.closesNilBody rq = true → finishTyped (c.Do store (some rq) (.value x)) = .panic) ∧
    (c.closesNilBody rq = false →
      ∃ r, finishTyped (c.Do store (some rq) (.value x)) = .returned r ∧
        (r.result = none ↔ r.err ≠ none)) := by
  obtain ⟨hp, hr⟩ := Do_value_cases c store rq x
  refine ⟨fun h => ?_, fun h => ?_⟩
  · unfold finishTyped
    rw [hp h]
  · obtain ⟨d, y, hd, hy, _⟩ := hr h
    unfold finishTyped
    rw [hd]
    cases he : d.err with
    | some e =>
      simp only [he]
      exact ⟨_, rfl, by simp⟩
    | none =>
      simp only [he, hy]
      exact ⟨_, rfl, by simp⟩

/-- The operations that return a slice or a map: when the deferred `Close`
panics so do they; otherwise they return, an error comes with a nil result,
and a call without error returns nil exactly when the document the decoder
read is null. -/
theorem finishSlice_Do_nil_iff {τ : Type} (c : SendbirdClient)
    (store : Json → Slice τ → Slice τ × Option JsonError) (post : List τ → List τ)
    (rq : HttpRequest) (hnull : ∀ cur, store .null cur = (none, none))
    (hsome : ∀ j cur, j ≠ .null → (store j cur).2 = none → (store j cur).1 ≠ none) :
    (c.closesNilBody rq = true →
      finishSlice post (c.Do store (some rq) (.value (some []))) = .panic) ∧
    (c.closesNilBody rq = false →
      ∃ r, finishSlice post (c.Do store (some rq) (.value (some []))) = .returned r ∧
        (r.err ≠ none → r.result = none) ∧
        (∀ resp, c.client rq = .ok resp → r.err = none →
          (r.result = none ↔ readDocument resp.Body = .ok .null))) := by
  obtain ⟨hp, hr⟩ := Do_value_cases c store rq (some [])
  refine ⟨fun h => ?_, fun h => ?_⟩
  · unfold finishSlice
    rw [hp h]
  · obtain ⟨d, y, hd, hy, hok⟩ := hr h
    unfold finishSlice
    rw [hd]
    cases he : d.err with
    | some e =>
      simp only [he]
      exact ⟨_, rfl, fun _ => rfl, fun _ _ h0 => by cases h0⟩
    | none =>
      simp only [he, hy]
      refine ⟨_, rfl, fun h0 => absurd rfl h0, fun resp hresp _ => ?_⟩
      obtain ⟨resp2, hresp2, j, hj, hs, hyj⟩ := hok he
      rw [hresp] at hresp2
      cases hresp2
      rw [hj, hyj]
      simp only [Option.map_eq_none', Except.ok.injEq]
      constructor
      · intro hn
        by_contra hne
        exact hsome j (some []) hne hs hn
      · intro hn
        rw [hn, hnull]

/-- A document other than null that a slice stores without error leaves a
slice that is not nil. -/
theorem storeSlice_some {α : Type} (elem : Json → α → Option JsonError → α × Option JsonError)
    (zero : α) (goType : String) (j : Json) (cur : Slice α) (hj : j ≠ .null)
    (h : (storeSlice elem zero goType j cur none).2 = none) :
    (storeSlice elem zero goType j cur none).1 ≠ none := by
  cases j with
  | null => exact absurd rfl hj
  | arr xs => simp [storeSlice]
  | bool b => simp [storeSlice, saveError] at h
  | num n => simp [storeSlice, saveError] at h
  | str s => simp [storeSlice, saveError] at h
  | obj kvs => simp [storeSlice, saveError] at h

/-- A document other than null that a map stores without error leaves a map
that is not nil. -/
theorem storeMap_some {β : Type} (elem : Json → β → Option JsonError → β × Option JsonError)
    (zero : β) (goType : String) (j : Json) (cur : GoMap β) (hj : j ≠ .null)
    (h : (storeMap elem zero goType j cur none).2 = none) :
    (storeMap elem zero goType j cur none).1 ≠ none := by
  cases j with
  | null => exact absurd rfl hj
  | obj kvs => simp [storeMap]
  | bool b => simp [storeMap, saveError] at h
  | num n => simp [storeMap, saveError] at h
  | str s => simp [storeMap, saveError] at h
  | arr xs => simp [storeMap, saveError] at h

/-- C28 (counterexample): on a response with status 200 whose body is the JSON
value null, `Chat.List`, `Bot.List` and `Chat.GetMetadata` send their request
and return a nil result together with a nil error; and on a response with
status 500 whose body sets the `Body` of the response to null,
`Admin.DeleteMessage` panics, so that this error path returns nothing. -/
theorem list_operations_nil_without_error_counterexample :
    (returnedResult (ChatChannelServiceOp.List (stubClient "t" 200 "null")),
      returnedError (ChatChannelServiceOp.List (stubClient "t" 200 "null")),
      (sentRequests (ChatChannelServiceOp.List (stubClient "t" 200 "null"))).length) =
        (none, none, 1) ∧
    (returnedResult (BotServiceOp.List (stubClient "t" 200 "null")),
      returnedError (BotServiceOp.List (stubClient "t" 200 "null")),
      (sentRequests (BotServiceOp.List (stubClient "t" 200 "null"))).length) = (none, none, 1) ∧
    (returnedResult (ChatChannelServiceOp.GetMetadata (stubClient "t" 200 "null")
        { params := { ChannelUrl := "c1" } }).2,
      returnedError (ChatChannelServiceOp.GetMetadata (stubClient "t" 200 "null")
        { params := { ChannelUrl := "c1" } }).2,
      (sentRequests (ChatChannelServiceOp.GetMetadata (stubClient "t" 200 "null")
        { params := { ChannelUrl := "c1" } }).2).length) = (none, none, 1) ∧
    panicked (AdminServiceOp.DeleteMessage
      (stubClient "t" 500 "\x7b\"response\":\x7b\"Body\":null\x7d\x7d") "123456") = true := by
  refine ⟨by decide!, by decide!, by decide!, by decide!⟩

/-- C28 (amended): each of the 42 operations with a typed result, whenever its
request was built, panics when the deferred `Close` of `Do` meets a nil `Body`,
and returns otherwise.  The deferred `Close` meets a nil `Body`
(`closesNilBody`) only after an error response whose body has set it so: never
after a transport failure, nor after a response whose `Body` the HTTP client has
set when its status is of the 200 range or 404, when its body breaks while it is
read, is empty, or is not a JSON object.  Of the calls that return, those that
return a pointer to a record (`Users`: `Create`, `Update`, `Auth`; `Chat`:
`Create`, `Update`, `View`, `MessageCount`; `Messaging`: `Create`, `Update`,
`Delete`, `Invite`, `Hide`, `Leave`, `View`, `MessageCount`; `Admin`:
`DeleteMessage`, `ConcurrentUserCount`, `MemberCountInChannel`; `Bot`: `Create`,
`SendMessage`, `Get`, `Update`, `Delete`) return nil exactly when they return an
error; those that return a slice or a map (`Chat`: `List`, `GetMetadata`,
`SetMetadata`, `GetMetacounter`, `SetMetacounter`, `IncreaseMetacounter`,
`DecreaseMetacounter`; `Messaging`: `GetMetadata`, `SetMetadata`,
`GetMetacounter`, `SetMetacounter`, `IncreaseMetacounter`,
`DecreaseMetacounter`; `Admin`: `ReadMessages`, `ListMessagingChannels`, `Mute`,
`UnMute`, `MuteList`; `Bot`: `List`) return nil whenever they return an error,
and when they return no error they return nil exactly when the document the
decoder read from the response body is the value null. -/
theorem typed_result_nil_and_error (c : SendbirdClient) (rq : HttpRequest) :
    ((∀ e, c.client rq = .error e → c.closesNilBody rq = false) ∧
      (∀ resp, c.client rq = .ok resp → resp.NilBody = false →
        (200 ≤ resp.StatusCode ∧ resp.StatusCode ≤ 299) ∨ resp.StatusCode = 404 ∨
          resp.Body.readErr ≠ none ∨ resp.Body.data = "" ∨
          (∀ kvs, parseJSON resp.Body.data ≠ some (.obj kvs)) →
        c.closesNilBody rq = false)) ∧
    (∀ params : UserRequest,
      (c.NewRequest (Envelope.encode UserParams.members) "POST" "/user/create"
        (some (params.PopulateAuthApiToken c))).1 = some rq →
      (c.closesNilBody rq = true → (UserServiceOp.Create c params).2 = .panic) ∧
      (c.closesNilBody rq = false →
        ∃ r, (UserServiceOp.Create c params).2 = .returned r ∧
          (r.result = none ↔ r.err ≠ none))) ∧
    (∀ params : UserRequest,
      (c.NewRequest (Envelope.encode UserParams.members) "POST" "/user/update"
        (some (params.PopulateAuthApiToken c))).1 = some rq →
      (c.closesNilBody rq = true → (UserServiceOp.Update c params).2 = .panic) ∧
      (c.closesNilBody rq = false →
        ∃ r, (UserServiceOp.Update c params).2 = .returned r ∧
          (r.result = none ↔ r.err ≠ none))) ∧
    (∀ params : UserRequest,
      (c.NewRequest (Envelope.encode UserParams.members) "POST" "/user/auth"
        (some (params.PopulateAuthApiToken c))).1 = some rq →
      (c.closesNilBody rq = true → (UserServiceOp.Auth c params).2 = .panic) ∧
      (c.closesNilBody rq = false →
        ∃ r, (UserServiceOp.Auth c params).2 = .returned r ∧
          (r.result = none ↔ r.err ≠ none))) ∧
    (∀ params : ChatChannelRequest,
      (c.NewRequest (Envelope.encode ChatChannelParams.members) "POST" "/channel/create"
        (some (params.PopulateAuthApiToken c))).1 = some rq →
      (c.closesNilBody rq = true → (ChatChannelServiceOp.Create c params).2 = .panic) ∧
      (c.closesNilBody rq = false →
        ∃ r, (ChatChannelServiceOp.Create c params).2 = .returned r ∧
          (r.result = none ↔ r.err ≠ none))) ∧
    ((c.NewRequest (Envelope.encode fun (_ : Unit) => []) "POST" "/channel/list"
        (some (Envelope.PopulateAuthApiToken { params := () } c))).1 = some rq →
      (c.closesNilBody rq = true → ChatChannelServiceOp.List c = .panic) ∧
      (c.closesNilBody rq = false →
        ∃ r, ChatChannelServiceOp.List c = .returned r ∧
          (r.err ≠ none → r.result = none) ∧
          (∀ resp, c.client rq = .ok resp → r.err = none →
            (r.result = none ↔ readDocument resp.Body = .ok .null)))) ∧
    (∀ params : ChatChannelUpdateRequest,
      (c.NewRequest (Envelope.encode ChatChannelUpdateParams.members) "POST" "/channel/update"
        (some (params.PopulateAuthApiToken c))).1 = some rq →
      (c.closesNilBody rq = true → (ChatChannelServiceOp.Update c params).2 = .panic) ∧
      (c.closesNilBody rq = false →
        ∃ r, (ChatChannelServiceOp.Update c params).2 = .returned r ∧
          (r.result = none ↔ r.err ≠ none))) ∧
    (∀ channelUrl : String,
      (c.NewRequest (Envelope.encode ChatChannelParams.members) "POST"
        "/channel/view"
        (some (Envelope.PopulateAuthApiToken { params := { ChannelUrl := channelUrl } } c))).1 = some rq →
      (c.closesNilBody rq = true → ChatChannelServiceOp.View c channelUrl = .panic) ∧
      (c.closesNilBody rq = false →
        ∃ r, ChatChannelServiceOp.View c channelUrl = .returned r ∧
          (r.result = none ↔ r.err ≠ none))) ∧
    (∀ params : ChatChannelMetadataRequest,
      (c.NewRequest (Envelope.encode ChatChannelMetadataParams.members) "POST"
        "/channel/get_metadata"
        (some (params.PopulateAuthApiToken c))).1 = some rq →
      (c.closesNilBody rq = true → (ChatChannelServiceOp.GetMetadata c params).2 = .panic) ∧
      (c.closesNilBody rq = false →
        ∃ r, (ChatChannelServiceOp.GetMetadata c params).2 = .returned r ∧
          (r.err ≠ none → r.result = none) ∧
          (∀ resp, c.client rq = .ok resp → r.err = none →
            (r.result = none ↔ readDocument resp.Body = .ok .null)))) ∧
    (∀ params : ChatChannelSetMetadataRequest,
      (c.NewRequest (Envelope.encode ChatChannelSetMetadataParams.members) "POST"
        "/channel/set_metadata"
        (some (params.PopulateAuthApiToken c))).1 = some rq →
      (c.closesNilBody rq = true → (ChatChannelServiceOp.SetMetadata c params).2 = .panic) ∧
      (c.closesNilBody rq = false →
        ∃ r, (ChatChannelServiceOp.SetMetadata c params).2 = .returned r ∧
          (r.err ≠ none → r.result = none) ∧
          (∀ resp, c.client rq = .ok resp → r.err = none →
            (r.result = none ↔ readDocument resp.Body = .ok .null)))) ∧
    (∀ params : ChatChannelMetacounterRequest,
      (c.NewRequest (Envelope.encode ChatChannelMetacounterParams.members) "POST"
        "/channel/get_metacounter"
        (some (params.PopulateAuthApiToken c))).1 = some rq →
      (c.closesNilBody rq = true → (ChatChannelServiceOp.GetMetacounter c params).2 = .panic) ∧
      (c.closesNilBody rq = false →
        ∃ r, (ChatChannelServiceOp.GetMetacounter c params).2 = .returned r ∧
          (r.err ≠ none → r.result = none) ∧
          (∀ resp, c.client rq = .ok resp → r.err = none →
            (r.result = none ↔ readDocument resp.Body = .ok .null)))) ∧
    (∀ params : ChatChannelSetMetacounterRequest,
      (c.NewRequest (Envelope.encode ChatChannelSetMetacounterParams.members) "POST"
        "/channel/set_metacounter"
        (some (params.PopulateAuthApiToken c))).1 = some rq →
      (c.closesNilBody rq = true → (ChatChannelServiceOp.SetMetacounter c params).2 = .panic) ∧
      (c.closesNilBody rq = false →
        ∃ r, (ChatChannelServiceOp.SetMetacounter c params).2 = .returned r ∧
          (r.err ≠ none → r.result = none) ∧
          (∀ resp, c.client rq = .ok resp → r.err = none →
            (r.result = none ↔ readDocument resp.Body = .ok .null)))) ∧
    (∀ params : ChatChannelSetMetacounterRequest,
      (c.NewRequest (Envelope.encode ChatChannelSetMetacounterParams.members) "POST"
        "/channel/incr_metacounter"
        (some (params.PopulateAuthApiToken c))).1 = some rq →
      (c.closesNilBody rq = true → (ChatChannelServiceOp.IncreaseMetacounter c params).2 = .panic) ∧
      (c.closesNilBody rq = false →
        ∃ r, (ChatChannelServiceOp.IncreaseMetacounter c params).2 = .returned r ∧
          (r.err ≠ none → r.result = none) ∧
          (∀ resp, c.client rq = .ok resp → r.err = none →
            (r.result = none ↔ readDocument resp.Body = .ok .null)))) ∧
    (∀ params : ChatChannelSetMetacounterRequest,
      (c.NewRequest (Envelope.encode ChatChannelSetMetacounterParams.members) "POST"
        "/channel/decr_metacounter"
        (some (params.PopulateAuthApiToken c))).1 = some rq →
      (c.closesNilBody rq = true → (ChatChannelServiceOp.DecreaseMetacounter c params).2 = .panic) ∧
      (c.closesNilBody rq = false →
        ∃ r, (ChatChannelServiceOp.DecreaseMetacounter c params).2 = .returned r ∧
          (r.err ≠ none → r.result = none) ∧
          (∀ resp, c.client rq = .ok resp → r.err = none →
            (r.result = none ↔ readDocument resp.Body = .ok .null)))) ∧
    (∀ channelUrl : String,
      (c.NewRequest (Envelope.encode ChatChannelParams.members) "POST"
        "/channel/message_count"
        (some (Envelope.PopulateAuthApiToken { params := { ChannelUrl := channelUrl } } c))).1 = some rq →
      (c.closesNilBody rq = true → ChatChannelServiceOp.MessageCount c channelUrl = .panic) ∧
      (c.closesNilBody rq = false →
        ∃ r, ChatChannelServiceOp.MessageCount c channelUrl = .returned r ∧
          (r.result = none ↔ r.err ≠ none))) ∧
    (∀ params : MessagingChannelRequest,
      (c.NewRequest (Envelope.encode MessagingChannelParams.members) "POST" "/messaging/create"
        (some (params.PopulateAuthApiToken c))).1 = some rq →
      (c.closesNilBody rq = true → (MessagingChannelServiceOp.Create c params).2 = .panic) ∧
      (c.closesNilBody rq = false →
        ∃ r, (MessagingChannelServiceOp.Create c params).2 = .returned r ∧
          (r.result = none ↔ r.err ≠ none))) ∧
    (∀ params : MessagingChannelUpdateRequest,
      (c.NewRequest (Envelope.encode MessagingChannelUpdateParams.members) "POST"
        "/messaging/update"
        (some (params.PopulateAuthApiToken c))).1 = some rq →
      (c.closesNilBody rq = true → (MessagingChannelServiceOp.Update c params).2 = .panic) ∧
      (c.closesNilBody rq = false →
        ∃ r, (MessagingChannelServiceOp.Update c params).2 = .returned r ∧
          (r.result = none ↔ r.err ≠ none))) ∧
    (∀ channelUrl : String,
      (c.NewRequest (Envelope.encode MessagingChannelUpdateParams.members) "POST"
        "/messaging/delete"
        (some (Envelope.PopulateAuthApiToken { params := { ChannelUrl := channelUrl } } c))).1 = some rq →
      (c.closesNilBody rq = true → MessagingChannelServiceOp.Delete c channelUrl = .panic) ∧
      (c.closesNilBody rq = false →
        ∃ r, MessagingChannelServiceOp.Delete c channelUrl = .returned r ∧
          (r.result = none ↔ r.err ≠ none))) ∧
    (∀ params : MessagingChannelInviteRequest,
      (c.NewRequest (Envelope.encode MessagingChannelInviteParams.members) "POST"
        "/messaging/invite"
        (some (params.PopulateAuthApiToken c))).1 = some rq →
      (c.closesNilBody rq = true → (MessagingChannelServiceOp.Invite c params).2 = .panic) ∧
      (c.closesNilBody rq = false →
        ∃ r, (MessagingChannelServiceOp.Invite c params).2 = .returned r ∧
          (r.result = none ↔ r.err ≠ none))) ∧
    (∀ params : MessagingChannelHideRequest,
      (c.NewRequest (Envelope.encode MessagingChannelHideParams.members) "POST" "/messaging/hide"
        (some (params.PopulateAuthApiToken c))).1 = some rq →
      (c.closesNilBody rq = true → (MessagingChannelServiceOp.Hide c params).2 = .panic) ∧
      (c.closesNilBody rq = false →
        ∃ r, (MessagingChannelServiceOp.Hide c params).2 = .returned r ∧
          (r.result = none ↔ r.err ≠ none))) ∧
    (∀ params : MessagingChannelLeaveRequest,
      (c.NewRequest (Envelope.encode MessagingChannelLeaveParams.members) "POST" "/messaging/leave"
        (some (params.PopulateAuthApiToken c))).1 = some rq →
      (c.closesNilBody rq = true → (MessagingChannelServiceOp.Leave c params).2 = .panic) ∧
      (c.closesNilBody rq = false →
        ∃ r, (MessagingChannelServiceOp.Leave c params).2 = .returned r ∧
          (r.result = none ↔ r.err ≠ none))) ∧
    (∀ channelUrl : String,
      (c.NewRequest (Envelope.encode MessagingChannelUpdateParams.members) "POST"
        "/messaging/view"
        (some (Envelope.PopulateAuthApiToken { params := { ChannelUrl := channelUrl } } c))).1 = some rq →
      (c.closesNilBody rq = true → MessagingChannelServiceOp.View c channelUrl = .panic) ∧
      (c.closesNilBody rq = false →
        ∃ r, MessagingChannelServiceOp.View c channelUrl = .returned r ∧
          (r.result = none ↔ r.err ≠ none))) ∧
    (∀ params : MessagingChannelMetadataRequest,
      (c.NewRequest (Envelope.encode MessagingChannelMetadataParams.members) "POST"
        "/messaging/get_metadata"
        (some (params.PopulateAuthApiToken c))).1 = some rq →
      (c.closesNilBody rq = true → (MessagingChannelServiceOp.GetMetadata c params).2 = .panic) ∧
      (c.closesNilBody rq = false →
        ∃ r, (MessagingChannelServiceOp.GetMetadata c params).2 = .returned r ∧
          (r.err ≠ none → r.result = none) ∧
          (∀ resp, c.client rq = .ok resp → r.err = none →
            (r.result = none ↔ readDocument resp.Body = .ok .null)))) ∧
    (∀ params : MessagingChannelSetMetadataRequest,
      (c.NewRequest (Envelope.encode MessagingChannelSetMetadataParams.members) "POST"
        "/messaging/set_metadata"
        (some (params.PopulateAuthApiToken c))).1 = some rq →
      (c.closesNilBody rq = true → (MessagingChannelServiceOp.SetMetadata c params).2 = .panic) ∧
      (c.closesNilBody rq = false →
        ∃ r, (MessagingChannelServiceOp.SetMetadata c params).2 = .returned r ∧
          (r.err ≠ none → r.result = none) ∧
          (∀ resp, c.client rq = .ok resp → r.err = none →
            (r.result = none ↔ readDocument resp.Body = .ok .null)))) ∧
    (∀ params : MessagingChannelMetacounterRequest,
      (c.NewRequest (Envelope.encode MessagingChannelMetacounterParams.members) "POST"
        "/messaging/get_metacounter"
        (some (params.PopulateAuthApiToken c))).1 = some rq →
      (c.closesNilBody rq = true → (MessagingChannelServiceOp.GetMetacounter c params).2 = .panic) ∧
      (c.closesNilBody rq = false →
        ∃ r, (MessagingChannelServiceOp.GetMetacounter c params).2 = .returned r ∧
          (r.err ≠ none → r.result = none) ∧
          (∀ resp, c.client rq = .ok resp → r.err = none →
            (r.result = none ↔ readDocument resp.Body = .ok .null)))) ∧
    (∀ params : MessagingChannelSetMetacounterRequest,
      (c.NewRequest (Envelope.encode MessagingChannelSetMetacounterParams.members) "POST"
        "/messaging/set_metacounter"
        (some (params.PopulateAuthApiToken c))).1 = some rq →
      (c.closesNilBody rq = true → (MessagingChannelServiceOp.SetMetacounter c params).2 = .panic) ∧
      (c.closesNilBody rq = false →
        ∃ r, (MessagingChannelServiceOp.SetMetacounter c params).2 = .returned r ∧
          (r.err ≠ none → r.result = none) ∧
          (∀ resp, c.client rq = .ok resp → r.err = none →
            (r.result = none ↔ readDocument resp.Body = .ok .null)))) ∧
    (∀ params : MessagingChannelSetMetacounterRequest,
      (c.NewRequest (Envelope.encode MessagingChannelSetMetacounterParams.members) "POST"
        "/messaging/incr_metacounter"
        (some (params.PopulateAuthApiToken c))).1 = some rq →
      (c.closesNilBody rq = true → (MessagingChannelServiceOp.IncreaseMetacounter c params).2 = .panic) ∧
      (c.closesNilBody rq = false →
        ∃ r, (MessagingChannelServiceOp.IncreaseMetacounter c params).2 = .returned r ∧
          (r.err ≠ none → r.result = none) ∧
          (∀ resp, c.client rq = .ok resp → r.err = none →
            (r.result = none ↔ readDocument resp.Body = .ok .null)))) ∧
    (∀ params : MessagingChannelSetMetacounterRequest,
      (c.NewRequest (Envelope.encode MessagingChannelSetMetacounterParams.members) "POST"
        "/messaging/decr_metacounter"
        (some (params.PopulateAuthApiToken c))).1 = some rq →
      (c.closesNilBody rq = true → (MessagingChannelServiceOp.DecreaseMetacounter c params).2 = .panic) ∧
      (c.closesNilBody rq = false →
        ∃ r, (MessagingChannelServiceOp.DecreaseMetacounter c params).2 = .returned r ∧
          (r.err ≠ none → r.result = none) ∧
          (∀ resp, c.client rq = .ok resp → r.err = none →
            (r.result = none ↔ readDocument resp.Body = .ok .null)))) ∧
    (∀ channelUrl : String,
      (c.NewRequest (Envelope.encode MessagingChannelUpdateParams.members) "POST"
        "/messaging/message_count"
        (some (Envelope.PopulateAuthApiToken { params := { ChannelUrl := channelUrl } } c))).1 = some rq →
      (c.closesNilBody rq = true → MessagingChannelServiceOp.MessageCount c channelUrl = .panic) ∧
      (c.closesNilBody rq = false →
        ∃ r, MessagingChannelServiceOp.MessageCount c channelUrl = .returned r ∧
          (r.result = none ↔ r.err ≠ none))) ∧
    (∀ params : ReadMessagesRequest,
      (c.NewRequest (Envelope.encode ReadMessagesParams.members) "POST" "/admin/read_messages"
        (some (params.PopulateAuthApiToken c))).1 = some rq →
      (c.closesNilBody rq = true → (AdminServiceOp.ReadMessages c params).2 = .panic) ∧
      (c.closesNilBody rq = false →
        ∃ r, (AdminServiceOp.ReadMessages c params).2 = .returned r ∧
          (r.err ≠ none → r.result = none) ∧
          (∀ resp, c.client rq = .ok resp → r.err = none →
            (r.result = none ↔ readDocument resp.Body = .ok .null)))) ∧
    (∀ messageId : String,
      (c.NewRequest (Envelope.encode MsgIdParams.members) "POST" "/admin/delete_message"
        (some (Envelope.PopulateAuthApiToken { params := { MsgId := messageId } } c))).1 = some rq →
      (c.closesNilBody rq = true → AdminServiceOp.DeleteMessage c messageId = .panic) ∧
      (c.closesNilBody rq = false →
        ∃ r, AdminServiceOp.DeleteMessage c messageId = .returned r ∧
          (r.result = none ↔ r.err ≠ none))) ∧
    (∀ userId : String,
      (c.NewRequest (Envelope.encode IdParams.members) "POST" "/admin/list_messaging_channels"
        (some (Envelope.PopulateAuthApiToken { params := { Id := userId } } c))).1 = some rq →
      (c.closesNilBody rq = true → AdminServiceOp.ListMessagingChannels c userId = .panic) ∧
      (c.closesNilBody rq = false →
        ∃ r, AdminServiceOp.ListMessagingChannels c userId = .returned r ∧
          (r.err ≠ none → r.result = none) ∧
          (∀ resp, c.client rq = .ok resp → r.err = none →
            (r.result = none ↔ readDocument resp.Body = .ok .null)))) ∧
    (∀ params : MuteRequest,
      (c.NewRequest (Envelope.encode MuteParams.members) "POST" "/admin/mute"
        (some (params.PopulateAuthApiToken c))).1 = some rq →
      (c.closesNilBody rq = true → (AdminServiceOp.Mute c params).2 = .panic) ∧
      (c.closesNilBody rq = false →
        ∃ r, (AdminServiceOp.Mute c params).2 = .returned r ∧
          (r.err ≠ none → r.result = none) ∧
          (∀ resp, c.client rq = .ok resp → r.err = none →
            (r.result = none ↔ readDocument resp.Body = .ok .null)))) ∧
    (∀ params : UnMuteRequest,
      (c.NewRequest (Envelope.encode UnMuteParams.members) "POST" "/admin/unmute"
        (some (params.PopulateAuthApiToken c))).1 = some rq →
      (c.closesNilBody rq = true → (AdminServiceOp.UnMute c params).2 = .panic) ∧
      (c.closesNilBody rq = false →
        ∃ r, (AdminServiceOp.UnMute c params).2 = .returned r ∧
          (r.err ≠ none → r.result = none) ∧
          (∀ resp, c.client rq = .ok resp → r.err = none →
            (r.result = none ↔ readDocument resp.Body = .ok .null)))) ∧
    (∀ channelUrls : Slice String,
      (c.NewRequest (Envelope.encode ChannelUrlsParams.members) "POST"
        "/admin/mute_list"
        (some (Envelope.PopulateAuthApiToken { params := { ChannelUrls := channelUrls } } c))).1 = some rq →
      (c.closesNilBody rq = true → AdminServiceOp.MuteList c channelUrls = .panic) ∧
      (c.closesNilBody rq = false →
        ∃ r, AdminServiceOp.MuteList c channelUrls = .returned r ∧
          (r.err ≠ none → r.result = none) ∧
          (∀ resp, c.client rq = .ok resp → r.err = none →
            (r.result = none ↔ readDocument resp.Body = .ok .null)))) ∧
    ((c.NewRequest (Envelope.encode fun (_ : Unit) => []) "POST" "/admin/ccu_count"
        (some (Envelope.PopulateAuthApiToken { params := () } c))).1 = some rq →
      (c.closesNilBody rq = true → AdminServiceOp.ConcurrentUserCount c = .panic) ∧
      (c.closesNilBody rq = false →
        ∃ r, AdminServiceOp.ConcurrentUserCount c = .returned r ∧
          (r.result = none ↔ r.err ≠ none))) ∧
    (∀ channelUrl : String,
      (c.NewRequest (Envelope.encode ChannelUrlParams.members) "POST"
        "/admin/member_count"
        (some (Envelope.PopulateAuthApiToken { params := { ChannelUrl := channelUrl } } c))).1 = some rq →
      (c.closesNilBody rq = true → AdminServiceOp.MemberCountInChannel c channelUrl = .panic) ∧
      (c.closesNilBody rq = false →
        ∃ r, AdminServiceOp.MemberCountInChannel c channelUrl = .returned r ∧
          (r.result = none ↔ r.err ≠ none))) ∧
    (∀ params : BotRequest,
      (c.NewRequest (EnvelopeV2.encode BotParams.members) "POST" "/v2/bots"
        (some (params.PopulateApiV2Token c))).1 = some rq →
      (c.closesNilBody rq = true → (BotServiceOp.Create c params).2 = .panic) ∧
      (c.closesNilBody rq = false →
        ∃ r, (BotServiceOp.Create c params).2 = .returned r ∧
          (r.result = none ↔ r.err ≠ none))) ∧
    (∀ (botUserId : String) (params : BotMessageRequest),
      (c.NewRequest (EnvelopeV2.encode BotMessageParams.members) "POST"
        ("v2/bots/" ++ botUserId ++ "/send")
        (some (params.PopulateApiV2Token c))).1 = some rq →
      (c.closesNilBody rq = true → (BotServiceOp.SendMessage c botUserId params).2 = .panic) ∧
      (c.closesNilBody rq = false →
        ∃ r, (BotServiceOp.SendMessage c botUserId params).2 = .returned r ∧
          (r.result = none ↔ r.err ≠ none))) ∧
    ((c.NewRequest (fun (_ : Unit) => Except.ok Json.null) "GET" ("v2/bots?api_token=" ++ c.ApiToken)
        none).1 = some rq →
      (c.closesNilBody rq = true → BotServiceOp.List c = .panic) ∧
      (c.closesNilBody rq = false →
        ∃ r, BotServiceOp.List c = .returned r ∧
          (r.err ≠ none → r.result = none) ∧
          (∀ resp, c.client rq = .ok resp → r.err = none →
            (r.result = none ↔ readDocument resp.Body = .ok .null)))) ∧
    (∀ botUserId : String,
      (c.NewRequest (fun (_ : Unit) => Except.ok Json.null) "GET"
        ("v2/bots/" ++ botUserId ++ "?api_token=" ++ c.ApiToken)
        none).1 = some rq →
      (c.closesNilBody rq = true → BotServiceOp.Get c botUserId = .panic) ∧
      (c.closesNilBody rq = false →
        ∃ r, BotServiceOp.Get c botUserId = .returned r ∧
          (r.result = none ↔ r.err ≠ none))) ∧
    (∀ (botUserId : String) (params : BotUpdateRequest),
      (c.NewRequest (EnvelopeV2.encode BotUpdateParams.members) "POST" ("v2/bots/" ++ botUserId)
        (some (params.PopulateApiV2Token c))).1 = some rq →
      (c.closesNilBody rq = true → (BotServiceOp.Update c botUserId params).2 = .panic) ∧
      (c.closesNilBody rq = false →
        ∃ r, (BotServiceOp.Update c botUserId params).2 = .returned r ∧
          (r.result = none ↔ r.err ≠ none))) ∧
    (∀ botUserId : String,
      (c.NewRequest (EnvelopeV2.encode fun (_ : Unit) => []) "DELETE" ("v2/bots/" ++ botUserId)
        (some (EnvelopeV2.PopulateApiV2Token { params := () } c))).1 = some rq →
      (c.closesNilBody rq = true → BotServiceOp.Delete c botUserId = .panic) ∧
      (c.closesNilBody rq = false →
        ∃ r, BotServiceOp.Delete c botUserId = .returned r ∧
          (r.result = none ↔ r.err ≠ none))) := by
  refine ⟨closesNilBody_false c rq, ?_, ?_, ?_, ?_, ?_, ?_, ?_, ?_, ?_, ?_, ?_, ?_, ?_, ?_, ?_, ?_, ?_, ?_, ?_, ?_, ?_, ?_, ?_, ?_, ?_, ?_, ?_, ?_, ?_, ?_, ?_, ?_, ?_, ?_, ?_, ?_, ?_, ?_, ?_, ?_, ?_, ?_⟩
  · intro params hreq
    unfold UserServiceOp.Create
    dsimp only
    rw [hreq]
    exact finishTyped_Do_nil_iff c storeUser rq {}
  · intro params hreq
    unfold UserServiceOp.Update
    dsimp only
    rw [hreq]
    exact finishTyped_Do_nil_iff c storeUser rq {}
  · intro params hreq
    unfold UserServiceOp.Auth
    dsimp only
    rw [hreq]
    exact finishTyped_Do_nil_iff c storeUser rq {}
  · intro params hreq
    unfold ChatChannelServiceOp.Create
    dsimp only
    rw [hreq]
    exact finishTyped_Do_nil_iff c storeChatChannel rq {}
  · intro hreq
    unfold ChatChannelServiceOp.List
    dsimp only
    rw [hreq]
    exact finishSlice_Do_nil_iff c storeChatChannels mapCoverImageUrlToCoverUrl rq
      (fun _ => rfl) (fun j cur hj h => storeSlice_some _ _ _ j cur hj h)
  · intro params hreq
    unfold ChatChannelServiceOp.Update
    dsimp only
    rw [hreq]
    obtain ⟨hp, hr⟩ := finishTyped_Do_nil_iff c storeChatChannelUpdate rq {}
    refine ⟨fun h => ?_, fun h => ?_⟩
    · rw [hp h]
    · obtain ⟨r, hr1, hiff⟩ := hr h
      rw [hr1]
      exact ⟨_, rfl, by simpa using hiff⟩
  · intro channelUrl hreq
    unfold ChatChannelServiceOp.View
    dsimp only
    rw [hreq]
    obtain ⟨hp, hr⟩ := finishTyped_Do_nil_iff c storeChatChannelView rq {}
    refine ⟨fun h => ?_, fun h => ?_⟩
    · rw [hp h]
    · obtain ⟨r, hr1, hiff⟩ := hr h
      rw [hr1]
      exact ⟨_, rfl, by simpa using hiff⟩
  · intro params hreq
    unfold ChatChannelServiceOp.GetMetadata
    dsimp only
    rw [hreq]
    exact finishSlice_Do_nil_iff c storeStringMap id rq
      (fun _ => rfl) (fun j cur hj h => storeMap_some _ _ _ j cur hj h)
  · intro params hreq
    unfold ChatChannelServiceOp.SetMetadata
    dsimp only
    rw [hreq]
    exact finishSlice_Do_nil_iff c storeStringMap id rq
      (fun _ => rfl) (fun j cur hj h => storeMap_some _ _ _ j cur hj h)
  · intro params hreq
    unfold ChatChannelServiceOp.GetMetacounter
    dsimp only
    rw [hreq]
    exact finishSlice_Do_nil_iff c storeIntMap id rq
      (fun _ => rfl) (fun j cur hj h => storeMap_some _ _ _ j cur hj h)
  · intro params hreq
    unfold ChatChannelServiceOp.SetMetacounter
    dsimp only
    rw [hreq]
    exact finishSlice_Do_nil_iff c storeIntMap id rq
      (fun _ => rfl) (fun j cur hj h => storeMap_some _ _ _ j cur hj h)
  · intro params hreq
    unfold ChatChannelServiceOp.IncreaseMetacounter
    dsimp only
    rw [hreq]
    exact finishSlice_Do_nil_iff c storeIntMap id rq
      (fun _ => rfl) (fun j cur hj h => storeMap_some _ _ _ j cur hj h)
  · intro params hreq
    unfold ChatChannelServiceOp.DecreaseMetacounter
    dsimp only
    rw [hreq]
    exact finishSlice_Do_nil_iff c storeIntMap id rq
      (fun _ => rfl) (fun j cur hj h => storeMap_some _ _ _ j cur hj h)
  · intro channelUrl hreq
    unfold ChatChannelServiceOp.MessageCount
    dsimp only
    rw [hreq]
    exact finishTyped_Do_nil_iff c storeMessageCount rq {}
  · intro params hreq
    unfold MessagingChannelServiceOp.Create finishChannel
    dsimp only
    rw [hreq]
    obtain ⟨hp, hr⟩ := finishTyped_Do_nil_iff c storeMessagingChannelResponse rq {}
    refine ⟨fun h => ?_, fun h => ?_⟩
    · rw [hp h]
    · obtain ⟨r, hr1, hiff⟩ := hr h
      rw [hr1]
      exact ⟨_, rfl, by simpa using hiff⟩
  · intro params hreq
    unfold MessagingChannelServiceOp.Update finishChannel
    dsimp only
    rw [hreq]
    obtain ⟨hp, hr⟩ := finishTyped_Do_nil_iff c storeMessagingChannelResponse rq {}
    refine ⟨fun h => ?_, fun h => ?_⟩
    · rw [hp h]
    · obtain ⟨r, hr1, hiff⟩ := hr h
      rw [hr1]
      exact ⟨_, rfl, by simpa using hiff⟩
  · intro channelUrl hreq
    unfold MessagingChannelServiceOp.Delete
    dsimp only
    rw [hreq]
    exact finishTyped_Do_nil_iff c storeMessagingChannelUrl rq {}
  · intro params hreq
    unfold MessagingChannelServiceOp.Invite
    dsimp only
    rw [hreq]
    exact finishTyped_Do_nil_iff c storeMessagingChannelUrl rq {}
  · intro params hreq
    unfold MessagingChannelServiceOp.Hide
    dsimp only
    rw [hreq]
    exact finishTyped_Do_nil_iff c storeMessagingChannelUrl rq {}
  · intro params hreq
    unfold MessagingChannelServiceOp.Leave
    dsimp only
    rw [hreq]
    exact finishTyped_Do_nil_iff c storeMessagingChannelUrl rq {}
  · intro channelUrl hreq
    unfold MessagingChannelServiceOp.View
    dsimp only
    rw [hreq]
    exact finishTyped_Do_nil_iff c storeMessagingChannelView rq {}
  · intro params hreq
    unfold MessagingChannelServiceOp.GetMetadata
    dsimp only
    rw [hreq]
    exact finishSlice_Do_nil_iff c storeStringMap id rq
      (fun _ => rfl) (fun j cur hj h => storeMap_some _ _ _ j cur hj h)
  · intro params hreq
    unfold MessagingChannelServiceOp.SetMetadata
    dsimp only
    rw [hreq]
    exact finishSlice_Do_nil_iff c storeStringMap id rq
      (fun _ => rfl) (fun j cur hj h => storeMap_some _ _ _ j cur hj h)
  · intro params hreq
    unfold MessagingChannelServiceOp.GetMetacounter
    dsimp only
    rw [hreq]
    exact finishSlice_Do_nil_iff c storeIntMap id rq
      (fun _ => rfl) (fun j cur hj h => storeMap_some _ _ _ j cur hj h)
  · intro params hreq
    unfold MessagingChannelServiceOp.SetMetacounter
    dsimp only
    rw [hreq]
    exact finishSlice_Do_nil_iff c storeIntMap id rq
      (fun _ => rfl) (fun j cur hj h => storeMap_some _ _ _ j cur hj h)
  · intro params hreq
    unfold MessagingChannelServiceOp.IncreaseMetacounter
    dsimp only
    rw [hreq]
    exact finishSlice_Do_nil_iff c storeIntMap id rq
      (fun _ => rfl) (fun j cur hj h => storeMap_some _ _ _ j cur hj h)
  · intro params hreq
    unfold MessagingChannelServiceOp.DecreaseMetacounter
    dsimp only
    rw [hreq]
    exact finishSlice_Do_nil_iff c storeIntMap id rq
      (fun _ => rfl) (fun j cur hj h => storeMap_some _ _ _ j cur hj h)
  · intro channelUrl hreq
    unfold MessagingChannelServiceOp.MessageCount
    dsimp only
    rw [hreq]
    exact finishTyped_Do_nil_iff c storeMessageCount rq {}
  · intro params hreq
    unfold AdminServiceOp.ReadMessages
    dsimp only
    rw [hreq]
    exact finishSlice_Do_nil_iff c storeAdminMessages id rq
      (fun _ => rfl) (fun j cur hj h => storeSlice_some _ _ _ j cur hj h)
  · intro messageId hreq
    unfold AdminServiceOp.DeleteMessage
    dsimp only
    rw [hreq]
    exact finishTyped_Do_nil_iff c storeDeleteMessage rq {}
  · intro userId hreq
    unfold AdminServiceOp.ListMessagingChannels
    dsimp only
    rw [hreq]
    exact finishSlice_Do_nil_iff c storeAdminMessagingChannels id rq
      (fun _ => rfl) (fun j cur hj h => storeSlice_some _ _ _ j cur hj h)
  · intro params hreq
    unfold AdminServiceOp.Mute
    dsimp only
    rw [hreq]
    exact finishSlice_Do_nil_iff c storeStrings id rq
      (fun _ => rfl) (fun j cur hj h => storeSlice_some _ _ _ j cur hj h)
  · intro params hreq
    unfold AdminServiceOp.UnMute
    dsimp only
    rw [hreq]
    exact finishSlice_Do_nil_iff c storeStrings id rq
      (fun _ => rfl) (fun j cur hj h => storeSlice_some _ _ _ j cur hj h)
  · intro channelUrls hreq
    unfold AdminServiceOp.MuteList
    dsimp only
    rw [hreq]
    exact finishSlice_Do_nil_iff c storeStrings id rq
      (fun _ => rfl) (fun j cur hj h => storeSlice_some _ _ _ j cur hj h)
  · intro hreq
    unfold AdminServiceOp.ConcurrentUserCount
    dsimp only
    rw [hreq]
    exact finishTyped_Do_nil_iff c storeConcurrentUserCount rq {}
  · intro channelUrl hreq
    unfold AdminServiceOp.MemberCountInChannel
    dsimp only
    rw [hreq]
    exact finishTyped_Do_nil_iff c storeChannelMemberCount rq {}
  · intro params hreq
    unfold BotServiceOp.Create
    dsimp only
    rw [hreq]
    exact finishTyped_Do_nil_iff c storeBot rq {}
  · intro botUserId params hreq
    unfold BotServiceOp.SendMessage
    dsimp only
    rw [hreq]
    exact finishTyped_Do_nil_iff c storeBotMessage rq {}
  · intro hreq
    unfold BotServiceOp.List
    dsimp only
    rw [hreq]
    exact finishSlice_Do_nil_iff c storeBots id rq
      (fun _ => rfl) (fun j cur hj h => storeSlice_some _ _ _ j cur hj h)
  · intro botUserId hreq
    unfold BotServiceOp.Get
    dsimp only
    rw [hreq]
    exact finishTyped_Do_nil_iff c storeBot rq {}
  · intro botUserId params hreq
    unfold BotServiceOp.Update
    dsimp only
    rw [hreq]
    exact finishTyped_Do_nil_iff c storeBot rq {}
  · intro botUserId hreq
    unfold BotServiceOp.Delete
    dsimp only
    rw [hreq]
    exact finishTyped_Do_nil_iff c storeBotUserId rq {}

/-- The deletion of the package's tests, the list of bots on a body that is
null, and a deletion answered with status 500 and a body that sets the `Body`
of the response to null. -/
theorem typed_result_nil_and_error_witness :
    (∃ r, AdminServiceOp.DeleteMessage
        (stubClient "t" 200 "\x7b\"app_id\": 1354342151, \"msg_id\": 123456\x7d") "123456" =
          .returned r ∧
      (r.result = none ↔ r.err ≠ none)) ∧
    (∃ r, BotServiceOp.List (stubClient "t" 200 "null") = .returned r ∧
      (r.err ≠ none → r.result = none) ∧
      (∀ resp, (stubClient "t" 200 "null").client
          { Method := "GET",
            URL := { Scheme := "https", Host := "api.sendbird.com", Path := "/v2/bots",
                     RawQuery := "api_token=t" },
            Header := [("Content-Type", "application/json, charset=utf8")] } = .ok resp →
        r.err = none → (r.result = none ↔ readDocument resp.Body = .ok .null))) ∧
    AdminServiceOp.DeleteMessage
      (stubClient "t" 500 "\x7b\"response\":\x7b\"Body\":null\x7d\x7d") "123456" = .panic :=
  ⟨((typed_result_nil_and_error
      (stubClient "t" 200 "\x7b\"app_id\": 1354342151, \"msg_id\": 123456\x7d")
      { Method := "POST",
        URL := { Scheme := "https", Host := "api.sendbird.com", Path := "/admin/delete_message" },
        Header := [("Content-Type", "application/json, charset=utf8")],
        Body := some (.obj [("auth", .str "t"), ("msg_id", .str "123456")]) }
      ).2.2.2.2.2.2.2.2.2.2.2.2.2.2.2.2.2.2.2.2.2.2.2.2.2.2.2.2.2.2.1
      "123456" (by decide!)).2 (by decide!),
    ((typed_result_nil_and_error (stubClient "t" 200 "null")
      { Method := "GET",
        URL := { Scheme := "https", Host := "api.sendbird.com", Path := "/v2/bots",
                 RawQuery := "api_token=t" },
        Header := [("Content-Type", "application/json, charset=utf8")] }
      ).2.2.2.2.2.2.2.2.2.2.2.2.2.2.2.2.2.2.2.2.2.2.2.2.2.2.2.2.2.2.2.2.2.2.2.2.2.2.2.1
      (by decide!)).2 (by decide!),
    ((typed_result_nil_and_error
      (stubClient "t" 500 "\x7b\"response\":\x7b\"Body\":null\x7d\x7d")
      { Method := "POST",
        URL := { Scheme := "https", Host := "api.sendbird.com", Path := "/admin/delete_message" },
        Header := [("Content-Type", "application/json, charset=utf8")],
        Body := some (.obj [("auth", .str "t"), ("msg_id", .str "123456")]) }
      ).2.2.2.2.2.2.2.2.2.2.2.2.2.2.2.2.2.2.2.2.2.2.2.2.2.2.2.2.2.2.1
      "123456" (by decide!)).1 (by decide!)⟩

/-! ## The client made by `NewClient` -/

/-- C27: for every application id, token and HTTP client, the nil client
included, `NewClient` returns a client whose `BaseURL` is the parsed default
endpoint (its text is "https://api.sendbird.com"), whose `AppId` and
`ApiToken` are the arguments, whose `ContentType` is the content-type constant
and whose HTTP client is the argument, or the default client for nil.  After
another `BaseURL` was assigned, every request `NewRequest` returns has the URL
that `http.NewRequest` parses from the text of the path resolved against the
new base; with the base `http://127.0.0.1:8080` every request for the path
`v2/bots` goes to `http://127.0.0.1:8080/v2/bots`. -/
theorem NewClient_fields_and_base_override (DefaultClient : Transport) (appId apiToken : String)
    (httpClient : Option Transport) :
    urlParse defaultBaseURL = .ok (NewClient DefaultClient appId apiToken httpClient).BaseURL ∧
    (NewClient DefaultClient appId apiToken httpClient).BaseURL =
      { Scheme := "https", Host := "api.sendbird.com" } ∧
    (NewClient DefaultClient appId apiToken httpClient).BaseURL.String = defaultBaseURL ∧
    defaultBaseURL = "https://api.sendbird.com" ∧
    (NewClient DefaultClient appId apiToken httpClient).AppId = appId ∧
    (NewClient DefaultClient appId apiToken httpClient).ApiToken = apiToken ∧
    (NewClient DefaultClient appId apiToken httpClient).ContentType = contentType ∧
    contentType = "application/json, charset=utf8" ∧
    (NewClient DefaultClient appId apiToken none).client = DefaultClient ∧
    (∀ t : Transport, (NewClient DefaultClient appId apiToken (some t)).client = t) ∧
    (∀ (base : URL) (β : Type) (enc : β → Except String Json) (method urlStr : String)
      (body : Option β) (req : HttpRequest),
      (({ NewClient DefaultClient appId apiToken httpClient with BaseURL := base } :
        SendbirdClient).NewRequest enc method urlStr body).1 = some req →
      ∃ rel u, urlParse urlStr = .ok rel ∧
        urlParse (base.ResolveReference rel).String = .ok u ∧
        req.URL = { u with Host := removeEmptyPort u.Host }) ∧
    (∀ (β : Type) (enc : β → Except String Json) (body : Option β) (req : HttpRequest),
      (({ NewClient DefaultClient appId apiToken httpClient with
            BaseURL := { Scheme := "http", Host := "127.0.0.1:8080" } } :
        SendbirdClient).NewRequest enc "GET" "v2/bots" body).1 = some req →
      req.URL = { Scheme := "http", Host := "127.0.0.1:8080", Path := "/v2/bots" } ∧
      req.URL.String = "http://127.0.0.1:8080/v2/bots") := by
  have hover : ∀ (base : URL) (β : Type) (enc : β → Except String Json) (method urlStr : String)
      (body : Option β) (req : HttpRequest),
      (({ NewClient DefaultClient appId apiToken httpClient with BaseURL := base } :
        SendbirdClient).NewRequest enc method urlStr body).1 = some req →
      ∃ rel u, urlParse urlStr = .ok rel ∧
        urlParse (base.ResolveReference rel).String = .ok u ∧
        req.URL = { u with Host := removeEmptyPort u.Host } := by
    intro base β enc method urlStr body req h
    obtain ⟨rel, buf, req0, hrel, _, hn, hreq, _⟩ := NewRequest_some _ enc method urlStr body req h
    unfold httpNewRequest at hn
    cases hu : urlParse (URL.ResolveReference base rel).String with
    | error e =>
      simp only [hu] at hn
      split_ifs at hn
    | ok u =>
      simp only [hu] at hn
      split_ifs at hn <;>
      · cases hn
        exact ⟨rel, u, hrel, hu, by rw [hreq]⟩
  refine ⟨by rfl, by rfl, by rfl, rfl, rfl, rfl, rfl, rfl, rfl, fun _ => rfl, hover, ?_⟩
  intro β enc body req h
  obtain ⟨rel, u, hrel, hu, hreq⟩ := hover _ β enc "GET" "v2/bots" body req h
  have hrel2 : urlParse "v2/bots" = .ok { Path := "v2/bots" } := by rfl
  rw [hrel2] at hrel
  cases hrel
  have hp : urlParse (URL.ResolveReference { Scheme := "http", Host := "127.0.0.1:8080" }
      { Path := "v2/bots" }).String =
      .ok { Scheme := "http", Host := "127.0.0.1:8080", Path := "/v2/bots" } := by rfl
  rw [hp] at hu
  cases hu
  rw [hreq]
  exact ⟨by decide!, by decide!⟩

/-- The client of the package's tests: made with a nil HTTP client, then given
the address of a local server as its base. -/
theorem NewClient_fields_and_base_override_witness :
    ∃ req, (({ NewClient (fun _ => .error "unused") "APP_ID" "t" none with
          BaseURL := { Scheme := "http", Host := "127.0.0.1:8080" } } :
        SendbirdClient).NewRequest (fun (_ : Unit) => Except.ok Json.null) "GET" "v2/bots"
          none).1 = some req ∧
      req.URL = { Scheme := "http", Host := "127.0.0.1:8080", Path := "/v2/bots" } ∧
      req.URL.String = "http://127.0.0.1:8080/v2/bots" :=
  ⟨{ Method := "GET",
     URL := { Scheme := "http", Host := "127.0.0.1:8080", Path := "/v2/bots" },
     Header := [("Content-Type", "application/json, charset=utf8")] },
    by decide!,
    (NewClient_fields_and_base_override (fun _ => .error "unused") "APP_ID" "t"
        none).2.2.2.2.2.2.2.2.2.2.2
      Unit (fun _ => Except.ok Json.null) none _ (by decide!)⟩

/-! ## Identifiers -/

/-- A text in which a separator occurs splits at the last occurrence. -/
theorem exists_last_split (sep : Char) (cs : List Char) (h : sep ∈ cs) :
    ∃ a b, cs = a ++ sep :: b ∧ sep ∉ b := by
  induction cs with
  | nil => cases h
  | cons c rest ih =>
    by_cases hr : sep ∈ rest
    · obtain ⟨a, b, hab, hb⟩ := ih hr
      exact ⟨c :: a, b, by rw [hab]; rfl, hb⟩
    · rcases List.mem_cons.1 h with hc | hc
      · exact ⟨[], rest, by rw [hc]; rfl, hr⟩
      · exact absurd hc hr

/-- The result of `NormalizeId` on a text that ends in `/b`, where `b` holds no
slash, is `b`. -/
theorem NormalizeId_append (a b : List Char) (h : '/' ∉ b) :
    SendbirdClient.NormalizeId (String.mk (a ++ '/' :: b)) = String.mk b := by
  unfold SendbirdClient.NormalizeId
  simp only [cutLast_append '/' a b h]
  rfl

/-- The result of `NormalizeId` on a text without a slash is the text. -/
theorem NormalizeId_of_no_slash (s : String) (h : '/' ∉ s.data) :
    SendbirdClient.NormalizeId s = s := by
  unfold SendbirdClient.NormalizeId
  simp only [cutLast_of_not_mem '/' s.data h]

/-- C29: for every string `s`, `NormalizeId s` is `s` itself when `s` holds no
slash and is the part after the last slash otherwise; the result holds no
slash; `s` is a text `p` followed by the result, where `p` is empty or ends in
a slash; and `NormalizeId` applied twice gives what it gives applied once. -/
theorem NormalizeId_after_last_slash (s : String) :
    ('/' ∉ s.data → SendbirdClient.NormalizeId s = s) ∧
    (∀ a b : List Char, s.data = a ++ '/' :: b → '/' ∉ b →
      SendbirdClient.NormalizeId s = String.mk b) ∧
    '/' ∉ (SendbirdClient.NormalizeId s).data ∧
    (∃ p : List Char, s.data = p ++ (SendbirdClient.NormalizeId s).data ∧
      (p = [] ∨ p.getLast? = some '/')) ∧
    SendbirdClient.NormalizeId (SendbirdClient.NormalizeId s) = SendbirdClient.NormalizeId s := by
  have hsplit : ∀ a b : List Char, s.data = a ++ '/' :: b → '/' ∉ b →
      SendbirdClient.NormalizeId s = String.mk b := by
    intro a b hs hb
    have he : s = String.mk (a ++ '/' :: b) := by rw [← hs]
    rw [he]
    exact NormalizeId_append a b hb
  refine ⟨NormalizeId_of_no_slash s, hsplit, ?_, ?_, ?_⟩
  · by_cases h : '/' ∈ s.data
    · obtain ⟨a, b, hab, hb⟩ := exists_last_split '/' s.data h
      rw [hsplit a b hab hb]
      exact hb
    · rw [NormalizeId_of_no_slash s h]
      exact h
  · by_cases h : '/' ∈ s.data
    · obtain ⟨a, b, hab, hb⟩ := exists_last_split '/' s.data h
      rw [hsplit a b hab hb]
      refine ⟨a ++ ['/'], ?_, Or.inr ?_⟩
      · rw [hab]
        simp
      · simp
    · rw [NormalizeId_of_no_slash s h]
      exact ⟨[], rfl, Or.inl rfl⟩
  · by_cases h : '/' ∈ s.data
    · obtain ⟨a, b, hab, hb⟩ := exists_last_split '/' s.data h
      rw [hsplit a b hab hb]
      exact NormalizeId_of_no_slash _ hb
    · rw [NormalizeId_of_no_slash s h]
      exact NormalizeId_of_no_slash s h

/-- The id `sendbird/users/u1` and the id `u1`. -/
theorem NormalizeId_after_last_slash_witness :
    SendbirdClient.NormalizeId "u1" = "u1" ∧
    SendbirdClient.NormalizeId "sendbird/users/u1" = "u1" :=
  ⟨(NormalizeId_after_last_slash "u1").1 (by decide),
    (NormalizeId_after_last_slash "sendbird/users/u1").2.1 "sendbird/users".data "u1".data rfl
      (by decide)⟩

/-! ## The mirror of the cover image -/

/-- C30: `mapCoverImageUrlToCoverUrl` keeps the length of the list; the record
at every position is the record that stood there with `CoverUrl` replaced by
its `CoverImageUrl`, so the order, `CoverImageUrl` and every other field are
unchanged; and applying it twice gives the same list as applying it once. -/
theorem mapCoverImageUrlToCoverUrl_frame (chans : List ChatChannel) :
    (mapCoverImageUrlToCoverUrl chans).length = chans.length ∧
    (∀ i : Nat, (mapCoverImageUrlToCoverUrl chans)[i]? =
      chans[i]?.map fun ch => { ch with CoverUrl := ch.CoverImageUrl }) ∧
    (∀ (i : Nat) (ch out : ChatChannel), chans[i]? = some ch →
      (mapCoverImageUrlToCoverUrl chans)[i]? = some out →
        out.CoverUrl = ch.CoverImageUrl ∧ out.CoverImageUrl = ch.CoverImageUrl ∧
        out.Id = ch.Id ∧ out.Name = ch.Name ∧ out.ChannelUrl = ch.ChannelUrl ∧
        out.MemberCount = ch.MemberCount ∧ out.Data = ch.Data ∧ out.CreatedAt = ch.CreatedAt) ∧
    mapCoverImageUrlToCoverUrl (mapCoverImageUrlToCoverUrl chans) =
      mapCoverImageUrlToCoverUrl chans := by
  have hget : ∀ i : Nat, (mapCoverImageUrlToCoverUrl chans)[i]? =
      chans[i]?.map fun ch => { ch with CoverUrl := ch.CoverImageUrl } := by
    intro i
    unfold mapCoverImageUrlToCoverUrl
    exact List.getElem?_map _ _ _
  refine ⟨?_, hget, ?_, ?_⟩
  · unfold mapCoverImageUrlToCoverUrl
    exact List.length_map _ _
  · intro i ch out hch hout
    rw [hget i, hch] at hout
    cases hout
    exact ⟨rfl, rfl, rfl, rfl, rfl, rfl, rfl, rfl⟩
  · unfold mapCoverImageUrlToCoverUrl
    rw [List.map_map]
    rfl

/-- Two records, the first with a cover image and another cover url. -/
theorem mapCoverImageUrlToCoverUrl_frame_witness :
    ∃ out : ChatChannel,
      (mapCoverImageUrlToCoverUrl
        [{ Id := 1, Name := "a", CoverUrl := "old", CoverImageUrl := "img" }, { Id := 2 }])[0]? =
          some out ∧
      out.CoverUrl = "img" ∧ out.CoverImageUrl = "img" ∧ out.Id = 1 ∧ out.Name = "a" ∧
      out.ChannelUrl = "" ∧ out.MemberCount = 0 ∧ out.Data = "" ∧ out.CreatedAt = 0 :=
  ⟨{ Id := 1, Name := "a", CoverUrl := "img", CoverImageUrl := "img" }, rfl,
    (mapCoverImageUrlToCoverUrl_frame
      [{ Id := 1, Name := "a", CoverUrl := "old", CoverImageUrl := "img" }, { Id := 2 }]).2.2.1 0
      { Id := 1, Name := "a", CoverUrl := "old", CoverImageUrl := "img" }
      { Id := 1, Name := "a", CoverUrl := "img", CoverImageUrl := "img" } rfl rfl⟩

end Sendbird
